import Mathlib

/-!
# kube-forensics-controller: the reconciliation engine

A shallow embedding of `controllers/pod_controller.go`.  Kubernetes objects are
plain structures (pointers become `Option`, Go maps become association lists),
the cluster is an explicit state that every client call threads through, and
calls into the Go standard library (SHA-256, time and duration formatting) are
taken from a `Lib` record.
-/

set_option autoImplicit false

namespace Forensics

/-! ## Constants (pod_controller.go, lines 30-52) -/

def LabelSourcePod : String := "forensic-source-pod"
def LabelSourcePodUID : String := "forensic-source-pod-uid"
def LabelForensicTime : String := "forensic-time"
def LabelForensicTTL : String := "forensic.io/ttl"
def LabelCrashSignature : String := "forensic.io/crash-signature"
def AnnotationNoSecretClone : String := "forensic.io/no-secret-clone"
def AnnotationForensicHold : String := "forensic.io/hold"
def LabelLogS3URL : String := "forensic.io/log-s3-url"
def ForensicTimeFormat : String := "2006-01-02T15-04-05Z"
def NetworkPolicyName : String := "deny-all-egress"
def LogConfigMapKey : String := "crash.log"

/-! ## Go values -/

/-- A Go `map[string]string`, as an association list with unique keys. -/
abbrev StrMap := List (String × String)

/-- Map read `m[k]` in its two-result form `v, ok := m[k]`. -/
def StrMap.get? (m : StrMap) (k : String) : Option String :=
  match m with
  | [] => none
  | (k', v) :: rest => if k' = k then some v else StrMap.get? rest k

/-- Map read `m[k]` in its one-result form: a missing key reads as `""`. -/
def StrMap.get (m : StrMap) (k : String) : String :=
  (StrMap.get? m k).getD ""

/-- Map write `m[k] = v`. -/
def StrMap.set (m : StrMap) (k v : String) : StrMap :=
  match m with
  | [] => [(k, v)]
  | (k', v') :: rest => if k' = k then (k, v) :: rest else (k', v') :: StrMap.set rest k v

/-- Wall-clock instants, in nanoseconds since the Unix epoch. -/
abbrev Time := Int

/-- A Go `time.Duration`: an `int64` count of nanoseconds. -/
abbrev Duration := Int

def minDuration : Duration := -(2 ^ 63)
def maxDuration : Duration := 2 ^ 63 - 1

/-- Go `t.Sub(u)`: the difference, saturated to the range of `Duration`. -/
def Time.Sub (t u : Time) : Duration :=
  let d := t - u
  if minDuration ≤ d ∧ d ≤ maxDuration then d
  else if t < u then minDuration
  else maxDuration

/-- The zero `time.Time` (January 1, year 1, 00:00 UTC). -/
def zeroTime : Time := -62135596800000000000

/-- Go `(*metav1.Time).IsZero`: a nil pointer or the zero instant. -/
def MetaTimeIsZero (t : Option Time) : Bool :=
  match t with
  | none => true
  | some x => x == zeroTime

/-- How an API error is classified by `k8s.io/apimachinery/pkg/api/errors`. -/
inductive ErrKind where
  | notFound
  | alreadyExists
  | other
deriving DecidableEq, Repr

/-- A Go `error`: its classification and its `Error()` text. -/
structure Err where
  kind : ErrKind
  msg : String
deriving DecidableEq, Repr

def IsAlreadyExists (e : Err) : Bool := e.kind == ErrKind.alreadyExists

/-- The function `client.IgnoreNotFound`. -/
def IgnoreNotFound (e : Err) : Option Err :=
  if e.kind = ErrKind.notFound then none else some e

/-- A byte. -/
abbrev Byte := Fin 256

/-- A Go `[32]byte`, the result type of `sha256.Sum256`. -/
structure Digest where
  bytes : List Byte
  size : bytes.length = 32

/-- Functions of the Go standard library that the controller calls. -/
structure Lib where
  /-- The call `sha256.Sum256([]byte(s))`. -/
  Sum256 : String → Digest
  /-- The call `t.UTC().Format(layout)`. -/
  Format : String → Time → String
  /-- The call `d.String()` on a `time.Duration`. -/
  DurationString : Duration → String

/-! ## Kubernetes objects (the fields the controller reads or writes) -/

structure OwnerReference where
  Name : String
deriving DecidableEq, Repr

structure ObjectMeta where
  Name : String := ""
  GenerateName : String := ""
  Namespace : String := ""
  UID : String := ""
  Labels : StrMap := []
  Annotations : StrMap := []
  OwnerReferences : List OwnerReference := []
  CreationTimestamp : Time := zeroTime
  DeletionTimestamp : Option Time := none
deriving DecidableEq, Repr

structure ContainerStateTerminated where
  Reason : String
  ExitCode : Int
deriving DecidableEq, Repr

structure ContainerState where
  Terminated : Option ContainerStateTerminated := none
deriving DecidableEq, Repr

structure ContainerStatus where
  Name : String
  State : ContainerState := {}
  LastTerminationState : ContainerState := {}
deriving DecidableEq, Repr

structure ConfigMapEnvSource where
  Name : String
deriving DecidableEq, Repr

structure SecretEnvSource where
  Name : String
deriving DecidableEq, Repr

structure EnvFromSource where
  ConfigMapRef : Option ConfigMapEnvSource := none
  SecretRef : Option SecretEnvSource := none
deriving DecidableEq, Repr

structure ConfigMapKeySelector where
  Name : String
  Key : String := ""
deriving DecidableEq, Repr

structure SecretKeySelector where
  Name : String
  Key : String := ""
deriving DecidableEq, Repr

structure EnvVarSource where
  ConfigMapKeyRef : Option ConfigMapKeySelector := none
  SecretKeyRef : Option SecretKeySelector := none
deriving DecidableEq, Repr

structure EnvVar where
  Name : String
  Value : String := ""
  ValueFrom : Option EnvVarSource := none
deriving DecidableEq, Repr

structure VolumeMount where
  Name : String
  MountPath : String
  ReadOnly : Bool := false
deriving DecidableEq, Repr

structure Capabilities where
  Add : List String := []
  Drop : List String := []
deriving DecidableEq, Repr

structure SecurityContext where
  Capabilities : Option Capabilities := none
  Privileged : Option Bool := none
  RunAsUser : Option Int := none
deriving DecidableEq, Repr

/-- A probe; its contents are never inspected by the controller. -/
structure Probe where
  Handler : String := ""
deriving DecidableEq, Repr

structure ResourceRequirements where
  Limits : StrMap := []
  Requests : StrMap := []
deriving DecidableEq, Repr

structure Container where
  Name : String
  Image : String := ""
  Command : List String := []
  Args : List String := []
  EnvFrom : List EnvFromSource := []
  Env : List EnvVar := []
  Resources : ResourceRequirements := {}
  VolumeMounts : List VolumeMount := []
  LivenessProbe : Option Probe := none
  ReadinessProbe : Option Probe := none
  StartupProbe : Option Probe := none
  SecurityContext : Option SecurityContext := none
deriving DecidableEq, Repr

structure ConfigMapVolumeSource where
  Name : String
deriving DecidableEq, Repr

structure SecretVolumeSource where
  SecretName : String
deriving DecidableEq, Repr

structure ConfigMapProjection where
  Name : String
deriving DecidableEq, Repr

structure SecretProjection where
  Name : String
deriving DecidableEq, Repr

structure VolumeProjection where
  ConfigMap : Option ConfigMapProjection := none
  Secret : Option SecretProjection := none
deriving DecidableEq, Repr

structure ProjectedVolumeSource where
  Sources : List VolumeProjection := []
deriving DecidableEq, Repr

structure PersistentVolumeClaimVolumeSource where
  ClaimName : String
deriving DecidableEq, Repr

structure EmptyDirVolumeSource where
  Medium : String := ""
deriving DecidableEq, Repr

structure Volume where
  Name : String
  ConfigMap : Option ConfigMapVolumeSource := none
  Secret : Option SecretVolumeSource := none
  Projected : Option ProjectedVolumeSource := none
  PersistentVolumeClaim : Option PersistentVolumeClaimVolumeSource := none
  EmptyDir : Option EmptyDirVolumeSource := none
deriving DecidableEq, Repr

structure PodSpec where
  Volumes : List Volume := []
  InitContainers : List Container := []
  Containers : List Container := []
  RestartPolicy : String := "Always"
  ServiceAccountName : String := ""
  AutomountServiceAccountToken : Option Bool := none
  NodeName : String := ""
deriving DecidableEq, Repr

def PodFailed : String := "Failed"
def RestartPolicyNever : String := "Never"

structure PodStatus where
  Phase : String := ""
  InitContainerStatuses : List ContainerStatus := []
  ContainerStatuses : List ContainerStatus := []
deriving DecidableEq, Repr

structure Pod where
  ObjectMeta : ObjectMeta := {}
  Spec : PodSpec := {}
  Status : PodStatus := {}
deriving DecidableEq, Repr

structure ConfigMap where
  ObjectMeta : ObjectMeta := {}
  Data : StrMap := []
  BinaryData : StrMap := []
deriving DecidableEq, Repr

structure Secret where
  ObjectMeta : ObjectMeta := {}
  SecretType : String := ""
  Data : StrMap := []
  StringData : StrMap := []
deriving DecidableEq, Repr

structure Namespace where
  ObjectMeta : ObjectMeta := {}
deriving DecidableEq, Repr

structure NetworkPolicySpec where
  PodSelector : StrMap := []
  PolicyTypes : List String := []
  Egress : List String := []
deriving DecidableEq, Repr

structure NetworkPolicy where
  ObjectMeta : ObjectMeta := {}
  Spec : NetworkPolicySpec := {}
deriving DecidableEq, Repr

structure VolumeSnapshot where
  ObjectMeta : ObjectMeta := {}
  PersistentVolumeClaimName : Option String := none
deriving DecidableEq, Repr

/-- The controller's configuration (`ForensicsConfig`).  `MaxLogSizeBytes` is a
buffer size, so a natural number: `make` has no meaning for a negative one. -/
structure ForensicsConfig where
  TargetNamespace : String
  ForensicTTL : Duration
  MaxLogSizeBytes : Nat
  IgnoreNamespaces : List String
  WatchNamespaces : List String
  EnableSecretCloning : Bool
  EnableCheckpointing : Bool
  RateLimitWindow : Duration

/-- A reconcile request (`ctrl.Request`): the key of the workload. -/
structure Request where
  Namespace : String
  Name : String
deriving DecidableEq, Repr

/-! ## The outside world: the API server, the kubelet, the blob store -/

/-- The kinds of objects the controller reads and writes. -/
inductive Kind where
  | Namespace
  | NetworkPolicy
  | Pod
  | ConfigMap
  | Secret
  | VolumeSnapshot
deriving DecidableEq, Repr

/-- An API object (`client.Object`). -/
inductive Object where
  | ns (o : Namespace)
  | netpol (o : NetworkPolicy)
  | pod (o : Pod)
  | cm (o : ConfigMap)
  | secret (o : Secret)
  | snap (o : VolumeSnapshot)
deriving DecidableEq, Repr

def Object.kind : Object → Kind
  | .ns _ => Kind.Namespace
  | .netpol _ => Kind.NetworkPolicy
  | .pod _ => Kind.Pod
  | .cm _ => Kind.ConfigMap
  | .secret _ => Kind.Secret
  | .snap _ => Kind.VolumeSnapshot

def Object.metadata : Object → ObjectMeta
  | .ns o => o.ObjectMeta
  | .netpol o => o.ObjectMeta
  | .pod o => o.ObjectMeta
  | .cm o => o.ObjectMeta
  | .secret o => o.ObjectMeta
  | .snap o => o.ObjectMeta

def Object.withMetadata (m : ObjectMeta) : Object → Object
  | .ns o => .ns { o with ObjectMeta := m }
  | .netpol o => .netpol { o with ObjectMeta := m }
  | .pod o => .pod { o with ObjectMeta := m }
  | .cm o => .cm { o with ObjectMeta := m }
  | .secret o => .secret { o with ObjectMeta := m }
  | .snap o => .snap { o with ObjectMeta := m }

/-- A request that changes something outside the controller, with its outcome
(`none` is success). -/
inductive Call where
  | create (obj : Object) (err : Option Err)
  | delete (obj : Object) (err : Option Err)
  | upload (key : String) (data : String) (err : Option Err)
  | checkpoint (node : String) (path : String) (err : Option Err)
deriving DecidableEq, Repr

/-- An event emitted through `r.Recorder.Eventf` on a workload. -/
structure Event where
  Namespace : String
  Name : String
  EventType : String
  Reason : String
  Message : String
deriving DecidableEq, Repr

def EventTypeNormal : String := "Normal"
def EventTypeWarning : String := "Warning"

/-- One `Inc()` of a counter of `metrics.go`, with its label values. -/
structure CounterInc where
  Metric : String
  LabelValues : List String
deriving DecidableEq, Repr

def ForensicCrashesTotal : String := "forensics_crashes_total"
def ForensicPodsCreatedTotal : String := "forensics_pods_created_total"
def ForensicPodCreationErrorsTotal : String := "forensics_pod_creation_errors_total"

/-- The state every client call threads through.  `objects` is the API server's
store; `calls`, `events` and `counters` record, oldest first, what the controller
has done; `faults`, `clock` and `suffixes` script what the environment will do:
the error (if any) injected into each coming API round trip, the coming readings
of the wall clock, and the coming `generateName` suffixes. -/
structure World where
  objects : List Object := []
  calls : List Call := []
  events : List Event := []
  counters : List CounterInc := []
  faults : List (Option Err) := []
  clock : List Time := []
  suffixes : List String := []

/-- The log stream of a container: the bytes it delivers (one `Char` per byte)
and the error, if any, that ends it in place of `io.EOF`. -/
structure LogStream where
  data : String
  readErr : Option Err := none

/-- The collaborators reached outside the API object store. -/
structure Env where
  /-- Opening the stream `Pods(ns).GetLogs(pod, opts).Stream(ctx)` for a container. -/
  GetLogs : String → String → String → Except Err LogStream
  /-- The call `r.Exporter.Upload(ctx, key, data)`: the URL and the error. -/
  Upload : String → String → String × Option Err
  /-- The POST to `nodes/{node}/proxy/{path}`: the error of the result. -/
  PostCheckpoint : String → String → Option Err

/-- The fault scripted for the next API round trip. -/
def World.popFault (w : World) : Option Err × World :=
  match w.faults with
  | [] => (none, w)
  | f :: rest => (f, { w with faults := rest })

/-- A reading of the wall clock (`time.Now()`, or the server's on a create). -/
def World.tick (w : World) : Time × World :=
  match w.clock with
  | [] => (0, w)
  | t :: rest => (t, { w with clock := rest })

/-- The suffix the server appends to a `generateName`. -/
def World.popSuffix (w : World) : String × World :=
  match w.suffixes with
  | [] => ("", w)
  | s :: rest => (s, { w with suffixes := rest })

def World.record (w : World) (c : Call) : World :=
  { w with calls := w.calls ++ [c] }

/-- The call `r.Recorder.Eventf(&pod, type, reason, message)`. -/
def World.Eventf (w : World) (pod : Pod) (type reason message : String) : World :=
  { w with events := w.events ++ [⟨pod.ObjectMeta.Namespace, pod.ObjectMeta.Name, type, reason, message⟩] }

/-- The call `counter.WithLabelValues(values...).Inc()`. -/
def World.Inc (w : World) (metric : String) (values : List String) : World :=
  { w with counters := w.counters ++ [⟨metric, values⟩] }

/-- Whether two objects have the same kind, namespace and name. -/
def Object.sameKey (a b : Object) : Bool :=
  decide (a.kind = b.kind) && decide (a.metadata.Namespace = b.metadata.Namespace)
    && decide (a.metadata.Name = b.metadata.Name)

/-- What the server makes of a submitted object before storing it: the write-only
`stringData` of a secret is merged into its `data`, overriding equal keys. -/
def Object.normalized : Object → Object
  | .secret o =>
    .secret { o with
      Data := o.StringData.foldl (fun acc kv => StrMap.set acc kv.1 kv.2) o.Data,
      StringData := [] }
  | o => o

/-- The object the server stores for `obj` under the name `name`, stamped `t`. -/
def Object.storedAs (obj : Object) (name : String) (t : Time) : Object :=
  obj.normalized.withMetadata { obj.metadata with Name := name, CreationTimestamp := t }

/-- The name the server gives an object: its own, or for an empty one the
`generateName` followed by a fresh suffix. -/
def World.assignName (w : World) (m : ObjectMeta) : String × World :=
  if m.Name = "" then (m.GenerateName ++ w.popSuffix.1, w.popSuffix.2) else (m.Name, w)

/-- The call `r.Create(ctx, obj)`.  A scripted fault fails the request; otherwise
the server names the object, rejects a key already in the store with
`AlreadyExists`, and else stamps and stores the object.  The object comes back as
the server stored it. -/
def World.Create (w : World) (obj : Object) : Except Err Object × World :=
  let f := w.popFault
  match f.1 with
  | some e => (.error e, f.2.record (.create obj (some e)))
  | none =>
    let n := f.2.assignName obj.metadata
    let t := n.2.tick
    let stored := obj.storedAs n.1 t.1
    if n.2.objects.any (fun o => o.sameKey stored) then
      (.error ⟨ErrKind.alreadyExists, "already exists"⟩,
        n.2.record (.create obj (some ⟨ErrKind.alreadyExists, "already exists"⟩)))
    else
      (.ok stored, { t.2 with objects := t.2.objects ++ [stored] }.record (.create obj none))

/-- Whether an object carries every label of a `client.MatchingLabels` selector. -/
def matchesLabels (sel : StrMap) (m : ObjectMeta) : Bool :=
  sel.all (fun kv => decide (StrMap.get? m.Labels kv.1 = some kv.2))

def Object.asPod? : Object → Option Pod
  | .pod p => some p
  | _ => none

def Object.asConfigMap? : Object → Option ConfigMap
  | .cm c => some c
  | _ => none

def Object.asSecret? : Object → Option Secret
  | .secret s => some s
  | _ => none

/-- The call `r.Get(ctx, key, &pod)`. -/
def World.GetPod (w : World) (ns name : String) : Except Err Pod × World :=
  let f := w.popFault
  match f.1 with
  | some e => (.error e, f.2)
  | none =>
    match (f.2.objects.filterMap Object.asPod?).find?
        (fun p => decide (p.ObjectMeta.Namespace = ns) && decide (p.ObjectMeta.Name = name)) with
    | some p => (.ok p, f.2)
    | none => (.error ⟨ErrKind.notFound, "pods \"" ++ name ++ "\" not found"⟩, f.2)

/-- The call `r.Get(ctx, key, &configMap)`. -/
def World.GetConfigMap (w : World) (ns name : String) : Except Err ConfigMap × World :=
  let f := w.popFault
  match f.1 with
  | some e => (.error e, f.2)
  | none =>
    match (f.2.objects.filterMap Object.asConfigMap?).find?
        (fun p => decide (p.ObjectMeta.Namespace = ns) && decide (p.ObjectMeta.Name = name)) with
    | some p => (.ok p, f.2)
    | none => (.error ⟨ErrKind.notFound, "configmaps \"" ++ name ++ "\" not found"⟩, f.2)

/-- The call `r.Get(ctx, key, &secret)`. -/
def World.GetSecret (w : World) (ns name : String) : Except Err Secret × World :=
  let f := w.popFault
  match f.1 with
  | some e => (.error e, f.2)
  | none =>
    match (f.2.objects.filterMap Object.asSecret?).find?
        (fun p => decide (p.ObjectMeta.Namespace = ns) && decide (p.ObjectMeta.Name = name)) with
    | some p => (.ok p, f.2)
    | none => (.error ⟨ErrKind.notFound, "secrets \"" ++ name ++ "\" not found"⟩, f.2)

/-- The call `r.List(ctx, &pods, client.InNamespace(ns), client.MatchingLabels(sel))`. -/
def World.ListPods (w : World) (ns : String) (sel : StrMap) : Except Err (List Pod) × World :=
  let f := w.popFault
  match f.1 with
  | some e => (.error e, f.2)
  | none =>
    (.ok ((f.2.objects.filterMap Object.asPod?).filter
      (fun p => decide (p.ObjectMeta.Namespace = ns) && matchesLabels sel p.ObjectMeta)), f.2)

/-! ## Crash criteria (Reconcile, step 3) -/

/-- The test both branches of `checkStatus` apply to a terminated state. -/
def isCrashTermination (t : ContainerStateTerminated) : Bool :=
  t.Reason == "Error" || t.Reason == "OOMKilled" || t.ExitCode != 0

/-- The closure `checkStatus`: `some (crashedContainerName, exitCode)` when it
assigns the two variables and returns true, `none` when it returns false. -/
def checkStatus (name : String) (state lastState : ContainerState) : Option (String × Int) :=
  match state.Terminated with
  | some t =>
    if isCrashTermination t then some (name, t.ExitCode)
    else
      match lastState.Terminated with
      | some l => if isCrashTermination l then some (name, l.ExitCode) else none
      | none => none
  | none =>
    match lastState.Terminated with
    | some l => if isCrashTermination l then some (name, l.ExitCode) else none
    | none => none

/-- The loop over `allStatuses`, which stops at the first status that matches. -/
def scanStatuses : List ContainerStatus → Option (String × Int)
  | [] => none
  | status :: rest =>
    match checkStatus status.Name status.State status.LastTerminationState with
    | some r => some r
    | none => scanStatuses rest

/-- What step 3 leaves in `isCrash`, `crashedContainerName` and `exitCode`. -/
structure CrashCheck where
  isCrash : Bool
  crashedContainerName : String
  exitCode : Int
deriving DecidableEq, Repr

/-- Step 3 of `Reconcile`: the crash criteria and the crashed container. -/
def crashCheck (pod : Pod) : CrashCheck :=
  let allStatuses := pod.Status.ContainerStatuses ++ pod.Status.InitContainerStatuses
  match scanStatuses allStatuses with
  | some (name, code) => ⟨true, name, code⟩
  | none =>
    if pod.Status.Phase = PodFailed then
      match pod.Spec.Containers with
      | c :: _ => ⟨true, c.Name, 1⟩
      | [] => ⟨true, "", 0⟩
    else ⟨false, "", 0⟩

/-! ## Crash signature -/

/-- The table `hextable` of `encoding/hex`. -/
def hextable : List Char := "0123456789abcdef".toList

/-- The function `hex.EncodeToString`, as the list of characters of its result. -/
def EncodeToString : List Byte → List Char
  | [] => []
  | v :: rest =>
    hextable.getD (v.val >>> 4) '0' :: hextable.getD (v.val &&& 0x0f) '0' :: EncodeToString rest

/-- The workload name `getCrashSignature` settles on. -/
def workloadName (pod : Pod) : String :=
  let workloadName := pod.ObjectMeta.GenerateName
  let workloadName :=
    match pod.ObjectMeta.OwnerReferences with
    | o :: _ => o.Name
    | [] => workloadName
  if workloadName = "" then pod.ObjectMeta.Name else workloadName

/-- The string `getCrashSignature` hashes: `"%s-%s-%s-%d"`. -/
def signatureInput (pod : Pod) (containerName : String) (exitCode : Int) : String :=
  pod.ObjectMeta.Namespace ++ "-" ++ workloadName pod ++ "-" ++ containerName ++ "-"
    ++ toString exitCode

def getCrashSignature (lib : Lib) (pod : Pod) (containerName : String) (exitCode : Int) : String :=
  let input := signatureInput pod containerName exitCode
  let hash := lib.Sum256 input
  String.mk ((EncodeToString hash.bytes).take 63)

/-! ## Namespace isolation -/

def ensureNamespace (cfg : ForensicsConfig) (w : World) : Option Err × World :=
  let ns : Namespace := { ObjectMeta := { Name := cfg.TargetNamespace } }
  match w.Create (.ns ns) with
  | (.error e, w1) => if !IsAlreadyExists e then (some e, w1) else (none, w1)
  | (.ok _, w1) => (none, w1)

def ensureNetworkPolicy (cfg : ForensicsConfig) (w : World) : Option Err × World :=
  let policy : NetworkPolicy :=
    { ObjectMeta := { Name := NetworkPolicyName, Namespace := cfg.TargetNamespace },
      Spec := { PodSelector := [], PolicyTypes := ["Egress"], Egress := [] } }
  match w.Create (.netpol policy) with
  | (.error e, w1) => if !IsAlreadyExists e then (some e, w1) else (none, w1)
  | (.ok _, w1) => (none, w1)

/-! ## Logs -/

/-- The function `getPodLogs`.  `io.ReadFull` fills the buffer of `MaxLogSizeBytes`
bytes when the stream has that many; a shorter stream ends in `io.EOF` or
`io.ErrUnexpectedEOF`, which are tolerated, or in its own error, which is returned. -/
def getPodLogs (env : Env) (cfg : ForensicsConfig) (pod : Pod) (containerName : String) :
    Except Err String :=
  if containerName = "" then .error ⟨ErrKind.other, "no container name specified"⟩
  else
    match env.GetLogs pod.ObjectMeta.Namespace pod.ObjectMeta.Name containerName with
    | .error e => .error e
    | .ok stream =>
      let n := min cfg.MaxLogSizeBytes stream.data.length
      match (if stream.data.length < cfg.MaxLogSizeBytes then stream.readErr else none) with
      | some e => .error e
      | none =>
        let logs := String.mk (stream.data.toList.take n)
        if n = cfg.MaxLogSizeBytes then
          .ok (logs ++ "\n... [TRUNCATED " ++ toString (cfg.MaxLogSizeBytes / 1024) ++ " KB] ...")
        else .ok logs

def createLogConfigMap (cfg : ForensicsConfig) (pod : Pod) (logs : String) (w : World) :
    Except Err String × World :=
  let cm : ConfigMap :=
    { ObjectMeta :=
        { Name := "",
          GenerateName := pod.ObjectMeta.Name ++ "-logs-",
          Namespace := cfg.TargetNamespace,
          Labels := [(LabelSourcePodUID, pod.ObjectMeta.UID)] },
      Data := [(LogConfigMapKey, logs)] }
  match w.Create (.cm cm) with
  | (.error e, w1) => (.error e, w1)
  | (.ok created, w1) => (.ok created.metadata.Name, w1)

/-! ## Dependency cloning -/

/-- A reference to a config or secret object, by name. -/
inductive DepRef where
  | configMap (name : String)
  | secret (name : String)
deriving DecidableEq, Repr

def projectionRefs (source : VolumeProjection) : List DepRef :=
  (match source.ConfigMap with
    | some c => [DepRef.configMap c.Name]
    | none => [])
  ++ (match source.Secret with
    | some s => [DepRef.secret s.Name]
    | none => [])

/-- The names one iteration of the volume loop hands to the two handlers, in order. -/
def volumeRefs (vol : Volume) : List DepRef :=
  (match vol.ConfigMap with
    | some c => [DepRef.configMap c.Name]
    | none => [])
  ++ (match vol.Secret with
    | some s => [DepRef.secret s.SecretName]
    | none => [])
  ++ (match vol.Projected with
    | some p => (p.Sources.map projectionRefs).flatten
    | none => [])

def envFromRefs (envFrom : EnvFromSource) : List DepRef :=
  (match envFrom.ConfigMapRef with
    | some c => [DepRef.configMap c.Name]
    | none => [])
  ++ (match envFrom.SecretRef with
    | some s => [DepRef.secret s.Name]
    | none => [])

def envRefs (env : EnvVar) : List DepRef :=
  match env.ValueFrom with
  | none => []
  | some vf =>
    (match vf.ConfigMapKeyRef with
      | some c => [DepRef.configMap c.Name]
      | none => [])
    ++ (match vf.SecretKeyRef with
      | some s => [DepRef.secret s.Name]
      | none => [])

/-- The names `scanContainers` hands to the two handlers for one container. -/
def containerRefs (c : Container) : List DepRef :=
  (c.EnvFrom.map envFromRefs).flatten ++ (c.Env.map envRefs).flatten

/-- Every name `cloneDependencies` hands to a handler, in the order of its scans:
the volumes, then the main containers, then the initialization containers. -/
def podRefs (pod : Pod) : List DepRef :=
  (pod.Spec.Volumes.map volumeRefs).flatten
  ++ (pod.Spec.Containers.map containerRefs).flatten
  ++ (pod.Spec.InitContainers.map containerRefs).flatten

/-- The flag `secretsDisabled` of `cloneDependencies`. -/
def secretsDisabled (cfg : ForensicsConfig) (pod : Pod) : Bool :=
  let secretsDisabled := !cfg.EnableSecretCloning
  if StrMap.get pod.ObjectMeta.Annotations AnnotationNoSecretClone = "true" then true
  else secretsDisabled

/-- The closure `handleConfigMap` on the current `resourceMap`. -/
def handleConfigMap (cfg : ForensicsConfig) (pod : Pod) (name : String)
    (resourceMap : StrMap) (w : World) : Option Err × StrMap × World :=
  let key := "cm/" ++ name
  match StrMap.get? resourceMap key with
  | some _ => (none, resourceMap, w)
  | none =>
    match w.GetConfigMap pod.ObjectMeta.Namespace name with
    | (.error _, w1) => (none, resourceMap, w1)
    | (.ok src, w1) =>
      let newName := pod.ObjectMeta.Namespace ++ "-" ++ name
      let dst : ConfigMap :=
        { ObjectMeta :=
            { Name := newName,
              Namespace := cfg.TargetNamespace,
              Labels := StrMap.set src.ObjectMeta.Labels LabelSourcePodUID pod.ObjectMeta.UID },
          Data := src.Data,
          BinaryData := src.BinaryData }
      match w1.Create (.cm dst) with
      | (.error e, w2) =>
        if !IsAlreadyExists e then (some e, resourceMap, w2)
        else (none, StrMap.set resourceMap key newName, w2)
      | (.ok _, w2) => (none, StrMap.set resourceMap key newName, w2)

/-- The redaction loop `for k := range m { dst[k] = "REDACTED" }` on an empty or
pre-filled destination. -/
def redactInto (dst : StrMap) (src : StrMap) : StrMap :=
  src.foldl (fun acc kv => StrMap.set acc kv.1 "REDACTED") dst

/-- The closure `handleSecret` on the current `resourceMap`. -/
def handleSecret (cfg : ForensicsConfig) (pod : Pod) (name : String)
    (resourceMap : StrMap) (w : World) : Option Err × StrMap × World :=
  let key := "secret/" ++ name
  match StrMap.get? resourceMap key with
  | some _ => (none, resourceMap, w)
  | none =>
    match w.GetSecret pod.ObjectMeta.Namespace name with
    | (.error _, w1) => (none, resourceMap, w1)
    | (.ok src, w1) =>
      let newName := pod.ObjectMeta.Namespace ++ "-" ++ name
      let dst : Secret :=
        { ObjectMeta :=
            { Name := newName,
              Namespace := cfg.TargetNamespace,
              Labels := StrMap.set src.ObjectMeta.Labels LabelSourcePodUID pod.ObjectMeta.UID },
          SecretType := src.SecretType,
          Data :=
            if secretsDisabled cfg pod then redactInto [] src.Data else src.Data,
          StringData :=
            if secretsDisabled cfg pod then
              redactInto
                [("WARNING", "Secret cloning is disabled for this pod. Values have been redacted.")]
                src.StringData
            else src.StringData }
      match w1.Create (.secret dst) with
      | (.error e, w2) =>
        if !IsAlreadyExists e then (some e, resourceMap, w2)
        else (none, StrMap.set resourceMap key newName, w2)
      | (.ok _, w2) => (none, StrMap.set resourceMap key newName, w2)

def handleRef (cfg : ForensicsConfig) (pod : Pod) (ref : DepRef)
    (resourceMap : StrMap) (w : World) : Option Err × StrMap × World :=
  match ref with
  | .configMap name => handleConfigMap cfg pod name resourceMap w
  | .secret name => handleSecret cfg pod name resourceMap w

/-- The scans of `cloneDependencies`: each name goes to its handler, and the first
error a handler returns ends the whole function. -/
def cloneRefs (cfg : ForensicsConfig) (pod : Pod) :
    List DepRef → StrMap → World → Except Err StrMap × World
  | [], resourceMap, w => (.ok resourceMap, w)
  | ref :: rest, resourceMap, w =>
    match handleRef cfg pod ref resourceMap w with
    | (some e, _, w1) => (.error e, w1)
    | (none, resourceMap1, w1) => cloneRefs cfg pod rest resourceMap1 w1

def cloneDependencies (cfg : ForensicsConfig) (pod : Pod) (w : World) :
    Except Err StrMap × World :=
  cloneRefs cfg pod (podRefs pod) [] w

/-! ## Snapshots and checkpoint -/

/-- The loop of `snapshotPVCs` over the volumes, on the current `snapshotMap`. -/
def snapshotVolumes (lib : Lib) (cfg : ForensicsConfig) (pod : Pod) :
    List Volume → StrMap → World → Except Err StrMap × World
  | [], snapshotMap, w => (.ok snapshotMap, w)
  | vol :: rest, snapshotMap, w =>
    match vol.PersistentVolumeClaim with
    | none => snapshotVolumes lib cfg pod rest snapshotMap w
    | some claim =>
      let pvcName := claim.ClaimName
      let snap : VolumeSnapshot :=
        { ObjectMeta :=
            { GenerateName := "forensic-" ++ pod.ObjectMeta.Name ++ "-" ++ vol.Name ++ "-",
              Namespace := pod.ObjectMeta.Namespace,
              Labels :=
                [(LabelSourcePodUID, pod.ObjectMeta.UID),
                 (LabelForensicTTL, lib.DurationString cfg.ForensicTTL)] },
          PersistentVolumeClaimName := some pvcName }
      match w.Create (.snap snap) with
      | (.error e, w1) => (.error e, w1)
      | (.ok created, w1) =>
        snapshotVolumes lib cfg pod rest (StrMap.set snapshotMap pvcName created.metadata.Name) w1

def snapshotPVCs (lib : Lib) (cfg : ForensicsConfig) (pod : Pod) (w : World) :
    Except Err StrMap × World :=
  snapshotVolumes lib cfg pod pod.Spec.Volumes [] w

def triggerCheckpoint (env : Env) (pod : Pod) (containerName : String) (w : World) :
    Except Err String × World :=
  let nodeName := pod.Spec.NodeName
  if nodeName = "" then (.error ⟨ErrKind.other, "pod is not assigned to a node"⟩, w)
  else
    let path := "checkpoint/" ++ pod.ObjectMeta.Namespace ++ "/" ++ pod.ObjectMeta.Name ++ "/"
      ++ containerName
    match env.PostCheckpoint nodeName path with
    | some e => (.error e, w.record (.checkpoint nodeName path (some e)))
    | none =>
      (.ok ("node://" ++ nodeName ++ "/var/lib/kubelet/checkpoints/"),
        w.record (.checkpoint nodeName path none))

/-! ## The forensic replica -/

/-- The lookup-and-replace every reference goes through:
`if newName, ok := resourceMap[tag + name]; ok { name = newName }`. -/
def rewriteName (resourceMap : StrMap) (tag : String) (name : String) : String :=
  match StrMap.get? resourceMap (tag ++ name) with
  | some newName => newName
  | none => name

def updateProjection (resourceMap : StrMap) (source : VolumeProjection) : VolumeProjection :=
  { source with
    ConfigMap := source.ConfigMap.map
      (fun c => { c with Name := rewriteName resourceMap "cm/" c.Name }),
    Secret := source.Secret.map
      (fun s => { s with Name := rewriteName resourceMap "secret/" s.Name }) }

/-- One iteration of the loop "Update References, 1. Volumes". -/
def updateVolume (resourceMap : StrMap) (vol : Volume) : Volume :=
  { vol with
    ConfigMap := vol.ConfigMap.map
      (fun c => { c with Name := rewriteName resourceMap "cm/" c.Name }),
    Secret := vol.Secret.map
      (fun s => { s with SecretName := rewriteName resourceMap "secret/" s.SecretName }),
    Projected := vol.Projected.map
      (fun p => { p with Sources := p.Sources.map (updateProjection resourceMap) }) }

/-- One iteration of the loop "Update EnvFrom". -/
def updateEnvFrom (resourceMap : StrMap) (envFrom : EnvFromSource) : EnvFromSource :=
  { envFrom with
    ConfigMapRef := envFrom.ConfigMapRef.map
      (fun c => { c with Name := rewriteName resourceMap "cm/" c.Name }),
    SecretRef := envFrom.SecretRef.map
      (fun s => { s with Name := rewriteName resourceMap "secret/" s.Name }) }

/-- One iteration of the loop "Update Env". -/
def updateEnv (resourceMap : StrMap) (env : EnvVar) : EnvVar :=
  { env with
    ValueFrom := env.ValueFrom.map (fun vf =>
      { vf with
        ConfigMapKeyRef := vf.ConfigMapKeyRef.map
          (fun c => { c with Name := rewriteName resourceMap "cm/" c.Name }),
        SecretKeyRef := vf.SecretKeyRef.map
          (fun s => { s with Name := rewriteName resourceMap "secret/" s.Name }) }) }

def logVolName : String := "forensic-logs"
def toolsVolName : String := "toolbox"

/-- The closure `updateContainer`. -/
def updateContainer (resourceMap : StrMap) (c : Container) : Container :=
  let securityContext : SecurityContext := c.SecurityContext.getD {}
  let capabilities : Capabilities := securityContext.Capabilities.getD {}
  { c with
    Command :=
      ["/usr/local/bin/toolkit/sh", "-c",
       "export PATH=$PATH:/usr/local/bin/toolkit; echo 'Forensic Mode Active. Run your app manually.'; sleep infinity"],
    Args := [],
    LivenessProbe := none,
    ReadinessProbe := none,
    StartupProbe := none,
    VolumeMounts :=
      c.VolumeMounts
        ++ [{ Name := logVolName, MountPath := "/forensics/original-logs", ReadOnly := true }]
        ++ [{ Name := toolsVolName, MountPath := "/usr/local/bin/toolkit" }],
    SecurityContext :=
      some { securityContext with
        Capabilities :=
          some { capabilities with
            Drop := capabilities.Drop ++ ["NET_ADMIN", "SYS_ADMIN", "SYS_PTRACE"] } },
    EnvFrom := c.EnvFrom.map (updateEnvFrom resourceMap),
    Env := c.Env.map (updateEnv resourceMap) }

/-- The body of the loop over `InitContainers[1:]`: references only. -/
def updateInitContainer (resourceMap : StrMap) (c : Container) : Container :=
  { c with
    EnvFrom := c.EnvFrom.map (updateEnvFrom resourceMap),
    Env := c.Env.map (updateEnv resourceMap) }

/-- The container the builder prepends to the initialization containers. -/
def initContainer : Container :=
  { Name := "install-toolkit",
    Image := "busybox:1.36",
    Command := ["/bin/sh", "-c", "cp /bin/sh /bin/ls /bin/cat /tools/"],
    VolumeMounts := [{ Name := toolsVolName, MountPath := "/tools" }],
    Resources := { Limits := [("cpu", "100m"), ("memory", "50Mi")] } }

/-- The two loops "Find original container to capture command/args": what one
loop adds to the annotations for the first container named `crashedContainerName`. -/
def captureCommand (crashedContainerName : String) : List Container → StrMap → StrMap
  | [], annotations => annotations
  | c :: rest, annotations =>
    if c.Name = crashedContainerName then
      let annotations :=
        if c.Command.length > 0 then
          StrMap.set annotations "forensic.io/original-command" (String.intercalate " " c.Command)
        else annotations
      if c.Args.length > 0 then
        StrMap.set annotations "forensic.io/original-args" (String.intercalate " " c.Args)
      else annotations
    else captureCommand crashedContainerName rest annotations

/-- The annotations `createForensicPod` puts on the replica.  The snapshot pairs
are joined in the order of the association list (Go leaves the order open). -/
def forensicAnnotations (originalPod : Pod) (crashedContainerName : String) (exitCode : Int)
    (logHash : String) (snapshotMap : StrMap) (checkpointLocation : String) (s3URL : String) :
    StrMap :=
  let annotations : StrMap :=
    [("forensic.io/exit-code", toString exitCode), ("forensic.io/log-sha256", logHash)]
  let annotations :=
    if snapshotMap.length > 0 then
      StrMap.set annotations "forensic.io/snapshots"
        (String.intercalate "," (snapshotMap.map (fun kv => kv.1 ++ ":" ++ kv.2)))
    else annotations
  let annotations :=
    if checkpointLocation ≠ "" then
      StrMap.set annotations "forensic.io/checkpoint" checkpointLocation
    else annotations
  let annotations :=
    if s3URL ≠ "" then StrMap.set annotations LabelLogS3URL s3URL else annotations
  let annotations := captureCommand crashedContainerName originalPod.Spec.Containers annotations
  match StrMap.get? annotations "forensic.io/original-command" with
  | some _ => annotations
  | none => captureCommand crashedContainerName originalPod.Spec.InitContainers annotations

/-- The object `createForensicPod` submits; `now` is its reading of `time.Now()`.
Names are cut at 63 bytes, one `Char` per byte. -/
def forensicPod (lib : Lib) (cfg : ForensicsConfig) (originalPod : Pod) (resourceMap : StrMap)
    (logCMName : String) (signature : String) (crashedContainerName : String) (exitCode : Int)
    (logHash : String) (snapshotMap : StrMap) (checkpointLocation : String) (s3URL : String)
    (now : Time) : Pod :=
  let sourcePodName :=
    if originalPod.ObjectMeta.Name.length > 63 then
      String.mk (originalPod.ObjectMeta.Name.toList.take 63)
    else originalPod.ObjectMeta.Name
  let volumes :=
    originalPod.Spec.Volumes
      ++ [{ Name := logVolName, ConfigMap := some { Name := logCMName } }]
      ++ [{ Name := toolsVolName, EmptyDir := some {} }]
  { ObjectMeta :=
      { GenerateName := originalPod.ObjectMeta.Name ++ "-forensic-",
        Namespace := cfg.TargetNamespace,
        Labels :=
          [(LabelSourcePod, sourcePodName),
           (LabelSourcePodUID, originalPod.ObjectMeta.UID),
           (LabelCrashSignature, signature),
           (LabelForensicTime, lib.Format ForensicTimeFormat now),
           (LabelForensicTTL, lib.DurationString cfg.ForensicTTL)],
        Annotations :=
          forensicAnnotations originalPod crashedContainerName exitCode logHash snapshotMap
            checkpointLocation s3URL },
    Spec :=
      { originalPod.Spec with
        NodeName := "",
        RestartPolicy := RestartPolicyNever,
        AutomountServiceAccountToken := some false,
        ServiceAccountName := "",
        Volumes := volumes.map (updateVolume resourceMap),
        InitContainers :=
          initContainer :: originalPod.Spec.InitContainers.map (updateInitContainer resourceMap),
        Containers := originalPod.Spec.Containers.map (updateContainer resourceMap) } }

def createForensicPod (lib : Lib) (cfg : ForensicsConfig) (originalPod : Pod)
    (resourceMap : StrMap) (logCMName : String) (signature : String)
    (crashedContainerName : String) (exitCode : Int) (logHash : String) (snapshotMap : StrMap)
    (checkpointLocation : String) (s3URL : String) (w : World) : Option Err × World :=
  let t := w.tick
  let newPod := forensicPod lib cfg originalPod resourceMap logCMName signature
    crashedContainerName exitCode logHash snapshotMap checkpointLocation s3URL t.1
  match t.2.Create (.pod newPod) with
  | (.error e, w1) => (some e, w1)
  | (.ok _, w1) => (none, w1)

/-! ## Reconcile -/

/-- Step 7 of `Reconcile`: the log text, or the placeholder for a failed fetch. -/
def fetchLogs (env : Env) (cfg : ForensicsConfig) (pod : Pod) (crashedContainerName : String) :
    String :=
  match getPodLogs env cfg pod crashedContainerName with
  | .ok logs => logs
  | .error err => "Error fetching logs: " ++ err.msg

/-- The blob key of step 8, `"%s/%s/%s/crash.log"`, for the clock reading `now`. -/
def uploadKey (lib : Lib) (pod : Pod) (now : Time) : String :=
  let timestamp := lib.Format "2006/01/02/150405" now
  pod.ObjectMeta.Namespace ++ "/" ++ pod.ObjectMeta.Name ++ "/" ++ timestamp ++ "/crash.log"

/-- Step 8 of `Reconcile`: the upload of the log text; the result is `s3URL`. -/
def uploadLogs (lib : Lib) (env : Env) (pod : Pod) (logs : String) (w : World) :
    String × World :=
  if logs ≠ "" then
    let t := w.tick
    let key := uploadKey lib pod t.1
    let r := env.Upload key logs
    let w1 := t.2.record (.upload key logs r.2)
    match r.2 with
    | some err =>
      ("", w1.Eventf pod EventTypeWarning "ForensicExportFailed"
        ("Failed to upload logs to S3: " ++ err.msg))
    | none =>
      if r.1 ≠ "" then
        (r.1, w1.Eventf pod EventTypeNormal "ForensicExportSuccess" ("Uploaded logs to " ++ r.1))
      else ("", w1)
  else ("", w)

/-- Step 11 of `Reconcile`: the snapshots; the result is `snapshotMap` (nil on an
error). -/
def takeSnapshots (lib : Lib) (cfg : ForensicsConfig) (pod : Pod) (w : World) : StrMap × World :=
  match snapshotPVCs lib cfg pod w with
  | (.error err, w1) =>
    ([], w1.Eventf pod EventTypeWarning "ForensicSnapshotFailed"
      ("Failed to snapshot PVCs: " ++ err.msg))
  | (.ok snapshotMap, w1) =>
    if snapshotMap.length > 0 then
      (snapshotMap, w1.Eventf pod EventTypeNormal "ForensicSnapshotsCreated"
        ("Created volume snapshots for " ++ toString snapshotMap.length ++ " PVCs"))
    else (snapshotMap, w1)

/-- Step 12 of `Reconcile`: the checkpoint; the result is `checkpointLocation`. -/
def takeCheckpoint (env : Env) (cfg : ForensicsConfig) (pod : Pod)
    (crashedContainerName : String) (w : World) : String × World :=
  if cfg.EnableCheckpointing = true ∧ crashedContainerName ≠ "" then
    match triggerCheckpoint env pod crashedContainerName w with
    | (.error err, w1) =>
      ("", w1.Eventf pod EventTypeWarning "ForensicCheckpointFailed"
        ("Failed to trigger checkpoint: " ++ err.msg))
    | (.ok loc, w1) =>
      (loc, w1.Eventf pod EventTypeNormal "ForensicCheckpointCreated"
        ("Container checkpoint created at " ++ loc))
  else ("", w)

/-- The lowercase hexadecimal SHA-256 of the log text (`logHashStr`). -/
def logHashStr (lib : Lib) (logs : String) : String :=
  String.mk (EncodeToString (lib.Sum256 logs).bytes)

/-- Steps 9 to 13 of `Reconcile`, from dependency cloning on. -/
def materializeFrom (lib : Lib) (env : Env) (cfg : ForensicsConfig) (pod : Pod)
    (crashedContainerName : String) (exitCode : Int) (signature : String) (logs : String)
    (s3URL : String) (w : World) : Option Err × World :=
  match cloneDependencies cfg pod w with
  | (.error err, w1) =>
    (some err, w1.Inc ForensicPodCreationErrorsTotal [pod.ObjectMeta.Namespace, "CloneDependencies"])
  | (.ok resourceMap, w1) =>
    match createLogConfigMap cfg pod logs w1 with
    | (.error err, w2) =>
      (some err, w2.Inc ForensicPodCreationErrorsTotal [pod.ObjectMeta.Namespace, "CreateLogCM"])
    | (.ok logCMName, w2) =>
      let snaps := takeSnapshots lib cfg pod w2
      let ckpt := takeCheckpoint env cfg pod crashedContainerName snaps.2
      match createForensicPod lib cfg pod resourceMap logCMName signature crashedContainerName
          exitCode (logHashStr lib logs) snaps.1 ckpt.1 s3URL ckpt.2 with
      | (some err, w3) =>
        (some err,
          w3.Inc ForensicPodCreationErrorsTotal [pod.ObjectMeta.Namespace, "CreateForensicPod"])
      | (none, w3) =>
        (none,
          (w3.Eventf pod EventTypeNormal "ForensicPodCreated"
            ("Created forensic pod " ++ cfg.TargetNamespace ++ " (LogHash: "
              ++ logHashStr lib logs ++ ")")).Inc
            ForensicPodsCreatedTotal [pod.ObjectMeta.Namespace])

/-- The rest of `Reconcile` once the rate limit has let the crash through: the
`ForensicAnalysisStarted` event and steps 5 to 13. -/
def materialize (lib : Lib) (env : Env) (cfg : ForensicsConfig) (pod : Pod)
    (crashedContainerName : String) (exitCode : Int) (signature : String) (w : World) :
    Option Err × World :=
  let w0 := w.Eventf pod EventTypeWarning "ForensicAnalysisStarted"
    ("Crash detected in container " ++ crashedContainerName ++ " (ExitCode: "
      ++ toString exitCode ++ "). Creating forensic pod.")
  match ensureNamespace cfg w0 with
  | (some err, w1) =>
    (some err, w1.Inc ForensicPodCreationErrorsTotal [pod.ObjectMeta.Namespace, "EnsureNamespace"])
  | (none, w1) =>
    match ensureNetworkPolicy cfg w1 with
    | (some err, w2) =>
      (some err,
        w2.Inc ForensicPodCreationErrorsTotal [pod.ObjectMeta.Namespace, "EnsureNetworkPolicy"])
    | (none, w2) =>
      let logs := fetchLogs env cfg pod crashedContainerName
      let up := uploadLogs lib env pod logs w2
      materializeFrom lib env cfg pod crashedContainerName exitCode signature logs up.1 up.2

/-- Step 4 of `Reconcile`, after the list: whether some listed replica is younger
than the rate-limit window. -/
def rateLimited (cfg : ForensicsConfig) (now : Time) (forensicPods : List Pod) : Bool :=
  forensicPods.any (fun fp => decide (Time.Sub now fp.ObjectMeta.CreationTimestamp < cfg.RateLimitWindow))

/-- The part of `Reconcile` that follows the fetch of the workload: steps 2 to 13. -/
def reconcilePod (lib : Lib) (env : Env) (cfg : ForensicsConfig) (pod : Pod) (w1 : World) :
    Option Err × World :=
  if MetaTimeIsZero pod.ObjectMeta.DeletionTimestamp = false then (none, w1)
  else
    let check := crashCheck pod
    if check.isCrash = false then (none, w1)
    else
      let w2 := w1.Inc ForensicCrashesTotal [pod.ObjectMeta.Namespace, "CrashDetected"]
      let signature := getCrashSignature lib pod check.crashedContainerName check.exitCode
      match w2.ListPods cfg.TargetNamespace [(LabelCrashSignature, signature)] with
      | (.error err, w3) =>
        (some err,
          w3.Inc ForensicPodCreationErrorsTotal [pod.ObjectMeta.Namespace, "Deduplication"])
      | (.ok forensicPods, w3) =>
        let now := w3.tick
        if rateLimited cfg now.1 forensicPods = true then (none, now.2)
        else
          materialize lib env cfg pod check.crashedContainerName check.exitCode signature now.2

/-- The function `PodReconciler.Reconcile`: the error it returns (`none` for nil)
and the world it leaves. -/
def Reconcile (lib : Lib) (env : Env) (cfg : ForensicsConfig) (req : Request) (w : World) :
    Option Err × World :=
  if cfg.WatchNamespaces.length > 0 ∧ req.Namespace ∉ cfg.WatchNamespaces then (none, w)
  else if req.Namespace ∈ cfg.IgnoreNamespaces then (none, w)
  else if req.Namespace = cfg.TargetNamespace then (none, w)
  else
    match w.GetPod req.Namespace req.Name with
    | (.error err, w1) => (IgnoreNotFound err, w1)
    | (.ok pod, w1) => reconcilePod lib env cfg pod w1

/-! ## Vocabulary of the statements -/

/-- The state is terminated with reason `Error` or `OOMKilled` or with a non-zero
exit code, and `code` is its exit code. -/
def CrashedWith (st : ContainerState) (code : Int) : Prop :=
  ∃ t, st.Terminated = some t ∧
    (t.Reason = "Error" ∨ t.Reason = "OOMKilled" ∨ t.ExitCode ≠ 0) ∧ t.ExitCode = code

/-- The current or the last state of the status is such a termination. -/
def StatusMatches (s : ContainerStatus) : Prop :=
  (∃ code, CrashedWith s.State code) ∨ (∃ code, CrashedWith s.LastTerminationState code)

/-- What a matching status yields: its name, with the exit code of its current
state if that state matches, and of its last state otherwise. -/
def StatusYields (s : ContainerStatus) (name : String) (code : Int) : Prop :=
  s.Name = name ∧
    (CrashedWith s.State code ∨
      ((¬ ∃ c, CrashedWith s.State c) ∧ CrashedWith s.LastTerminationState code))

/-- The pair `(name, code)` comes from the first status of the list that matches. -/
def FirstMatch (all : List ContainerStatus) (name : String) (code : Int) : Prop :=
  ∃ pre s post, all = pre ++ s :: post ∧ (∀ p ∈ pre, ¬ StatusMatches p) ∧ StatusYields s name code

/-- The error of a result, `none` for success. -/
def errOf {α : Type} : Except Err α → Option Err
  | .error e => some e
  | .ok _ => none

/-- Whether a call is a create of a replica (a pod), successful or not. -/
def Call.isPodCreate : Call → Bool
  | .create (.pod _) _ => true
  | _ => false

/-- The replica creates among a list of calls, in order. -/
def podCreates (calls : List Call) : List Call := calls.filter Call.isPodCreate

/-- What every step other than the replica create guarantees: the store, the
calls, the events and the counters only grow, and no replica create is issued. -/
structure Frame (w w' : World) : Prop where
  objects : w.objects <+: w'.objects
  events : w.events <+: w'.events
  counters : w.counters <+: w'.counters
  calls : w.calls <+: w'.calls
  podCreates : podCreates w'.calls = podCreates w.calls

/-- The workload `pod` behind `req` is crashed and not deduplicated: from `w`,
`Reconcile` passes the gates, fetches `pod`, finds it not being deleted and
crashed, lists the replicas of its signature, finds none of them younger than the
rate-limit window, and starts materializing in the world `w0`. -/
def EntersMaterialization (lib : Lib) (cfg : ForensicsConfig) (req : Request) (w : World)
    (pod : Pod) (w0 : World) : Prop :=
  ¬ (cfg.WatchNamespaces.length > 0 ∧ req.Namespace ∉ cfg.WatchNamespaces) ∧
  req.Namespace ∉ cfg.IgnoreNamespaces ∧
  req.Namespace ≠ cfg.TargetNamespace ∧
  ∃ w1 forensicPods w3,
    w.GetPod req.Namespace req.Name = (.ok pod, w1) ∧
    MetaTimeIsZero pod.ObjectMeta.DeletionTimestamp = true ∧
    (crashCheck pod).isCrash = true ∧
    (w1.Inc ForensicCrashesTotal [pod.ObjectMeta.Namespace, "CrashDetected"]).ListPods
        cfg.TargetNamespace
        [(LabelCrashSignature,
          getCrashSignature lib pod (crashCheck pod).crashedContainerName (crashCheck pod).exitCode)]
      = (.ok forensicPods, w3) ∧
    rateLimited cfg w3.tick.1 forensicPods = false ∧
    w0 = w3.tick.2

/-- The container `Reconcile` finds crashed in `pod`. -/
def crashedName (pod : Pod) : String := (crashCheck pod).crashedContainerName

/-- The signature `Reconcile` computes for `pod`. -/
def signatureOf (lib : Lib) (pod : Pod) : String :=
  getCrashSignature lib pod (crashCheck pod).crashedContainerName (crashCheck pod).exitCode

/-- The log text `Reconcile` works with for `pod` (step 7). -/
def crashedLogs (env : Env) (cfg : ForensicsConfig) (pod : Pod) : String :=
  fetchLogs env cfg pod (crashCheck pod).crashedContainerName

/-- The world in which step 5 runs: `w0` after the `ForensicAnalysisStarted` event. -/
def started (pod : Pod) (w0 : World) : World :=
  w0.Eventf pod EventTypeWarning "ForensicAnalysisStarted"
    ("Crash detected in container " ++ (crashCheck pod).crashedContainerName ++ " (ExitCode: "
      ++ toString (crashCheck pod).exitCode ++ "). Creating forensic pod.")

/-! ## Further vocabulary and the worked scenario -/

/-- Spec: a lowercase hexadecimal digit. -/
def isLowerHex (c : Char) : Bool :=
  ('0' ≤ c && c ≤ '9') || ('a' ≤ c && c ≤ 'f')

/-- Spec: a character of the class `[A-Za-z0-9]`. -/
def isAlnum (c : Char) : Bool :=
  ('A' ≤ c && c ≤ 'Z') || ('a' ≤ c && c ≤ 'z') || ('0' ≤ c && c ≤ '9')

/-- Spec: a character of the class `[-A-Za-z0-9_.]`. -/
def isLabelChar (c : Char) : Bool :=
  isAlnum c || c == '-' || c == '_' || c == '.'

/-- Spec: the string matches `[A-Za-z0-9][-A-Za-z0-9_.]*[A-Za-z0-9]` in full. -/
def MatchesLabelValue (cs : List Char) : Prop :=
  ∃ first mid last, cs = first :: (mid ++ [last]) ∧ isAlnum first = true ∧
    (∀ c ∈ mid, isLabelChar c = true) ∧ isAlnum last = true

/-- A workload `web-0` of a stateful set `web`. -/
def ownedPod : Pod :=
  { ObjectMeta :=
      { Name := "web-0", Namespace := "prod", GenerateName := "web-",
        OwnerReferences := [{ Name := "web" }, { Name := "backup-controller" }] } }

/-- The name a reference holds. -/
def DepRef.name : DepRef → String
  | .configMap n => n
  | .secret n => n

/-- The key under which `cloneDependencies` and `createForensicPod` file a
reference in the clones map: `"cm/" + name` or `"secret/" + name`. -/
def DepRef.key : DepRef → String
  | .configMap n => "cm/" ++ n
  | .secret n => "secret/" ++ n

/-- A reference after the rewrite through the clones map: the mapped name if its
key has an entry, the same name if not. -/
def DepRef.rewrite (resourceMap : StrMap) : DepRef → DepRef
  | .configMap n => .configMap (rewriteName resourceMap "cm/" n)
  | .secret n => .secret (rewriteName resourceMap "secret/" n)

/-- The library functions of the examples. -/
def demoLib : Lib :=
  { Sum256 := fun _ => ⟨List.replicate 32 0, rfl⟩,
    Format := fun _ _ => "2025-03-14T09-26-53Z",
    DurationString := fun _ => "24h0m0s" }

/-- A workload that mounts the secret `db-creds`. -/
def secretPod : Pod :=
  { ObjectMeta := { Name := "api-abc", Namespace := "prod", UID := "u1" },
    Spec :=
      { Containers := [{ Name := "app" }],
        Volumes := [{ Name := "creds", Secret := some { SecretName := "db-creds" } }] } }

/-- A workload in phase `Failed` whose containers report no status. -/
def failedPod : Pod :=
  { ObjectMeta := { Name := "job-7", Namespace := "batch" },
    Spec := { Containers := [{ Name := "runner" }, { Name := "sidecar" }] },
    Status := { Phase := "Failed" } }

/-- Collaborators whose every soft step fails. -/
def softEnv : Env :=
  { GetLogs := fun _ _ _ => .error ⟨ErrKind.other, "container not found"⟩,
    Upload := fun _ _ => ("", some ⟨ErrKind.other, "access denied"⟩),
    PostCheckpoint := fun _ _ => some ⟨ErrKind.other, "404 Not Found"⟩ }

def demoCfg : ForensicsConfig :=
  { TargetNamespace := "debug-forensics", ForensicTTL := 86400000000000,
    MaxLogSizeBytes := 512000, IgnoreNamespaces := ["kube-system", "kube-public"],
    WatchNamespaces := [], EnableSecretCloning := true, EnableCheckpointing := true,
    RateLimitWindow := 3600000000000 }

def demoPod : Pod :=
  { ObjectMeta := { Name := "api-abc", Namespace := "prod", UID := "u1" },
    Spec :=
      { Containers := [{ Name := "app" }],
        NodeName := "node-1",
        Volumes := [{ Name := "data", PersistentVolumeClaim := some { ClaimName := "data-claim" } }] },
    Status :=
      { ContainerStatuses :=
          [{ Name := "app",
             State := { Terminated := some { Reason := "OOMKilled", ExitCode := 137 } } }] } }

def demoReq : Request := { Namespace := "prod", Name := "api-abc" }

/-- A cluster holding the crashed workload, in which the snapshot create fails. -/
def softWorld : World :=
  { objects := [Object.pod demoPod],
    faults := [none, none, none, none, none, some ⟨ErrKind.other, "no matches for kind VolumeSnapshot"⟩],
    clock := [1000, 2000, 3000, 4000, 5000, 6000, 7000, 8000, 9000],
    suffixes := ["x7k2p", "m4q9z"] }

/-- The same cluster, in which the log-config create fails. -/
def hardWorld : World :=
  { objects := [Object.pod demoPod],
    faults := [none, none, none, none, some ⟨ErrKind.other, "quota exceeded"⟩],
    clock := [1000, 2000, 3000, 4000, 5000, 6000],
    suffixes := ["x7k2p", "m4q9z"] }

/-- The world in which materialization starts from `w`. -/
def enter (w : World) : World :=
  ((w.popFault.2.Inc ForensicCrashesTotal ["prod", "CrashDetected"]).popFault.2).tick.2

/-- The world the first reconciliation of the scenario leaves. -/
def afterFirst : World := (Reconcile demoLib softEnv demoCfg demoReq softWorld).2

/-- The replica the first reconciliation of the scenario stored. -/
def demoReplica : Pod :=
  ((afterFirst.objects.filterMap Object.asPod?).getLast?).getD {}

/-- A workload with an initialization container that reads the config object
`app-config`, the secret `db-creds` and a config object `feature-flags`. -/
def initPod : Pod :=
  { ObjectMeta := { Name := "api-abc", Namespace := "prod", UID := "u1" },
    Spec :=
      { Containers := [{ Name := "app" }],
        InitContainers :=
          [{ Name := "migrate", Image := "migrator:1.4", Command := ["/migrate"], Args := ["up"],
             EnvFrom := [{ ConfigMapRef := some { Name := "app-config" } },
                         { SecretRef := some { Name := "db-creds" } }],
             Env := [{ Name := "TOKEN",
                       ValueFrom := some { SecretKeyRef := some { Name := "db-creds", Key := "token" } } },
                     { Name := "FLAGS",
                       ValueFrom :=
                         some { ConfigMapKeyRef := some { Name := "feature-flags", Key := "all" } } },
                     { Name := "MODE",
                       ValueFrom :=
                         some { ConfigMapKeyRef := some { Name := "app-config", Key := "mode" } } }] }] } }

/-- The text the redaction mode files under the key `WARNING`. -/
def redactionWarning : String :=
  "Secret cloning is disabled for this pod. Values have been redacted."

/-- The object `handleConfigMap` submits for the source `src` it fetched under `name`. -/
def configMapClone (cfg : ForensicsConfig) (pod : Pod) (name : String) (src : ConfigMap) :
    ConfigMap :=
  { ObjectMeta :=
      { Name := pod.ObjectMeta.Namespace ++ "-" ++ name,
        Namespace := cfg.TargetNamespace,
        Labels := StrMap.set src.ObjectMeta.Labels LabelSourcePodUID pod.ObjectMeta.UID },
    Data := src.Data,
    BinaryData := src.BinaryData }

/-- The object `handleSecret` submits for the source `src` it fetched under `name`. -/
def secretClone (cfg : ForensicsConfig) (pod : Pod) (name : String) (src : Secret) : Secret :=
  { ObjectMeta :=
      { Name := pod.ObjectMeta.Namespace ++ "-" ++ name,
        Namespace := cfg.TargetNamespace,
        Labels := StrMap.set src.ObjectMeta.Labels LabelSourcePodUID pod.ObjectMeta.UID },
    SecretType := src.SecretType,
    Data := if secretsDisabled cfg pod then redactInto [] src.Data else src.Data,
    StringData :=
      if secretsDisabled cfg pod then redactInto [("WARNING", redactionWarning)] src.StringData
      else src.StringData }

/-- The kind of object a reference names. -/
def DepRef.kind : DepRef → Kind
  | .configMap _ => Kind.ConfigMap
  | .secret _ => Kind.Secret

/-- The name of the clone of a reference of `pod`: `{source_namespace}-{name}`. -/
def cloneName (pod : Pod) (r : DepRef) : String :=
  pod.ObjectMeta.Namespace ++ "-" ++ r.name

/-- Whether a call is a create request for an object of kind `k` named `name` in
namespace `ns`. -/
def Call.creates (k : Kind) (ns name : String) : Call → Bool
  | .create obj _ =>
    decide (obj.kind = k) && decide (obj.metadata.Namespace = ns)
      && decide (obj.metadata.Name = name)
  | _ => false

/-- Whether a call is the create request for the clone of the reference `r` of `pod`. -/
def isCloneCreate (cfg : ForensicsConfig) (pod : Pod) (r : DepRef) (c : Call) : Bool :=
  Call.creates r.kind cfg.TargetNamespace (cloneName pod r) c

/-- The calls issued between the world `w` and a later world `w1`. -/
def newCalls (w w1 : World) : List Call := w1.calls.drop w.calls.length

/-- Whether the store holds, in namespace `ns`, the object a reference names. -/
def sourceExists (w : World) (ns : String) : DepRef → Bool
  | .configMap n =>
    (w.objects.filterMap Object.asConfigMap?).any
      (fun p => decide (p.ObjectMeta.Namespace = ns) && decide (p.ObjectMeta.Name = n))
  | .secret n =>
    (w.objects.filterMap Object.asSecret?).any
      (fun p => decide (p.ObjectMeta.Namespace = ns) && decide (p.ObjectMeta.Name = n))

/-- The clones map the specification describes, built from the references in scan
order: a reference whose key has no entry yet and whose source can be fetched gets
the entry `key ↦ {source_namespace}-{name}`. -/
def expectedMap (pod : Pod) (fetchable : DepRef → Bool) : List DepRef → StrMap → StrMap
  | [], rm => rm
  | r :: rest, rm =>
    expectedMap pod fetchable rest
      (if (StrMap.get? rm r.key).isSome then rm
       else if fetchable r then StrMap.set rm r.key (cloneName pod r) else rm)

/-- What one run of the scans of `cloneDependencies` over `refs`, started with the
map `rm`, leaves: the calls `δ` it issued and its result `res`. -/
structure CloneTrace (cfg : ForensicsConfig) (pod : Pod) (refs : List DepRef) (rm : StrMap)
    (δ : List Call) (res : Except Err StrMap) : Prop where
  issued : ∀ c ∈ δ, ∃ r ∈ refs, isCloneCreate cfg pod r c = true ∧ StrMap.get? rm r.key = none
  once : ∀ r, (δ.filter (isCloneCreate cfg pod r)).length ≤ 1
  ok : ∀ rm', res = .ok rm' → ∀ key v,
    StrMap.get? rm' key = some v ↔
      (StrMap.get? rm key = some v ∨
        (StrMap.get? rm key = none ∧
          ∃ r ∈ refs, r.key = key ∧ v = cloneName pod r ∧
            ∃ c ∈ δ, isCloneCreate cfg pod r c = true))
  tolerated : ∀ rm', res = .ok rm' →
    ∀ obj e, Call.create obj (some e) ∈ δ → IsAlreadyExists e = true
  failed : ∀ e, res = .error e →
    IsAlreadyExists e = false ∧ ∃ obj δ', δ = δ' ++ [Call.create obj (some e)]

/-- A workload that reads the config `app-config` twice and the secret `db-creds`,
and mounts a secret `tls-cert` that is not in the cluster. -/
def clonePod : Pod :=
  { ObjectMeta := { Name := "api-abc", Namespace := "prod", UID := "u1" },
    Spec :=
      { Containers :=
          [{ Name := "app",
             EnvFrom := [{ ConfigMapRef := some { Name := "app-config" } },
                         { SecretRef := some { Name := "db-creds" } }],
             SecurityContext :=
               some { Capabilities := some { Add := ["NET_BIND_SERVICE"], Drop := ["ALL"] },
                      RunAsUser := some 1000 } }],
        Volumes := [{ Name := "cfg", ConfigMap := some { Name := "app-config" } },
                    { Name := "tls", Secret := some { SecretName := "tls-cert" } }] } }

/-- The secret `db-creds` of the scenario. -/
def dbCreds : Secret :=
  { ObjectMeta := { Name := "db-creds", Namespace := "prod", Labels := [("app", "api")] },
    SecretType := "Opaque",
    Data := [("username", "admin"), ("password", "hunter2")] }

/-- A cluster holding the workload, its config and its secret; no request fails. -/
def cloneWorld : World :=
  { objects :=
      [Object.pod clonePod,
       Object.cm { ObjectMeta := { Name := "app-config", Namespace := "prod" },
                   Data := [("mode", "production")] },
       Object.secret dbCreds],
    clock := [1000, 2000, 3000, 4000] }

/-- A workload that names a config object or a secret in every place
`cloneDependencies` scans: a config volume, a secret volume, a projected volume, and
in its main and its initialization container an `envFrom` and an `env` `valueFrom`;
the secret `tls-cert` it mounts is not in the cluster. -/
def richPod : Pod :=
  { ObjectMeta := { Name := "api-abc", Namespace := "prod", UID := "u1" },
    Spec :=
      { Volumes :=
          [{ Name := "cfg", ConfigMap := some { Name := "vol-config" } },
           { Name := "creds", Secret := some { SecretName := "vol-secret" } },
           { Name := "tls", Secret := some { SecretName := "tls-cert" } },
           { Name := "bundle",
             Projected :=
               some { Sources := [{ ConfigMap := some { Name := "proj-config" } },
                                  { Secret := some { Name := "proj-secret" } }] } }],
        Containers :=
          [{ Name := "app",
             EnvFrom := [{ ConfigMapRef := some { Name := "env-config" } },
                         { SecretRef := some { Name := "env-secret" } }],
             Env := [{ Name := "MODE",
                       ValueFrom :=
                         some { ConfigMapKeyRef := some { Name := "key-config", Key := "mode" } } },
                     { Name := "TOKEN",
                       ValueFrom :=
                         some { SecretKeyRef := some { Name := "key-secret", Key := "token" } } }] }],
        InitContainers :=
          [{ Name := "migrate",
             EnvFrom := [{ SecretRef := some { Name := "init-secret" } }],
             Env := [{ Name := "SCHEMA",
                       ValueFrom :=
                         some { ConfigMapKeyRef :=
                                  some { Name := "init-config", Key := "schema" } } }] }] } }

/-- A cluster holding that workload and, in its namespace, every object it names but
`tls-cert`; no request fails. -/
def richWorld : World :=
  { objects :=
      [Object.pod richPod,
       Object.cm { ObjectMeta := { Name := "vol-config", Namespace := "prod" } },
       Object.cm { ObjectMeta := { Name := "proj-config", Namespace := "prod" } },
       Object.cm { ObjectMeta := { Name := "env-config", Namespace := "prod" } },
       Object.cm { ObjectMeta := { Name := "key-config", Namespace := "prod" } },
       Object.cm { ObjectMeta := { Name := "init-config", Namespace := "prod" } },
       Object.secret { ObjectMeta := { Name := "vol-secret", Namespace := "prod" } },
       Object.secret { ObjectMeta := { Name := "proj-secret", Namespace := "prod" } },
       Object.secret { ObjectMeta := { Name := "env-secret", Namespace := "prod" } },
       Object.secret { ObjectMeta := { Name := "key-secret", Namespace := "prod" } },
       Object.secret { ObjectMeta := { Name := "init-secret", Namespace := "prod" } }] }

/-- Spec: the workload references the config object named `n`: by a config volume, by
a source of a projected volume, or by an `envFrom` or an `env` `valueFrom` of a main
or initialization container. -/
def ReferencesConfig (pod : Pod) (n : String) : Prop :=
  (∃ v ∈ pod.Spec.Volumes, ∃ c, v.ConfigMap = some c ∧ c.Name = n) ∨
  (∃ v ∈ pod.Spec.Volumes, ∃ p, v.Projected = some p ∧
    ∃ s ∈ p.Sources, ∃ c, s.ConfigMap = some c ∧ c.Name = n) ∨
  (∃ c ∈ pod.Spec.Containers ++ pod.Spec.InitContainers,
    ∃ ef ∈ c.EnvFrom, ∃ r, ef.ConfigMapRef = some r ∧ r.Name = n) ∨
  (∃ c ∈ pod.Spec.Containers ++ pod.Spec.InitContainers,
    ∃ e ∈ c.Env, ∃ vf, e.ValueFrom = some vf ∧ ∃ k, vf.ConfigMapKeyRef = some k ∧ k.Name = n)

/-- Spec: the workload references the secret named `n`, in the same places. -/
def ReferencesSecret (pod : Pod) (n : String) : Prop :=
  (∃ v ∈ pod.Spec.Volumes, ∃ c, v.Secret = some c ∧ c.SecretName = n) ∨
  (∃ v ∈ pod.Spec.Volumes, ∃ p, v.Projected = some p ∧
    ∃ s ∈ p.Sources, ∃ c, s.Secret = some c ∧ c.Name = n) ∨
  (∃ c ∈ pod.Spec.Containers ++ pod.Spec.InitContainers,
    ∃ ef ∈ c.EnvFrom, ∃ r, ef.SecretRef = some r ∧ r.Name = n) ∨
  (∃ c ∈ pod.Spec.Containers ++ pod.Spec.InitContainers,
    ∃ e ∈ c.Env, ∃ vf, e.ValueFrom = some vf ∧ ∃ k, vf.SecretKeyRef = some k ∧ k.Name = n)

/-- The configuration of the scenarios with secret cloning switched off. -/
def redactCfg : ForensicsConfig := { demoCfg with EnableSecretCloning := false }

/-- A secret `db-creds` one of whose own keys is named `WARNING`. -/
def warnSecret : Secret :=
  { ObjectMeta := { Name := "db-creds", Namespace := "prod" },
    SecretType := "Opaque",
    Data := [("WARNING", "rotate me"), ("password", "hunter2")] }

/-- A cluster holding the workload of the cloning scenario and that secret. -/
def warnWorld : World :=
  { objects := [Object.pod clonePod, Object.secret warnSecret],
    clock := [1000, 2000] }

/-- The secret the cloning stores in the forensic namespace in that cluster. -/
def warnClone : Secret :=
  (((cloneDependencies redactCfg clonePod warnWorld).2.objects.filterMap
      Object.asSecret?).getLast?).getD {}

/-- A cluster holding the crashed workload, in which creating the namespace fails. -/
def nsFailWorld : World :=
  { objects := [Object.pod demoPod],
    faults := [none, none, some ⟨ErrKind.other, "namespaces is forbidden"⟩],
    clock := [1000, 2000, 3000] }

/-- The event `ForensicAnalysisStarted` that `Reconcile` emits on `pod` before step 5. -/
def startedEvent (pod : Pod) : Event :=
  ⟨pod.ObjectMeta.Namespace, pod.ObjectMeta.Name, "Warning", "ForensicAnalysisStarted",
    "Crash detected in container " ++ (crashCheck pod).crashedContainerName ++ " (ExitCode: "
      ++ toString (crashCheck pod).exitCode ++ "). Creating forensic pod."⟩

/-- The number of `-` characters of a string. -/
def dashes (s : String) : Nat := s.data.count '-'

/-- A standalone workload `eu-api` in namespace `prod`. -/
def dashPodA : Pod := { ObjectMeta := { Name := "eu-api", Namespace := "prod", UID := "u7" } }

/-- A standalone workload `api` in namespace `prod-eu`. -/
def dashPodB : Pod := { ObjectMeta := { Name := "api", Namespace := "prod-eu", UID := "u8" } }

/-- The value of a decimal digit character. -/
def digitValue (c : Char) : Nat := c.toNat - '0'.toNat

/-- The number a list of decimal digits writes. -/
def decimalValue (cs : List Char) : Nat := cs.foldl (fun acc c => 10 * acc + digitValue c) 0

/-- Spec: the string matches the label-value pattern of the platform,
`(([A-Za-z0-9][-A-Za-z0-9_.]*)?[A-Za-z0-9])?`, in full. -/
def MatchesLabelRegex (cs : List Char) : Prop :=
  cs = [] ∨ (∃ c, cs = [c] ∧ isAlnum c = true) ∨ MatchesLabelValue cs

/-- Spec: a character of a DNS-subdomain name: lowercase alphanumeric, `-` or `.`. -/
def isDNSNameChar (c : Char) : Bool :=
  ('a' ≤ c && c ≤ 'z') || ('0' ≤ c && c ≤ '9') || c == '-' || c == '.'

/-- Spec: a valid DNS-subdomain name: lowercase alphanumerics, `-` and `.`, starting
and ending with an alphanumeric, of at most 253 characters. -/
def isDNSSubdomain (s : String) : Bool :=
  decide (s.length ≤ 253) && s.toList.all isDNSNameChar
    && (match s.toList.head? with
        | some c => isAlnum c
        | none => false)
    && (match s.toList.getLast? with
        | some c => isAlnum c
        | none => false)

/-- A workload whose name has 78 characters, the 63rd of which is `-`. -/
def longPod : Pod :=
  { ObjectMeta :=
      { Name := "checkout-payments-reconciliation-worker-blue-green-canary-eu1a-7f9c8d6b5-x7k2p",
        Namespace := "prod", UID := "u9" },
    Spec := { Containers := [{ Name := "app" }] } }

/-! ## Formatting an instant (package `time` of the Go library) -/

/-- The fields `t.Date()` and `t.Clock()` give for an instant in UTC. -/
structure Civil where
  year : Int
  month : Int
  day : Int
  hour : Int
  minute : Int
  second : Int
deriving DecidableEq, Repr

/-- The date (year, month, day) of the day `z` days after 1970-01-01, in the
proleptic Gregorian calendar that package `time` uses. -/
def civilFromDays (z : Int) : Int × Int × Int :=
  let z := z + 719468
  let era := z / 146097
  let doe := z - era * 146097
  let yoe := (doe - doe / 1460 + doe / 36524 - doe / 146096) / 365
  let y := yoe + era * 400
  let doy := doe - (365 * yoe + yoe / 4 - yoe / 100)
  let mp := (5 * doy + 2) / 153
  let d := doy - (153 * mp + 2) / 5 + 1
  let m := if mp < 10 then mp + 3 else mp - 9
  (if m ≤ 2 then y + 1 else y, m, d)

/-- The fields of an instant (nanoseconds since the Unix epoch) in UTC. -/
def Time.civil (t : Time) : Civil :=
  let secs := t / 1000000000
  let days := secs / 86400
  let rem := secs % 86400
  let ymd := civilFromDays days
  { year := ymd.1, month := ymd.2.1, day := ymd.2.2,
    hour := rem / 3600, minute := rem % 3600 / 60, second := rem % 60 }

/-- The function `appendInt(b, x, width)` of package `time`: `x` in decimal, preceded
by `-` if negative and padded with zeros to `width` digits. -/
def appendInt (x : Int) (width : Nat) : List Char :=
  let u := x.natAbs
  (if x < 0 then ['-'] else []) ++
  (if width = 2 ∧ u < 100 then [Nat.digitChar (u / 10), Nat.digitChar (u % 10)]
   else if width = 4 ∧ u < 10000 then
     [Nat.digitChar (u / 1000), Nat.digitChar (u / 100 % 10), Nat.digitChar (u / 10 % 10),
      Nat.digitChar (u % 10)]
   else List.replicate (width - (Nat.toDigits 10 u).length) '0' ++ Nat.toDigits 10 u)

/-- The loop of `Time.Format` over the chunks of a layout, for the chunks `2006`,
`01`, `02`, `15`, `04` and `05`; any other character is copied.  It is `Time.Format`
on layouts that hold no other chunk of package `time`, as `ForensicTimeFormat`. -/
def formatChunks (t : Civil) : List Char → List Char
  | '2' :: '0' :: '0' :: '6' :: rest => appendInt t.year 4 ++ formatChunks t rest
  | '0' :: '1' :: rest => appendInt t.month 2 ++ formatChunks t rest
  | '0' :: '2' :: rest => appendInt t.day 2 ++ formatChunks t rest
  | '1' :: '5' :: rest => appendInt t.hour 2 ++ formatChunks t rest
  | '0' :: '4' :: rest => appendInt t.minute 2 ++ formatChunks t rest
  | '0' :: '5' :: rest => appendInt t.second 2 ++ formatChunks t rest
  | c :: rest => c :: formatChunks t rest
  | [] => []

/-- The call `t.UTC().Format(layout)`. -/
def goFormat (layout : String) (t : Time) : String :=
  String.mk (formatChunks t.civil layout.toList)

/-- Two decimal digits. -/
def digits2 (n : Nat) : List Char := [Nat.digitChar (n / 10), Nat.digitChar (n % 10)]

/-- Four decimal digits. -/
def digits4 (n : Nat) : List Char :=
  [Nat.digitChar (n / 1000), Nat.digitChar (n / 100 % 10), Nat.digitChar (n / 10 % 10),
   Nat.digitChar (n % 10)]

/-- Spec: a decimal digit. -/
def isDecimalDigit (c : Char) : Bool := '0' ≤ c && c ≤ '9'

/-- The instant 2025-03-14T09:26:53Z. -/
def piDay : Time := 1741944413000000000

/-! ## The janitor (cleanupExpiredPods, deleteDependencies) -/

/-- Go `t.Add(d)`. -/
def Time.Add (t : Time) (d : Duration) : Time := t + d

/-- Go `t.Before(u)`. -/
def Time.Before (t u : Time) : Bool := decide (t < u)

def Object.asVolumeSnapshot? : Object → Option VolumeSnapshot
  | .snap s => some s
  | _ => none

/-- The call `r.Delete(ctx, obj)`.  A scripted fault fails the request; otherwise
the server removes what it stores under the key of `obj`, and answers `NotFound`
when it stores nothing there. -/
def World.Delete (w : World) (obj : Object) : Option Err × World :=
  let f := w.popFault
  match f.1 with
  | some e => (some e, f.2.record (.delete obj (some e)))
  | none =>
    if f.2.objects.any (fun o => o.sameKey obj) then
      (none,
        { f.2 with objects := f.2.objects.filter (fun o => !o.sameKey obj) }.record
          (.delete obj none))
    else
      (some ⟨ErrKind.notFound, "not found"⟩,
        f.2.record (.delete obj (some ⟨ErrKind.notFound, "not found"⟩)))

/-- The call `r.List(ctx, &cms, client.InNamespace(ns), client.MatchingLabels(sel))`. -/
def World.ListConfigMaps (w : World) (ns : String) (sel : StrMap) :
    Except Err (List ConfigMap) × World :=
  let f := w.popFault
  match f.1 with
  | some e => (.error e, f.2)
  | none =>
    (.ok ((f.2.objects.filterMap Object.asConfigMap?).filter
      (fun p => decide (p.ObjectMeta.Namespace = ns) && matchesLabels sel p.ObjectMeta)), f.2)

/-- The call `r.List(ctx, &secrets, client.InNamespace(ns), client.MatchingLabels(sel))`. -/
def World.ListSecrets (w : World) (ns : String) (sel : StrMap) :
    Except Err (List Secret) × World :=
  let f := w.popFault
  match f.1 with
  | some e => (.error e, f.2)
  | none =>
    (.ok ((f.2.objects.filterMap Object.asSecret?).filter
      (fun p => decide (p.ObjectMeta.Namespace = ns) && matchesLabels sel p.ObjectMeta)), f.2)

/-- The call `r.List(ctx, &snapshots, client.MatchingLabels(sel))`, over every
namespace. -/
def World.ListVolumeSnapshots (w : World) (sel : StrMap) :
    Except Err (List VolumeSnapshot) × World :=
  let f := w.popFault
  match f.1 with
  | some e => (.error e, f.2)
  | none =>
    (.ok ((f.2.objects.filterMap Object.asVolumeSnapshot?).filter
      (fun p => matchesLabels sel p.ObjectMeta)), f.2)

/-- A loop `for _, x := range items` whose body is `r.Delete(ctx, &x)`: the result
of each delete is dropped. -/
def deleteEach (objs : List Object) (w : World) : World :=
  objs.foldl (fun v obj => (v.Delete obj).2) w

/-- The block `// ConfigMaps` of `deleteDependencies`: a failed list deletes nothing. -/
def deleteConfigMaps (cfg : ForensicsConfig) (sourceUID : String) (w : World) : World :=
  match w.ListConfigMaps cfg.TargetNamespace [(LabelSourcePodUID, sourceUID)] with
  | (.ok items, w1) => deleteEach (items.map Object.cm) w1
  | (.error _, w1) => w1

/-- The block `// Secrets` of `deleteDependencies`. -/
def deleteSecrets (cfg : ForensicsConfig) (sourceUID : String) (w : World) : World :=
  match w.ListSecrets cfg.TargetNamespace [(LabelSourcePodUID, sourceUID)] with
  | (.ok items, w1) => deleteEach (items.map Object.secret) w1
  | (.error _, w1) => w1

/-- The block `// VolumeSnapshots` of `deleteDependencies`: the list has no namespace
option. -/
def deleteVolumeSnapshots (sourceUID : String) (w : World) : World :=
  match w.ListVolumeSnapshots [(LabelSourcePodUID, sourceUID)] with
  | (.ok items, w1) => deleteEach (items.map Object.snap) w1
  | (.error _, w1) => w1

def deleteDependencies (cfg : ForensicsConfig) (sourceUID : String) (w : World) : World :=
  deleteVolumeSnapshots sourceUID (deleteSecrets cfg sourceUID (deleteConfigMaps cfg sourceUID w))

/-- One iteration of the loop of `cleanupExpiredPods`, over the listed `pod`.
`ParseDuration` is `time.ParseDuration`. -/
def cleanupPod (ParseDuration : String → Except Err Duration) (cfg : ForensicsConfig)
    (now : Time) (w : World) (pod : Pod) : World :=
  if StrMap.get pod.ObjectMeta.Annotations AnnotationForensicHold = "true" then w
  else
    match StrMap.get? pod.ObjectMeta.Labels LabelForensicTTL with
    | none => w
    | some val =>
      match ParseDuration val with
      | .error _ => w
      | .ok duration =>
        if Time.Before (Time.Add pod.ObjectMeta.CreationTimestamp duration) now then
          let uid := StrMap.get pod.ObjectMeta.Labels LabelSourcePodUID
          match w.Delete (.pod pod) with
          | (some _, w1) => w1
          | (none, w1) => if uid ≠ "" then deleteDependencies cfg uid w1 else w1
        else w

/-- One pass of the janitor. -/
def cleanupExpiredPods (ParseDuration : String → Except Err Duration) (cfg : ForensicsConfig)
    (w : World) : World :=
  match w.ListPods cfg.TargetNamespace [] with
  | (.error _, w1) => w1
  | (.ok pods, w1) =>
    let now := w1.tick
    pods.foldl (cleanupPod ParseDuration cfg now.1) now.2

/-! ## Vocabulary of the janitor claims -/

/-- The specification's condition for deleting a replica at `now`: the hold
annotation is not `"true"`, the ttl label is there and parses as a duration `d`, and
`creation_time + d` is strictly before `now`. -/
def expired (ParseDuration : String → Except Err Duration) (now : Time) (pod : Pod) : Bool :=
  decide (StrMap.get? pod.ObjectMeta.Annotations AnnotationForensicHold ≠ some "true") &&
    match StrMap.get? pod.ObjectMeta.Labels LabelForensicTTL with
    | none => false
    | some val =>
      match ParseDuration val with
      | .error _ => false
      | .ok d => decide (pod.ObjectMeta.CreationTimestamp + d < now)

/-- The value of the label `forensic-source-pod-uid` of a replica (`""` without one). -/
def sourceUID (pod : Pod) : String := StrMap.get pod.ObjectMeta.Labels LabelSourcePodUID

/-- Whether an object is one the cascade for the label value `u` looks for: a config
object or a secret of the forensic namespace, or a volume snapshot of any namespace,
that carries `forensic-source-pod-uid = u`. -/
def isDependency (cfg : ForensicsConfig) (u : String) : Object → Bool
  | .cm c =>
    decide (c.ObjectMeta.Namespace = cfg.TargetNamespace) &&
      decide (StrMap.get? c.ObjectMeta.Labels LabelSourcePodUID = some u)
  | .secret s =>
    decide (s.ObjectMeta.Namespace = cfg.TargetNamespace) &&
      decide (StrMap.get? s.ObjectMeta.Labels LabelSourcePodUID = some u)
  | .snap s => decide (StrMap.get? s.ObjectMeta.Labels LabelSourcePodUID = some u)
  | _ => false

/-- Whether no two objects of a store have the same kind, namespace and name. -/
def uniqueKeys : List Object → Bool
  | [] => true
  | o :: rest => rest.all (fun x => !o.sameKey x) && uniqueKeys rest

/-- The pods of the forensic namespace, in the order a list call returns them. -/
def listedPods (cfg : ForensicsConfig) (w : World) : List Pod :=
  (w.objects.filterMap Object.asPod?).filter
    (fun p => decide (p.ObjectMeta.Namespace = cfg.TargetNamespace))

/-- The wall-clock reading a pass that starts in `w` takes as `now`. -/
def passTime (w : World) : Time := w.popFault.2.tick.1

/-- The label values `forensic-source-pod-uid` of the replicas a run of calls deleted
with success. -/
def deletedSourceUIDs (calls : List Call) : List String :=
  calls.filterMap (fun c =>
    match c with
    | .delete (.pod q) none => some (sourceUID q)
    | _ => none)

/-- Whether a replica refers, by a volume or an environment source, to the config
object or secret `o` of its own namespace. -/
def references (replica : Pod) : Object → Bool
  | .cm c =>
    decide (c.ObjectMeta.Namespace = replica.ObjectMeta.Namespace) &&
      decide (DepRef.configMap c.ObjectMeta.Name ∈ podRefs replica)
  | .secret s =>
    decide (s.ObjectMeta.Namespace = replica.ObjectMeta.Namespace) &&
      decide (DepRef.secret s.ObjectMeta.Name ∈ podRefs replica)
  | _ => false

/-- A `time.ParseDuration` that knows the two ttl values of the scenarios. -/
def demoParseDuration (s : String) : Except Err Duration :=
  if s = "1h0m0s" then .ok 3600000000000
  else if s = "24h0m0s" then .ok 86400000000000
  else .error ⟨ErrKind.other, "time: invalid duration"⟩

/-- A library whose duration text is that of one hour. -/
def hourLib : Lib := { demoLib with DurationString := fun _ => "1h0m0s" }

/-- The replica of a first crash of the workload `clonePod` (exit code 137), as
stored at `piDay`, with the hold annotation an operator set on it. -/
def heldReplica : Pod :=
  let p := forensicPod hourLib demoCfg clonePod
    [("cm/app-config", "prod-app-config"), ("secret/db-creds", "prod-db-creds")]
    "api-abc-logs-x7k2p" "sig-137" "app" 137 "00" [] "" "" piDay
  { p with
    ObjectMeta :=
      { p.ObjectMeta with
        Name := "api-abc-forensic-x7k2p",
        CreationTimestamp := piDay,
        Annotations := StrMap.set p.ObjectMeta.Annotations AnnotationForensicHold "true" } }

/-- The replica of a second crash of the same workload (exit code 1), as stored at
`piDay`. -/
def expiredReplica : Pod :=
  let p := forensicPod hourLib demoCfg clonePod
    [("cm/app-config", "prod-app-config"), ("secret/db-creds", "prod-db-creds")]
    "api-abc-logs-m4q9z" "sig-1" "app" 1 "00" [] "" "" piDay
  { p with
    ObjectMeta :=
      { p.ObjectMeta with Name := "api-abc-forensic-m4q9z", CreationTimestamp := piDay } }

/-- The replica of another workload (uid `u2`), past its ttl too but held. -/
def otherReplica : Pod :=
  { ObjectMeta :=
      { Name := "worker-xyz-forensic-k3d8s", Namespace := "debug-forensics",
        Labels := [(LabelSourcePodUID, "u2"), (LabelForensicTTL, "1h0m0s")],
        Annotations := [(AnnotationForensicHold, "true")],
        CreationTimestamp := piDay },
    Spec :=
      { Containers := [{ Name := "worker" }],
        Volumes := [{ Name := logVolName, ConfigMap := some { Name := "worker-xyz-logs-k3d8s" } }] } }

/-- The log-config object of `heldReplica`. -/
def heldLogs : ConfigMap :=
  { ObjectMeta :=
      { Name := "api-abc-logs-x7k2p", Namespace := "debug-forensics",
        Labels := [(LabelSourcePodUID, "u1")] },
    Data := [(LogConfigMapKey, "first crash")] }

/-- The log-config object of `expiredReplica`. -/
def expiredLogs : ConfigMap :=
  { ObjectMeta :=
      { Name := "api-abc-logs-m4q9z", Namespace := "debug-forensics",
        Labels := [(LabelSourcePodUID, "u1")] },
    Data := [(LogConfigMapKey, "second crash")] }

/-- The log-config object of `otherReplica`. -/
def otherLogs : ConfigMap :=
  { ObjectMeta :=
      { Name := "worker-xyz-logs-k3d8s", Namespace := "debug-forensics",
        Labels := [(LabelSourcePodUID, "u2")] },
    Data := [(LogConfigMapKey, "worker crash")] }

/-- The clone of the config object `app-config`, which both replicas of `clonePod`
use. -/
def sharedClone : ConfigMap :=
  { ObjectMeta :=
      { Name := "prod-app-config", Namespace := "debug-forensics",
        Labels := [(LabelSourcePodUID, "u1")] },
    Data := [("mode", "production")] }

/-- The clone of the secret `db-creds`. -/
def sharedSecret : Secret :=
  { ObjectMeta :=
      { Name := "prod-db-creds", Namespace := "debug-forensics",
        Labels := [("app", "api"), (LabelSourcePodUID, "u1")] },
    SecretType := "Opaque",
    Data := [("username", "admin"), ("password", "hunter2")] }

/-- A config object of the forensic namespace that no replica owns. -/
def rootCA : ConfigMap :=
  { ObjectMeta := { Name := "kube-root-ca.crt", Namespace := "debug-forensics" },
    Data := [("ca.crt", "-----BEGIN CERTIFICATE-----")] }

/-- A volume snapshot taken in the source namespace for the workload `u1`. -/
def sourceSnapshot : VolumeSnapshot :=
  { ObjectMeta :=
      { Name := "forensic-api-abc-data-7hq2m", Namespace := "prod",
        Labels := [(LabelSourcePodUID, "u1"), (LabelForensicTTL, "1h0m0s")] },
    PersistentVolumeClaimName := some "data-claim" }

/-- The cluster two hours after `piDay`: the two replicas of `clonePod`, one held,
with their log-config objects and clones, a held replica of another workload with
its log-config object, and objects the controller did not make.  No request fails. -/
def janitorWorld : World :=
  { objects :=
      [Object.pod heldReplica, Object.pod expiredReplica, Object.pod otherReplica,
       Object.cm heldLogs, Object.cm expiredLogs, Object.cm otherLogs,
       Object.cm sharedClone, Object.secret sharedSecret, Object.cm rootCA,
       Object.snap sourceSnapshot,
       Object.cm { ObjectMeta := { Name := "app-config", Namespace := "prod" },
                   Data := [("mode", "production")] }],
    clock := [piDay + 7200000000000] }

/-- The same cluster, in which the delete of the expired replica fails. -/
def janitorFailWorld : World :=
  { janitorWorld with faults := [none, some ⟨ErrKind.other, "etcdserver: request timed out"⟩] }

/-- The kind and name of every object of a store, in order. -/
def storeKeys (w : World) : List (Kind × String) :=
  w.objects.map (fun o => (o.kind, o.metadata.Name))

/-- What a run of the cascade for the label value `u` did between `w` and `w1`: it
issued the delete requests `δ`, none for a pod, and every object it removed has the
key of an object of `w` that the cascade looks for. -/
structure Cascade (cfg : ForensicsConfig) (u : String) (w w1 : World) (δ : List Call) :
    Prop where
  calls : w1.calls = w.calls ++ δ
  deletes : ∀ c ∈ δ, ∃ obj e, c = Call.delete obj e ∧ obj.kind ≠ Kind.Pod
  subset : ∀ o ∈ w1.objects, o ∈ w.objects
  removed : ∀ o ∈ w.objects, o ∉ w1.objects →
    ∃ d ∈ w.objects, isDependency cfg u d = true ∧ o.sameKey d = true
  faults : w.faults = [] → w1.faults = []
  events : w1.events = w.events
  counters : w1.counters = w.counters

/-- What a run of the janitor's loop over `pods` did between `w` and `w1`, with
`now` the time of the pass and `δ` the requests it issued. -/
structure JanitorTrace (ParseDuration : String → Except Err Duration) (cfg : ForensicsConfig)
    (now : Time) (pods : List Pod) (w w1 : World) (δ : List Call) : Prop where
  calls : w1.calls = w.calls ++ δ
  subset : ∀ o ∈ w1.objects, o ∈ w.objects
  deletes : ∀ c ∈ δ, ∃ obj e, c = Call.delete obj e
  podDeletes : ∀ q e, Call.delete (Object.pod q) e ∈ δ →
    q ∈ pods ∧ expired ParseDuration now q = true
  requested : ∀ q ∈ pods, expired ParseDuration now q = true →
    ∃ e, Call.delete (Object.pod q) e ∈ δ
  removed : ∀ o ∈ w.objects, o ∉ w1.objects →
    ∃ q, Call.delete (Object.pod q) none ∈ δ ∧
      (o.sameKey (Object.pod q) = true ∨
        (sourceUID q ≠ "" ∧
          ∃ d ∈ w.objects, isDependency cfg (sourceUID q) d = true ∧ o.sameKey d = true))
  faults : w.faults = [] → w1.faults = []
  clearedPods : w.faults = [] → ∀ q ∈ pods, expired ParseDuration now q = true →
    ∀ o ∈ w1.objects, o.sameKey (Object.pod q) = false
  clearedDeps : w.faults = [] → ∀ q, Call.delete (Object.pod q) none ∈ δ → sourceUID q ≠ "" →
    ∀ o ∈ w1.objects, isDependency cfg (sourceUID q) o = false
  succeeded : w.faults = [] → ∀ q ∈ pods, expired ParseDuration now q = true →
    Object.pod q ∈ w.objects →
    ∃ r ∈ pods, Call.delete (Object.pod r) none ∈ δ ∧
      (Object.pod q).sameKey (Object.pod r) = true
  events : w1.events = w.events
  counters : w1.counters = w.counters

/-- The kind, name and outcome of every delete request of a run of calls. -/
def deleteKeys (calls : List Call) : List (Kind × String × Bool) :=
  calls.filterMap (fun c =>
    match c with
    | .delete obj e => some (obj.kind, obj.metadata.Name, e.isNone)
    | _ => none)

/-! ## Lemmas -/

theorem isCrashTermination_iff (t : ContainerStateTerminated) :
    isCrashTermination t = true ↔ (t.Reason = "Error" ∨ t.Reason = "OOMKilled" ∨ t.ExitCode ≠ 0) := by
  simp [isCrashTermination, or_assoc]

theorem crashedWith_iff (st : ContainerState) (code : Int) :
    CrashedWith st code ↔ ∃ t, st.Terminated = some t ∧ isCrashTermination t = true ∧ t.ExitCode = code := by
  simp only [CrashedWith, isCrashTermination_iff]

theorem checkStatus_spec (name : String) (state lastState : ContainerState) :
    (checkStatus name state lastState = none ∧
        (¬ ∃ code, CrashedWith state code) ∧ (¬ ∃ code, CrashedWith lastState code)) ∨
    (∃ code, checkStatus name state lastState = some (name, code) ∧
        (CrashedWith state code ∨
          ((¬ ∃ c, CrashedWith state c) ∧ CrashedWith lastState code))) := by
  simp only [crashedWith_iff]
  unfold checkStatus
  cases hs : state.Terminated with
  | none =>
    cases hl : lastState.Terminated with
    | none => left; simp
    | some l =>
      by_cases hc : isCrashTermination l = true
      · right; exact ⟨l.ExitCode, by simp [hc], Or.inr ⟨by simp, l, rfl, hc, rfl⟩⟩
      · left; simp [hc]
  | some t =>
    by_cases ht : isCrashTermination t = true
    · right; exact ⟨t.ExitCode, by simp [ht], Or.inl ⟨t, rfl, ht, rfl⟩⟩
    · cases hl : lastState.Terminated with
      | none => left; simp [ht]
      | some l =>
        by_cases hc : isCrashTermination l = true
        · right; exact ⟨l.ExitCode, by simp [ht, hc], Or.inr ⟨by simp [ht], l, rfl, hc, rfl⟩⟩
        · left; simp [ht, hc]

theorem crashedWith_unique {st : ContainerState} {a b : Int}
    (ha : CrashedWith st a) (hb : CrashedWith st b) : a = b := by
  obtain ⟨t, ht, _, rfl⟩ := ha
  obtain ⟨t', ht', _, rfl⟩ := hb
  rw [ht] at ht'
  cases ht'
  rfl

theorem statusYields_matches {s : ContainerStatus} {name : String} {code : Int}
    (h : StatusYields s name code) : StatusMatches s := by
  rcases h with ⟨_, h | ⟨_, h⟩⟩
  · exact Or.inl ⟨code, h⟩
  · exact Or.inr ⟨code, h⟩

theorem checkStatus_eq_none_iff (s : ContainerStatus) :
    checkStatus s.Name s.State s.LastTerminationState = none ↔ ¬ StatusMatches s := by
  rcases checkStatus_spec s.Name s.State s.LastTerminationState with ⟨h, h1, h2⟩ | ⟨code, h, hc⟩
  · simp [h, StatusMatches, h1, h2]
  · have hm : StatusMatches s := statusYields_matches (show StatusYields s s.Name code from ⟨rfl, hc⟩)
    simp [h, hm]

theorem checkStatus_eq_some_iff (s : ContainerStatus) (name : String) (code : Int) :
    checkStatus s.Name s.State s.LastTerminationState = some (name, code) ↔
      StatusYields s name code := by
  rcases checkStatus_spec s.Name s.State s.LastTerminationState with ⟨h, h1, h2⟩ | ⟨c, h, hc⟩
  · rw [h]
    constructor
    · intro h'; cases h'
    · intro hy
      rcases hy with ⟨_, hy | ⟨_, hy⟩⟩
      · exact absurd ⟨code, hy⟩ h1
      · exact absurd ⟨code, hy⟩ h2
  · rw [h]
    constructor
    · intro h'
      cases h'
      exact ⟨rfl, hc⟩
    · rintro ⟨hn, hy⟩
      subst hn
      have : c = code := by
        rcases hc with hc | ⟨hn1, hc⟩ <;> rcases hy with hy | ⟨hn2, hy⟩
        · exact crashedWith_unique hc hy
        · exact absurd ⟨c, hc⟩ hn2
        · exact absurd ⟨code, hy⟩ hn1
        · exact crashedWith_unique hc hy
      rw [this]

theorem scanStatuses_eq_none_iff (all : List ContainerStatus) :
    scanStatuses all = none ↔ ∀ s ∈ all, ¬ StatusMatches s := by
  induction all with
  | nil => simp [scanStatuses]
  | cons s rest ih =>
    unfold scanStatuses
    cases h : checkStatus s.Name s.State s.LastTerminationState with
    | none =>
      have := (checkStatus_eq_none_iff s).mp h
      simp [ih, this]
    | some r =>
      have hm : StatusMatches s := by
        by_contra hc
        rw [(checkStatus_eq_none_iff s).mpr hc] at h
        cases h
      simp [hm]

theorem scanStatuses_eq_some_iff (all : List ContainerStatus) (name : String) (code : Int) :
    scanStatuses all = some (name, code) ↔ FirstMatch all name code := by
  induction all with
  | nil =>
    simp [scanStatuses, FirstMatch]
  | cons s rest ih =>
    unfold scanStatuses
    cases h : checkStatus s.Name s.State s.LastTerminationState with
    | none =>
      have hn := (checkStatus_eq_none_iff s).mp h
      simp only []
      rw [ih]
      constructor
      · rintro ⟨pre, s', post, rfl, hpre, hy⟩
        refine ⟨s :: pre, s', post, rfl, ?_, hy⟩
        intro p hp
        rcases List.mem_cons.mp hp with rfl | hp
        · exact hn
        · exact hpre p hp
      · rintro ⟨pre, s', post, heq, hpre, hy⟩
        cases pre with
        | nil =>
          simp only [List.nil_append, List.cons.injEq] at heq
          obtain ⟨rfl, rfl⟩ := heq
          exact absurd (statusYields_matches hy) hn
        | cons p pre =>
          simp only [List.cons_append, List.cons.injEq] at heq
          obtain ⟨rfl, rfl⟩ := heq
          exact ⟨pre, s', post, rfl, fun q hq => hpre q (List.mem_cons_of_mem _ hq), hy⟩
    | some r =>
      obtain ⟨rn, rc⟩ := r
      have hy := (checkStatus_eq_some_iff s rn rc).mp h
      simp only [Option.some.injEq, Prod.mk.injEq]
      constructor
      · rintro ⟨rfl, rfl⟩
        exact ⟨[], s, rest, rfl, by simp, hy⟩
      · rintro ⟨pre, s', post, heq, hpre, hy'⟩
        cases pre with
        | nil =>
          simp only [List.nil_append, List.cons.injEq] at heq
          obtain ⟨rfl, rfl⟩ := heq
          have := (checkStatus_eq_some_iff s name code).mpr hy'
          rw [h] at this
          cases this
          exact ⟨rfl, rfl⟩
        | cons p pre =>
          simp only [List.cons_append, List.cons.injEq] at heq
          obtain ⟨rfl, rfl⟩ := heq
          exact absurd (statusYields_matches hy) (hpre s (List.mem_cons_self _ _))

theorem Frame.refl (w : World) : Frame w w :=
  ⟨List.prefix_refl _, List.prefix_refl _, List.prefix_refl _, List.prefix_refl _, rfl⟩

theorem Frame.trans {a b c : World} (h1 : Frame a b) (h2 : Frame b c) : Frame a c :=
  ⟨h1.objects.trans h2.objects, h1.events.trans h2.events, h1.counters.trans h2.counters,
    h1.calls.trans h2.calls, h2.podCreates.trans h1.podCreates⟩

@[simp]
theorem popFault_objects (w : World) : w.popFault.2.objects = w.objects := by
  unfold World.popFault; split <;> rfl

@[simp]
theorem popFault_calls (w : World) : w.popFault.2.calls = w.calls := by
  unfold World.popFault; split <;> rfl

@[simp]
theorem popFault_events (w : World) : w.popFault.2.events = w.events := by
  unfold World.popFault; split <;> rfl

@[simp]
theorem popFault_counters (w : World) : w.popFault.2.counters = w.counters := by
  unfold World.popFault; split <;> rfl

@[simp]
theorem popFault_clock (w : World) : w.popFault.2.clock = w.clock := by
  unfold World.popFault; split <;> rfl

@[simp]
theorem tick_objects (w : World) : w.tick.2.objects = w.objects := by
  unfold World.tick; split <;> rfl

@[simp]
theorem tick_calls (w : World) : w.tick.2.calls = w.calls := by
  unfold World.tick; split <;> rfl

@[simp]
theorem tick_events (w : World) : w.tick.2.events = w.events := by
  unfold World.tick; split <;> rfl

@[simp]
theorem tick_counters (w : World) : w.tick.2.counters = w.counters := by
  unfold World.tick; split <;> rfl

@[simp]
theorem popSuffix_objects (w : World) : w.popSuffix.2.objects = w.objects := by
  unfold World.popSuffix; split <;> rfl

@[simp]
theorem popSuffix_calls (w : World) : w.popSuffix.2.calls = w.calls := by
  unfold World.popSuffix; split <;> rfl

@[simp]
theorem popSuffix_events (w : World) : w.popSuffix.2.events = w.events := by
  unfold World.popSuffix; split <;> rfl

@[simp]
theorem popSuffix_counters (w : World) : w.popSuffix.2.counters = w.counters := by
  unfold World.popSuffix; split <;> rfl

@[simp]
theorem assignName_objects (w : World) (m : ObjectMeta) :
    (w.assignName m).2.objects = w.objects := by
  unfold World.assignName; split <;> simp

@[simp]
theorem assignName_calls (w : World) (m : ObjectMeta) :
    (w.assignName m).2.calls = w.calls := by
  unfold World.assignName; split <;> simp

@[simp]
theorem assignName_events (w : World) (m : ObjectMeta) :
    (w.assignName m).2.events = w.events := by
  unfold World.assignName; split <;> simp

@[simp]
theorem assignName_counters (w : World) (m : ObjectMeta) :
    (w.assignName m).2.counters = w.counters := by
  unfold World.assignName; split <;> simp

@[simp]
theorem record_objects (w : World) (c : Call) : (w.record c).objects = w.objects := rfl
@[simp]
theorem record_calls (w : World) (c : Call) : (w.record c).calls = w.calls ++ [c] := rfl
@[simp]
theorem record_events (w : World) (c : Call) : (w.record c).events = w.events := rfl
@[simp]
theorem record_counters (w : World) (c : Call) : (w.record c).counters = w.counters := rfl

@[simp]
theorem Eventf_objects (w : World) (p : Pod) (a b c : String) :
    (w.Eventf p a b c).objects = w.objects := rfl

@[simp]
theorem Eventf_calls (w : World) (p : Pod) (a b c : String) :
    (w.Eventf p a b c).calls = w.calls := rfl

@[simp]
theorem Eventf_counters (w : World) (p : Pod) (a b c : String) :
    (w.Eventf p a b c).counters = w.counters := rfl

@[simp]
theorem Eventf_events (w : World) (p : Pod) (a b c : String) :
    (w.Eventf p a b c).events = w.events ++ [⟨p.ObjectMeta.Namespace, p.ObjectMeta.Name, a, b, c⟩] := rfl

@[simp]
theorem Inc_objects (w : World) (m : String) (v : List String) :
    (w.Inc m v).objects = w.objects := rfl

@[simp]
theorem Inc_calls (w : World) (m : String) (v : List String) :
    (w.Inc m v).calls = w.calls := rfl

@[simp]
theorem Inc_events (w : World) (m : String) (v : List String) :
    (w.Inc m v).events = w.events := rfl

@[simp]
theorem Inc_counters (w : World) (m : String) (v : List String) :
    (w.Inc m v).counters = w.counters ++ [⟨m, v⟩] := rfl

theorem Frame.of_eq {w w' : World} (ho : w'.objects = w.objects) (he : w'.events = w.events)
    (hc : w'.counters = w.counters) (hk : w'.calls = w.calls) : Frame w w' :=
  ⟨by rw [ho], by rw [he], by rw [hc], by rw [hk], by rw [hk]⟩

theorem Frame.Eventf (w : World) (p : Pod) (a b c : String) : Frame w (w.Eventf p a b c) :=
  ⟨by simp, by simp, by simp, by simp, by simp⟩

theorem Frame.Inc (w : World) (m : String) (v : List String) : Frame w (w.Inc m v) :=
  ⟨by simp, by simp, by simp, by simp, by simp⟩

theorem Frame.tick (w : World) : Frame w w.tick.2 := Frame.of_eq (by simp) (by simp) (by simp) (by simp)

theorem Frame.popFault (w : World) : Frame w w.popFault.2 :=
  Frame.of_eq (by simp) (by simp) (by simp) (by simp)

theorem Create_calls (w : World) (obj : Object) :
    (w.Create obj).2.calls = w.calls ++ [Call.create obj (errOf (w.Create obj).1)] := by
  unfold World.Create
  simp only []
  split
  · simp [errOf]
  · split <;> simp [errOf]

theorem sameKey_self (o : Object) : o.sameKey o = true := by
  simp [Object.sameKey]

theorem Create_error {w w' : World} {obj : Object} {e : Err}
    (h : w.Create obj = (.error e, w')) :
    w'.objects = w.objects ∧ w'.calls = w.calls ++ [Call.create obj (some e)] ∧
      w'.events = w.events ∧ w'.counters = w.counters := by
  unfold World.Create at h
  simp only [] at h
  split at h
  · simp only [Prod.mk.injEq, Except.error.injEq] at h
    obtain ⟨rfl, rfl⟩ := h
    simp
  · split at h
    · simp only [Prod.mk.injEq, Except.error.injEq] at h
      obtain ⟨rfl, rfl⟩ := h
      simp
    · simp at h

theorem Create_ok {w w' : World} {obj stored : Object}
    (h : w.Create obj = (.ok stored, w')) :
    w'.objects = w.objects ++ [stored] ∧ w'.calls = w.calls ++ [Call.create obj none] ∧
      w'.events = w.events ∧ w'.counters = w.counters ∧
      (∃ name t, stored = obj.storedAs name t) ∧
      (∀ o ∈ w.objects, o.sameKey stored = false) := by
  unfold World.Create at h
  simp only [] at h
  split at h
  · simp at h
  · split at h
    · simp at h
    · rename_i hfault hdup
      simp only [Prod.mk.injEq, Except.ok.injEq] at h
      obtain ⟨rfl, rfl⟩ := h
      refine ⟨by simp, by simp, by simp, by simp, ⟨_, _, rfl⟩, ?_⟩
      intro o ho
      simp only [assignName_objects, popFault_objects, List.any_eq_true, not_exists,
            not_and, Bool.not_eq_true] at hdup
      exact hdup o ho

theorem isPodCreate_of_kind {obj : Object} (h : obj.kind ≠ Kind.Pod) (r : Option Err) :
    (Call.create obj r).isPodCreate = false := by
  cases obj <;> simp_all [Call.isPodCreate, Object.kind]

theorem Create_frame {w w1 : World} {obj : Object} {r : Except Err Object}
    (hc : w.Create obj = (r, w1)) (h : obj.kind ≠ Kind.Pod) : Frame w w1 := by
  have hp := isPodCreate_of_kind h
  cases r with
  | error e =>
    obtain ⟨ho, hk, he, hn⟩ := Create_error hc
    exact ⟨by simp [ho], by simp [he], by simp [hn], by simp [hk],
      by simp [hk, podCreates, List.filter_append, hp]⟩
  | ok stored =>
    obtain ⟨ho, hk, he, hn, _, _⟩ := Create_ok hc
    exact ⟨by simp [ho], by simp [he], by simp [hn], by simp [hk],
      by simp [hk, podCreates, List.filter_append, hp]⟩

@[simp]
theorem GetPod_snd (w : World) (ns name : String) : (w.GetPod ns name).2 = w.popFault.2 := by
  unfold World.GetPod
  simp only []
  split
  · rfl
  · split <;> rfl

@[simp]
theorem GetConfigMap_snd (w : World) (ns name : String) :
    (w.GetConfigMap ns name).2 = w.popFault.2 := by
  unfold World.GetConfigMap
  simp only []
  split
  · rfl
  · split <;> rfl

@[simp]
theorem GetSecret_snd (w : World) (ns name : String) :
    (w.GetSecret ns name).2 = w.popFault.2 := by
  unfold World.GetSecret
  simp only []
  split
  · rfl
  · split <;> rfl

@[simp]
theorem ListPods_snd (w : World) (ns : String) (sel : StrMap) :
    (w.ListPods ns sel).2 = w.popFault.2 := by
  unfold World.ListPods
  simp only []
  split <;> rfl

theorem ensureNamespace_frame (cfg : ForensicsConfig) (w : World) :
    Frame w (ensureNamespace cfg w).2 := by
  unfold ensureNamespace
  simp only []
  split
  · rename_i e w1 h
    have := Create_frame h (by simp [Object.kind])
    split <;> exact this
  · rename_i o w1 h
    have := Create_frame h (by simp [Object.kind])
    exact this

theorem ensureNetworkPolicy_frame (cfg : ForensicsConfig) (w : World) :
    Frame w (ensureNetworkPolicy cfg w).2 := by
  unfold ensureNetworkPolicy
  simp only []
  split
  · rename_i e w1 h
    have := Create_frame h (by simp [Object.kind])
    split <;> exact this
  · rename_i o w1 h
    have := Create_frame h (by simp [Object.kind])
    exact this

theorem uploadLogs_frame (lib : Lib) (env : Env) (pod : Pod) (logs : String) (w : World) :
    Frame w (uploadLogs lib env pod logs w).2 := by
  unfold uploadLogs
  simp only []
  split
  · have h1 : Frame w (w.tick.2.record (Call.upload (uploadKey lib pod w.tick.1) logs
        (env.Upload (uploadKey lib pod w.tick.1) logs).2)) :=
      ⟨by simp, by simp, by simp, by simp, by simp [podCreates, List.filter_append, Call.isPodCreate]⟩
    split
    · exact h1.trans (Frame.Eventf _ _ _ _ _)
    · split
      · exact h1.trans (Frame.Eventf _ _ _ _ _)
      · exact h1
  · exact Frame.refl w

theorem createLogConfigMap_frame (cfg : ForensicsConfig) (pod : Pod) (logs : String) (w : World) :
    Frame w (createLogConfigMap cfg pod logs w).2 := by
  unfold createLogConfigMap
  simp only []
  split
  · rename_i e w1 h
    have := Create_frame h (by simp [Object.kind])
    exact this
  · rename_i o w1 h
    have := Create_frame h (by simp [Object.kind])
    exact this

theorem handleConfigMap_frame (cfg : ForensicsConfig) (pod : Pod) (name : String)
    (rm : StrMap) (w : World) : Frame w (handleConfigMap cfg pod name rm w).2.2 := by
  unfold handleConfigMap
  simp only []
  split
  · exact Frame.refl w
  · split
    · rename_i e w1 h
      have h2 : w1 = w.popFault.2 := by
        have := GetConfigMap_snd w pod.ObjectMeta.Namespace name
        rw [h] at this; exact this
      rw [h2]; exact Frame.popFault w
    · rename_i src w1 h
      have h2 : w1 = w.popFault.2 := by
        have := GetConfigMap_snd w pod.ObjectMeta.Namespace name
        rw [h] at this; exact this
      subst h2
      split
      · rename_i e w2 hc
        have := Create_frame hc (by simp [Object.kind])
        split <;> exact (Frame.popFault w).trans this
      · rename_i o w2 hc
        have := Create_frame hc (by simp [Object.kind])
        exact (Frame.popFault w).trans this

theorem handleSecret_frame (cfg : ForensicsConfig) (pod : Pod) (name : String)
    (rm : StrMap) (w : World) : Frame w (handleSecret cfg pod name rm w).2.2 := by
  unfold handleSecret
  simp only []
  split
  · exact Frame.refl w
  · split
    · rename_i e w1 h
      have h2 : w1 = w.popFault.2 := by
        have := GetSecret_snd w pod.ObjectMeta.Namespace name
        rw [h] at this; exact this
      rw [h2]; exact Frame.popFault w
    · rename_i src w1 h
      have h2 : w1 = w.popFault.2 := by
        have := GetSecret_snd w pod.ObjectMeta.Namespace name
        rw [h] at this; exact this
      subst h2
      split
      · rename_i e w2 hc
        have := Create_frame hc (by simp [Object.kind])
        split <;> exact (Frame.popFault w).trans this
      · rename_i o w2 hc
        have := Create_frame hc (by simp [Object.kind])
        exact (Frame.popFault w).trans this

theorem cloneRefs_frame (cfg : ForensicsConfig) (pod : Pod) (refs : List DepRef) :
    ∀ (rm : StrMap) (w : World), Frame w (cloneRefs cfg pod refs rm w).2 := by
  induction refs with
  | nil => intro rm w; exact Frame.refl w
  | cons ref rest ih =>
    intro rm w
    unfold cloneRefs
    have hf : Frame w (handleRef cfg pod ref rm w).2.2 := by
      cases ref with
      | configMap name => exact handleConfigMap_frame cfg pod name rm w
      | secret name => exact handleSecret_frame cfg pod name rm w
    split
    · rename_i e rm1 w1 h
      rw [h] at hf; exact hf
    · rename_i rm1 w1 h
      rw [h] at hf; exact hf.trans (ih rm1 w1)

theorem cloneDependencies_frame (cfg : ForensicsConfig) (pod : Pod) (w : World) :
    Frame w (cloneDependencies cfg pod w).2 :=
  cloneRefs_frame cfg pod _ _ _

theorem snapshotVolumes_frame (lib : Lib) (cfg : ForensicsConfig) (pod : Pod) (vols : List Volume) :
    ∀ (m : StrMap) (w : World), Frame w (snapshotVolumes lib cfg pod vols m w).2 := by
  induction vols with
  | nil => intro m w; exact Frame.refl w
  | cons vol rest ih =>
    intro m w
    unfold snapshotVolumes
    split
    · exact ih m w
    · simp only []
      split
      · rename_i e w1 hc
        have := Create_frame hc (by simp [Object.kind])
        exact this
      · rename_i o w1 hc
        have := Create_frame hc (by simp [Object.kind])
        exact this.trans (ih _ _)

theorem takeSnapshots_frame (lib : Lib) (cfg : ForensicsConfig) (pod : Pod) (w : World) :
    Frame w (takeSnapshots lib cfg pod w).2 := by
  unfold takeSnapshots
  have := snapshotVolumes_frame lib cfg pod pod.Spec.Volumes [] w
  unfold snapshotPVCs
  split
  · rename_i e w1 h
    rw [h] at this
    exact this.trans (Frame.Eventf _ _ _ _ _)
  · rename_i m w1 h
    rw [h] at this
    split
    · exact this.trans (Frame.Eventf _ _ _ _ _)
    · exact this

theorem triggerCheckpoint_frame (env : Env) (pod : Pod) (c : String) (w : World) :
    Frame w (triggerCheckpoint env pod c w).2 := by
  unfold triggerCheckpoint
  simp only []
  split
  · exact Frame.refl w
  · split <;>
      exact ⟨by simp, by simp, by simp, by simp,
        by simp [podCreates, List.filter_append, Call.isPodCreate]⟩

theorem takeCheckpoint_frame (env : Env) (cfg : ForensicsConfig) (pod : Pod) (c : String)
    (w : World) : Frame w (takeCheckpoint env cfg pod c w).2 := by
  unfold takeCheckpoint
  have := triggerCheckpoint_frame env pod c w
  split
  · split
    · rename_i e w1 h
      rw [h] at this
      exact this.trans (Frame.Eventf _ _ _ _ _)
    · rename_i l w1 h
      rw [h] at this
      exact this.trans (Frame.Eventf _ _ _ _ _)
  · exact Frame.refl w

theorem EncodeToString_length (bs : List Byte) : (EncodeToString bs).length = 2 * bs.length := by
  induction bs with
  | nil => rfl
  | cons b rest ih => simp [EncodeToString, ih]; omega

theorem hextable_getD_hex (i : Nat) (h : i < 16) : isLowerHex (hextable.getD i '0') = true := by
  interval_cases i <;> decide

theorem hextable_hi (v : Byte) : isLowerHex (hextable.getD (v.val >>> 4) '0') = true := by
  apply hextable_getD_hex
  have := v.isLt
  rw [Nat.shiftRight_eq_div_pow]
  omega

theorem hextable_lo (v : Byte) : isLowerHex (hextable.getD (v.val &&& 0x0f) '0') = true := by
  apply hextable_getD_hex
  have : v.val &&& 0x0f = v.val % 2 ^ 4 := Nat.and_pow_two_sub_one_eq_mod v.val 4
  rw [this]
  omega

theorem EncodeToString_hex (bs : List Byte) : ∀ c ∈ EncodeToString bs, isLowerHex c = true := by
  induction bs with
  | nil => simp [EncodeToString]
  | cons b rest ih =>
    intro c hc
    simp only [EncodeToString, List.mem_cons] at hc
    rcases hc with rfl | rfl | hc
    · exact hextable_hi b
    · exact hextable_lo b
    · exact ih c hc

theorem isLowerHex_isAlnum {c : Char} (h : isLowerHex c = true) : isAlnum c = true := by
  simp only [isLowerHex, isAlnum, Bool.or_eq_true, Bool.and_eq_true, decide_eq_true_eq] at *
  rcases h with ⟨h1, h2⟩ | ⟨h1, h2⟩
  · exact Or.inr ⟨h1, h2⟩
  · refine Or.inl (Or.inr ⟨h1, ?_⟩)
    exact le_trans h2 (by decide)

theorem matchesLabelValue_of_alnum (cs : List Char) (hlen : 2 ≤ cs.length)
    (h : ∀ c ∈ cs, isAlnum c = true) : MatchesLabelValue cs := by
  match cs, hlen, h with
  | a :: rest, hlen, h =>
    have hne : rest ≠ [] := by
      intro hr; subst hr; simp at hlen
    refine ⟨a, rest.dropLast, rest.getLast hne, ?_, h a (List.mem_cons_self _ _), ?_, ?_⟩
    · rw [List.dropLast_append_getLast hne]
    · intro c hc
      have := h c (List.mem_cons_of_mem _ (List.mem_of_mem_dropLast hc))
      simp [isLabelChar, this]
    · exact h _ (List.mem_cons_of_mem _ (List.getLast_mem hne))

theorem signature_data (lib : Lib) (pod : Pod) (c : String) (e : Int) :
    (getCrashSignature lib pod c e).data =
      (EncodeToString (lib.Sum256 (signatureInput pod c e)).bytes).take 63 := rfl

theorem signature_hex_length (lib : Lib) (s : String) :
    (EncodeToString (lib.Sum256 s).bytes).length = 64 := by
  rw [EncodeToString_length, (lib.Sum256 s).size]

theorem tick_fst_congr (w w' : World) (h : w.clock = w'.clock) : w.tick.1 = w'.tick.1 := by
  unfold World.tick
  rw [h]
  split <;> rfl

theorem Frame.of_GetPod {w w1 : World} {ns name : String} {r : Except Err Pod}
    (h : w.GetPod ns name = (r, w1)) : Frame w w1 := by
  have := GetPod_snd w ns name
  rw [h] at this
  simp only at this
  rw [this]
  exact Frame.popFault w

theorem Frame.of_ListPods {w w1 : World} {ns : String} {sel : StrMap} {r : Except Err (List Pod)}
    (h : w.ListPods ns sel = (r, w1)) : Frame w w1 := by
  have := ListPods_snd w ns sel
  rw [h] at this
  simp only at this
  rw [this]
  exact Frame.popFault w

/-- Past the rate limit `Reconcile` is `materialize`. -/
theorem Reconcile_of_enters {lib : Lib} {cfg : ForensicsConfig} {req : Request} {w : World}
    {pod : Pod} {w0 : World} (env : Env) (h : EntersMaterialization lib cfg req w pod w0) :
    Reconcile lib env cfg req w =
      materialize lib env cfg pod (crashCheck pod).crashedContainerName (crashCheck pod).exitCode
        (getCrashSignature lib pod (crashCheck pod).crashedContainerName (crashCheck pod).exitCode)
        w0 := by
  obtain ⟨hw, hi, ht, w1, fps, w3, hget, hdel, hcrash, hlist, hrate, rfl⟩ := h
  unfold Reconcile
  rw [if_neg hw, if_neg hi, if_neg ht, hget]
  simp only []
  unfold reconcilePod
  simp only [hdel, hcrash, hlist, hrate]
  simp

theorem enters_frame {lib : Lib} {cfg : ForensicsConfig} {req : Request} {w : World}
    {pod : Pod} {w0 : World} (h : EntersMaterialization lib cfg req w pod w0) :
    Frame w w0 ∧ w0.objects = w.objects ∧ w0.calls = w.calls := by
  obtain ⟨hw, hi, ht, w1, fps, w3, hget, hdel, hcrash, hlist, hrate, rfl⟩ := h
  have h1 := Frame.of_GetPod hget
  have h3 := Frame.of_ListPods hlist
  have e1 := GetPod_snd w req.Namespace req.Name
  rw [hget] at e1
  simp only at e1
  have e3 := ListPods_snd (w1.Inc ForensicCrashesTotal [pod.ObjectMeta.Namespace, "CrashDetected"])
    cfg.TargetNamespace [(LabelCrashSignature,
          getCrashSignature lib pod (crashCheck pod).crashedContainerName (crashCheck pod).exitCode)]
  rw [hlist] at e3
  simp only at e3
  refine ⟨((h1.trans (Frame.Inc _ _ _)).trans h3).trans (Frame.tick _), ?_, ?_⟩
  · rw [tick_objects, e3, popFault_objects, Inc_objects, e1, popFault_objects]
  · rw [tick_calls, e3, popFault_calls, Inc_calls, e1, popFault_calls]

/-- Either `Reconcile` stops before materializing, leaving store, calls and events
as they were, or it enters materialization. -/
theorem Reconcile_cases (lib : Lib) (env : Env) (cfg : ForensicsConfig) (req : Request)
    (w : World) :
    ((Reconcile lib env cfg req w).2.objects = w.objects ∧
      (Reconcile lib env cfg req w).2.calls = w.calls ∧
      (Reconcile lib env cfg req w).2.events = w.events) ∨
    ∃ pod w0, EntersMaterialization lib cfg req w pod w0 := by
  by_cases hw : cfg.WatchNamespaces.length > 0 ∧ req.Namespace ∉ cfg.WatchNamespaces
  · left; unfold Reconcile; rw [if_pos hw]; exact ⟨rfl, rfl, rfl⟩
  by_cases hi : req.Namespace ∈ cfg.IgnoreNamespaces
  · left; unfold Reconcile; rw [if_neg hw, if_pos hi]; exact ⟨rfl, rfl, rfl⟩
  by_cases ht : req.Namespace = cfg.TargetNamespace
  · left; unfold Reconcile; rw [if_neg hw, if_neg hi, if_pos ht]; exact ⟨rfl, rfl, rfl⟩
  cases hget : w.GetPod req.Namespace req.Name with
  | mk r w1 =>
    have e1 := GetPod_snd w req.Namespace req.Name
    rw [hget] at e1
    simp only at e1
    cases r with
    | error e =>
      left; unfold Reconcile; rw [if_neg hw, if_neg hi, if_neg ht, hget]
      simp only [e1]; simp
    | ok pod =>
      have hR : Reconcile lib env cfg req w = reconcilePod lib env cfg pod w1 := by
        unfold Reconcile; rw [if_neg hw, if_neg hi, if_neg ht, hget]
      by_cases hdel : MetaTimeIsZero pod.ObjectMeta.DeletionTimestamp = false
      · left; rw [hR]; unfold reconcilePod; rw [if_pos hdel]; simp [e1]
      by_cases hcrash : (crashCheck pod).isCrash = false
      · left; rw [hR]; unfold reconcilePod; rw [if_neg hdel]; simp only []; rw [if_pos hcrash]
        simp [e1]
      cases hlist : (w1.Inc ForensicCrashesTotal [pod.ObjectMeta.Namespace, "CrashDetected"]).ListPods
        cfg.TargetNamespace [(LabelCrashSignature,
          getCrashSignature lib pod (crashCheck pod).crashedContainerName (crashCheck pod).exitCode)] with
      | mk r3 w3 =>
        have e3 := ListPods_snd (w1.Inc ForensicCrashesTotal [pod.ObjectMeta.Namespace, "CrashDetected"])
          cfg.TargetNamespace [(LabelCrashSignature,
            getCrashSignature lib pod (crashCheck pod).crashedContainerName (crashCheck pod).exitCode)]
        rw [hlist] at e3
        simp only at e3
        cases r3 with
        | error e =>
          left; rw [hR]; unfold reconcilePod; rw [if_neg hdel]; simp only []; rw [if_neg hcrash, hlist]
          simp [e3, e1]
        | ok fps =>
          by_cases hrate : rateLimited cfg w3.tick.1 fps = true
          · left; rw [hR]; unfold reconcilePod; rw [if_neg hdel]; simp only []
            rw [if_neg hcrash, hlist]; simp only []; rw [if_pos hrate]
            simp [e3, e1]
          · right
            refine ⟨pod, w3.tick.2, hw, hi, ht, w1, fps, w3, hget, ?_, ?_, hlist, ?_, rfl⟩
            · simpa using hdel
            · simpa using hcrash
            · simpa using hrate

theorem createForensicPod_error {lib : Lib} {cfg : ForensicsConfig} {pod : Pod} {rm : StrMap}
    {logCM sig c : String} {code : Int} {hash : String} {snaps : StrMap} {ckpt s3 : String}
    {w w1 : World} {e : Err}
    (h : createForensicPod lib cfg pod rm logCM sig c code hash snaps ckpt s3 w = (some e, w1)) :
    w1.objects = w.objects ∧ w1.events = w.events ∧ w1.counters = w.counters ∧
      w1.calls = w.calls ++
        [Call.create (.pod (forensicPod lib cfg pod rm logCM sig c code hash snaps ckpt s3 w.tick.1))
          (some e)] := by
  unfold createForensicPod at h
  simp only [] at h
  split at h
  · rename_i e' w' hc
    simp only [Prod.mk.injEq, Option.some.injEq] at h
    obtain ⟨rfl, rfl⟩ := h
    obtain ⟨ho, hk, he, hn⟩ := Create_error hc
    simp [ho, hk, he, hn]
  · simp at h

theorem createForensicPod_ok {lib : Lib} {cfg : ForensicsConfig} {pod : Pod} {rm : StrMap}
    {logCM sig c : String} {code : Int} {hash : String} {snaps : StrMap} {ckpt s3 : String}
    {w w1 : World}
    (h : createForensicPod lib cfg pod rm logCM sig c code hash snaps ckpt s3 w = (none, w1)) :
    ∃ name t,
      w1.objects = w.objects ++
        [(Object.pod (forensicPod lib cfg pod rm logCM sig c code hash snaps ckpt s3 w.tick.1)).storedAs
          name t] ∧
      w1.events = w.events ∧ w1.counters = w.counters ∧
      w1.calls = w.calls ++
        [Call.create (.pod (forensicPod lib cfg pod rm logCM sig c code hash snaps ckpt s3 w.tick.1))
          none] ∧
      ∀ o ∈ w.objects, o.sameKey
        ((Object.pod (forensicPod lib cfg pod rm logCM sig c code hash snaps ckpt s3 w.tick.1)).storedAs
          name t) = false := by
  unfold createForensicPod at h
  simp only [] at h
  split at h
  · simp at h
  · rename_i o w' hc
    simp only [Prod.mk.injEq, true_and] at h
    subst h
    obtain ⟨ho, hk, he, hn, ⟨name, t, rfl⟩, hs⟩ := Create_ok hc
    refine ⟨name, t, ?_, ?_, ?_, ?_, ?_⟩
    · simpa using ho
    · simpa using he
    · simpa using hn
    · simpa using hk
    · simpa using hs

theorem storedAs_pod (p : Pod) (name : String) (t : Time) :
    (Object.pod p).storedAs name t =
      Object.pod { p with ObjectMeta := { p.ObjectMeta with Name := name, CreationTimestamp := t } } :=
  rfl

/-- A successful `createForensicPod` stores one new pod: the built replica, named
and stamped by the server. -/
theorem createForensicPod_stores {lib : Lib} {cfg : ForensicsConfig} {pod : Pod} {rm : StrMap}
    {logCM sig c : String} {code : Int} {hash : String} {snaps : StrMap} {ckpt s3 : String}
    {w w1 : World}
    (h : createForensicPod lib cfg pod rm logCM sig c code hash snaps ckpt s3 w = (none, w1)) :
    ∃ replica : Pod,
      w1.objects = w.objects ++ [Object.pod replica] ∧
      (∀ o ∈ w.objects, o.sameKey (Object.pod replica) = false) ∧
      replica.ObjectMeta.Namespace = cfg.TargetNamespace ∧
      replica.ObjectMeta.Labels =
        (forensicPod lib cfg pod rm logCM sig c code hash snaps ckpt s3 w.tick.1).ObjectMeta.Labels ∧
      replica.ObjectMeta.Annotations = forensicAnnotations pod c code hash snaps ckpt s3 ∧
      replica.Spec = (forensicPod lib cfg pod rm logCM sig c code hash snaps ckpt s3 w.tick.1).Spec := by
  obtain ⟨name, t, hobj, -, -, -, hnew⟩ := createForensicPod_ok h
  rw [storedAs_pod] at hobj hnew
  exact ⟨_, hobj, hnew, rfl, rfl, rfl, rfl⟩

/-- `materialize` as `Reconcile` calls it for `pod`. -/
theorem Reconcile_eq {lib : Lib} {cfg : ForensicsConfig} {req : Request} {w : World}
    {pod : Pod} {w0 : World} (env : Env) (h : EntersMaterialization lib cfg req w pod w0) :
    Reconcile lib env cfg req w =
      materialize lib env cfg pod (crashedName pod) (crashCheck pod).exitCode (signatureOf lib pod)
        w0 :=
  Reconcile_of_enters env h

theorem materialize_ns_fail {lib : Lib} {env : Env} {cfg : ForensicsConfig} {pod : Pod}
    {w0 wa : World} {e : Err} (hns : ensureNamespace cfg (started pod w0) = (some e, wa)) :
    materialize lib env cfg pod (crashedName pod) (crashCheck pod).exitCode (signatureOf lib pod) w0
      = (some e,
          wa.Inc ForensicPodCreationErrorsTotal [pod.ObjectMeta.Namespace, "EnsureNamespace"]) := by
  unfold materialize
  simp only [crashedName]
  unfold started at hns
  rw [hns]

theorem materialize_np_fail {lib : Lib} {env : Env} {cfg : ForensicsConfig} {pod : Pod}
    {w0 wa wb : World} {e : Err} (hns : ensureNamespace cfg (started pod w0) = (none, wa))
    (hnp : ensureNetworkPolicy cfg wa = (some e, wb)) :
    materialize lib env cfg pod (crashedName pod) (crashCheck pod).exitCode (signatureOf lib pod) w0
      = (some e,
          wb.Inc ForensicPodCreationErrorsTotal [pod.ObjectMeta.Namespace, "EnsureNetworkPolicy"]) := by
  unfold materialize
  simp only [crashedName]
  unfold started at hns
  rw [hns]
  simp only []
  rw [hnp]

theorem materialize_from {lib : Lib} {env : Env} {cfg : ForensicsConfig} {pod : Pod}
    {w0 wa wb : World} (hns : ensureNamespace cfg (started pod w0) = (none, wa))
    (hnp : ensureNetworkPolicy cfg wa = (none, wb)) :
    materialize lib env cfg pod (crashedName pod) (crashCheck pod).exitCode (signatureOf lib pod) w0
      = materializeFrom lib env cfg pod (crashedName pod) (crashCheck pod).exitCode
          (signatureOf lib pod) (crashedLogs env cfg pod)
          (uploadLogs lib env pod (crashedLogs env cfg pod) wb).1
          (uploadLogs lib env pod (crashedLogs env cfg pod) wb).2 := by
  unfold materialize
  simp only [crashedName]
  unfold started at hns
  rw [hns]
  simp only []
  rw [hnp]
  rfl

theorem materializeFrom_clone_fail {lib : Lib} {env : Env} {cfg : ForensicsConfig} {pod : Pod}
    {c sig logs s3 : String} {code : Int} {wu wc : World} {e : Err}
    (hcl : cloneDependencies cfg pod wu = (.error e, wc)) :
    materializeFrom lib env cfg pod c code sig logs s3 wu
      = (some e,
          wc.Inc ForensicPodCreationErrorsTotal [pod.ObjectMeta.Namespace, "CloneDependencies"]) := by
  unfold materializeFrom
  rw [hcl]

theorem materializeFrom_log_fail {lib : Lib} {env : Env} {cfg : ForensicsConfig} {pod : Pod}
    {c sig logs s3 : String} {code : Int} {wu wc wd : World} {rm : StrMap} {e : Err}
    (hcl : cloneDependencies cfg pod wu = (.ok rm, wc))
    (hlog : createLogConfigMap cfg pod logs wc = (.error e, wd)) :
    materializeFrom lib env cfg pod c code sig logs s3 wu
      = (some e, wd.Inc ForensicPodCreationErrorsTotal [pod.ObjectMeta.Namespace, "CreateLogCM"]) := by
  unfold materializeFrom
  rw [hcl]
  simp only []
  rw [hlog]

theorem materializeFrom_pod_fail {lib : Lib} {env : Env} {cfg : ForensicsConfig} {pod : Pod}
    {c sig logs s3 name : String} {code : Int} {wu wc wd wg : World} {rm : StrMap} {e : Err}
    (hcl : cloneDependencies cfg pod wu = (.ok rm, wc))
    (hlog : createLogConfigMap cfg pod logs wc = (.ok name, wd))
    (hpod : createForensicPod lib cfg pod rm name sig c code (logHashStr lib logs)
      (takeSnapshots lib cfg pod wd).1
      (takeCheckpoint env cfg pod c (takeSnapshots lib cfg pod wd).2).1 s3
      (takeCheckpoint env cfg pod c (takeSnapshots lib cfg pod wd).2).2 = (some e, wg)) :
    materializeFrom lib env cfg pod c code sig logs s3 wu
      = (some e,
          wg.Inc ForensicPodCreationErrorsTotal [pod.ObjectMeta.Namespace, "CreateForensicPod"]) := by
  unfold materializeFrom
  rw [hcl]
  simp only []
  rw [hlog]
  simp only []
  rw [hpod]

theorem materializeFrom_pod_ok {lib : Lib} {env : Env} {cfg : ForensicsConfig} {pod : Pod}
    {c sig logs s3 name : String} {code : Int} {wu wc wd wg : World} {rm : StrMap}
    (hcl : cloneDependencies cfg pod wu = (.ok rm, wc))
    (hlog : createLogConfigMap cfg pod logs wc = (.ok name, wd))
    (hpod : createForensicPod lib cfg pod rm name sig c code (logHashStr lib logs)
      (takeSnapshots lib cfg pod wd).1
      (takeCheckpoint env cfg pod c (takeSnapshots lib cfg pod wd).2).1 s3
      (takeCheckpoint env cfg pod c (takeSnapshots lib cfg pod wd).2).2 = (none, wg)) :
    materializeFrom lib env cfg pod c code sig logs s3 wu
      = (none,
          (wg.Eventf pod EventTypeNormal "ForensicPodCreated"
            ("Created forensic pod " ++ cfg.TargetNamespace ++ " (LogHash: "
              ++ logHashStr lib logs ++ ")")).Inc
            ForensicPodsCreatedTotal [pod.ObjectMeta.Namespace]) := by
  unfold materializeFrom
  rw [hcl]
  simp only []
  rw [hlog]
  simp only []
  rw [hpod]

theorem started_frame (pod : Pod) (w0 : World) : Frame w0 (started pod w0) :=
  Frame.Eventf _ _ _ _ _

theorem ensureNamespace_frame' {cfg : ForensicsConfig} {w wa : World} {r : Option Err}
    (h : ensureNamespace cfg w = (r, wa)) : Frame w wa := by
  have := ensureNamespace_frame cfg w
  rw [h] at this; exact this

theorem ensureNetworkPolicy_frame' {cfg : ForensicsConfig} {w wa : World} {r : Option Err}
    (h : ensureNetworkPolicy cfg w = (r, wa)) : Frame w wa := by
  have := ensureNetworkPolicy_frame cfg w
  rw [h] at this; exact this

theorem cloneDependencies_frame' {cfg : ForensicsConfig} {pod : Pod} {w wa : World}
    {r : Except Err StrMap} (h : cloneDependencies cfg pod w = (r, wa)) : Frame w wa := by
  have := cloneDependencies_frame cfg pod w
  rw [h] at this; exact this

theorem createLogConfigMap_frame' {cfg : ForensicsConfig} {pod : Pod} {logs : String}
    {w wa : World} {r : Except Err String} (h : createLogConfigMap cfg pod logs w = (r, wa)) :
    Frame w wa := by
  have := createLogConfigMap_frame cfg pod logs w
  rw [h] at this; exact this

theorem podCreates_Inc (w : World) (m : String) (v : List String) :
    podCreates (w.Inc m v).calls = podCreates w.calls := rfl

/-- The hard steps of a run that has entered materialization. -/
theorem hard_steps {lib : Lib} (env : Env) {cfg : ForensicsConfig} {req : Request}
    {w : World} {pod : Pod} {w0 : World} (h : EntersMaterialization lib cfg req w pod w0) :
    (∀ e wa, ensureNamespace cfg (started pod w0) = (some e, wa) →
      (Reconcile lib env cfg req w).1 = some e ∧
      podCreates (Reconcile lib env cfg req w).2.calls = podCreates w.calls) ∧
    (∀ wa e wb, ensureNamespace cfg (started pod w0) = (none, wa) →
      ensureNetworkPolicy cfg wa = (some e, wb) →
      (Reconcile lib env cfg req w).1 = some e ∧
      podCreates (Reconcile lib env cfg req w).2.calls = podCreates w.calls) ∧
    (∀ wa wb e wc, ensureNamespace cfg (started pod w0) = (none, wa) →
      ensureNetworkPolicy cfg wa = (none, wb) →
      cloneDependencies cfg pod (uploadLogs lib env pod (crashedLogs env cfg pod) wb).2
        = (.error e, wc) →
      (Reconcile lib env cfg req w).1 = some e ∧
      podCreates (Reconcile lib env cfg req w).2.calls = podCreates w.calls) ∧
    (∀ wa wb resourceMap wc e wd, ensureNamespace cfg (started pod w0) = (none, wa) →
      ensureNetworkPolicy cfg wa = (none, wb) →
      cloneDependencies cfg pod (uploadLogs lib env pod (crashedLogs env cfg pod) wb).2
        = (.ok resourceMap, wc) →
      createLogConfigMap cfg pod (crashedLogs env cfg pod) wc = (.error e, wd) →
      (Reconcile lib env cfg req w).1 = some e ∧
      podCreates (Reconcile lib env cfg req w).2.calls = podCreates w.calls) ∧
    (podCreates (Reconcile lib env cfg req w).2.calls ≠ podCreates w.calls →
      ∃ wa wb resourceMap wc logCMName wd,
        ensureNamespace cfg (started pod w0) = (none, wa) ∧
        ensureNetworkPolicy cfg wa = (none, wb) ∧
        cloneDependencies cfg pod (uploadLogs lib env pod (crashedLogs env cfg pod) wb).2
          = (.ok resourceMap, wc) ∧
        createLogConfigMap cfg pod (crashedLogs env cfg pod) wc = (.ok logCMName, wd) ∧
        podCreates wd.calls = podCreates w.calls ∧
        ∃ before newPod outcome,
          (Reconcile lib env cfg req w).2.calls = before ++ [Call.create (.pod newPod) outcome] ∧
          wd.calls <+: before ∧ podCreates before = podCreates w.calls) := by
  have hR := Reconcile_eq env h
  obtain ⟨hf0, -, -⟩ := enters_frame h
  have hfs := hf0.trans (started_frame pod w0)
  have A : ∀ e wa, ensureNamespace cfg (started pod w0) = (some e, wa) →
      (Reconcile lib env cfg req w).1 = some e ∧
      podCreates (Reconcile lib env cfg req w).2.calls = podCreates w.calls := by
    intro e wa hns
    rw [hR, materialize_ns_fail hns]
    exact ⟨rfl, by rw [podCreates_Inc]; exact (hfs.trans (ensureNamespace_frame' hns)).podCreates⟩
  have B : ∀ wa e wb, ensureNamespace cfg (started pod w0) = (none, wa) →
      ensureNetworkPolicy cfg wa = (some e, wb) →
      (Reconcile lib env cfg req w).1 = some e ∧
      podCreates (Reconcile lib env cfg req w).2.calls = podCreates w.calls := by
    intro wa e wb hns hnp
    rw [hR, materialize_np_fail hns hnp]
    exact ⟨rfl, by
      rw [podCreates_Inc]
      exact ((hfs.trans (ensureNamespace_frame' hns)).trans
        (ensureNetworkPolicy_frame' hnp)).podCreates⟩
  have hu : ∀ wa wb, ensureNamespace cfg (started pod w0) = (none, wa) →
      ensureNetworkPolicy cfg wa = (none, wb) →
      Frame w (uploadLogs lib env pod (crashedLogs env cfg pod) wb).2 := by
    intro wa wb hns hnp
    exact ((hfs.trans (ensureNamespace_frame' hns)).trans
      (ensureNetworkPolicy_frame' hnp)).trans (uploadLogs_frame _ _ _ _ _)
  have C : ∀ wa wb e wc, ensureNamespace cfg (started pod w0) = (none, wa) →
      ensureNetworkPolicy cfg wa = (none, wb) →
      cloneDependencies cfg pod (uploadLogs lib env pod (crashedLogs env cfg pod) wb).2
        = (.error e, wc) →
      (Reconcile lib env cfg req w).1 = some e ∧
      podCreates (Reconcile lib env cfg req w).2.calls = podCreates w.calls := by
    intro wa wb e wc hns hnp hcl
    rw [hR, materialize_from hns hnp, materializeFrom_clone_fail hcl]
    exact ⟨rfl, by
      rw [podCreates_Inc]
      exact ((hu wa wb hns hnp).trans (cloneDependencies_frame' hcl)).podCreates⟩
  have D : ∀ wa wb resourceMap wc e wd, ensureNamespace cfg (started pod w0) = (none, wa) →
      ensureNetworkPolicy cfg wa = (none, wb) →
      cloneDependencies cfg pod (uploadLogs lib env pod (crashedLogs env cfg pod) wb).2
        = (.ok resourceMap, wc) →
      createLogConfigMap cfg pod (crashedLogs env cfg pod) wc = (.error e, wd) →
      (Reconcile lib env cfg req w).1 = some e ∧
      podCreates (Reconcile lib env cfg req w).2.calls = podCreates w.calls := by
    intro wa wb rm wc e wd hns hnp hcl hlog
    rw [hR, materialize_from hns hnp, materializeFrom_log_fail hcl hlog]
    exact ⟨rfl, by
      rw [podCreates_Inc]
      exact (((hu wa wb hns hnp).trans (cloneDependencies_frame' hcl)).trans
        (createLogConfigMap_frame' hlog)).podCreates⟩
  refine ⟨A, B, C, D, ?_⟩
  intro hne
  cases hns : ensureNamespace cfg (started pod w0) with
  | mk r1 wa =>
  cases r1 with
  | some e => exact absurd (A e wa hns).2 hne
  | none =>
  cases hnp : ensureNetworkPolicy cfg wa with
  | mk r2 wb =>
  cases r2 with
  | some e => exact absurd (B wa e wb hns hnp).2 hne
  | none =>
  cases hcl : cloneDependencies cfg pod (uploadLogs lib env pod (crashedLogs env cfg pod) wb).2 with
  | mk r3 wc =>
  cases r3 with
  | error e => exact absurd (C wa wb e wc hns hnp hcl).2 hne
  | ok rm =>
  cases hlog : createLogConfigMap cfg pod (crashedLogs env cfg pod) wc with
  | mk r4 wd =>
  cases r4 with
  | error e => exact absurd (D wa wb rm wc e wd hns hnp hcl hlog).2 hne
  | ok name =>
  have hfd : Frame w wd := ((hu wa wb hns hnp).trans (cloneDependencies_frame' hcl)).trans
    (createLogConfigMap_frame' hlog)
  have hfe := takeSnapshots_frame lib cfg pod wd
  have hff := takeCheckpoint_frame env cfg pod (crashedName pod) (takeSnapshots lib cfg pod wd).2
  have hdf := hfe.trans hff
  refine ⟨wa, wb, rm, wc, name, wd, rfl, hnp, hcl, hlog, hfd.podCreates, ?_⟩
  cases hpod : createForensicPod lib cfg pod rm name (signatureOf lib pod) (crashedName pod)
      (crashCheck pod).exitCode (logHashStr lib (crashedLogs env cfg pod))
      (takeSnapshots lib cfg pod wd).1
      (takeCheckpoint env cfg pod (crashedName pod) (takeSnapshots lib cfg pod wd).2).1
      (uploadLogs lib env pod (crashedLogs env cfg pod) wb).1
      (takeCheckpoint env cfg pod (crashedName pod) (takeSnapshots lib cfg pod wd).2).2 with
  | mk r5 wg =>
  cases r5 with
  | some e =>
    obtain ⟨-, -, -, hk⟩ := createForensicPod_error hpod
    rw [hR, materialize_from hns hnp, materializeFrom_pod_fail hcl hlog hpod]
    exact ⟨_, _, _, by simpa using hk, hdf.calls, by
      rw [hdf.podCreates]; exact hfd.podCreates⟩
  | none =>
    obtain ⟨_, _, -, -, -, hk, -⟩ := createForensicPod_ok hpod
    rw [hR, materialize_from hns hnp, materializeFrom_pod_ok hcl hlog hpod]
    exact ⟨_, _, _, by simpa using hk, hdf.calls, by
      rw [hdf.podCreates]; exact hfd.podCreates⟩

theorem get?_set_ne (m : StrMap) (k k' v : String) (h : k ≠ k') :
    StrMap.get? (StrMap.set m k v) k' = StrMap.get? m k' := by
  induction m with
  | nil => simp [StrMap.set, StrMap.get?, h]
  | cons kv rest ih =>
    obtain ⟨a, b⟩ := kv
    unfold StrMap.set
    by_cases hak : a = k
    · subst hak
      simp [StrMap.get?, h]
    · simp only [hak, if_false]
      by_cases hak' : a = k'
      · simp [StrMap.get?, hak']
      · simp [StrMap.get?, hak', ih]

theorem get?_set_self (m : StrMap) (k v : String) :
    StrMap.get? (StrMap.set m k v) k = some v := by
  induction m with
  | nil => simp [StrMap.set, StrMap.get?]
  | cons kv rest ih =>
    obtain ⟨a, b⟩ := kv
    unfold StrMap.set
    by_cases hak : a = k
    · subst hak
      simp [StrMap.get?]
    · simp [hak, StrMap.get?, ih]

theorem get?_captureCommand (c : String) (cs : List Container) (m : StrMap) (key : String)
    (h1 : "forensic.io/original-command" ≠ key) (h2 : "forensic.io/original-args" ≠ key) :
    StrMap.get? (captureCommand c cs m) key = StrMap.get? m key := by
  induction cs with
  | nil => rfl
  | cons x rest ih =>
    unfold captureCommand
    split
    · simp only []
      split <;> split <;> simp [get?_set_ne, h1, h2]
    · exact ih

theorem get?_forensicAnnotations (pod : Pod) (c : String) (code : Int) (hash : String)
    (snaps : StrMap) (ckpt s3 : String) (key : String)
    (h1 : "forensic.io/original-command" ≠ key) (h2 : "forensic.io/original-args" ≠ key) :
    StrMap.get? (forensicAnnotations pod c code hash snaps ckpt s3) key =
      StrMap.get?
        (let annotations : StrMap :=
          [("forensic.io/exit-code", toString code), ("forensic.io/log-sha256", hash)]
        let annotations :=
          if snaps.length > 0 then
            StrMap.set annotations "forensic.io/snapshots"
              (String.intercalate "," (snaps.map (fun kv => kv.1 ++ ":" ++ kv.2)))
          else annotations
        let annotations :=
          if ckpt ≠ "" then StrMap.set annotations "forensic.io/checkpoint" ckpt else annotations
        if s3 ≠ "" then StrMap.set annotations LabelLogS3URL s3 else annotations) key := by
  unfold forensicAnnotations
  simp only []
  split
  · rw [get?_captureCommand _ _ _ _ h1 h2]
  · rw [get?_captureCommand _ _ _ _ h1 h2, get?_captureCommand _ _ _ _ h1 h2]

theorem annotations_no_s3 (pod : Pod) (c : String) (code : Int) (hash : String)
    (snaps : StrMap) (ckpt : String) :
    StrMap.get? (forensicAnnotations pod c code hash snaps ckpt "") LabelLogS3URL = none := by
  rw [get?_forensicAnnotations _ _ _ _ _ _ _ _ (by decide) (by decide)]
  simp only [ne_eq, not_true_eq_false, if_false]
  split <;> split <;>
    simp [get?_set_ne, StrMap.get?, LabelLogS3URL]

theorem annotations_no_snapshots (pod : Pod) (c : String) (code : Int) (hash : String)
    (ckpt s3 : String) :
    StrMap.get? (forensicAnnotations pod c code hash [] ckpt s3) "forensic.io/snapshots" = none := by
  rw [get?_forensicAnnotations _ _ _ _ _ _ _ _ (by decide) (by decide)]
  simp only [List.length_nil, gt_iff_lt, lt_self_iff_false, if_false]
  split <;> split <;>
    simp [get?_set_ne, StrMap.get?, LabelLogS3URL]

theorem annotations_no_checkpoint (pod : Pod) (c : String) (code : Int) (hash : String)
    (snaps : StrMap) (s3 : String) :
    StrMap.get? (forensicAnnotations pod c code hash snaps "" s3) "forensic.io/checkpoint" = none := by
  rw [get?_forensicAnnotations _ _ _ _ _ _ _ _ (by decide) (by decide)]
  simp only [ne_eq, not_true_eq_false, if_false]
  split <;> split <;>
    simp [get?_set_ne, StrMap.get?, LabelLogS3URL]

theorem uploadLogs_failed {lib : Lib} {env : Env} {pod : Pod} {logs : String} {w : World}
    {err : Err} (h : (env.Upload (uploadKey lib pod w.tick.1) logs).2 = some err) :
    (uploadLogs lib env pod logs w).1 = "" := by
  unfold uploadLogs
  simp only []
  split
  · rw [h]
  · rfl

theorem takeSnapshots_failed {lib : Lib} {cfg : ForensicsConfig} {pod : Pod} {w w' : World}
    {err : Err} (h : snapshotPVCs lib cfg pod w = (.error err, w')) :
    (takeSnapshots lib cfg pod w).1 = [] := by
  unfold takeSnapshots
  rw [h]

theorem takeCheckpoint_failed {env : Env} {cfg : ForensicsConfig} {pod : Pod} {c : String}
    {w w' : World} {err : Err} (h : triggerCheckpoint env pod c w = (.error err, w')) :
    (takeCheckpoint env cfg pod c w).1 = "" := by
  unfold takeCheckpoint
  split
  · rw [h]
  · rfl

theorem fetchLogs_failed {env : Env} {cfg : ForensicsConfig} {pod : Pod} {c : String}
    {err : Err} (h : getPodLogs env cfg pod c = .error err) :
    fetchLogs env cfg pod c = "Error fetching logs: " ++ err.msg := by
  unfold fetchLogs
  rw [h]

theorem createLogConfigMap_ok {cfg : ForensicsConfig} {pod : Pod} {logs name : String}
    {w w' : World} (h : createLogConfigMap cfg pod logs w = (.ok name, w')) :
    ∃ logCM : ConfigMap, w'.objects = w.objects ++ [Object.cm logCM] ∧
      logCM.ObjectMeta.Name = name ∧ logCM.ObjectMeta.Namespace = cfg.TargetNamespace ∧
      logCM.Data = [(LogConfigMapKey, logs)] := by
  unfold createLogConfigMap at h
  simp only [] at h
  split at h
  · simp at h
  · rename_i stored w1 hc
    simp only [Prod.mk.injEq, Except.ok.injEq] at h
    obtain ⟨rfl, rfl⟩ := h
    obtain ⟨ho, -, -, -, ⟨nm, t, rfl⟩, -⟩ := Create_ok hc
    exact ⟨_, ho, rfl, rfl, rfl⟩

theorem mem_of_grown {α : Type} {l l' : List α} {a : α} (h : l <+: l') (ha : a ∈ l) : a ∈ l' := by
  obtain ⟨t, rfl⟩ := h
  exact List.mem_append_left _ ha

theorem not_mem_of_sameKey {o : Object} {l : List Object}
    (h : ∀ x ∈ l, x.sameKey o = false) : o ∉ l := by
  intro hm
  have := h o hm
  rw [sameKey_self] at this
  cases this

theorem ListPods_ok {w : World} (ns : String) (sel : StrMap) (h : w.popFault.1 = none) :
    w.ListPods ns sel =
      (.ok ((w.objects.filterMap Object.asPod?).filter
        (fun p => decide (p.ObjectMeta.Namespace = ns) && matchesLabels sel p.ObjectMeta)),
        w.popFault.2) := by
  unfold World.ListPods
  simp only [h, popFault_objects]

theorem GetPod_ok_inv {w w1 : World} {ns name : String} {pod : Pod}
    (h : w.GetPod ns name = (.ok pod, w1)) :
    w.popFault.1 = none ∧ w1 = w.popFault.2 ∧
      (w.objects.filterMap Object.asPod?).find?
        (fun p => decide (p.ObjectMeta.Namespace = ns) && decide (p.ObjectMeta.Name = name))
        = some pod := by
  unfold World.GetPod at h
  simp only [] at h
  split at h
  · simp at h
  · rename_i hf
    split at h
    · rename_i p hp
      simp only [Prod.mk.injEq, Except.ok.injEq] at h
      obtain ⟨rfl, rfl⟩ := h
      exact ⟨hf, rfl, by simpa using hp⟩
    · simp at h

theorem GetPod_ok_of {w : World} {ns name : String} {pod : Pod}
    (hf : w.popFault.1 = none)
    (h : (w.objects.filterMap Object.asPod?).find?
        (fun p => decide (p.ObjectMeta.Namespace = ns) && decide (p.ObjectMeta.Name = name))
        = some pod) :
    w.GetPod ns name = (.ok pod, w.popFault.2) := by
  unfold World.GetPod
  simp only [hf, popFault_objects, h]

theorem tick_of_popFault (w : World) : w.popFault.2.tick.1 = w.tick.1 :=
  tick_fst_congr _ _ (popFault_clock w)

theorem popFault_fst_congr (w w' : World) (h : w.faults = w'.faults) :
    w.popFault.1 = w'.popFault.1 := by
  unfold World.popFault
  rw [h]
  split <;> rfl

theorem rateLimited_of_young {lib : Lib} {cfg : ForensicsConfig} {w : World} {pod fp : Pod}
    {now : Time}
    (hmem : Object.pod fp ∈ w.objects)
    (hns : fp.ObjectMeta.Namespace = cfg.TargetNamespace)
    (hsig : StrMap.get? fp.ObjectMeta.Labels LabelCrashSignature = some (signatureOf lib pod))
    (hyoung : Time.Sub now fp.ObjectMeta.CreationTimestamp < cfg.RateLimitWindow) :
    rateLimited cfg now
      ((w.objects.filterMap Object.asPod?).filter
        (fun p => decide (p.ObjectMeta.Namespace = cfg.TargetNamespace) &&
          matchesLabels [(LabelCrashSignature,
            getCrashSignature lib pod (crashCheck pod).crashedContainerName (crashCheck pod).exitCode)]
            p.ObjectMeta)) = true := by
  unfold rateLimited
  rw [List.any_eq_true]
  refine ⟨fp, ?_, ?_⟩
  · rw [List.mem_filter]
    refine ⟨?_, ?_⟩
    · rw [List.mem_filterMap]
      exact ⟨Object.pod fp, hmem, rfl⟩
    · simp only [Bool.and_eq_true, decide_eq_true_eq]
      refine ⟨hns, ?_⟩
      simp only [matchesLabels, List.all_cons, List.all_nil, Bool.and_true, decide_eq_true_eq]
      exact hsig
  · simpa using hyoung

/-- The no-op of step 4: a young replica of the signature in the store stops
`Reconcile` before it creates anything. -/
theorem dedup_noop (lib : Lib) (env : Env) (cfg : ForensicsConfig) (req : Request) (w : World)
    (pod fp : Pod) (w1 : World)
    (hget : w.GetPod req.Namespace req.Name = (.ok pod, w1))
    (hlist : w.popFault.2.popFault.1 = none)
    (hmem : Object.pod fp ∈ w.objects)
    (hns : fp.ObjectMeta.Namespace = cfg.TargetNamespace)
    (hsig : StrMap.get? fp.ObjectMeta.Labels LabelCrashSignature = some (signatureOf lib pod))
    (hyoung : Time.Sub w.tick.1 fp.ObjectMeta.CreationTimestamp < cfg.RateLimitWindow) :
    (Reconcile lib env cfg req w).1 = none ∧
      (Reconcile lib env cfg req w).2.objects = w.objects ∧
      (Reconcile lib env cfg req w).2.calls = w.calls ∧
      (Reconcile lib env cfg req w).2.events = w.events := by
  obtain ⟨-, hw1, -⟩ := GetPod_ok_inv hget
  subst hw1
  have hlist' : (w.popFault.2.Inc ForensicCrashesTotal
      [pod.ObjectMeta.Namespace, "CrashDetected"]).popFault.1 = none :=
    (popFault_fst_congr (w.popFault.2.Inc ForensicCrashesTotal
      [pod.ObjectMeta.Namespace, "CrashDetected"]) w.popFault.2 rfl).trans hlist
  have hnow : (w.popFault.2.Inc ForensicCrashesTotal
      [pod.ObjectMeta.Namespace, "CrashDetected"]).popFault.2.tick.1 = w.tick.1 :=
    (tick_of_popFault _).trans ((tick_fst_congr (w.popFault.2.Inc ForensicCrashesTotal
      [pod.ObjectMeta.Namespace, "CrashDetected"]) w.popFault.2 rfl).trans
        (tick_of_popFault w))
  unfold Reconcile
  split
  · exact ⟨rfl, rfl, rfl, rfl⟩
  split
  · exact ⟨rfl, rfl, rfl, rfl⟩
  split
  · exact ⟨rfl, rfl, rfl, rfl⟩
  rw [hget]
  simp only []
  unfold reconcilePod
  split
  · exact ⟨rfl, by simp, by simp, by simp⟩
  simp only []
  split
  · exact ⟨rfl, by simp, by simp, by simp⟩
  rw [ListPods_ok _ _ hlist']
  simp only []
  split
  · exact ⟨rfl, by simp, by simp, by simp⟩
  · rename_i hrate
    exfalso
    apply hrate
    rw [hnow]
    exact rateLimited_of_young (by simpa using hmem) hns hsig hyoung

/-- A run of `materialize` that returns nil has stored a new replica of the
signature, on top of a store that only grew. -/
theorem materialize_ok_stores {lib : Lib} {env : Env} {cfg : ForensicsConfig} {pod : Pod}
    {w0 w1 : World}
    (h : materialize lib env cfg pod (crashedName pod) (crashCheck pod).exitCode
      (signatureOf lib pod) w0 = (none, w1)) :
    ∃ (wf : World) (replica : Pod),
      Frame w0 wf ∧ w1.objects = wf.objects ++ [Object.pod replica] ∧
      (∀ o ∈ wf.objects, o.sameKey (Object.pod replica) = false) ∧
      replica.ObjectMeta.Namespace = cfg.TargetNamespace ∧
      StrMap.get? replica.ObjectMeta.Labels LabelCrashSignature = some (signatureOf lib pod) := by
  cases hns : ensureNamespace cfg (started pod w0) with
  | mk r1 wa =>
  cases r1 with
  | some e => rw [materialize_ns_fail hns] at h; simp at h
  | none =>
  cases hnp : ensureNetworkPolicy cfg wa with
  | mk r2 wb =>
  cases r2 with
  | some e => rw [materialize_np_fail hns hnp] at h; simp at h
  | none =>
  rw [materialize_from hns hnp] at h
  cases hcl : cloneDependencies cfg pod (uploadLogs lib env pod (crashedLogs env cfg pod) wb).2 with
  | mk r3 wc =>
  cases r3 with
  | error e => rw [materializeFrom_clone_fail hcl] at h; simp at h
  | ok rm =>
  cases hlog : createLogConfigMap cfg pod (crashedLogs env cfg pod) wc with
  | mk r4 wd =>
  cases r4 with
  | error e => rw [materializeFrom_log_fail hcl hlog] at h; simp at h
  | ok name =>
  cases hpod : createForensicPod lib cfg pod rm name (signatureOf lib pod) (crashedName pod)
      (crashCheck pod).exitCode (logHashStr lib (crashedLogs env cfg pod))
      (takeSnapshots lib cfg pod wd).1
      (takeCheckpoint env cfg pod (crashedName pod) (takeSnapshots lib cfg pod wd).2).1
      (uploadLogs lib env pod (crashedLogs env cfg pod) wb).1
      (takeCheckpoint env cfg pod (crashedName pod) (takeSnapshots lib cfg pod wd).2).2 with
  | mk r5 wg =>
  cases r5 with
  | some e => rw [materializeFrom_pod_fail hcl hlog hpod] at h; simp at h
  | none =>
    rw [materializeFrom_pod_ok hcl hlog hpod] at h
    simp only [Prod.mk.injEq, true_and] at h
    subst h
    obtain ⟨replica, hobj, hnew, hrns, hrl, -, -⟩ := createForensicPod_stores hpod
    refine ⟨_, replica, ?_, by simpa using hobj, hnew, hrns, by rw [hrl]; rfl⟩
    exact ((((((started_frame pod w0).trans (ensureNamespace_frame' hns)).trans
      (ensureNetworkPolicy_frame' hnp)).trans (uploadLogs_frame _ _ _ _ _)).trans
      (cloneDependencies_frame' hcl)).trans (createLogConfigMap_frame' hlog)).trans
      ((takeSnapshots_frame lib cfg pod wd).trans (takeCheckpoint_frame env cfg pod _ _))

theorem find?_of_grown {α : Type} {l l' : List α} {p : α → Bool} {a : α}
    (hp : l <+: l') (h : l.find? p = some a) : l'.find? p = some a := by
  obtain ⟨t, rfl⟩ := hp
  rw [List.find?_append, h]
  rfl

theorem filterMap_grown {α β : Type} {l l' : List α} (f : α → Option β) (hp : l <+: l') :
    l.filterMap f <+: l'.filterMap f := by
  obtain ⟨t, rfl⟩ := hp
  rw [List.filterMap_append]
  exact List.prefix_append _ _

theorem createForensicPod_counters (lib : Lib) (cfg : ForensicsConfig) (pod : Pod) (rm : StrMap)
    (logCM sig c : String) (code : Int) (hash : String) (snaps : StrMap) (ckpt s3 : String)
    (w : World) :
    (createForensicPod lib cfg pod rm logCM sig c code hash snaps ckpt s3 w).2.counters
      = w.counters := by
  cases h : createForensicPod lib cfg pod rm logCM sig c code hash snaps ckpt s3 w with
  | mk r w1 =>
    cases r with
    | some e => exact (createForensicPod_error h).2.2.1
    | none =>
      obtain ⟨_, _, -, -, hc, -, -⟩ := createForensicPod_ok h
      exact hc

/-- The counters only grow through `materialize`. -/
theorem materialize_counters (lib : Lib) (env : Env) (cfg : ForensicsConfig) (pod : Pod)
    (w0 : World) :
    w0.counters <+:
      (materialize lib env cfg pod (crashedName pod) (crashCheck pod).exitCode
        (signatureOf lib pod) w0).2.counters := by
  have grow : ∀ (w : World) (m : String) (v : List String),
      w0.counters <+: w.counters → w0.counters <+: (w.Inc m v).counters := by
    intro w m v h
    rw [Inc_counters]
    exact h.trans (List.prefix_append _ _)
  cases hns : ensureNamespace cfg (started pod w0) with
  | mk r1 wa =>
  have fa : Frame w0 wa := (started_frame pod w0).trans (ensureNamespace_frame' hns)
  cases r1 with
  | some e => rw [materialize_ns_fail hns]; exact grow _ _ _ fa.counters
  | none =>
  cases hnp : ensureNetworkPolicy cfg wa with
  | mk r2 wb =>
  have fb : Frame w0 wb := fa.trans (ensureNetworkPolicy_frame' hnp)
  cases r2 with
  | some e => rw [materialize_np_fail hns hnp]; exact grow _ _ _ fb.counters
  | none =>
  rw [materialize_from hns hnp]
  have fu := fb.trans (uploadLogs_frame lib env pod (crashedLogs env cfg pod) wb)
  cases hcl : cloneDependencies cfg pod (uploadLogs lib env pod (crashedLogs env cfg pod) wb).2 with
  | mk r3 wc =>
  have fc := fu.trans (cloneDependencies_frame' hcl)
  cases r3 with
  | error e => rw [materializeFrom_clone_fail hcl]; exact grow _ _ _ fc.counters
  | ok rm =>
  cases hlog : createLogConfigMap cfg pod (crashedLogs env cfg pod) wc with
  | mk r4 wd =>
  have fd := fc.trans (createLogConfigMap_frame' hlog)
  cases r4 with
  | error e => rw [materializeFrom_log_fail hcl hlog]; exact grow _ _ _ fd.counters
  | ok name =>
  have ff := (fd.trans (takeSnapshots_frame lib cfg pod wd)).trans
    (takeCheckpoint_frame env cfg pod (crashedName pod) (takeSnapshots lib cfg pod wd).2)
  have hcnt := createForensicPod_counters lib cfg pod rm name (signatureOf lib pod)
      (crashedName pod) (crashCheck pod).exitCode (logHashStr lib (crashedLogs env cfg pod))
      (takeSnapshots lib cfg pod wd).1
      (takeCheckpoint env cfg pod (crashedName pod) (takeSnapshots lib cfg pod wd).2).1
      (uploadLogs lib env pod (crashedLogs env cfg pod) wb).1
      (takeCheckpoint env cfg pod (crashedName pod) (takeSnapshots lib cfg pod wd).2).2
  cases hpod : createForensicPod lib cfg pod rm name (signatureOf lib pod) (crashedName pod)
      (crashCheck pod).exitCode (logHashStr lib (crashedLogs env cfg pod))
      (takeSnapshots lib cfg pod wd).1
      (takeCheckpoint env cfg pod (crashedName pod) (takeSnapshots lib cfg pod wd).2).1
      (uploadLogs lib env pod (crashedLogs env cfg pod) wb).1
      (takeCheckpoint env cfg pod (crashedName pod) (takeSnapshots lib cfg pod wd).2).2 with
  | mk r5 wg =>
  rw [hpod] at hcnt
  simp only at hcnt
  cases r5 with
  | some e =>
    rw [materializeFrom_pod_fail hcl hlog hpod]
    apply grow
    rw [hcnt]; exact ff.counters
  | none =>
    rw [materializeFrom_pod_ok hcl hlog hpod]
    apply grow
    rw [Eventf_counters, hcnt]; exact ff.counters

/-- A crashed workload that is not being deleted is counted: the `CrashDetected`
increment is the first thing `reconcilePod` adds to the counters. -/
theorem reconcilePod_counts (lib : Lib) (env : Env) (cfg : ForensicsConfig) (pod : Pod)
    (w1 : World) (hdel : MetaTimeIsZero pod.ObjectMeta.DeletionTimestamp = true)
    (hcrash : (crashCheck pod).isCrash = true) :
    (w1.counters ++ [⟨ForensicCrashesTotal, [pod.ObjectMeta.Namespace, "CrashDetected"]⟩]) <+:
      (reconcilePod lib env cfg pod w1).2.counters := by
  unfold reconcilePod
  rw [if_neg (by simp [hdel])]
  simp only []
  rw [if_neg (by simp [hcrash])]
  cases hlist : (w1.Inc ForensicCrashesTotal [pod.ObjectMeta.Namespace, "CrashDetected"]).ListPods
        cfg.TargetNamespace [(LabelCrashSignature,
          getCrashSignature lib pod (crashCheck pod).crashedContainerName (crashCheck pod).exitCode)] with
  | mk r3 w3 =>
    have e3 := ListPods_snd (w1.Inc ForensicCrashesTotal [pod.ObjectMeta.Namespace, "CrashDetected"])
      cfg.TargetNamespace [(LabelCrashSignature,
        getCrashSignature lib pod (crashCheck pod).crashedContainerName (crashCheck pod).exitCode)]
    rw [hlist] at e3
    simp only at e3
    have hc3 : w3.counters = w1.counters ++
        [⟨ForensicCrashesTotal, [pod.ObjectMeta.Namespace, "CrashDetected"]⟩] := by
      rw [e3, popFault_counters, Inc_counters]
    cases r3 with
    | error e =>
      simp only [Inc_counters, hc3]
      exact List.prefix_append _ _
    | ok fps =>
      simp only []
      split
      · simp only [tick_counters, hc3]
        exact List.prefix_refl _
      · have := materialize_counters lib env cfg pod w3.tick.2
        rw [tick_counters, hc3] at this
        exact this

theorem flatten_map_map {α β : Type} (f : α → List β) (g : β → β) (u : α → α) (l : List α)
    (h : ∀ a, f (u a) = (f a).map g) :
    ((l.map u).map f).flatten = ((l.map f).flatten).map g := by
  induction l with
  | nil => rfl
  | cons a rest ih =>
    simp only [List.map_cons, List.flatten_cons, List.map_append, h, ih]

theorem projectionRefs_update (rm : StrMap) (s : VolumeProjection) :
    projectionRefs (updateProjection rm s) = (projectionRefs s).map (DepRef.rewrite rm) := by
  unfold projectionRefs updateProjection
  cases s.ConfigMap <;> cases s.Secret <;> simp [DepRef.rewrite]

theorem volumeRefs_update (rm : StrMap) (v : Volume) :
    volumeRefs (updateVolume rm v) = (volumeRefs v).map (DepRef.rewrite rm) := by
  unfold volumeRefs updateVolume
  cases v.ConfigMap <;> cases v.Secret <;> cases hp : v.Projected <;>
    simp only [Option.map_none', Option.map_some', List.map_append, List.map_cons, List.map_nil,
      List.append_nil, List.nil_append, DepRef.rewrite,
      flatten_map_map projectionRefs (DepRef.rewrite rm) (updateProjection rm) _
        (projectionRefs_update rm)]

theorem envFromRefs_update (rm : StrMap) (e : EnvFromSource) :
    envFromRefs (updateEnvFrom rm e) = (envFromRefs e).map (DepRef.rewrite rm) := by
  unfold envFromRefs updateEnvFrom
  cases e.ConfigMapRef <;> cases e.SecretRef <;> simp [DepRef.rewrite]

theorem envRefs_update (rm : StrMap) (e : EnvVar) :
    envRefs (updateEnv rm e) = (envRefs e).map (DepRef.rewrite rm) := by
  unfold envRefs updateEnv
  cases hv : e.ValueFrom with
  | none => simp
  | some vf => cases h1 : vf.ConfigMapKeyRef <;> cases h2 : vf.SecretKeyRef <;> simp [DepRef.rewrite, h1, h2]

theorem containerRefs_updateContainer (rm : StrMap) (c : Container) :
    containerRefs (updateContainer rm c) = (containerRefs c).map (DepRef.rewrite rm) := by
  unfold containerRefs updateContainer
  simp only [List.map_append]
  rw [flatten_map_map envFromRefs (DepRef.rewrite rm) (updateEnvFrom rm) _ (envFromRefs_update rm),
    flatten_map_map envRefs (DepRef.rewrite rm) (updateEnv rm) _ (envRefs_update rm)]

theorem containerRefs_updateInitContainer (rm : StrMap) (c : Container) :
    containerRefs (updateInitContainer rm c) = (containerRefs c).map (DepRef.rewrite rm) := by
  unfold containerRefs updateInitContainer
  simp only [List.map_append]
  rw [flatten_map_map envFromRefs (DepRef.rewrite rm) (updateEnvFrom rm) _ (envFromRefs_update rm),
    flatten_map_map envRefs (DepRef.rewrite rm) (updateEnv rm) _ (envRefs_update rm)]

theorem rewrite_cases (rm : StrMap) (r : DepRef) :
    (StrMap.get? rm r.key = some (r.rewrite rm).name) ∨
    (StrMap.get? rm r.key = none ∧ r.rewrite rm = r) := by
  cases r with
  | configMap n =>
    simp only [DepRef.key, DepRef.rewrite, DepRef.name, rewriteName]
    cases h : StrMap.get? rm ("cm/" ++ n) <;> simp
  | secret n =>
    simp only [DepRef.key, DepRef.rewrite, DepRef.name, rewriteName]
    cases h : StrMap.get? rm ("secret/" ++ n) <;> simp

/-- The references of the built replica. -/
theorem podRefs_forensicPod (lib : Lib) (cfg : ForensicsConfig) (pod : Pod) (rm : StrMap)
    (logCM sig c : String) (code : Int) (hash : String) (snaps : StrMap) (ckpt s3 : String)
    (now : Time) :
    podRefs (forensicPod lib cfg pod rm logCM sig c code hash snaps ckpt s3 now) =
      ((pod.Spec.Volumes.map volumeRefs).flatten).map (DepRef.rewrite rm)
      ++ [DepRef.rewrite rm (.configMap logCM)]
      ++ ((pod.Spec.Containers.map containerRefs).flatten).map (DepRef.rewrite rm)
      ++ ((pod.Spec.InitContainers.map containerRefs).flatten).map (DepRef.rewrite rm) := by
  unfold podRefs forensicPod
  simp only [List.map_append, List.map_cons, List.map_nil, List.flatten_append, List.flatten_cons,
    List.flatten_nil, List.append_nil]
  rw [flatten_map_map volumeRefs (DepRef.rewrite rm) (updateVolume rm) _ (volumeRefs_update rm),
    flatten_map_map containerRefs (DepRef.rewrite rm) (updateContainer rm) _
      (containerRefs_updateContainer rm),
    flatten_map_map containerRefs (DepRef.rewrite rm) (updateInitContainer rm) _
      (containerRefs_updateInitContainer rm)]
  simp [volumeRefs, updateVolume, containerRefs, initContainer, DepRef.rewrite, logVolName,
    toolsVolName]

theorem soft_enters : EntersMaterialization demoLib demoCfg demoReq softWorld demoPod (enter softWorld) :=
  ⟨by decide, by decide, by decide, _, _, _, rfl, rfl, rfl, rfl, rfl, rfl⟩

theorem hard_enters : EntersMaterialization demoLib demoCfg demoReq hardWorld demoPod (enter hardWorld) :=
  ⟨by decide, by decide, by decide, _, _, _, rfl, rfl, rfl, rfl, rfl, rfl⟩

theorem young_of_all {l l0 : List Object} {now : Time} {window : Duration}
    (h : l.all (fun o => decide (o ∈ l0) ||
      match o with
      | .pod p => decide (Time.Sub now p.ObjectMeta.CreationTimestamp < window)
      | _ => true) = true) :
    ∀ p, Object.pod p ∈ l → Object.pod p ∉ l0 →
      Time.Sub now p.ObjectMeta.CreationTimestamp < window := by
  intro p hm hn
  have := List.all_eq_true.mp h _ hm
  simpa [hn] using this

theorem rewriteName_eq (resourceMap : StrMap) (tag name : String) :
    rewriteName resourceMap tag name = (StrMap.get? resourceMap (tag ++ name)).getD name := by
  unfold rewriteName
  cases StrMap.get? resourceMap (tag ++ name) <;> rfl

theorem append_left_cancel_str (a b c : String) (h : a ++ b = a ++ c) : b = c := by
  have h2 : (a ++ b).data = (a ++ c).data := by rw [h]
  simp only [String.data_append] at h2
  exact String.ext (List.append_cancel_left h2)

theorem cm_key_ne_secret_key (n n' : String) : "cm/" ++ n ≠ "secret/" ++ n' := by
  intro h
  have h2 : ("cm/" ++ n).data = ("secret/" ++ n').data := by rw [h]
  simp only [String.data_append] at h2
  simp at h2

theorem key_injective (r r' : DepRef) (h : r.key = r'.key) : r = r' := by
  cases r with
  | configMap n =>
    cases r' with
    | configMap n' =>
      simp only [DepRef.key] at h
      rw [append_left_cancel_str _ _ _ h]
    | secret n' => exact absurd h (cm_key_ne_secret_key n n')
  | secret n =>
    cases r' with
    | configMap n' => exact absurd h.symm (cm_key_ne_secret_key n' n)
    | secret n' =>
      simp only [DepRef.key] at h
      rw [append_left_cancel_str _ _ _ h]

theorem cloneName_injective (pod : Pod) (r r' : DepRef) (hk : r.kind = r'.kind)
    (h : cloneName pod r = cloneName pod r') : r = r' := by
  unfold cloneName at h
  have h2 := append_left_cancel_str _ _ _ h
  cases r <;> cases r' <;> simp_all [DepRef.kind, DepRef.name]

theorem isCloneCreate_eq (cfg : ForensicsConfig) (pod : Pod) (r r' : DepRef) (c : Call)
    (h : isCloneCreate cfg pod r c = true) (h' : isCloneCreate cfg pod r' c = true) : r = r' := by
  cases c with
  | create obj e =>
    simp only [isCloneCreate, Call.creates, Bool.and_eq_true, decide_eq_true_eq] at h h'
    exact cloneName_injective pod r r' (h.1.1.symm.trans h'.1.1) (h.2.symm.trans h'.2)
  | delete _ _ => simp [isCloneCreate, Call.creates] at h
  | upload _ _ _ => simp [isCloneCreate, Call.creates] at h
  | checkpoint _ _ _ => simp [isCloneCreate, Call.creates] at h

theorem handleConfigMap_cases (cfg : ForensicsConfig) (pod : Pod) (name : String) (rm : StrMap)
    (w : World) :
    ((handleConfigMap cfg pod name rm w).1 = none ∧ (handleConfigMap cfg pod name rm w).2.1 = rm ∧
      (handleConfigMap cfg pod name rm w).2.2.calls = w.calls) ∨
    (StrMap.get? rm ("cm/" ++ name) = none ∧
      ∃ src outcome, (w.GetConfigMap pod.ObjectMeta.Namespace name).1 = .ok src ∧
        (handleConfigMap cfg pod name rm w).2.2.calls
          = w.calls ++ [Call.create (.cm (configMapClone cfg pod name src)) outcome] ∧
        ((∃ e, outcome = some e ∧ IsAlreadyExists e = false ∧
            (handleConfigMap cfg pod name rm w).1 = some e) ∨
         ((∀ e, outcome = some e → IsAlreadyExists e = true) ∧
            (handleConfigMap cfg pod name rm w).1 = none ∧
            (handleConfigMap cfg pod name rm w).2.1
              = StrMap.set rm ("cm/" ++ name) (pod.ObjectMeta.Namespace ++ "-" ++ name)))) := by
  unfold handleConfigMap
  simp only []
  split
  · exact Or.inl ⟨rfl, rfl, rfl⟩
  · rename_i hkey
    split
    · rename_i e w1 h
      have h2 : w1 = w.popFault.2 := by
        have := GetConfigMap_snd w pod.ObjectMeta.Namespace name
        rw [h] at this; exact this
      exact Or.inl ⟨rfl, rfl, by rw [h2]; simp⟩
    · rename_i src w1 h
      have h2 : w1 = w.popFault.2 := by
        have := GetConfigMap_snd w pod.ObjectMeta.Namespace name
        rw [h] at this; exact this
      have hw1 : w1.calls = w.calls := by rw [h2]; simp
      refine Or.inr ⟨hkey, src, ?_⟩
      split
      · rename_i e w2 hc
        have hcalls : w2.calls
            = w.calls ++ [Call.create (.cm (configMapClone cfg pod name src)) (some e)] := by
          rw [(Create_error hc).2.1, hw1]; rfl
        by_cases hae : IsAlreadyExists e = true
        · rw [if_neg (by simp [hae])]
          exact ⟨some e, by rw [h], hcalls,
            Or.inr ⟨fun e' he' => (by cases he'; exact hae), rfl, rfl⟩⟩
        · simp only [Bool.not_eq_true] at hae
          rw [if_pos (by simp [hae])]
          exact ⟨some e, by rw [h], hcalls, Or.inl ⟨e, rfl, hae, rfl⟩⟩
      · rename_i stored w2 hc
        have hcalls : w2.calls
            = w.calls ++ [Call.create (.cm (configMapClone cfg pod name src)) none] := by
          rw [(Create_ok hc).2.1, hw1]; rfl
        exact ⟨none, by rw [h], hcalls, Or.inr ⟨fun e he => (by cases he), rfl, rfl⟩⟩

theorem handleSecret_cases (cfg : ForensicsConfig) (pod : Pod) (name : String) (rm : StrMap)
    (w : World) :
    ((handleSecret cfg pod name rm w).1 = none ∧ (handleSecret cfg pod name rm w).2.1 = rm ∧
      (handleSecret cfg pod name rm w).2.2.calls = w.calls) ∨
    (StrMap.get? rm ("secret/" ++ name) = none ∧
      ∃ src outcome, (w.GetSecret pod.ObjectMeta.Namespace name).1 = .ok src ∧
        (handleSecret cfg pod name rm w).2.2.calls
          = w.calls ++ [Call.create (.secret (secretClone cfg pod name src)) outcome] ∧
        ((∃ e, outcome = some e ∧ IsAlreadyExists e = false ∧
            (handleSecret cfg pod name rm w).1 = some e) ∨
         ((∀ e, outcome = some e → IsAlreadyExists e = true) ∧
            (handleSecret cfg pod name rm w).1 = none ∧
            (handleSecret cfg pod name rm w).2.1
              = StrMap.set rm ("secret/" ++ name) (pod.ObjectMeta.Namespace ++ "-" ++ name)))) := by
  unfold handleSecret
  simp only []
  split
  · exact Or.inl ⟨rfl, rfl, rfl⟩
  · rename_i hkey
    split
    · rename_i e w1 h
      have h2 : w1 = w.popFault.2 := by
        have := GetSecret_snd w pod.ObjectMeta.Namespace name
        rw [h] at this; exact this
      exact Or.inl ⟨rfl, rfl, by rw [h2]; simp⟩
    · rename_i src w1 h
      have h2 : w1 = w.popFault.2 := by
        have := GetSecret_snd w pod.ObjectMeta.Namespace name
        rw [h] at this; exact this
      have hw1 : w1.calls = w.calls := by rw [h2]; simp
      refine Or.inr ⟨hkey, src, ?_⟩
      split
      · rename_i e w2 hc
        have hcalls : w2.calls
            = w.calls ++ [Call.create (.secret (secretClone cfg pod name src)) (some e)] := by
          rw [(Create_error hc).2.1, hw1]; rfl
        by_cases hae : IsAlreadyExists e = true
        · rw [if_neg (by simp [hae])]
          exact ⟨some e, by rw [h], hcalls,
            Or.inr ⟨fun e' he' => (by cases he'; exact hae), rfl, rfl⟩⟩
        · simp only [Bool.not_eq_true] at hae
          rw [if_pos (by simp [hae])]
          exact ⟨some e, by rw [h], hcalls, Or.inl ⟨e, rfl, hae, rfl⟩⟩
      · rename_i stored w2 hc
        have hcalls : w2.calls
            = w.calls ++ [Call.create (.secret (secretClone cfg pod name src)) none] := by
          rw [(Create_ok hc).2.1, hw1]; rfl
        exact ⟨none, by rw [h], hcalls, Or.inr ⟨fun e he => (by cases he), rfl, rfl⟩⟩

theorem handleRef_cases (cfg : ForensicsConfig) (pod : Pod) (r : DepRef) (rm : StrMap)
    (w : World) :
    ((handleRef cfg pod r rm w).1 = none ∧ (handleRef cfg pod r rm w).2.1 = rm ∧
      (handleRef cfg pod r rm w).2.2.calls = w.calls) ∨
    (StrMap.get? rm r.key = none ∧
      ∃ obj outcome, isCloneCreate cfg pod r (Call.create obj outcome) = true ∧
        (handleRef cfg pod r rm w).2.2.calls = w.calls ++ [Call.create obj outcome] ∧
        ((∃ e, outcome = some e ∧ IsAlreadyExists e = false ∧
            (handleRef cfg pod r rm w).1 = some e) ∨
         ((∀ e, outcome = some e → IsAlreadyExists e = true) ∧
            (handleRef cfg pod r rm w).1 = none ∧
            (handleRef cfg pod r rm w).2.1 = StrMap.set rm r.key (cloneName pod r)))) := by
  cases r with
  | configMap name =>
    rcases handleConfigMap_cases cfg pod name rm w with h | ⟨hkey, src, outcome, _, hcalls, h⟩
    · exact Or.inl h
    · exact Or.inr ⟨hkey, _, outcome,
        by simp [isCloneCreate, Call.creates, Object.kind, Object.metadata, DepRef.kind,
          cloneName, DepRef.name, configMapClone], hcalls, h⟩
  | secret name =>
    rcases handleSecret_cases cfg pod name rm w with h | ⟨hkey, src, outcome, _, hcalls, h⟩
    · exact Or.inl h
    · exact Or.inr ⟨hkey, _, outcome,
        by simp [isCloneCreate, Call.creates, Object.kind, Object.metadata, DepRef.kind,
          cloneName, DepRef.name, secretClone], hcalls, h⟩

theorem cloneRefs_step (cfg : ForensicsConfig) (pod : Pod) (r0 : DepRef) (rest : List DepRef)
    (rm : StrMap) (w : World) :
    (∃ e, (handleRef cfg pod r0 rm w).1 = some e ∧
        cloneRefs cfg pod (r0 :: rest) rm w = (.error e, (handleRef cfg pod r0 rm w).2.2)) ∨
    ((handleRef cfg pod r0 rm w).1 = none ∧
        cloneRefs cfg pod (r0 :: rest) rm w
          = cloneRefs cfg pod rest (handleRef cfg pod r0 rm w).2.1
              (handleRef cfg pod r0 rm w).2.2) := by
  rw [cloneRefs]
  split
  · rename_i e rm1 w1 h
    left; exact ⟨e, by rw [h], by rw [h]⟩
  · rename_i rm1 w1 h
    right; exact ⟨by rw [h], by rw [h]⟩

theorem CloneTrace.nil (cfg : ForensicsConfig) (pod : Pod) (rm : StrMap) :
    CloneTrace cfg pod [] rm [] (.ok rm) where
  issued := by simp
  once := by simp
  ok := by
    intro rm' h key v
    cases h
    simp
  tolerated := by simp
  failed := by intro e h; cases h

theorem CloneTrace.skip {cfg : ForensicsConfig} {pod : Pod} {rest : List DepRef} {rm : StrMap}
    {δ : List Call} {res : Except Err StrMap} (r0 : DepRef)
    (tr : CloneTrace cfg pod rest rm δ res) : CloneTrace cfg pod (r0 :: rest) rm δ res where
  issued := by
    intro c hc
    obtain ⟨r, hr, h⟩ := tr.issued c hc
    exact ⟨r, List.mem_cons_of_mem _ hr, h⟩
  once := tr.once
  ok := by
    intro rm' h key v
    rw [tr.ok rm' h key v]
    constructor
    · rintro (h1 | ⟨h1, r, hr, h2⟩)
      · exact Or.inl h1
      · exact Or.inr ⟨h1, r, List.mem_cons_of_mem _ hr, h2⟩
    · rintro (h1 | ⟨h1, r, hr, hk, hv, c, hc, hcc⟩)
      · exact Or.inl h1
      · obtain ⟨r', hr', hcc', _⟩ := tr.issued c hc
        have : r = r' := isCloneCreate_eq cfg pod r r' c hcc hcc'
        subst this
        exact Or.inr ⟨h1, r, hr', hk, hv, c, hc, hcc⟩
  tolerated := tr.tolerated
  failed := tr.failed

theorem CloneTrace.abort (cfg : ForensicsConfig) (pod : Pod) (r0 : DepRef) (rest : List DepRef)
    (rm : StrMap) (obj : Object) (e : Err) (hkey : StrMap.get? rm r0.key = none)
    (hclone : isCloneCreate cfg pod r0 (Call.create obj (some e)) = true)
    (he : IsAlreadyExists e = false) :
    CloneTrace cfg pod (r0 :: rest) rm [Call.create obj (some e)] (.error e) where
  issued := by
    intro c hc
    simp only [List.mem_singleton] at hc
    subst hc
    exact ⟨r0, List.mem_cons_self _ _, hclone, hkey⟩
  once := by
    intro r
    exact le_trans (List.length_filter_le _ _) (by simp)
  ok := by intro rm' h; cases h
  tolerated := by intro rm' h; cases h
  failed := by
    intro e' h
    cases h
    exact ⟨he, obj, [], rfl⟩

theorem get?_set_none {m : StrMap} {k v k' : String}
    (h : StrMap.get? (StrMap.set m k v) k' = none) : StrMap.get? m k' = none ∧ k ≠ k' := by
  by_cases hk : k = k'
  · subst hk
    rw [get?_set_self] at h
    cases h
  · rw [get?_set_ne m k k' v hk] at h
    exact ⟨h, hk⟩

theorem CloneTrace.cons {cfg : ForensicsConfig} {pod : Pod} {rest : List DepRef} {rm : StrMap}
    {δ : List Call} {res : Except Err StrMap} (r0 : DepRef) (c0 : Call)
    (hkey : StrMap.get? rm r0.key = none)
    (hclone : isCloneCreate cfg pod r0 c0 = true)
    (htol : ∀ obj e, c0 = Call.create obj (some e) → IsAlreadyExists e = true)
    (tr : CloneTrace cfg pod rest (StrMap.set rm r0.key (cloneName pod r0)) δ res) :
    CloneTrace cfg pod (r0 :: rest) rm (c0 :: δ) res where
  issued := by
    intro c hc
    rcases List.mem_cons.1 hc with rfl | hc
    · exact ⟨r0, List.mem_cons_self _ _, hclone, hkey⟩
    · obtain ⟨r, hr, hcc, hk⟩ := tr.issued c hc
      exact ⟨r, List.mem_cons_of_mem _ hr, hcc, (get?_set_none hk).1⟩
  once := by
    intro r
    by_cases hr : isCloneCreate cfg pod r c0 = true
    · have hr0 : r = r0 := isCloneCreate_eq cfg pod r r0 c0 hr hclone
      subst hr0
      have hnone : δ.filter (isCloneCreate cfg pod r) = [] := by
        rw [List.filter_eq_nil_iff]
        intro c hc hcc
        obtain ⟨r', _, hcc', hk⟩ := tr.issued c hc
        have : r = r' := isCloneCreate_eq cfg pod r r' c hcc hcc'
        subst this
        exact (get?_set_none hk).2 rfl
      simp [List.filter_cons, hr, hnone]
    · simp only [List.filter_cons, hr]
      exact tr.once r
  ok := by
    intro rm' h key v
    rw [tr.ok rm' h key v]
    by_cases hk : r0.key = key
    · subst hk
      rw [get?_set_self, hkey]
      constructor
      · rintro (h1 | ⟨h1, _⟩)
        · cases h1
          exact Or.inr ⟨rfl, r0, List.mem_cons_self _ _, rfl, rfl, c0, List.mem_cons_self _ _,
            hclone⟩
        · cases h1
      · rintro (h1 | ⟨_, r, _, hrk, hv, _⟩)
        · cases h1
        · have : r = r0 := key_injective r r0 hrk
          subst this
          exact Or.inl (by rw [hv])
    · rw [get?_set_ne rm r0.key key _ hk]
      constructor
      · rintro (h1 | ⟨h1, r, hr, hrk, hv, c, hc, hcc⟩)
        · exact Or.inl h1
        · exact Or.inr ⟨h1, r, List.mem_cons_of_mem _ hr, hrk, hv, c, List.mem_cons_of_mem _ hc,
            hcc⟩
      · rintro (h1 | ⟨h1, r, hr, hrk, hv, c, hc, hcc⟩)
        · exact Or.inl h1
        · have hne : r ≠ r0 := by
            intro h0; subst h0; exact hk hrk
          rcases List.mem_cons.1 hr with h0 | hr
          · exact absurd h0 hne
          · rcases List.mem_cons.1 hc with h0 | hc
            · subst h0
              exact absurd (isCloneCreate_eq cfg pod r r0 c hcc hclone) hne
            · exact Or.inr ⟨h1, r, hr, hrk, hv, c, hc, hcc⟩
  tolerated := by
    intro rm' h obj e hc
    rcases List.mem_cons.1 hc with h0 | hc
    · exact htol obj e h0.symm
    · exact tr.tolerated rm' h obj e hc
  failed := by
    intro e h
    obtain ⟨he, obj, δ', hδ⟩ := tr.failed e h
    exact ⟨he, obj, c0 :: δ', by rw [hδ]; rfl⟩

/-- The calls and the result of the scans over any list of references. -/
theorem cloneRefs_trace (cfg : ForensicsConfig) (pod : Pod) (refs : List DepRef) :
    ∀ (rm : StrMap) (w : World),
      ∃ δ, (cloneRefs cfg pod refs rm w).2.calls = w.calls ++ δ ∧
        CloneTrace cfg pod refs rm δ (cloneRefs cfg pod refs rm w).1 := by
  induction refs with
  | nil =>
    intro rm w
    exact ⟨[], by simp [cloneRefs], by simpa [cloneRefs] using CloneTrace.nil cfg pod rm⟩
  | cons r0 rest ih =>
    intro rm w
    rcases handleRef_cases cfg pod r0 rm w with
      ⟨h1, h2, h3⟩ | ⟨hkey, obj, outcome, hclone, hcalls, ⟨e, ho, he, h1⟩ | ⟨htol, h1, h2⟩⟩
    · rcases cloneRefs_step cfg pod r0 rest rm w with ⟨e, he, _⟩ | ⟨_, heq⟩
      · rw [h1] at he; cases he
      · obtain ⟨δ, hδ, tr⟩ := ih (handleRef cfg pod r0 rm w).2.1 (handleRef cfg pod r0 rm w).2.2
        rw [heq]
        rw [h2] at tr hδ ⊢
        exact ⟨δ, by rw [hδ, h3], tr.skip r0⟩
    · rcases cloneRefs_step cfg pod r0 rest rm w with ⟨e', he', heq⟩ | ⟨hn, _⟩
      · rw [h1] at he'
        cases he'
        subst ho
        rw [heq]
        exact ⟨_, hcalls, CloneTrace.abort cfg pod r0 rest rm obj e hkey hclone he⟩
      · rw [h1] at hn; cases hn
    · rcases cloneRefs_step cfg pod r0 rest rm w with ⟨e, he, _⟩ | ⟨_, heq⟩
      · rw [h1] at he; cases he
      · obtain ⟨δ, hδ, tr⟩ := ih (handleRef cfg pod r0 rm w).2.1 (handleRef cfg pod r0 rm w).2.2
        rw [heq]
        rw [h2] at tr hδ ⊢
        refine ⟨Call.create obj outcome :: δ, by rw [hδ, hcalls]; simp, ?_⟩
        refine CloneTrace.cons r0 _ hkey hclone ?_ tr
        intro obj' e' h0
        cases h0
        exact htol e' rfl

theorem popFault_nil {w : World} (hf : w.faults = []) : w.popFault = (none, w) := by
  unfold World.popFault
  rw [hf]

theorem tick_faults (w : World) : w.tick.2.faults = w.faults := by
  unfold World.tick; split <;> rfl

theorem assignName_faults (w : World) (m : ObjectMeta) : (w.assignName m).2.faults = w.faults := by
  unfold World.assignName World.popSuffix
  split
  · split <;> rfl
  · rfl

theorem storedAs_namespace (obj : Object) (name : String) (t : Time) :
    (obj.storedAs name t).metadata.Namespace = obj.metadata.Namespace := by
  cases obj <;> rfl

theorem sourceExists_congr {w w' : World} (h : w'.objects = w.objects) (ns : String)
    (r : DepRef) : sourceExists w' ns r = sourceExists w ns r := by
  cases r <;> simp [sourceExists, h]

theorem sourceExists_grow {w w' : World} {o : Object} (h : w'.objects = w.objects ++ [o])
    (ns : String) (hns : o.metadata.Namespace ≠ ns) (r : DepRef) :
    sourceExists w' ns r = sourceExists w ns r := by
  cases r <;> cases o <;>
    simp_all [sourceExists, List.filterMap_append, Object.asConfigMap?, Object.asSecret?,
      Object.metadata]

theorem Create_nofault {w : World} (hf : w.faults = []) (obj : Object) (ns : String)
    (hns : obj.metadata.Namespace ≠ ns) :
    (w.Create obj).2.faults = [] ∧
    (∀ r, sourceExists (w.Create obj).2 ns r = sourceExists w ns r) ∧
    (∀ e, (w.Create obj).1 = .error e → IsAlreadyExists e = true) := by
  unfold World.Create
  simp only [popFault_nil hf]
  split
  · refine ⟨?_, ?_, ?_⟩
    · show (w.assignName obj.metadata).2.faults = []
      rw [assignName_faults, hf]
    · intro r
      exact sourceExists_congr (by simp) ns r
    · intro e he
      cases he
      rfl
  · refine ⟨?_, ?_, ?_⟩
    · show (w.assignName obj.metadata).2.tick.2.faults = []
      rw [tick_faults, assignName_faults, hf]
    · intro r
      refine sourceExists_grow (o := obj.storedAs (w.assignName obj.metadata).1
        (w.assignName obj.metadata).2.tick.1) (by simp [World.record]) ns ?_ r
      rw [storedAs_namespace]; exact hns
    · intro e he
      cases he

theorem GetConfigMap_nofault {w : World} (hf : w.faults = []) (ns name : String) :
    (∃ src, w.GetConfigMap ns name = (.ok src, w) ∧ sourceExists w ns (.configMap name) = true) ∨
    (∃ e, w.GetConfigMap ns name = (.error e, w) ∧ sourceExists w ns (.configMap name) = false) := by
  unfold World.GetConfigMap
  simp only [popFault_nil hf]
  split
  · rename_i p hp
    left
    refine ⟨p, rfl, ?_⟩
    simp only [sourceExists, List.any_eq_true]
    have hq := List.find?_some hp
    exact ⟨p, List.mem_of_find?_eq_some hp, hq⟩
  · rename_i hp
    right
    refine ⟨_, rfl, ?_⟩
    rw [List.find?_eq_none] at hp
    simp only [sourceExists, List.any_eq_false]
    exact hp

theorem GetSecret_nofault {w : World} (hf : w.faults = []) (ns name : String) :
    (∃ src, w.GetSecret ns name = (.ok src, w) ∧ sourceExists w ns (.secret name) = true) ∨
    (∃ e, w.GetSecret ns name = (.error e, w) ∧ sourceExists w ns (.secret name) = false) := by
  unfold World.GetSecret
  simp only [popFault_nil hf]
  split
  · rename_i p hp
    left
    refine ⟨p, rfl, ?_⟩
    simp only [sourceExists, List.any_eq_true]
    have hq := List.find?_some hp
    exact ⟨p, List.mem_of_find?_eq_some hp, hq⟩
  · rename_i hp
    right
    refine ⟨_, rfl, ?_⟩
    rw [List.find?_eq_none] at hp
    simp only [sourceExists, List.any_eq_false]
    exact hp

theorem handleConfigMap_def (cfg : ForensicsConfig) (pod : Pod) (name : String) (rm : StrMap)
    (w : World) :
    handleConfigMap cfg pod name rm w =
      match StrMap.get? rm ("cm/" ++ name) with
      | some _ => (none, rm, w)
      | none =>
        match w.GetConfigMap pod.ObjectMeta.Namespace name with
        | (.error _, w1) => (none, rm, w1)
        | (.ok src, w1) =>
          match w1.Create (.cm (configMapClone cfg pod name src)) with
          | (.error e, w2) =>
            if !IsAlreadyExists e then (some e, rm, w2)
            else (none, StrMap.set rm ("cm/" ++ name) (pod.ObjectMeta.Namespace ++ "-" ++ name), w2)
          | (.ok _, w2) =>
            (none, StrMap.set rm ("cm/" ++ name) (pod.ObjectMeta.Namespace ++ "-" ++ name), w2) :=
  rfl

theorem handleSecret_def (cfg : ForensicsConfig) (pod : Pod) (name : String) (rm : StrMap)
    (w : World) :
    handleSecret cfg pod name rm w =
      match StrMap.get? rm ("secret/" ++ name) with
      | some _ => (none, rm, w)
      | none =>
        match w.GetSecret pod.ObjectMeta.Namespace name with
        | (.error _, w1) => (none, rm, w1)
        | (.ok src, w1) =>
          match w1.Create (.secret (secretClone cfg pod name src)) with
          | (.error e, w2) =>
            if !IsAlreadyExists e then (some e, rm, w2)
            else
              (none, StrMap.set rm ("secret/" ++ name) (pod.ObjectMeta.Namespace ++ "-" ++ name), w2)
          | (.ok _, w2) =>
            (none, StrMap.set rm ("secret/" ++ name) (pod.ObjectMeta.Namespace ++ "-" ++ name), w2) :=
  rfl

theorem handleRef_nofault (cfg : ForensicsConfig) (pod : Pod) (r : DepRef) (rm : StrMap)
    {w : World} (hf : w.faults = []) (hns : cfg.TargetNamespace ≠ pod.ObjectMeta.Namespace) :
    (handleRef cfg pod r rm w).1 = none ∧
    (handleRef cfg pod r rm w).2.1 =
      (if (StrMap.get? rm r.key).isSome then rm
       else if sourceExists w pod.ObjectMeta.Namespace r then StrMap.set rm r.key (cloneName pod r)
       else rm) ∧
    (handleRef cfg pod r rm w).2.2.faults = [] ∧
    ∀ r', sourceExists (handleRef cfg pod r rm w).2.2 pod.ObjectMeta.Namespace r'
      = sourceExists w pod.ObjectMeta.Namespace r' := by
  cases r with
  | configMap name =>
    simp only [handleRef, DepRef.key, cloneName, DepRef.name]
    rw [handleConfigMap_def]
    cases hk : StrMap.get? rm ("cm/" ++ name) with
    | some v => simp [hf]
    | none =>
      rcases GetConfigMap_nofault hf pod.ObjectMeta.Namespace name with
        ⟨src, hg, hs⟩ | ⟨e, hg, hs⟩
      · have hc := Create_nofault hf (.cm (configMapClone cfg pod name src))
          pod.ObjectMeta.Namespace hns
        simp only [hg, hs, Option.isSome_none, Bool.false_eq_true, if_false, if_true]
        cases hcr : w.Create (.cm (configMapClone cfg pod name src)) with
        | mk res w2 =>
          rw [hcr] at hc
          cases res with
          | error e =>
            have hae := hc.2.2 e rfl
            simp only [hae, Bool.not_true, Bool.false_eq_true, if_false]
            exact ⟨trivial, trivial, hc.1, hc.2.1⟩
          | ok o => exact ⟨rfl, rfl, hc.1, hc.2.1⟩
      · simp [hg, hs, hf]
  | secret name =>
    simp only [handleRef, DepRef.key, cloneName, DepRef.name]
    rw [handleSecret_def]
    cases hk : StrMap.get? rm ("secret/" ++ name) with
    | some v => simp [hf]
    | none =>
      rcases GetSecret_nofault hf pod.ObjectMeta.Namespace name with
        ⟨src, hg, hs⟩ | ⟨e, hg, hs⟩
      · have hc := Create_nofault hf (.secret (secretClone cfg pod name src))
          pod.ObjectMeta.Namespace hns
        simp only [hg, hs, Option.isSome_none, Bool.false_eq_true, if_false, if_true]
        cases hcr : w.Create (.secret (secretClone cfg pod name src)) with
        | mk res w2 =>
          rw [hcr] at hc
          cases res with
          | error e =>
            have hae := hc.2.2 e rfl
            simp only [hae, Bool.not_true, Bool.false_eq_true, if_false]
            exact ⟨trivial, trivial, hc.1, hc.2.1⟩
          | ok o => exact ⟨rfl, rfl, hc.1, hc.2.1⟩
      · simp [hg, hs, hf]

/-- Without scripted faults, and for a workload outside the forensic namespace, the
scans return the map the specification describes, and leave the sources as they were. -/
theorem cloneRefs_nofault (cfg : ForensicsConfig) (pod : Pod)
    (hns : cfg.TargetNamespace ≠ pod.ObjectMeta.Namespace) (f : DepRef → Bool)
    (refs : List DepRef) :
    ∀ (rm : StrMap) (w : World), w.faults = [] →
      (∀ r, sourceExists w pod.ObjectMeta.Namespace r = f r) →
      (cloneRefs cfg pod refs rm w).1 = .ok (expectedMap pod f refs rm) ∧
      (cloneRefs cfg pod refs rm w).2.faults = [] ∧
      ∀ r, sourceExists (cloneRefs cfg pod refs rm w).2 pod.ObjectMeta.Namespace r = f r := by
  induction refs with
  | nil =>
    intro rm w hf hs
    exact ⟨rfl, hf, hs⟩
  | cons r0 rest ih =>
    intro rm w hf hs
    obtain ⟨h1, h2, h3, h4⟩ := handleRef_nofault cfg pod r0 rm hf hns
    rcases cloneRefs_step cfg pod r0 rest rm w with ⟨e, he, _⟩ | ⟨_, heq⟩
    · rw [h1] at he; cases he
    · rw [heq]
      have := ih (handleRef cfg pod r0 rm w).2.1 (handleRef cfg pod r0 rm w).2.2 h3
        (fun r => (h4 r).trans (hs r))
      rw [h2, hs r0] at this
      rw [h2, hs r0]
      exact this

theorem expectedMap_get? (pod : Pod) (f : DepRef → Bool) (refs : List DepRef) :
    ∀ (rm : StrMap) (key v : String),
      StrMap.get? (expectedMap pod f refs rm) key = some v ↔
        (StrMap.get? rm key = some v ∨
          (StrMap.get? rm key = none ∧
            ∃ r ∈ refs, r.key = key ∧ f r = true ∧ v = cloneName pod r)) := by
  induction refs with
  | nil => intro rm key v; simp [expectedMap]
  | cons r0 rest ih =>
    intro rm key v
    rw [expectedMap, ih]
    by_cases hsome : (StrMap.get? rm r0.key).isSome = true
    · rw [if_pos hsome]
      constructor
      · rintro (h | ⟨h, r, hr, h2⟩)
        · exact Or.inl h
        · exact Or.inr ⟨h, r, List.mem_cons_of_mem _ hr, h2⟩
      · rintro (h | ⟨h, r, hr, hk, h2⟩)
        · exact Or.inl h
        · rcases List.mem_cons.1 hr with h0 | hr
          · subst h0
            rw [hk, h] at hsome
            cases hsome
          · exact Or.inr ⟨h, r, hr, hk, h2⟩
    · rw [if_neg hsome]
      have hnone : StrMap.get? rm r0.key = none := by
        cases h : StrMap.get? rm r0.key with
        | none => rfl
        | some x => rw [h] at hsome; exact absurd rfl hsome
      by_cases hf0 : f r0 = true
      · rw [if_pos hf0]
        by_cases hk : r0.key = key
        · subst hk
          rw [get?_set_self, hnone]
          constructor
          · rintro (h | ⟨h, _⟩)
            · cases h
              exact Or.inr ⟨rfl, r0, List.mem_cons_self _ _, rfl, hf0, rfl⟩
            · cases h
          · rintro (h | ⟨_, r, _, hrk, _, hv⟩)
            · cases h
            · have : r = r0 := key_injective r r0 hrk
              subst this
              exact Or.inl (by rw [hv])
        · rw [get?_set_ne rm r0.key key _ hk]
          constructor
          · rintro (h | ⟨h, r, hr, h2⟩)
            · exact Or.inl h
            · exact Or.inr ⟨h, r, List.mem_cons_of_mem _ hr, h2⟩
          · rintro (h | ⟨h, r, hr, hrk, h2⟩)
            · exact Or.inl h
            · rcases List.mem_cons.1 hr with h0 | hr
              · subst h0; exact absurd hrk hk
              · exact Or.inr ⟨h, r, hr, hrk, h2⟩
      · rw [if_neg hf0]
        constructor
        · rintro (h | ⟨h, r, hr, h2⟩)
          · exact Or.inl h
          · exact Or.inr ⟨h, r, List.mem_cons_of_mem _ hr, h2⟩
        · rintro (h | ⟨h, r, hr, hrk, hfr, hv⟩)
          · exact Or.inl h
          · rcases List.mem_cons.1 hr with h0 | hr
            · subst h0; exact absurd hfr hf0
            · exact Or.inr ⟨h, r, hr, hrk, hfr, hv⟩

theorem newCalls_append (w w1 : World) (δ : List Call) (h : w1.calls = w.calls ++ δ) :
    newCalls w w1 = δ := by
  unfold newCalls
  rw [h, List.drop_left]

theorem cloneDependencies_trace (cfg : ForensicsConfig) (pod : Pod) (w : World) :
    (cloneDependencies cfg pod w).2.calls = w.calls ++ newCalls w (cloneDependencies cfg pod w).2 ∧
    CloneTrace cfg pod (podRefs pod) [] (newCalls w (cloneDependencies cfg pod w).2)
      (cloneDependencies cfg pod w).1 := by
  obtain ⟨δ, hδ, tr⟩ := cloneRefs_trace cfg pod (podRefs pod) [] w
  have hnew : newCalls w (cloneDependencies cfg pod w).2 = δ := newCalls_append _ _ δ hδ
  rw [hnew]
  exact ⟨hδ, tr⟩

theorem enters_namespace {lib : Lib} {cfg : ForensicsConfig} {req : Request} {w : World}
    {pod : Pod} {w0 : World} (h : EntersMaterialization lib cfg req w pod w0) :
    pod.ObjectMeta.Namespace ≠ cfg.TargetNamespace := by
  obtain ⟨-, -, hne, w1, fp, w3, hget, -⟩ := h
  have hfind := List.find?_some (GetPod_ok_inv hget).2.2
  simp only [Bool.and_eq_true, decide_eq_true_eq] at hfind
  rw [hfind.1]
  exact hne

theorem mem_flatten_map {α β : Type} (f : α → List β) (l : List α) (x : β) :
    x ∈ (l.map f).flatten ↔ ∃ a ∈ l, x ∈ f a := by
  simp only [List.mem_flatten, List.mem_map]
  constructor
  · rintro ⟨_, ⟨a, ha, rfl⟩, hx⟩
    exact ⟨a, ha, hx⟩
  · rintro ⟨a, ha, hx⟩
    exact ⟨_, ⟨a, ha, rfl⟩, hx⟩

theorem mem_projectionRefs_config (s : VolumeProjection) (n : String) :
    DepRef.configMap n ∈ projectionRefs s ↔ ∃ c, s.ConfigMap = some c ∧ c.Name = n := by
  unfold projectionRefs
  cases s.ConfigMap <;> cases s.Secret <;> simp [eq_comm]

theorem mem_projectionRefs_secret (s : VolumeProjection) (n : String) :
    DepRef.secret n ∈ projectionRefs s ↔ ∃ c, s.Secret = some c ∧ c.Name = n := by
  unfold projectionRefs
  cases s.ConfigMap <;> cases s.Secret <;> simp [eq_comm]

theorem mem_volumeRefs_config (v : Volume) (n : String) :
    DepRef.configMap n ∈ volumeRefs v ↔
      (∃ c, v.ConfigMap = some c ∧ c.Name = n) ∨
      (∃ p, v.Projected = some p ∧ ∃ s ∈ p.Sources, ∃ c, s.ConfigMap = some c ∧ c.Name = n) := by
  unfold volumeRefs
  cases v.ConfigMap <;> cases v.Secret <;> cases v.Projected <;>
    simp only [List.mem_append, mem_flatten_map, mem_projectionRefs_config] <;> simp [eq_comm]

theorem mem_volumeRefs_secret (v : Volume) (n : String) :
    DepRef.secret n ∈ volumeRefs v ↔
      (∃ c, v.Secret = some c ∧ c.SecretName = n) ∨
      (∃ p, v.Projected = some p ∧ ∃ s ∈ p.Sources, ∃ c, s.Secret = some c ∧ c.Name = n) := by
  unfold volumeRefs
  cases v.ConfigMap <;> cases v.Secret <;> cases v.Projected <;>
    simp only [List.mem_append, mem_flatten_map, mem_projectionRefs_secret] <;> simp [eq_comm]

theorem mem_envFromRefs_config (ef : EnvFromSource) (n : String) :
    DepRef.configMap n ∈ envFromRefs ef ↔ ∃ r, ef.ConfigMapRef = some r ∧ r.Name = n := by
  unfold envFromRefs
  cases ef.ConfigMapRef <;> cases ef.SecretRef <;> simp [eq_comm]

theorem mem_envFromRefs_secret (ef : EnvFromSource) (n : String) :
    DepRef.secret n ∈ envFromRefs ef ↔ ∃ r, ef.SecretRef = some r ∧ r.Name = n := by
  unfold envFromRefs
  cases ef.ConfigMapRef <;> cases ef.SecretRef <;> simp [eq_comm]

theorem mem_envRefs_config (e : EnvVar) (n : String) :
    DepRef.configMap n ∈ envRefs e ↔
      ∃ vf, e.ValueFrom = some vf ∧ ∃ k, vf.ConfigMapKeyRef = some k ∧ k.Name = n := by
  unfold envRefs
  cases e.ValueFrom with
  | none => simp
  | some vf => cases h1 : vf.ConfigMapKeyRef <;> cases h2 : vf.SecretKeyRef <;> simp [eq_comm, h1, h2]

theorem mem_envRefs_secret (e : EnvVar) (n : String) :
    DepRef.secret n ∈ envRefs e ↔
      ∃ vf, e.ValueFrom = some vf ∧ ∃ k, vf.SecretKeyRef = some k ∧ k.Name = n := by
  unfold envRefs
  cases e.ValueFrom with
  | none => simp
  | some vf => cases h1 : vf.ConfigMapKeyRef <;> cases h2 : vf.SecretKeyRef <;> simp [eq_comm, h1, h2]

theorem mem_containerRefs_config (c : Container) (n : String) :
    DepRef.configMap n ∈ containerRefs c ↔
      (∃ ef ∈ c.EnvFrom, ∃ r, ef.ConfigMapRef = some r ∧ r.Name = n) ∨
      (∃ e ∈ c.Env, ∃ vf, e.ValueFrom = some vf ∧ ∃ k, vf.ConfigMapKeyRef = some k ∧ k.Name = n) := by
  unfold containerRefs
  simp only [List.mem_append, List.mem_flatten, List.mem_map]
  constructor
  · rintro (⟨l, ⟨ef, hef, rfl⟩, hm⟩ | ⟨l, ⟨e, he, rfl⟩, hm⟩)
    · exact Or.inl ⟨ef, hef, (mem_envFromRefs_config ef n).1 hm⟩
    · exact Or.inr ⟨e, he, (mem_envRefs_config e n).1 hm⟩
  · rintro (⟨ef, hef, h⟩ | ⟨e, he, h⟩)
    · exact Or.inl ⟨_, ⟨ef, hef, rfl⟩, (mem_envFromRefs_config ef n).2 h⟩
    · exact Or.inr ⟨_, ⟨e, he, rfl⟩, (mem_envRefs_config e n).2 h⟩

theorem mem_containerRefs_secret (c : Container) (n : String) :
    DepRef.secret n ∈ containerRefs c ↔
      (∃ ef ∈ c.EnvFrom, ∃ r, ef.SecretRef = some r ∧ r.Name = n) ∨
      (∃ e ∈ c.Env, ∃ vf, e.ValueFrom = some vf ∧ ∃ k, vf.SecretKeyRef = some k ∧ k.Name = n) := by
  unfold containerRefs
  simp only [List.mem_append, List.mem_flatten, List.mem_map]
  constructor
  · rintro (⟨l, ⟨ef, hef, rfl⟩, hm⟩ | ⟨l, ⟨e, he, rfl⟩, hm⟩)
    · exact Or.inl ⟨ef, hef, (mem_envFromRefs_secret ef n).1 hm⟩
    · exact Or.inr ⟨e, he, (mem_envRefs_secret e n).1 hm⟩
  · rintro (⟨ef, hef, h⟩ | ⟨e, he, h⟩)
    · exact Or.inl ⟨_, ⟨ef, hef, rfl⟩, (mem_envFromRefs_secret ef n).2 h⟩
    · exact Or.inr ⟨_, ⟨e, he, rfl⟩, (mem_envRefs_secret e n).2 h⟩

theorem mem_podRefs_config (pod : Pod) (n : String) :
    DepRef.configMap n ∈ podRefs pod ↔ ReferencesConfig pod n := by
  unfold podRefs ReferencesConfig
  simp only [List.mem_append, List.mem_flatten, List.mem_map]
  constructor
  · rintro ((⟨l, ⟨v, hv, rfl⟩, hm⟩ | ⟨l, ⟨c, hc, rfl⟩, hm⟩) | ⟨l, ⟨c, hc, rfl⟩, hm⟩)
    · rcases (mem_volumeRefs_config v n).1 hm with h | h
      · exact Or.inl ⟨v, hv, h⟩
      · exact Or.inr (Or.inl ⟨v, hv, h⟩)
    · rcases (mem_containerRefs_config c n).1 hm with h | h
      · exact Or.inr (Or.inr (Or.inl ⟨c, Or.inl hc, h⟩))
      · exact Or.inr (Or.inr (Or.inr ⟨c, Or.inl hc, h⟩))
    · rcases (mem_containerRefs_config c n).1 hm with h | h
      · exact Or.inr (Or.inr (Or.inl ⟨c, Or.inr hc, h⟩))
      · exact Or.inr (Or.inr (Or.inr ⟨c, Or.inr hc, h⟩))
  · rintro (⟨v, hv, h⟩ | ⟨v, hv, h⟩ | ⟨c, hc, h⟩ | ⟨c, hc, h⟩)
    · exact Or.inl (Or.inl ⟨_, ⟨v, hv, rfl⟩, (mem_volumeRefs_config v n).2 (Or.inl h)⟩)
    · exact Or.inl (Or.inl ⟨_, ⟨v, hv, rfl⟩, (mem_volumeRefs_config v n).2 (Or.inr h)⟩)
    · rcases hc with hc | hc
      · exact Or.inl (Or.inr ⟨_, ⟨c, hc, rfl⟩, (mem_containerRefs_config c n).2 (Or.inl h)⟩)
      · exact Or.inr ⟨_, ⟨c, hc, rfl⟩, (mem_containerRefs_config c n).2 (Or.inl h)⟩
    · rcases hc with hc | hc
      · exact Or.inl (Or.inr ⟨_, ⟨c, hc, rfl⟩, (mem_containerRefs_config c n).2 (Or.inr h)⟩)
      · exact Or.inr ⟨_, ⟨c, hc, rfl⟩, (mem_containerRefs_config c n).2 (Or.inr h)⟩

theorem mem_podRefs_secret (pod : Pod) (n : String) :
    DepRef.secret n ∈ podRefs pod ↔ ReferencesSecret pod n := by
  unfold podRefs ReferencesSecret
  simp only [List.mem_append, List.mem_flatten, List.mem_map]
  constructor
  · rintro ((⟨l, ⟨v, hv, rfl⟩, hm⟩ | ⟨l, ⟨c, hc, rfl⟩, hm⟩) | ⟨l, ⟨c, hc, rfl⟩, hm⟩)
    · rcases (mem_volumeRefs_secret v n).1 hm with h | h
      · exact Or.inl ⟨v, hv, h⟩
      · exact Or.inr (Or.inl ⟨v, hv, h⟩)
    · rcases (mem_containerRefs_secret c n).1 hm with h | h
      · exact Or.inr (Or.inr (Or.inl ⟨c, Or.inl hc, h⟩))
      · exact Or.inr (Or.inr (Or.inr ⟨c, Or.inl hc, h⟩))
    · rcases (mem_containerRefs_secret c n).1 hm with h | h
      · exact Or.inr (Or.inr (Or.inl ⟨c, Or.inr hc, h⟩))
      · exact Or.inr (Or.inr (Or.inr ⟨c, Or.inr hc, h⟩))
  · rintro (⟨v, hv, h⟩ | ⟨v, hv, h⟩ | ⟨c, hc, h⟩ | ⟨c, hc, h⟩)
    · exact Or.inl (Or.inl ⟨_, ⟨v, hv, rfl⟩, (mem_volumeRefs_secret v n).2 (Or.inl h)⟩)
    · exact Or.inl (Or.inl ⟨_, ⟨v, hv, rfl⟩, (mem_volumeRefs_secret v n).2 (Or.inr h)⟩)
    · rcases hc with hc | hc
      · exact Or.inl (Or.inr ⟨_, ⟨c, hc, rfl⟩, (mem_containerRefs_secret c n).2 (Or.inl h)⟩)
      · exact Or.inr ⟨_, ⟨c, hc, rfl⟩, (mem_containerRefs_secret c n).2 (Or.inl h)⟩
    · rcases hc with hc | hc
      · exact Or.inl (Or.inr ⟨_, ⟨c, hc, rfl⟩, (mem_containerRefs_secret c n).2 (Or.inr h)⟩)
      · exact Or.inr ⟨_, ⟨c, hc, rfl⟩, (mem_containerRefs_secret c n).2 (Or.inr h)⟩

theorem exists_podRefs_iff (pod : Pod) (key : String) (P : DepRef → Prop) :
    (∃ r ∈ podRefs pod, r.key = key ∧ P r) ↔
      (∃ n, ReferencesConfig pod n ∧ key = "cm/" ++ n ∧ P (DepRef.configMap n)) ∨
      (∃ n, ReferencesSecret pod n ∧ key = "secret/" ++ n ∧ P (DepRef.secret n)) := by
  constructor
  · rintro ⟨r, hr, hk, hp⟩
    cases r with
    | configMap n => exact Or.inl ⟨n, (mem_podRefs_config pod n).1 hr, hk.symm, hp⟩
    | secret n => exact Or.inr ⟨n, (mem_podRefs_secret pod n).1 hr, hk.symm, hp⟩
  · rintro (⟨n, hr, hk, hp⟩ | ⟨n, hr, hk, hp⟩)
    · exact ⟨DepRef.configMap n, (mem_podRefs_config pod n).2 hr, hk.symm, hp⟩
    · exact ⟨DepRef.secret n, (mem_podRefs_secret pod n).2 hr, hk.symm, hp⟩

/-- The clones map in terms of the list of references `cloneDependencies` scans. -/
theorem clone_map_refs (cfg : ForensicsConfig) (pod : Pod) (w : World) :
    (∀ e, (cloneDependencies cfg pod w).1 = .error e →
      IsAlreadyExists e = false ∧
      ∃ obj, (newCalls w (cloneDependencies cfg pod w).2).getLast?
        = some (Call.create obj (some e))) ∧
    (∀ rm, (cloneDependencies cfg pod w).1 = .ok rm →
      (∀ obj e, Call.create obj (some e) ∈ newCalls w (cloneDependencies cfg pod w).2 →
        IsAlreadyExists e = true) ∧
      ∀ key v, StrMap.get? rm key = some v ↔
        ∃ r ∈ podRefs pod, r.key = key ∧ v = pod.ObjectMeta.Namespace ++ "-" ++ r.name ∧
          ∃ c ∈ newCalls w (cloneDependencies cfg pod w).2, isCloneCreate cfg pod r c = true) ∧
    (w.faults = [] → pod.ObjectMeta.Namespace ≠ cfg.TargetNamespace →
      ∃ rm, (cloneDependencies cfg pod w).1 = .ok rm ∧
        (∀ key v, StrMap.get? rm key = some v ↔
          ∃ r ∈ podRefs pod, r.key = key ∧ sourceExists w pod.ObjectMeta.Namespace r = true ∧
            v = pod.ObjectMeta.Namespace ++ "-" ++ r.name) ∧
        (∀ w' : World, w'.faults = [] →
          (∀ r, sourceExists w' pod.ObjectMeta.Namespace r
            = sourceExists w pod.ObjectMeta.Namespace r) →
          (cloneDependencies cfg pod w').1 = .ok rm) ∧
        (cloneDependencies cfg pod (cloneDependencies cfg pod w).2).1 = .ok rm) ∧
    (∀ (lib : Lib) (req : Request) (wr w0 : World),
      EntersMaterialization lib cfg req wr pod w0 →
      pod.ObjectMeta.Namespace ≠ cfg.TargetNamespace) := by
  obtain ⟨_, tr⟩ := cloneDependencies_trace cfg pod w
  refine ⟨?_, ?_, ?_, fun _ _ _ _ h => enters_namespace h⟩
  · intro e he
    obtain ⟨hae, obj, δ', hδ⟩ := tr.failed e he
    exact ⟨hae, obj, by rw [hδ]; simp⟩
  · intro rm hrm
    refine ⟨tr.tolerated rm hrm, ?_⟩
    intro key v
    rw [tr.ok rm hrm key v]
    simp [StrMap.get?, cloneName]
  · intro hf hns
    have hns' : cfg.TargetNamespace ≠ pod.ObjectMeta.Namespace := fun h => hns h.symm
    obtain ⟨h1, h2, h3⟩ := cloneRefs_nofault cfg pod hns'
      (sourceExists w pod.ObjectMeta.Namespace) (podRefs pod) [] w hf (fun _ => rfl)
    refine ⟨_, h1, ?_, ?_, ?_⟩
    · intro key v
      rw [expectedMap_get?]
      simp [StrMap.get?, cloneName]
    · intro w' hf' hs
      exact (cloneRefs_nofault cfg pod hns' (sourceExists w pod.ObjectMeta.Namespace)
        (podRefs pod) [] w' hf' hs).1
    · exact (cloneRefs_nofault cfg pod hns' (sourceExists w pod.ObjectMeta.Namespace)
        (podRefs pod) [] _ h2 h3).1

theorem set_keys (m : StrMap) (k v : String) :
    (StrMap.set m k v).map Prod.fst
      = if k ∈ m.map Prod.fst then m.map Prod.fst else m.map Prod.fst ++ [k] := by
  induction m with
  | nil => simp [StrMap.set]
  | cons kv rest ih =>
    obtain ⟨a, b⟩ := kv
    unfold StrMap.set
    by_cases hak : a = k
    · subst hak; simp
    · have hka : ¬ k = a := fun h => hak h.symm
      simp only [hak, if_false, List.map_cons, ih, List.mem_cons, hka, false_or]
      split <;> simp

theorem set_nodup (m : StrMap) (k v : String) (h : (m.map Prod.fst).Nodup) :
    ((StrMap.set m k v).map Prod.fst).Nodup := by
  rw [set_keys]
  split
  · exact h
  · rename_i hk
    rw [List.nodup_append]
    exact ⟨h, List.nodup_singleton k, by
      intro a ha hb
      simp only [List.mem_singleton] at hb
      subst hb
      exact hk ha⟩

theorem mem_set {m : StrMap} {k v : String} {kv : String × String}
    (h : kv ∈ StrMap.set m k v) : kv ∈ m ∨ kv = (k, v) := by
  induction m with
  | nil =>
    simp only [StrMap.set, List.mem_singleton] at h
    exact Or.inr h
  | cons x rest ih =>
    obtain ⟨a, b⟩ := x
    unfold StrMap.set at h
    by_cases hak : a = k
    · simp only [hak, if_true, List.mem_cons] at h
      rcases h with h | h
      · exact Or.inr h
      · exact Or.inl (List.mem_cons_of_mem _ h)
    · simp only [hak, if_false, List.mem_cons] at h
      rcases h with h | h
      · exact Or.inl (by rw [h]; exact List.mem_cons_self _ _)
      · rcases ih h with h | h
        · exact Or.inl (List.mem_cons_of_mem _ h)
        · exact Or.inr h

theorem get?_isSome_iff (m : StrMap) (k : String) :
    (StrMap.get? m k).isSome = true ↔ k ∈ m.map Prod.fst := by
  induction m with
  | nil => simp [StrMap.get?]
  | cons kv rest ih =>
    obtain ⟨a, b⟩ := kv
    unfold StrMap.get?
    by_cases hak : a = k
    · simp [hak]
    · have hka : ¬ k = a := fun h => hak h.symm
      simp [hak, hka, ih]

theorem get?_redactInto (src : StrMap) :
    ∀ (dst : StrMap) (k : String),
      StrMap.get? (redactInto dst src) k
        = if (StrMap.get? src k).isSome then some "REDACTED" else StrMap.get? dst k := by
  induction src with
  | nil => intro dst k; simp [redactInto, StrMap.get?]
  | cons kv rest ih =>
    intro dst k
    obtain ⟨a, b⟩ := kv
    have hstep : redactInto dst ((a, b) :: rest) = redactInto (StrMap.set dst a "REDACTED") rest :=
      rfl
    rw [hstep, ih]
    by_cases hak : a = k
    · subst hak
      simp [StrMap.get?, get?_set_self]
    · simp only [StrMap.get?, hak, if_false]
      rw [get?_set_ne dst a k _ hak]

theorem redactInto_nodup (src : StrMap) :
    ∀ dst : StrMap, (dst.map Prod.fst).Nodup → ((redactInto dst src).map Prod.fst).Nodup := by
  induction src with
  | nil => intro dst h; exact h
  | cons kv rest ih =>
    intro dst h
    exact ih _ (set_nodup dst kv.1 "REDACTED" h)

theorem mem_redactInto (src : StrMap) :
    ∀ (dst : StrMap) (kv : String × String),
      kv ∈ redactInto dst src → kv ∈ dst ∨ kv.2 = "REDACTED" := by
  induction src with
  | nil => intro dst kv h; exact Or.inl h
  | cons x rest ih =>
    intro dst kv h
    rcases ih _ kv h with h | h
    · rcases mem_set h with h | h
      · exact Or.inl h
      · exact Or.inr (by rw [h])
    · exact Or.inr h

/-- Reading the map the server makes by merging `stringData` into `data`. -/
theorem get?_merge (sd : StrMap) :
    ∀ (d : StrMap) (k : String), (sd.map Prod.fst).Nodup →
      StrMap.get? (sd.foldl (fun acc kv => StrMap.set acc kv.1 kv.2) d) k
        = match StrMap.get? sd k with
          | some v => some v
          | none => StrMap.get? d k := by
  induction sd with
  | nil => intro d k _; simp [StrMap.get?]
  | cons kv rest ih =>
    intro d k hnd
    obtain ⟨a, b⟩ := kv
    simp only [List.map_cons, List.nodup_cons] at hnd
    rw [List.foldl_cons, ih _ k hnd.2]
    by_cases hak : a = k
    · subst hak
      have hnone : StrMap.get? rest a = none := by
        cases h : StrMap.get? rest a with
        | none => rfl
        | some x =>
          have := (get?_isSome_iff rest a).1 (by rw [h]; rfl)
          exact absurd this hnd.1
      simp [StrMap.get?, hnone, get?_set_self]
    · simp only [StrMap.get?, hak, if_false]
      rw [get?_set_ne d a k _ hak]

theorem handleSecret_hit (cfg : ForensicsConfig) (pod : Pod) (name : String) (rm : StrMap)
    (w : World) (src : Secret) (hkey : StrMap.get? rm ("secret/" ++ name) = none)
    (hget : (w.GetSecret pod.ObjectMeta.Namespace name).1 = .ok src) :
    ∃ outcome,
      (handleSecret cfg pod name rm w).2.2.calls
        = w.calls ++ [Call.create (.secret (secretClone cfg pod name src)) outcome] ∧
      (outcome = none →
        ∃ nm t, (handleSecret cfg pod name rm w).2.2.objects
          = w.objects ++ [(Object.secret (secretClone cfg pod name src)).storedAs nm t]) ∧
      (outcome ≠ none → (handleSecret cfg pod name rm w).2.2.objects = w.objects) := by
  have hg : w.GetSecret pod.ObjectMeta.Namespace name = (.ok src, w.popFault.2) :=
    Prod.ext hget (GetSecret_snd w _ _)
  rw [handleSecret_def]
  simp only [hkey, hg]
  cases hc : w.popFault.2.Create (.secret (secretClone cfg pod name src)) with
  | mk res w2 =>
    cases res with
    | error e =>
      obtain ⟨hobj, hcalls, _, _⟩ := Create_error hc
      refine ⟨some e, ?_, fun h => (by cases h), fun _ => ?_⟩
      · simp only []
        split <;> simp [hcalls]
      · simp only []
        split <;> simp [hobj]
    | ok stored =>
      obtain ⟨hobj, hcalls, _, _, ⟨nm, t, hst⟩, _⟩ := Create_ok hc
      refine ⟨none, by simp [hcalls], fun _ => ⟨nm, t, ?_⟩, fun h => absurd rfl h⟩
      simp [hobj, hst]

theorem secretsDisabled_iff (cfg : ForensicsConfig) (pod : Pod) :
    secretsDisabled cfg pod = false ↔
      (cfg.EnableSecretCloning = true ∧
        StrMap.get pod.ObjectMeta.Annotations "forensic.io/no-secret-clone" ≠ "true") := by
  unfold secretsDisabled
  simp only [AnnotationNoSecretClone]
  by_cases h : StrMap.get pod.ObjectMeta.Annotations "forensic.io/no-secret-clone" = "true"
  · simp [h]
  · simp [h]

theorem secretClone_data (cfg : ForensicsConfig) (pod : Pod) (name : String) (src : Secret)
    (hmode : secretsDisabled cfg pod = true) (k : String) :
    StrMap.get? (secretClone cfg pod name src).Data k
      = if (StrMap.get? src.Data k).isSome then some "REDACTED" else none := by
  simp only [secretClone, hmode, if_true]
  rw [get?_redactInto]
  rfl

theorem secretClone_stringData (cfg : ForensicsConfig) (pod : Pod) (name : String) (src : Secret)
    (hmode : secretsDisabled cfg pod = true) (k : String) :
    StrMap.get? (secretClone cfg pod name src).StringData k
      = if (StrMap.get? src.StringData k).isSome then some "REDACTED"
        else if k = "WARNING" then some redactionWarning else none := by
  simp only [secretClone, hmode, if_true]
  rw [get?_redactInto]
  by_cases hk : k = "WARNING"
  · subst hk; simp [StrMap.get?]
  · have hk' : ¬ "WARNING" = k := fun h => hk h.symm
    simp [StrMap.get?, hk, hk']

/-- What the server stores for a redacted clone. -/
theorem secretClone_stored (cfg : ForensicsConfig) (pod : Pod) (name : String) (src : Secret)
    (hmode : secretsDisabled cfg pod = true) (nm : String) (t : Time) :
    ∃ st, (Object.secret (secretClone cfg pod name src)).storedAs nm t = .secret st ∧
      st.ObjectMeta.Namespace = cfg.TargetNamespace ∧
      st.ObjectMeta.Labels
        = StrMap.set src.ObjectMeta.Labels LabelSourcePodUID pod.ObjectMeta.UID ∧
      st.SecretType = src.SecretType ∧ st.StringData = [] ∧
      ∀ k, StrMap.get? st.Data k
        = if (StrMap.get? src.StringData k).isSome then some "REDACTED"
          else if k = "WARNING" then some redactionWarning
          else if (StrMap.get? src.Data k).isSome then some "REDACTED" else none := by
  refine ⟨_, rfl, rfl, rfl, rfl, rfl, ?_⟩
  intro k
  have hnd : ((secretClone cfg pod name src).StringData.map Prod.fst).Nodup := by
    simp only [secretClone, hmode, if_true]
    exact redactInto_nodup _ _ (by simp)
  show StrMap.get? ((secretClone cfg pod name src).StringData.foldl
      (fun acc kv => StrMap.set acc kv.1 kv.2) (secretClone cfg pod name src).Data) k = _
  rw [get?_merge _ _ _ hnd, secretClone_stringData cfg pod name src hmode,
    secretClone_data cfg pod name src hmode]
  by_cases h1 : (StrMap.get? src.StringData k).isSome = true
  · simp [h1]
  · by_cases h2 : k = "WARNING"
    · subst h2
      simp only [Bool.not_eq_true] at h1
      simp [h1]
    · simp [h1, h2]

theorem annotations_log_hash (pod : Pod) (c : String) (code : Int) (hash : String)
    (snaps : StrMap) (ckpt s3 : String) :
    StrMap.get? (forensicAnnotations pod c code hash snaps ckpt s3) "forensic.io/log-sha256"
      = some hash := by
  rw [get?_forensicAnnotations _ _ _ _ _ _ _ _ (by decide) (by decide)]
  simp only []
  split <;> split <;> split <;>
    simp [get?_set_ne, StrMap.get?, LabelLogS3URL]

theorem createLogConfigMap_stores {cfg : ForensicsConfig} {pod : Pod} {logs name : String}
    {w w' : World} (h : createLogConfigMap cfg pod logs w = (.ok name, w')) :
    ∃ logCM : ConfigMap, w'.objects = w.objects ++ [Object.cm logCM] ∧
      (∀ o ∈ w.objects, o.sameKey (Object.cm logCM) = false) ∧
      logCM.ObjectMeta.Name = name ∧ logCM.ObjectMeta.Namespace = cfg.TargetNamespace ∧
      logCM.ObjectMeta.GenerateName = pod.ObjectMeta.Name ++ "-logs-" ∧
      logCM.Data = [(LogConfigMapKey, logs)] := by
  unfold createLogConfigMap at h
  simp only [] at h
  split at h
  · simp at h
  · rename_i stored w1 hc
    simp only [Prod.mk.injEq, Except.ok.injEq] at h
    obtain ⟨rfl, rfl⟩ := h
    obtain ⟨ho, -, -, -, ⟨nm, t, rfl⟩, hfresh⟩ := Create_ok hc
    exact ⟨_, ho, hfresh, rfl, rfl, rfl, rfl⟩

theorem crashedLogs_truncated (env : Env) (cfg : ForensicsConfig) (pod : Pod) (stream : LogStream)
    (hname : crashedName pod ≠ "")
    (hget : env.GetLogs pod.ObjectMeta.Namespace pod.ObjectMeta.Name (crashedName pod) = .ok stream)
    (hlen : cfg.MaxLogSizeBytes ≤ stream.data.length) :
    crashedLogs env cfg pod
      = String.mk (stream.data.toList.take cfg.MaxLogSizeBytes)
          ++ "\n... [TRUNCATED " ++ toString (cfg.MaxLogSizeBytes / 1024) ++ " KB] ..." := by
  unfold crashedLogs fetchLogs getPodLogs
  unfold crashedName at hname hget
  have hlt : ¬ stream.data.length < cfg.MaxLogSizeBytes := Nat.not_lt.2 hlen
  simp only [hname, if_false, hget, hlt, Nat.min_eq_left hlen, if_true]

theorem mk_toList_take_length (s : String) : String.mk (s.toList.take s.length) = s := by
  have h : s.toList.take s.length = s.toList := List.take_of_length_le (Nat.le_refl _)
  rw [h]
  rfl

theorem Create_events (w : World) (obj : Object) : (w.Create obj).2.events = w.events := by
  cases h : w.Create obj with
  | mk r w1 =>
    cases r with
    | error e => exact (Create_error h).2.2.1
    | ok o => exact (Create_ok h).2.2.1

theorem Create_counters (w : World) (obj : Object) : (w.Create obj).2.counters = w.counters := by
  cases h : w.Create obj with
  | mk r w1 =>
    cases r with
    | error e => exact (Create_error h).2.2.2
    | ok o => exact (Create_ok h).2.2.2.1

theorem ensureNamespace_quiet (cfg : ForensicsConfig) (w : World) :
    (ensureNamespace cfg w).2.events = w.events ∧
    (ensureNamespace cfg w).2.counters = w.counters := by
  unfold ensureNamespace
  simp only []
  split
  · rename_i e w1 h
    have h1 := Create_events w (.ns { ObjectMeta := { Name := cfg.TargetNamespace } })
    have h2 := Create_counters w (.ns { ObjectMeta := { Name := cfg.TargetNamespace } })
    rw [h] at h1 h2
    split <;> exact ⟨h1, h2⟩
  · rename_i o w1 h
    have h1 := Create_events w (.ns { ObjectMeta := { Name := cfg.TargetNamespace } })
    have h2 := Create_counters w (.ns { ObjectMeta := { Name := cfg.TargetNamespace } })
    rw [h] at h1 h2
    exact ⟨h1, h2⟩

theorem ensureNetworkPolicy_quiet (cfg : ForensicsConfig) (w : World) :
    (ensureNetworkPolicy cfg w).2.events = w.events ∧
    (ensureNetworkPolicy cfg w).2.counters = w.counters := by
  unfold ensureNetworkPolicy
  simp only []
  split
  · rename_i e w1 h
    have h1 := (Create_error h).2.2.1
    have h2 := (Create_error h).2.2.2
    split <;> exact ⟨h1, h2⟩
  · rename_i o w1 h
    exact ⟨(Create_ok h).2.2.1, (Create_ok h).2.2.2.1⟩

theorem createLogConfigMap_quiet (cfg : ForensicsConfig) (pod : Pod) (logs : String) (w : World) :
    (createLogConfigMap cfg pod logs w).2.events = w.events ∧
    (createLogConfigMap cfg pod logs w).2.counters = w.counters := by
  unfold createLogConfigMap
  simp only []
  split
  · rename_i e w1 h
    exact ⟨(Create_error h).2.2.1, (Create_error h).2.2.2⟩
  · rename_i o w1 h
    exact ⟨(Create_ok h).2.2.1, (Create_ok h).2.2.2.1⟩

theorem handleRef_quiet (cfg : ForensicsConfig) (pod : Pod) (r : DepRef) (rm : StrMap)
    (w : World) :
    (handleRef cfg pod r rm w).2.2.events = w.events ∧
    (handleRef cfg pod r rm w).2.2.counters = w.counters := by
  cases r with
  | configMap name =>
    simp only [handleRef]
    rw [handleConfigMap_def]
    split
    · exact ⟨rfl, rfl⟩
    · split
      · rename_i e w1 h
        have h2 : w1 = w.popFault.2 := by
          have := GetConfigMap_snd w pod.ObjectMeta.Namespace name
          rw [h] at this; exact this
        rw [h2]; simp
      · rename_i src w1 h
        have h2 : w1 = w.popFault.2 := by
          have := GetConfigMap_snd w pod.ObjectMeta.Namespace name
          rw [h] at this; exact this
        have h3 := Create_events w1 (.cm (configMapClone cfg pod name src))
        have h4 := Create_counters w1 (.cm (configMapClone cfg pod name src))
        rw [h2] at h3 h4
        simp only [popFault_events, popFault_counters] at h3 h4
        rw [h2]
        split
        · rename_i e w2 hc
          rw [hc] at h3 h4
          split <;> exact ⟨h3, h4⟩
        · rename_i o w2 hc
          rw [hc] at h3 h4
          exact ⟨h3, h4⟩
  | secret name =>
    simp only [handleRef]
    rw [handleSecret_def]
    split
    · exact ⟨rfl, rfl⟩
    · split
      · rename_i e w1 h
        have h2 : w1 = w.popFault.2 := by
          have := GetSecret_snd w pod.ObjectMeta.Namespace name
          rw [h] at this; exact this
        rw [h2]; simp
      · rename_i src w1 h
        have h2 : w1 = w.popFault.2 := by
          have := GetSecret_snd w pod.ObjectMeta.Namespace name
          rw [h] at this; exact this
        have h3 := Create_events w1 (.secret (secretClone cfg pod name src))
        have h4 := Create_counters w1 (.secret (secretClone cfg pod name src))
        rw [h2] at h3 h4
        simp only [popFault_events, popFault_counters] at h3 h4
        rw [h2]
        split
        · rename_i e w2 hc
          rw [hc] at h3 h4
          split <;> exact ⟨h3, h4⟩
        · rename_i o w2 hc
          rw [hc] at h3 h4
          exact ⟨h3, h4⟩

theorem cloneRefs_quiet (cfg : ForensicsConfig) (pod : Pod) (refs : List DepRef) :
    ∀ (rm : StrMap) (w : World),
      (cloneRefs cfg pod refs rm w).2.events = w.events ∧
      (cloneRefs cfg pod refs rm w).2.counters = w.counters := by
  induction refs with
  | nil => intro rm w; exact ⟨rfl, rfl⟩
  | cons r0 rest ih =>
    intro rm w
    obtain ⟨h1, h2⟩ := handleRef_quiet cfg pod r0 rm w
    rcases cloneRefs_step cfg pod r0 rest rm w with ⟨e, _, heq⟩ | ⟨_, heq⟩
    · rw [heq]; exact ⟨h1, h2⟩
    · rw [heq]
      obtain ⟨h3, h4⟩ := ih (handleRef cfg pod r0 rm w).2.1 (handleRef cfg pod r0 rm w).2.2
      exact ⟨h3.trans h1, h4.trans h2⟩

theorem cloneDependencies_quiet (cfg : ForensicsConfig) (pod : Pod) (w : World) :
    (cloneDependencies cfg pod w).2.events = w.events ∧
    (cloneDependencies cfg pod w).2.counters = w.counters :=
  cloneRefs_quiet cfg pod (podRefs pod) [] w

theorem enters_quiet {lib : Lib} {cfg : ForensicsConfig} {req : Request} {w : World}
    {pod : Pod} {w0 : World} (h : EntersMaterialization lib cfg req w pod w0) :
    w0.events = w.events ∧
    w0.counters = w.counters ++ [⟨ForensicCrashesTotal, [pod.ObjectMeta.Namespace, "CrashDetected"]⟩] := by
  obtain ⟨-, -, -, w1, fp, w3, hget, -, -, hlist, -, rfl⟩ := h
  have h1 : w1 = w.popFault.2 := (GetPod_ok_inv hget).2.1
  have h3 : w3 = (w1.Inc ForensicCrashesTotal [pod.ObjectMeta.Namespace, "CrashDetected"]).popFault.2 := by
    have := ListPods_snd (w1.Inc ForensicCrashesTotal [pod.ObjectMeta.Namespace, "CrashDetected"])
      cfg.TargetNamespace
      [(LabelCrashSignature,
        getCrashSignature lib pod (crashCheck pod).crashedContainerName (crashCheck pod).exitCode)]
    rw [hlist] at this
    exact this
  subst h1
  subst h3
  constructor
  · simp
  · simp [World.Inc]

theorem started_quiet (pod : Pod) (w0 : World) :
    (started pod w0).events = w0.events ++ [startedEvent pod] ∧
    (started pod w0).counters = w0.counters :=
  ⟨rfl, rfl⟩

theorem digitValue_digitChar (n : Nat) (h : n < 10) : digitValue (Nat.digitChar n) = n := by
  interval_cases n <;> rfl

theorem digitChar_ne_dash (n : Nat) (h : n < 10) : Nat.digitChar n ≠ '-' := by
  interval_cases n <;> decide

theorem decimalValue_append (pre : List Char) (c : Char) :
    decimalValue (pre ++ [c]) = 10 * decimalValue pre + digitValue c := by
  simp [decimalValue, List.foldl_append]

theorem toDigitsCore_spec (fuel : Nat) :
    ∀ (n : Nat) (ds : List Char), n < fuel →
      ∃ pre, Nat.toDigitsCore 10 fuel n ds = pre ++ ds ∧ decimalValue pre = n ∧
        pre ≠ [] ∧ ∀ c ∈ pre, c ≠ '-' := by
  induction fuel with
  | zero => intro n ds h; exact absurd h (Nat.not_lt_zero _)
  | succ fuel ih =>
    intro n ds h
    unfold Nat.toDigitsCore
    by_cases hz : n / 10 = 0
    · simp only [hz, if_true]
      have hn : n < 10 := by omega
      refine ⟨[Nat.digitChar (n % 10)], rfl, ?_, by simp, ?_⟩
      · have hv := digitValue_digitChar (n % 10) (Nat.mod_lt _ (by decide))
        rw [Nat.mod_eq_of_lt hn] at hv ⊢
        simp [decimalValue, hv]
      · intro c hc
        simp only [List.mem_singleton] at hc
        rw [hc]
        exact digitChar_ne_dash _ (Nat.mod_lt _ (by decide))
    · simp only [hz, if_false]
      have hlt : n / 10 < fuel := by omega
      obtain ⟨pre, hpre, hval, hne, hd⟩ := ih (n / 10) (Nat.digitChar (n % 10) :: ds) hlt
      refine ⟨pre ++ [Nat.digitChar (n % 10)], by rw [hpre]; simp, ?_, by simp, ?_⟩
      · rw [decimalValue_append, hval, digitValue_digitChar _ (Nat.mod_lt _ (by decide))]
        omega
      · intro c hc
        rcases List.mem_append.1 hc with hc | hc
        · exact hd c hc
        · simp only [List.mem_singleton] at hc
          rw [hc]
          exact digitChar_ne_dash _ (Nat.mod_lt _ (by decide))

theorem toDigits_spec (n : Nat) :
    decimalValue (Nat.toDigits 10 n) = n ∧ Nat.toDigits 10 n ≠ [] ∧
      ∀ c ∈ Nat.toDigits 10 n, c ≠ '-' := by
  obtain ⟨pre, hpre, hval, hne, hd⟩ := toDigitsCore_spec (n + 1) n [] (Nat.lt_succ_self n)
  unfold Nat.toDigits
  rw [hpre, List.append_nil]
  exact ⟨hval, hne, hd⟩

theorem toString_nat_data (n : Nat) : (toString n).data = Nat.toDigits 10 n := rfl

theorem toString_int_data (i : Int) :
    (toString i).data =
      match i with
      | Int.ofNat m => Nat.toDigits 10 m
      | Int.negSucc m => '-' :: Nat.toDigits 10 (m + 1) := by
  cases i with
  | ofNat m => rfl
  | negSucc m => rfl

theorem toString_int_injective (i j : Int) (h : toString i = toString j) : i = j := by
  have hd : (toString i).data = (toString j).data := by rw [h]
  rw [toString_int_data, toString_int_data] at hd
  cases i with
  | ofNat m =>
    cases j with
    | ofNat m' =>
      simp only at hd
      have := congrArg decimalValue hd
      rw [(toDigits_spec m).1, (toDigits_spec m').1] at this
      rw [this]
    | negSucc m' =>
      simp only at hd
      obtain ⟨-, hne, hdash⟩ := toDigits_spec m
      cases hx : Nat.toDigits 10 m with
      | nil => exact absurd hx hne
      | cons c rest =>
        rw [hx] at hd hdash
        have : c = '-' := (List.cons.inj hd).1
        exact absurd this (hdash c (List.mem_cons_self _ _))
  | negSucc m =>
    cases j with
    | ofNat m' =>
      simp only at hd
      obtain ⟨-, hne, hdash⟩ := toDigits_spec m'
      cases hx : Nat.toDigits 10 m' with
      | nil => exact absurd hx hne
      | cons c rest =>
        rw [hx] at hd hdash
        have : '-' = c := (List.cons.inj hd).1
        exact absurd this.symm (hdash c (List.mem_cons_self _ _))
    | negSucc m' =>
      simp only at hd
      have h2 := (List.cons.inj hd).2
      have := congrArg decimalValue h2
      rw [(toDigits_spec (m + 1)).1, (toDigits_spec (m' + 1)).1] at this
      have hm : m = m' := by omega
      rw [hm]

theorem split_at_dash (a : List Char) :
    ∀ (a' r r' : List Char), a.count '-' = a'.count '-' →
      a ++ '-' :: r = a' ++ '-' :: r' → a = a' ∧ r = r' := by
  induction a with
  | nil =>
    intro a' r r' hc h
    cases a' with
    | nil => exact ⟨rfl, (List.cons.inj h).2⟩
    | cons x t =>
      have hx : x = '-' := ((List.cons.inj h).1).symm
      subst hx
      simp at hc
  | cons x t ih =>
    intro a' r r' hc h
    cases a' with
    | nil =>
      have hx : x = '-' := (List.cons.inj h).1
      subst hx
      simp at hc
    | cons x' t' =>
      have hx : x = x' := (List.cons.inj h).1
      subst hx
      have ht := (List.cons.inj h).2
      have hc' : t.count '-' = t'.count '-' := by
        simp only [List.count_cons] at hc
        omega
      obtain ⟨h1, h2⟩ := ih t' r r' hc' ht
      exact ⟨by rw [h1], h2⟩

theorem signatureInput_data (pod : Pod) (c : String) (e : Int) :
    (signatureInput pod c e).data =
      pod.ObjectMeta.Namespace.data ++ '-' :: ((workloadName pod).data ++ '-' ::
        (c.data ++ '-' :: (toString e).data)) := by
  simp [signatureInput, String.data_append]

theorem matchesLabelValue_last {cs : List Char} (h : MatchesLabelValue cs) :
    ∃ c, cs.getLast? = some c ∧ isAlnum c = true := by
  obtain ⟨first, mid, last, rfl, -, -, hl⟩ := h
  refine ⟨last, ?_, hl⟩
  have : first :: (mid ++ [last]) = (first :: mid) ++ [last] := rfl
  rw [this, List.getLast?_append]
  rfl

theorem matchesLabelRegex_last {cs : List Char} (h : MatchesLabelRegex cs) (hne : cs ≠ []) :
    ∃ c, cs.getLast? = some c ∧ isAlnum c = true := by
  rcases h with h | ⟨c, rfl, hc⟩ | h
  · exact absurd h hne
  · exact ⟨c, rfl, hc⟩
  · exact matchesLabelValue_last h

theorem digitChar_decimal (n : Nat) (h : n < 10) : isDecimalDigit (Nat.digitChar n) = true := by
  interval_cases n <;> decide

theorem isDecimalDigit_isAlnum {c : Char} (h : isDecimalDigit c = true) : isAlnum c = true := by
  simp only [isDecimalDigit, isAlnum, Bool.or_eq_true, Bool.and_eq_true, decide_eq_true_eq] at *
  exact Or.inr h

theorem isDecimalDigit_ne_colon {c : Char} (h : isDecimalDigit c = true) : c ≠ ':' := by
  intro hc
  subst hc
  exact absurd h (by decide)

theorem digits2_decimal (n : Nat) (h : n < 100) : ∀ c ∈ digits2 n, isDecimalDigit c = true := by
  intro c hc
  simp only [digits2, List.mem_cons, List.mem_singleton, List.not_mem_nil, or_false] at hc
  rcases hc with rfl | rfl
  · exact digitChar_decimal _ (by omega)
  · exact digitChar_decimal _ (by omega)

theorem digits4_decimal (n : Nat) (h : n < 10000) : ∀ c ∈ digits4 n, isDecimalDigit c = true := by
  intro c hc
  simp only [digits4, List.mem_cons, List.mem_singleton, List.not_mem_nil, or_false] at hc
  rcases hc with rfl | rfl | rfl | rfl
  · exact digitChar_decimal _ (by omega)
  · exact digitChar_decimal _ (by omega)
  · exact digitChar_decimal _ (by omega)
  · exact digitChar_decimal _ (by omega)

theorem appendInt_two (x : Int) (h0 : 0 ≤ x) (h1 : x < 100) :
    appendInt x 2 = digits2 x.toNat := by
  have hn : x.natAbs = x.toNat := by omega
  have hu : x.toNat < 100 := by omega
  unfold appendInt
  simp only [Int.not_lt.2 h0, if_false, hn, hu, and_self, if_true, List.nil_append, digits2]

theorem appendInt_four (x : Int) (h0 : 0 ≤ x) (h1 : x < 10000) :
    appendInt x 4 = digits4 x.toNat := by
  have hn : x.natAbs = x.toNat := by omega
  have hu : x.toNat < 10000 := by omega
  unfold appendInt
  simp only [Int.not_lt.2 h0, if_false, hn, hu, and_true, if_true, List.nil_append, digits4]
  simp

theorem civilFromDays_bounds (z : Int) :
    1 ≤ (civilFromDays z).2.1 ∧ (civilFromDays z).2.1 ≤ 12 ∧
    1 ≤ (civilFromDays z).2.2 ∧ (civilFromDays z).2.2 ≤ 31 := by
  simp only [civilFromDays]
  split <;> omega

theorem civil_bounds (t : Time) :
    1 ≤ t.civil.month ∧ t.civil.month ≤ 12 ∧ 1 ≤ t.civil.day ∧ t.civil.day ≤ 31 ∧
    0 ≤ t.civil.hour ∧ t.civil.hour ≤ 23 ∧ 0 ≤ t.civil.minute ∧ t.civil.minute ≤ 59 ∧
    0 ≤ t.civil.second ∧ t.civil.second ≤ 59 := by
  obtain ⟨h1, h2, h3, h4⟩ := civilFromDays_bounds (t / 1000000000 / 86400)
  refine ⟨h1, h2, h3, h4, ?_⟩
  simp only [Time.civil]
  omega

theorem formatChunks_forensic (c : Civil) :
    formatChunks c ForensicTimeFormat.toList =
      appendInt c.year 4 ++ '-' :: (appendInt c.month 2 ++ '-' :: (appendInt c.day 2 ++ 'T' ::
        (appendInt c.hour 2 ++ '-' :: (appendInt c.minute 2 ++ '-' ::
          (appendInt c.second 2 ++ ['Z']))))) :=
  rfl

theorem goFormat_forensic (t : Time) (hy : 0 ≤ t.civil.year) (hy' : t.civil.year ≤ 9999) :
    (goFormat ForensicTimeFormat t).data =
      digits4 t.civil.year.toNat ++ '-' :: (digits2 t.civil.month.toNat ++ '-' ::
        (digits2 t.civil.day.toNat ++ 'T' :: (digits2 t.civil.hour.toNat ++ '-' ::
          (digits2 t.civil.minute.toNat ++ '-' :: (digits2 t.civil.second.toNat ++ ['Z']))))) := by
  obtain ⟨h1, h2, h3, h4, h5, h6, h7, h8, h9, h10⟩ := civil_bounds t
  show formatChunks t.civil ForensicTimeFormat.toList = _
  rw [formatChunks_forensic, appendInt_four _ hy (by omega), appendInt_two _ (by omega) (by omega),
    appendInt_two _ (by omega) (by omega), appendInt_two _ h5 (by omega),
    appendInt_two _ h7 (by omega), appendInt_two _ h9 (by omega)]

theorem sameKey_symm (a b : Object) : a.sameKey b = b.sameKey a := by
  simp only [Object.sameKey]
  rw [Bool.eq_iff_iff]
  simp only [Bool.and_eq_true, decide_eq_true_eq]
  constructor <;> rintro ⟨⟨h1, h2⟩, h3⟩ <;> exact ⟨⟨h1.symm, h2.symm⟩, h3.symm⟩

theorem sameKey_kind {a b : Object} (h : a.sameKey b = true) : a.kind = b.kind := by
  simp only [Object.sameKey, Bool.and_eq_true, decide_eq_true_eq] at h
  exact h.1.1

theorem uniqueKeys_eq {l : List Object} (h : uniqueKeys l = true) {a b : Object}
    (ha : a ∈ l) (hb : b ∈ l) (hk : a.sameKey b = true) : a = b := by
  induction l with
  | nil => cases ha
  | cons o rest ih =>
    simp only [uniqueKeys, Bool.and_eq_true, List.all_eq_true, Bool.not_eq_true',
      Bool.not_eq_eq_eq_not, Bool.not_true] at h
    rcases List.mem_cons.1 ha with rfl | ha'
    · rcases List.mem_cons.1 hb with rfl | hb'
      · rfl
      · rw [h.1 b hb'] at hk
        cases hk
    · rcases List.mem_cons.1 hb with rfl | hb'
      · rw [sameKey_symm, h.1 a ha'] at hk
        cases hk
      · exact ih h.2 ha' hb'

theorem isDependency_kind {cfg : ForensicsConfig} {u : String} {d : Object}
    (h : isDependency cfg u d = true) : d.kind ≠ Kind.Pod := by
  cases d <;> simp [isDependency, Object.kind] at h ⊢

theorem mem_listedPods {cfg : ForensicsConfig} {w : World} {q : Pod} :
    q ∈ listedPods cfg w ↔
      Object.pod q ∈ w.objects ∧ q.ObjectMeta.Namespace = cfg.TargetNamespace := by
  simp only [listedPods, List.mem_filter, List.mem_filterMap, decide_eq_true_eq]
  constructor
  · rintro ⟨⟨o, ho, hq⟩, hn⟩
    cases o <;> simp only [Object.asPod?, Option.some.injEq] at hq <;> try cases hq
    exact ⟨ho, hn⟩
  · rintro ⟨ho, hn⟩
    exact ⟨⟨_, ho, rfl⟩, hn⟩

theorem Delete_calls (w : World) (obj : Object) :
    (w.Delete obj).2.calls = w.calls ++ [Call.delete obj (w.Delete obj).1] := by
  unfold World.Delete
  simp only []
  split
  · simp
  · split <;> simp

theorem Delete_subset (w : World) (obj : Object) :
    ∀ o ∈ (w.Delete obj).2.objects, o ∈ w.objects := by
  unfold World.Delete
  simp only []
  split
  · intro o ho
    simpa using ho
  · split
    · intro o ho
      simp only [record_objects, List.mem_filter, popFault_objects] at ho
      exact ho.1
    · intro o ho
      simpa using ho

theorem Delete_removed (w : World) (obj : Object) :
    ∀ o ∈ w.objects, o ∉ (w.Delete obj).2.objects →
      (w.Delete obj).1 = none ∧ o.sameKey obj = true := by
  unfold World.Delete
  simp only []
  split
  · intro o ho hn
    simp only [record_objects, popFault_objects] at hn
    exact absurd ho hn
  · split
    · intro o ho hn
      simp only [record_objects, List.mem_filter, popFault_objects, Bool.not_eq_true',
        not_and, Bool.not_eq_false] at hn
      exact ⟨rfl, hn ho⟩
    · intro o ho hn
      simp only [record_objects, popFault_objects] at hn
      exact absurd ho hn

theorem Delete_error (w : World) (obj : Object) (e : Err) (h : (w.Delete obj).1 = some e) :
    (w.Delete obj).2.objects = w.objects := by
  unfold World.Delete at h ⊢
  simp only [] at h ⊢
  split
  · simp
  · split
    · rename_i h1 h2
      rw [h1] at h
      simp only [] at h
      rw [if_pos h2] at h
      cases h
    · simp

theorem Delete_faults (w : World) (obj : Object) (h : w.faults = []) :
    (w.Delete obj).2.faults = [] := by
  unfold World.Delete
  rw [popFault_nil h]
  simp only []
  split <;> simp [World.record, h]

theorem Delete_clears (w : World) (obj : Object) (h : w.faults = []) :
    ∀ o ∈ (w.Delete obj).2.objects, o.sameKey obj = false := by
  unfold World.Delete
  rw [popFault_nil h]
  simp only []
  split
  · intro o ho
    simp only [record_objects, List.mem_filter, Bool.not_eq_true'] at ho
    exact ho.2
  · rename_i hn
    intro o ho
    simp only [record_objects] at ho
    simp only [List.any_eq_true, not_exists, not_and, Bool.not_eq_true] at hn
    exact hn o ho

theorem Delete_events (w : World) (obj : Object) :
    (w.Delete obj).2.events = w.events ∧ (w.Delete obj).2.counters = w.counters := by
  unfold World.Delete
  simp only []
  split
  · simp
  · split <;> simp [World.record]

theorem deleteEach_spec (objs : List Object) :
    ∀ w : World, ∃ δ,
      (deleteEach objs w).calls = w.calls ++ δ ∧
      (∀ c ∈ δ, ∃ obj ∈ objs, ∃ e, c = Call.delete obj e) ∧
      (∀ o ∈ (deleteEach objs w).objects, o ∈ w.objects) ∧
      (∀ o ∈ w.objects, o ∉ (deleteEach objs w).objects → ∃ d ∈ objs, o.sameKey d = true) ∧
      (w.faults = [] → (deleteEach objs w).faults = [] ∧
        ∀ d ∈ objs, ∀ o ∈ (deleteEach objs w).objects, o.sameKey d = false) := by
  induction objs with
  | nil =>
    intro w
    exact ⟨[], by simp [deleteEach], by simp, fun o ho => ho, fun o ho hn => absurd ho hn,
      fun h => ⟨h, by simp⟩⟩
  | cons x rest ih =>
    intro w
    obtain ⟨δ, h1, h2, h3, h4, h5⟩ := ih (w.Delete x).2
    have hstep : deleteEach (x :: rest) w = deleteEach rest (w.Delete x).2 := rfl
    rw [hstep]
    refine ⟨Call.delete x (w.Delete x).1 :: δ, ?_, ?_, ?_, ?_, ?_⟩
    · rw [h1, Delete_calls]
      simp
    · intro c hc
      rcases List.mem_cons.1 hc with rfl | hc'
      · exact ⟨x, List.mem_cons_self _ _, _, rfl⟩
      · obtain ⟨obj, ho, e, he⟩ := h2 c hc'
        exact ⟨obj, List.mem_cons_of_mem _ ho, e, he⟩
    · intro o ho
      exact Delete_subset w x o (h3 o ho)
    · intro o ho hn
      by_cases hm : o ∈ (w.Delete x).2.objects
      · obtain ⟨d, hd, hk⟩ := h4 o hm hn
        exact ⟨d, List.mem_cons_of_mem _ hd, hk⟩
      · exact ⟨x, List.mem_cons_self _ _, (Delete_removed w x o ho hm).2⟩
    · intro hf
      obtain ⟨h6, h7⟩ := h5 (Delete_faults w x hf)
      refine ⟨h6, ?_⟩
      intro d hd o ho
      rcases List.mem_cons.1 hd with rfl | hd'
      · exact Delete_clears w d hf o (h3 o ho)
      · exact h7 d hd' o ho

theorem deleteEach_events (objs : List Object) :
    ∀ w : World, (deleteEach objs w).events = w.events ∧
      (deleteEach objs w).counters = w.counters := by
  induction objs with
  | nil => intro w; exact ⟨rfl, rfl⟩
  | cons x rest ih =>
    intro w
    have hstep : deleteEach (x :: rest) w = deleteEach rest (w.Delete x).2 := rfl
    rw [hstep]
    exact ⟨(ih _).1.trans (Delete_events w x).1, (ih _).2.trans (Delete_events w x).2⟩

theorem popFault_faults_nil {w : World} (h : w.faults = []) : w.popFault.2.faults = [] := by
  rw [popFault_nil h]
  exact h

theorem Cascade.compose {cfg : ForensicsConfig} {u : String} {w w1 w2 : World} {δ1 δ2 : List Call}
    (h1 : Cascade cfg u w w1 δ1) (h2 : Cascade cfg u w1 w2 δ2) :
    Cascade cfg u w w2 (δ1 ++ δ2) where
  calls := by rw [h2.calls, h1.calls, List.append_assoc]
  deletes := by
    intro c hc
    rcases List.mem_append.1 hc with hc | hc
    · exact h1.deletes c hc
    · exact h2.deletes c hc
  subset := fun o ho => h1.subset o (h2.subset o ho)
  removed := by
    intro o ho hn
    by_cases hm : o ∈ w1.objects
    · obtain ⟨d, hd, h3, h4⟩ := h2.removed o hm hn
      exact ⟨d, h1.subset d hd, h3, h4⟩
    · exact h1.removed o ho hm
  faults := fun hf => h2.faults (h1.faults hf)
  events := h2.events.trans h1.events
  counters := h2.counters.trans h1.counters

theorem Cascade.of_deleteEach (cfg : ForensicsConfig) (u : String) (w : World)
    (items : List Object)
    (hitems : ∀ d ∈ items, d ∈ w.objects ∧ isDependency cfg u d = true) :
    ∃ δ, Cascade cfg u w (deleteEach items w.popFault.2) δ := by
  obtain ⟨δ, h1, h2, h3, h4, h5⟩ := deleteEach_spec items w.popFault.2
  refine ⟨δ, ?_, ?_, ?_, ?_, ?_, ?_, ?_⟩
  · rw [h1, popFault_calls]
  · intro c hc
    obtain ⟨obj, ho, e, he⟩ := h2 c hc
    exact ⟨obj, e, he, isDependency_kind (hitems obj ho).2⟩
  · intro o ho
    have := h3 o ho
    rwa [popFault_objects] at this
  · intro o ho hn
    obtain ⟨d, hd, hk⟩ := h4 o (by rwa [popFault_objects]) hn
    exact ⟨d, (hitems d hd).1, (hitems d hd).2, hk⟩
  · intro hf
    exact (h5 (popFault_faults_nil hf)).1
  · rw [(deleteEach_events items _).1, popFault_events]
  · rw [(deleteEach_events items _).2, popFault_counters]

theorem Cascade.of_popFault (cfg : ForensicsConfig) (u : String) (w : World) :
    Cascade cfg u w w.popFault.2 [] where
  calls := by simp
  deletes := by simp
  subset := fun o ho => by rwa [popFault_objects] at ho
  removed := fun o ho hn => absurd (by rwa [popFault_objects]) hn
  faults := popFault_faults_nil
  events := popFault_events w
  counters := popFault_counters w

theorem matchesLabels_uid (u : String) (m : ObjectMeta) :
    matchesLabels [(LabelSourcePodUID, u)] m
      = decide (StrMap.get? m.Labels LabelSourcePodUID = some u) := by
  simp [matchesLabels]

theorem deleteEach_cleared (w : World) (items : List Object) (P : Object → Prop)
    (hf : w.faults = []) (hall : ∀ o ∈ w.objects, P o → o ∈ items) :
    ∀ o ∈ (deleteEach items w.popFault.2).objects, ¬ P o := by
  obtain ⟨δ, _, _, h3, _, h5⟩ := deleteEach_spec items w.popFault.2
  intro o ho hp
  have hw : o ∈ w.objects := by
    have := h3 o ho
    rwa [popFault_objects] at this
  have := (h5 (popFault_faults_nil hf)).2 o (hall o hw hp) o ho
  rw [sameKey_self] at this
  cases this

theorem deleteConfigMaps_cascade (cfg : ForensicsConfig) (u : String) (w : World) :
    (∃ δ, Cascade cfg u w (deleteConfigMaps cfg u w) δ) ∧
    (w.faults = [] → ∀ c, Object.cm c ∈ (deleteConfigMaps cfg u w).objects →
      isDependency cfg u (Object.cm c) = false) := by
  unfold deleteConfigMaps World.ListConfigMaps
  cases hp : w.popFault.1 with
  | some e =>
    simp only [hp]
    refine ⟨⟨[], Cascade.of_popFault cfg u w⟩, ?_⟩
    intro hf
    rw [popFault_nil hf] at hp
    cases hp
  | none =>
    simp only [hp]
    refine ⟨Cascade.of_deleteEach cfg u w _ ?_, ?_⟩
    · intro d hd
      simp only [List.mem_map, List.mem_filter, List.mem_filterMap, Bool.and_eq_true,
        decide_eq_true_eq, matchesLabels_uid, popFault_objects] at hd
      obtain ⟨c, ⟨⟨o, ho, hc⟩, hn, hl⟩, rfl⟩ := hd
      cases o <;> simp only [Object.asConfigMap?, Option.some.injEq] at hc <;> try cases hc
      exact ⟨ho, by simp [isDependency, hn, hl]⟩
    · intro hf c hc
      by_contra hd
      rw [Bool.not_eq_false] at hd
      refine deleteEach_cleared w _ (fun o => isDependency cfg u o = true ∧ o.kind = Kind.ConfigMap)
        hf ?_ (Object.cm c) hc ⟨hd, rfl⟩
      intro o ho hP
      cases o <;> simp only [Object.kind] at hP <;> try exact absurd hP.2 (by decide)
      rename_i c0
      simp only [isDependency, Bool.and_eq_true, decide_eq_true_eq] at hP
      simp only [List.mem_map, List.mem_filter, List.mem_filterMap, Bool.and_eq_true,
        decide_eq_true_eq, matchesLabels_uid, popFault_objects]
      exact ⟨c0, ⟨⟨_, ho, rfl⟩, hP.1.1, hP.1.2⟩, rfl⟩

theorem deleteSecrets_cascade (cfg : ForensicsConfig) (u : String) (w : World) :
    (∃ δ, Cascade cfg u w (deleteSecrets cfg u w) δ) ∧
    (w.faults = [] → ∀ c, Object.secret c ∈ (deleteSecrets cfg u w).objects →
      isDependency cfg u (Object.secret c) = false) := by
  unfold deleteSecrets World.ListSecrets
  cases hp : w.popFault.1 with
  | some e =>
    simp only [hp]
    refine ⟨⟨[], Cascade.of_popFault cfg u w⟩, ?_⟩
    intro hf
    rw [popFault_nil hf] at hp
    cases hp
  | none =>
    simp only [hp]
    refine ⟨Cascade.of_deleteEach cfg u w _ ?_, ?_⟩
    · intro d hd
      simp only [List.mem_map, List.mem_filter, List.mem_filterMap, Bool.and_eq_true,
        decide_eq_true_eq, matchesLabels_uid, popFault_objects] at hd
      obtain ⟨c, ⟨⟨o, ho, hc⟩, hn, hl⟩, rfl⟩ := hd
      cases o <;> simp only [Object.asSecret?, Option.some.injEq] at hc <;> try cases hc
      exact ⟨ho, by simp [isDependency, hn, hl]⟩
    · intro hf c hc
      by_contra hd
      rw [Bool.not_eq_false] at hd
      refine deleteEach_cleared w _ (fun o => isDependency cfg u o = true ∧ o.kind = Kind.Secret)
        hf ?_ (Object.secret c) hc ⟨hd, rfl⟩
      intro o ho hP
      cases o <;> simp only [Object.kind] at hP <;> try exact absurd hP.2 (by decide)
      rename_i c0
      simp only [isDependency, Bool.and_eq_true, decide_eq_true_eq] at hP
      simp only [List.mem_map, List.mem_filter, List.mem_filterMap, Bool.and_eq_true,
        decide_eq_true_eq, matchesLabels_uid, popFault_objects]
      exact ⟨c0, ⟨⟨_, ho, rfl⟩, hP.1.1, hP.1.2⟩, rfl⟩

theorem deleteVolumeSnapshots_cascade (cfg : ForensicsConfig) (u : String) (w : World) :
    (∃ δ, Cascade cfg u w (deleteVolumeSnapshots u w) δ) ∧
    (w.faults = [] → ∀ c, Object.snap c ∈ (deleteVolumeSnapshots u w).objects →
      isDependency cfg u (Object.snap c) = false) := by
  unfold deleteVolumeSnapshots World.ListVolumeSnapshots
  cases hp : w.popFault.1 with
  | some e =>
    simp only [hp]
    refine ⟨⟨[], Cascade.of_popFault cfg u w⟩, ?_⟩
    intro hf
    rw [popFault_nil hf] at hp
    cases hp
  | none =>
    simp only [hp]
    refine ⟨Cascade.of_deleteEach cfg u w _ ?_, ?_⟩
    · intro d hd
      simp only [List.mem_map, List.mem_filter, List.mem_filterMap,
        decide_eq_true_eq, matchesLabels_uid, popFault_objects] at hd
      obtain ⟨c, ⟨⟨o, ho, hc⟩, hl⟩, rfl⟩ := hd
      cases o <;> simp only [Object.asVolumeSnapshot?, Option.some.injEq] at hc <;> try cases hc
      exact ⟨ho, by simp [isDependency, hl]⟩
    · intro hf c hc
      by_contra hd
      rw [Bool.not_eq_false] at hd
      refine deleteEach_cleared w _
        (fun o => isDependency cfg u o = true ∧ o.kind = Kind.VolumeSnapshot)
        hf ?_ (Object.snap c) hc ⟨hd, rfl⟩
      intro o ho hP
      cases o <;> simp only [Object.kind] at hP <;> try exact absurd hP.2 (by decide)
      rename_i c0
      simp only [isDependency, decide_eq_true_eq] at hP
      simp only [List.mem_map, List.mem_filter, List.mem_filterMap,
        decide_eq_true_eq, matchesLabels_uid, popFault_objects]
      exact ⟨c0, ⟨⟨_, ho, rfl⟩, hP.1⟩, rfl⟩

theorem deleteDependencies_cascade (cfg : ForensicsConfig) (u : String) (w : World) :
    (∃ δ, Cascade cfg u w (deleteDependencies cfg u w) δ) ∧
    (w.faults = [] → ∀ o ∈ (deleteDependencies cfg u w).objects,
      isDependency cfg u o = false) := by
  obtain ⟨⟨δ1, c1⟩, k1⟩ := deleteConfigMaps_cascade cfg u w
  obtain ⟨⟨δ2, c2⟩, k2⟩ := deleteSecrets_cascade cfg u (deleteConfigMaps cfg u w)
  obtain ⟨⟨δ3, c3⟩, k3⟩ :=
    deleteVolumeSnapshots_cascade cfg u (deleteSecrets cfg u (deleteConfigMaps cfg u w))
  refine ⟨⟨_, (c1.compose c2).compose c3⟩, ?_⟩
  intro hf o ho
  have hf1 := c1.faults hf
  have hf2 := c2.faults hf1
  cases o with
  | cm c => exact k1 hf c (c2.subset _ (c3.subset _ ho))
  | secret c => exact k2 hf1 c (c3.subset _ ho)
  | snap c => exact k3 hf2 c ho
  | ns c => rfl
  | netpol c => rfl
  | pod c => rfl

theorem Delete_success (w : World) (obj o : Object) (hf : w.faults = []) (ho : o ∈ w.objects)
    (hk : o.sameKey obj = true) : (w.Delete obj).1 = none := by
  unfold World.Delete
  rw [popFault_nil hf]
  simp only []
  rw [if_pos (List.any_eq_true.2 ⟨o, ho, hk⟩)]

theorem get_eq_iff_get? (m : StrMap) (k v : String) (hv : v ≠ "") :
    StrMap.get m k = v ↔ StrMap.get? m k = some v := by
  unfold StrMap.get
  cases StrMap.get? m k with
  | none =>
    simp only [Option.getD_none]
    constructor
    · intro h
      exact absurd h.symm hv
    · intro h
      cases h
  | some x => simp

theorem cleanupPod_skip (ParseDuration : String → Except Err Duration) (cfg : ForensicsConfig)
    (now : Time) (w : World) (pod : Pod) (h : expired ParseDuration now pod = false) :
    cleanupPod ParseDuration cfg now w pod = w := by
  unfold cleanupPod
  unfold expired at h
  by_cases hh : StrMap.get pod.ObjectMeta.Annotations AnnotationForensicHold = "true"
  · rw [if_pos hh]
  · rw [if_neg hh]
    have hh2 : StrMap.get? pod.ObjectMeta.Annotations AnnotationForensicHold ≠ some "true" :=
      fun h2 => hh ((get_eq_iff_get? _ _ _ (by decide)).2 h2)
    simp only [hh2, ne_eq, not_false_eq_true, decide_True, Bool.true_and] at h
    cases hl : StrMap.get? pod.ObjectMeta.Labels LabelForensicTTL with
    | none => rfl
    | some val =>
      rw [hl] at h
      simp only [] at h ⊢
      cases hd : ParseDuration val with
      | error e => rfl
      | ok d =>
        rw [hd] at h
        simp only [decide_eq_false_iff_not] at h ⊢
        rw [if_neg]
        simpa [Time.Before, Time.Add] using h

theorem cleanupPod_expired (ParseDuration : String → Except Err Duration)
    (cfg : ForensicsConfig) (now : Time) (w : World) (pod : Pod)
    (h : expired ParseDuration now pod = true) :
    cleanupPod ParseDuration cfg now w pod =
      match (w.Delete (Object.pod pod)).1 with
      | some _ => (w.Delete (Object.pod pod)).2
      | none =>
        if sourceUID pod ≠ "" then
          deleteDependencies cfg (sourceUID pod) (w.Delete (Object.pod pod)).2
        else (w.Delete (Object.pod pod)).2 := by
  unfold cleanupPod
  unfold expired at h
  simp only [Bool.and_eq_true, decide_eq_true_eq] at h
  obtain ⟨hh2, h⟩ := h
  have hh : ¬ StrMap.get pod.ObjectMeta.Annotations AnnotationForensicHold = "true" :=
    fun h2 => hh2 ((get_eq_iff_get? _ _ _ (by decide)).1 h2)
  rw [if_neg hh]
  cases hl : StrMap.get? pod.ObjectMeta.Labels LabelForensicTTL with
  | none =>
    rw [hl] at h
    cases h
  | some val =>
    rw [hl] at h
    simp only [] at h ⊢
    cases hd : ParseDuration val with
    | error e =>
      rw [hd] at h
      cases h
    | ok d =>
      rw [hd] at h
      simp only [decide_eq_true_eq] at h ⊢
      rw [if_pos (by simpa [Time.Before, Time.Add] using h)]
      cases hdel : w.Delete (Object.pod pod) with
      | mk r w1 =>
        cases r <;> rfl

theorem JanitorTrace.done (ParseDuration : String → Except Err Duration) (cfg : ForensicsConfig)
    (now : Time) (w : World) : JanitorTrace ParseDuration cfg now [] w w [] where
  calls := by simp
  subset := fun _ h => h
  deletes := by simp
  podDeletes := by simp
  requested := by simp
  removed := fun o ho hn => absurd ho hn
  faults := fun h => h
  clearedPods := by simp
  clearedDeps := by simp
  succeeded := by simp
  events := rfl
  counters := rfl

theorem JanitorTrace.skipped (ParseDuration : String → Except Err Duration) (cfg : ForensicsConfig)
    (now : Time) (w : World) (pod : Pod) (h : expired ParseDuration now pod = false) :
    JanitorTrace ParseDuration cfg now [pod] w w [] where
  calls := by simp
  subset := fun _ h => h
  deletes := by simp
  podDeletes := by simp
  requested := by
    intro q hq hx
    rw [List.mem_singleton.1 hq, h] at hx
    cases hx
  removed := fun o ho hn => absurd ho hn
  faults := fun h => h
  clearedPods := by
    intro _ q hq hx
    rw [List.mem_singleton.1 hq, h] at hx
    cases hx
  clearedDeps := by simp
  succeeded := by
    intro _ q hq hx
    rw [List.mem_singleton.1 hq, h] at hx
    cases hx
  events := rfl
  counters := rfl

theorem cleanupPod_trace (ParseDuration : String → Except Err Duration) (cfg : ForensicsConfig)
    (now : Time) (w : World) (pod : Pod) :
    ∃ δ, JanitorTrace ParseDuration cfg now [pod] w (cleanupPod ParseDuration cfg now w pod) δ := by
  cases hx : expired ParseDuration now pod with
  | false =>
    rw [cleanupPod_skip _ _ _ _ _ hx]
    exact ⟨[], JanitorTrace.skipped _ _ _ _ _ hx⟩
  | true =>
    rw [cleanupPod_expired _ _ _ _ _ hx]
    have hcalls := Delete_calls w (Object.pod pod)
    have hsub := Delete_subset w (Object.pod pod)
    have hrem := Delete_removed w (Object.pod pod)
    have hev := Delete_events w (Object.pod pod)
    cases hr : (w.Delete (Object.pod pod)).1 with
    | some e =>
      simp only []
      rw [hr] at hcalls
      refine ⟨[Call.delete (Object.pod pod) (some e)], hcalls, hsub, ?_, ?_, ?_, ?_, ?_, ?_, ?_,
        ?_, hev.1, hev.2⟩
      · intro c hc
        exact ⟨_, _, List.mem_singleton.1 hc⟩
      · intro q e' hq
        have := List.mem_singleton.1 hq
        simp only [Call.delete.injEq, Object.pod.injEq] at this
        rw [this.1]
        exact ⟨List.mem_singleton_self _, hx⟩
      · intro q hq _
        rw [List.mem_singleton.1 hq]
        exact ⟨_, List.mem_singleton_self _⟩
      · intro o ho hn
        have := (hrem o ho hn).1
        rw [hr] at this
        cases this
      · intro hf
        exact Delete_faults w _ hf
      · intro hf q hq _ o ho
        rw [List.mem_singleton.1 hq]
        exact Delete_clears w _ hf o ho
      · intro _ q hq
        have := List.mem_singleton.1 hq
        simp only [Call.delete.injEq, Object.pod.injEq] at this
        exact absurd this.2 (by simp)
      · intro hf q hq _ hm
        rw [List.mem_singleton.1 hq] at hm
        rw [Delete_success w _ _ hf hm (sameKey_self _)] at hr
        cases hr
    | none =>
      simp only []
      rw [hr] at hcalls
      by_cases hu : sourceUID pod ≠ ""
      · rw [if_pos hu]
        obtain ⟨⟨δ, c⟩, k⟩ :=
          deleteDependencies_cascade cfg (sourceUID pod) (w.Delete (Object.pod pod)).2
        refine ⟨Call.delete (Object.pod pod) none :: δ, ?_, ?_, ?_, ?_, ?_, ?_, ?_, ?_, ?_,
          ?_, c.events.trans hev.1, c.counters.trans hev.2⟩
        · rw [c.calls, hcalls]
          simp
        · exact fun o ho => hsub o (c.subset o ho)
        · intro x hc
          rcases List.mem_cons.1 hc with rfl | hc'
          · exact ⟨_, _, rfl⟩
          · obtain ⟨obj, e, he, _⟩ := c.deletes x hc'
            exact ⟨obj, e, he⟩
        · intro q e' hq
          rcases List.mem_cons.1 hq with hq | hq
          · simp only [Call.delete.injEq, Object.pod.injEq] at hq
            rw [hq.1]
            exact ⟨List.mem_singleton_self _, hx⟩
          · obtain ⟨obj, e, he, hk⟩ := c.deletes _ hq
            simp only [Call.delete.injEq] at he
            rw [← he.1] at hk
            exact absurd rfl hk
        · intro q hq _
          rw [List.mem_singleton.1 hq]
          exact ⟨_, List.mem_cons_self _ _⟩
        · intro o ho hn
          refine ⟨pod, List.mem_cons_self _ _, ?_⟩
          by_cases hm : o ∈ (w.Delete (Object.pod pod)).2.objects
          · obtain ⟨d, hd, h3, h4⟩ := c.removed o hm hn
            exact Or.inr ⟨hu, d, hsub d hd, h3, h4⟩
          · exact Or.inl (hrem o ho hm).2
        · intro hf
          exact c.faults (Delete_faults w _ hf)
        · intro hf q hq _ o ho
          rw [List.mem_singleton.1 hq]
          exact Delete_clears w _ hf o (c.subset o ho)
        · intro hf q hq hq2 o ho
          rcases List.mem_cons.1 hq with hq | hq
          · simp only [Call.delete.injEq, Object.pod.injEq] at hq
            rw [hq.1]
            exact k (Delete_faults w _ hf) o ho
          · obtain ⟨obj, e, he, hk⟩ := c.deletes _ hq
            simp only [Call.delete.injEq] at he
            rw [← he.1] at hk
            exact absurd rfl hk
        · intro _ q hq _ _
          rw [List.mem_singleton.1 hq]
          exact ⟨pod, List.mem_singleton_self _, List.mem_cons_self _ _, sameKey_self _⟩
      · rw [if_neg hu]
        refine ⟨[Call.delete (Object.pod pod) none], hcalls, hsub, ?_, ?_, ?_, ?_, ?_, ?_, ?_,
          ?_, hev.1, hev.2⟩
        · intro c hc
          exact ⟨_, _, List.mem_singleton.1 hc⟩
        · intro q e' hq
          have := List.mem_singleton.1 hq
          simp only [Call.delete.injEq, Object.pod.injEq] at this
          rw [this.1]
          exact ⟨List.mem_singleton_self _, hx⟩
        · intro q hq _
          rw [List.mem_singleton.1 hq]
          exact ⟨_, List.mem_singleton_self _⟩
        · intro o ho hn
          exact ⟨pod, List.mem_singleton_self _, Or.inl (hrem o ho hn).2⟩
        · intro hf
          exact Delete_faults w _ hf
        · intro hf q hq _ o ho
          rw [List.mem_singleton.1 hq]
          exact Delete_clears w _ hf o ho
        · intro _ q hq hq2
          have := List.mem_singleton.1 hq
          simp only [Call.delete.injEq, Object.pod.injEq] at this
          rw [this.1] at hq2
          exact absurd hq2 hu
        · intro _ q hq _ _
          rw [List.mem_singleton.1 hq]
          exact ⟨pod, List.mem_singleton_self _, List.mem_singleton_self _, sameKey_self _⟩

theorem JanitorTrace.step {ParseDuration : String → Except Err Duration} {cfg : ForensicsConfig}
    {now : Time} {pod : Pod} {rest : List Pod} {w w1 w2 : World} {δ1 δ2 : List Call}
    (h1 : JanitorTrace ParseDuration cfg now [pod] w w1 δ1)
    (h2 : JanitorTrace ParseDuration cfg now rest w1 w2 δ2) :
    JanitorTrace ParseDuration cfg now (pod :: rest) w w2 (δ1 ++ δ2) where
  calls := by rw [h2.calls, h1.calls, List.append_assoc]
  subset := fun o ho => h1.subset o (h2.subset o ho)
  deletes := by
    intro c hc
    rcases List.mem_append.1 hc with hc | hc
    · exact h1.deletes c hc
    · exact h2.deletes c hc
  podDeletes := by
    intro q e hq
    rcases List.mem_append.1 hq with hq | hq
    · obtain ⟨h3, h4⟩ := h1.podDeletes q e hq
      rw [List.mem_singleton.1 h3]
      exact ⟨List.mem_cons_self _ _, by rwa [← List.mem_singleton.1 h3]⟩
    · obtain ⟨h3, h4⟩ := h2.podDeletes q e hq
      exact ⟨List.mem_cons_of_mem _ h3, h4⟩
  requested := by
    intro q hq hx
    rcases List.mem_cons.1 hq with rfl | hq
    · obtain ⟨e, he⟩ := h1.requested q (List.mem_singleton_self _) hx
      exact ⟨e, List.mem_append_left _ he⟩
    · obtain ⟨e, he⟩ := h2.requested q hq hx
      exact ⟨e, List.mem_append_right _ he⟩
  removed := by
    intro o ho hn
    by_cases hm : o ∈ w1.objects
    · obtain ⟨q, hq, h3⟩ := h2.removed o hm hn
      refine ⟨q, List.mem_append_right _ hq, ?_⟩
      rcases h3 with h3 | ⟨hu, d, hd, h4, h5⟩
      · exact Or.inl h3
      · exact Or.inr ⟨hu, d, h1.subset d hd, h4, h5⟩
    · obtain ⟨q, hq, h3⟩ := h1.removed o ho hm
      exact ⟨q, List.mem_append_left _ hq, h3⟩
  faults := fun hf => h2.faults (h1.faults hf)
  clearedPods := by
    intro hf q hq hx o ho
    rcases List.mem_cons.1 hq with rfl | hq
    · exact h1.clearedPods hf q (List.mem_singleton_self _) hx o (h2.subset o ho)
    · exact h2.clearedPods (h1.faults hf) q hq hx o ho
  clearedDeps := by
    intro hf q hq hu o ho
    rcases List.mem_append.1 hq with hq | hq
    · exact h1.clearedDeps hf q hq hu o (h2.subset o ho)
    · exact h2.clearedDeps (h1.faults hf) q hq hu o ho
  succeeded := by
    intro hf q hq hx hm
    have first : Object.pod q ∉ w1.objects →
        ∃ r ∈ pod :: rest, Call.delete (Object.pod r) none ∈ δ1 ++ δ2 ∧
          (Object.pod q).sameKey (Object.pod r) = true := by
      intro hn
      obtain ⟨r, hr, h3⟩ := h1.removed _ hm hn
      have hr2 := (h1.podDeletes r none hr).1
      rcases h3 with h3 | ⟨_, d, _, h4, h5⟩
      · exact ⟨r, List.mem_cons.2 (Or.inl (List.mem_singleton.1 hr2)),
          List.mem_append_left _ hr, h3⟩
      · exact absurd (sameKey_kind h5).symm (isDependency_kind h4)
    by_cases hm1 : Object.pod q ∈ w1.objects
    · rcases List.mem_cons.1 hq with rfl | hq
      · exact absurd hm1 (fun h3 => by
          have := h1.clearedPods hf q (List.mem_singleton_self _) hx _ h3
          rw [sameKey_self] at this
          cases this)
      · obtain ⟨r, hr, h3, h4⟩ := h2.succeeded (h1.faults hf) q hq hx hm1
        exact ⟨r, List.mem_cons_of_mem _ hr, List.mem_append_right _ h3, h4⟩
    · exact first hm1
  events := h2.events.trans h1.events
  counters := h2.counters.trans h1.counters

theorem foldl_trace (ParseDuration : String → Except Err Duration) (cfg : ForensicsConfig)
    (now : Time) (pods : List Pod) :
    ∀ w : World, ∃ δ,
      JanitorTrace ParseDuration cfg now pods w
        (pods.foldl (cleanupPod ParseDuration cfg now) w) δ := by
  induction pods with
  | nil => exact fun w => ⟨[], JanitorTrace.done _ _ _ w⟩
  | cons pod rest ih =>
    intro w
    obtain ⟨δ1, h1⟩ := cleanupPod_trace ParseDuration cfg now w pod
    obtain ⟨δ2, h2⟩ := ih (cleanupPod ParseDuration cfg now w pod)
    exact ⟨δ1 ++ δ2, h1.step h2⟩

theorem cleanupExpiredPods_error (ParseDuration : String → Except Err Duration)
    (cfg : ForensicsConfig) (w : World) (e : Err) (h : w.popFault.1 = some e) :
    cleanupExpiredPods ParseDuration cfg w = w.popFault.2 := by
  unfold cleanupExpiredPods World.ListPods
  simp only [h]

theorem cleanupExpiredPods_ok (ParseDuration : String → Except Err Duration)
    (cfg : ForensicsConfig) (w : World) (h : w.popFault.1 = none) :
    cleanupExpiredPods ParseDuration cfg w =
      (listedPods cfg w).foldl (cleanupPod ParseDuration cfg (passTime w)) w.popFault.2.tick.2 := by
  unfold cleanupExpiredPods
  rw [ListPods_ok _ _ h]
  simp [listedPods, passTime, matchesLabels]

theorem cleanupExpiredPods_trace (ParseDuration : String → Except Err Duration)
    (cfg : ForensicsConfig) (w : World) (h : w.popFault.1 = none) :
    ∃ δ, JanitorTrace ParseDuration cfg (passTime w) (listedPods cfg w) w
      (cleanupExpiredPods ParseDuration cfg w) δ := by
  rw [cleanupExpiredPods_ok _ _ _ h]
  obtain ⟨δ, t⟩ := foldl_trace ParseDuration cfg (passTime w) (listedPods cfg w) w.popFault.2.tick.2
  have ho : w.popFault.2.tick.2.objects = w.objects := by simp
  have hc : w.popFault.2.tick.2.calls = w.calls := by simp
  have hf : w.faults = [] → w.popFault.2.tick.2.faults = [] := by
    intro hf
    rw [tick_faults]
    exact popFault_faults_nil hf
  refine ⟨δ, ?_, ?_, t.deletes, t.podDeletes, t.requested, ?_, ?_, ?_, ?_, ?_, ?_, ?_⟩
  · rw [t.calls, hc]
  · intro o hm
    rw [← ho]
    exact t.subset o hm
  · intro o hm hn
    obtain ⟨q, hq, h3⟩ := t.removed o (by rwa [ho]) hn
    refine ⟨q, hq, ?_⟩
    rcases h3 with h3 | ⟨hu, d, hd, h4, h5⟩
    · exact Or.inl h3
    · exact Or.inr ⟨hu, d, by rwa [← ho], h4, h5⟩
  · exact fun h0 => t.faults (hf h0)
  · exact fun h0 => t.clearedPods (hf h0)
  · exact fun h0 => t.clearedDeps (hf h0)
  · exact fun h0 q hq hx hm => t.succeeded (hf h0) q hq hx (by rwa [ho])
  · rw [t.events]
    simp
  · rw [t.counters]
    simp

theorem expired_iff (ParseDuration : String → Except Err Duration) (now : Time) (q : Pod) :
    expired ParseDuration now q = true ↔
      StrMap.get? q.ObjectMeta.Annotations AnnotationForensicHold ≠ some "true" ∧
      ∃ val d, StrMap.get? q.ObjectMeta.Labels LabelForensicTTL = some val ∧
        ParseDuration val = .ok d ∧ q.ObjectMeta.CreationTimestamp + d < now := by
  unfold expired
  simp only [Bool.and_eq_true, decide_eq_true_eq]
  refine and_congr Iff.rfl ?_
  cases hl : StrMap.get? q.ObjectMeta.Labels LabelForensicTTL with
  | none => simp
  | some val =>
    cases hd : ParseDuration val with
    | error e => simp [hd]
    | ok d => simp [hd]

theorem newCalls_self (w w1 : World) (h : w1.calls = w.calls) : newCalls w w1 = [] :=
  newCalls_append w w1 [] (by rw [h, List.append_nil])

theorem isDependency_label {cfg : ForensicsConfig} {u : String} {o : Object}
    (h : isDependency cfg u o = true) :
    StrMap.get? o.metadata.Labels LabelSourcePodUID = some u := by
  cases o <;> simp [isDependency, Object.metadata] at h ⊢
  · exact h.2
  · exact h.2
  · exact h

theorem mem_deletedSourceUIDs {calls : List Call} {q : Pod}
    (h : Call.delete (Object.pod q) none ∈ calls) : sourceUID q ∈ deletedSourceUIDs calls := by
  unfold deletedSourceUIDs
  exact List.mem_filterMap.2 ⟨_, h, rfl⟩

/-! ## The claims -/

/-- C1 (deduplication).  First part: whenever `Reconcile` fetches a crashed workload `pod`,
the list of the forensic namespace succeeds, and the store holds a replica `fp` in the forensic
namespace that carries the workload's crash-signature label and whose age `now.Sub(creation)` is
strictly below `RateLimitWindow`, `Reconcile` returns nil and leaves the store, the calls (creates,
uploads, checkpoints) and the events exactly as they were: zero objects are created.  Second part:
if a run of `Reconcile` returned nil after issuing a replica create (a successful
materialization), then a later run on any store that still extends the one it left, whose get
and list succeed, and at whose clock reading every replica stored by the first run is younger
than the window, returns nil, creates nothing and issues no replica create. -/
theorem deduplication (lib : Lib) (cfg : ForensicsConfig) (req : Request) :
    (∀ (env : Env) (w w1 : World) (pod fp : Pod),
      w.GetPod req.Namespace req.Name = (.ok pod, w1) →
      (crashCheck pod).isCrash = true →
      w.popFault.2.popFault.1 = none →
      Object.pod fp ∈ w.objects →
      fp.ObjectMeta.Namespace = cfg.TargetNamespace →
      StrMap.get? fp.ObjectMeta.Labels LabelCrashSignature = some (signatureOf lib pod) →
      Time.Sub w.tick.1 fp.ObjectMeta.CreationTimestamp < cfg.RateLimitWindow →
      (Reconcile lib env cfg req w).1 = none ∧
      (Reconcile lib env cfg req w).2.objects = w.objects ∧
      (Reconcile lib env cfg req w).2.calls = w.calls ∧
      (Reconcile lib env cfg req w).2.events = w.events) ∧
    (∀ (env env' : Env) (w w1 w' : World),
      Reconcile lib env cfg req w = (none, w1) →
      podCreates w1.calls ≠ podCreates w.calls →
      w1.objects <+: w'.objects →
      w'.popFault.1 = none →
      w'.popFault.2.popFault.1 = none →
      (∀ p, Object.pod p ∈ w1.objects → Object.pod p ∉ w.objects →
        Time.Sub w'.tick.1 p.ObjectMeta.CreationTimestamp < cfg.RateLimitWindow) →
      (Reconcile lib env' cfg req w').1 = none ∧
      (Reconcile lib env' cfg req w').2.objects = w'.objects ∧
      (Reconcile lib env' cfg req w').2.calls = w'.calls ∧
      podCreates (Reconcile lib env' cfg req w').2.calls = podCreates w'.calls) := by
  constructor
  · intro env w w1 pod fp hget _ hlist hmem hns hsig hyoung
    exact dedup_noop lib env cfg req w pod fp w1 hget hlist hmem hns hsig hyoung
  · intro env env' w w1 w' hrun hcreated hgrow hf1 hf2 hyoung
    rcases Reconcile_cases lib env cfg req w with hq | ⟨pod, w0, hent⟩
    · exfalso
      apply hcreated
      rw [hrun] at hq
      rw [show w1.calls = w.calls from hq.2.1]
    · have hR := Reconcile_eq env hent
      rw [hrun] at hR
      obtain ⟨wf, replica, hfr, hobj, hnew, hrns, hrl⟩ := materialize_ok_stores hR.symm
      obtain ⟨hf0, -, -⟩ := enters_frame hent
      have hwf : w.objects <+: wf.objects := (hf0.trans hfr).objects
      obtain ⟨-, -, -, wg1, fps, w3, hget, -, -, -, -, -⟩ := hent
      obtain ⟨-, -, hfind⟩ := GetPod_ok_inv hget
      have hw1 : w.objects <+: w1.objects := by
        rw [hobj]; exact hwf.trans (List.prefix_append _ _)
      have hget' : w'.GetPod req.Namespace req.Name = (.ok pod, w'.popFault.2) :=
        GetPod_ok_of hf1 (find?_of_grown (filterMap_grown _ (hw1.trans hgrow)) hfind)
      have hmem1 : Object.pod replica ∈ w1.objects := by
        rw [hobj]; exact List.mem_append_right _ (List.mem_singleton_self _)
      have hnot : Object.pod replica ∉ w.objects := fun hm =>
        not_mem_of_sameKey hnew (mem_of_grown hwf hm)
      have := dedup_noop lib env' cfg req w' pod replica _ hget' hf2
        (mem_of_grown hgrow hmem1) hrns hrl (hyoung replica hmem1 hnot)
      exact ⟨this.1, this.2.1, this.2.2.1, by rw [this.2.2.1]⟩

/-- C1, witness: in the worked scenario the first reconciliation of `prod/api-abc`
materializes a replica, and the second one, run on the world the first one left, is a no-op. -/
theorem deduplication_witness :
    (Object.pod demoReplica ∈ afterFirst.objects ∧
      Time.Sub afterFirst.tick.1 demoReplica.ObjectMeta.CreationTimestamp
        < demoCfg.RateLimitWindow ∧
      (Reconcile demoLib softEnv demoCfg demoReq afterFirst).1 = none ∧
      (Reconcile demoLib softEnv demoCfg demoReq afterFirst).2.objects = afterFirst.objects ∧
      (Reconcile demoLib softEnv demoCfg demoReq afterFirst).2.calls = afterFirst.calls ∧
      (Reconcile demoLib softEnv demoCfg demoReq afterFirst).2.events = afterFirst.events) ∧
    (Reconcile demoLib softEnv demoCfg demoReq softWorld = (none, afterFirst) ∧
      podCreates afterFirst.calls ≠ podCreates softWorld.calls ∧
      (Reconcile demoLib softEnv demoCfg demoReq afterFirst).1 = none ∧
      (Reconcile demoLib softEnv demoCfg demoReq afterFirst).2.objects = afterFirst.objects ∧
      (Reconcile demoLib softEnv demoCfg demoReq afterFirst).2.calls = afterFirst.calls ∧
      podCreates (Reconcile demoLib softEnv demoCfg demoReq afterFirst).2.calls
        = podCreates afterFirst.calls) :=
  ⟨⟨by decide, by decide,
      (deduplication demoLib demoCfg demoReq).1 softEnv afterFirst afterFirst.popFault.2 demoPod
        demoReplica rfl (by decide) rfl (by decide) (by decide) (by decide) (by decide)⟩,
    rfl, by decide,
    (deduplication demoLib demoCfg demoReq).2 softEnv softEnv softWorld afterFirst afterFirst
      rfl (by decide) (List.prefix_refl _) rfl rfl (young_of_all (by decide))⟩

/-- C2 (crash classification).  Step 3 of `Reconcile` sets `isCrash` if and only if some
main or initialization container status has a current or last state that is terminated with
reason `Error` or `OOMKilled` or with a non-zero exit code, or the phase is `Failed`; and
`Reconcile` acts on that classification: for a fetched workload that passes the gates and is
not being deleted, the counters it adds include the `CrashDetected` increment of
`forensics_crashes_total` if and only if that condition holds.  In particular, for a fetched workload whose every terminated state has exit code 0 and a reason
other than `Error` and `OOMKilled`, and whose phase is not `Failed`, `Reconcile` returns nil and
changes neither the store nor the calls, events and counters. -/
theorem crash_classification (lib : Lib) (env : Env) (cfg : ForensicsConfig) (pod : Pod) :
    ((crashCheck pod).isCrash = true ↔
      (∃ s ∈ pod.Status.ContainerStatuses ++ pod.Status.InitContainerStatuses,
        ∃ t, (s.State.Terminated = some t ∨ s.LastTerminationState.Terminated = some t) ∧
          (t.Reason = "Error" ∨ t.Reason = "OOMKilled" ∨ t.ExitCode ≠ 0))
      ∨ pod.Status.Phase = "Failed") ∧
    (∀ (req : Request) (w w1 : World),
      ¬ (cfg.WatchNamespaces.length > 0 ∧ req.Namespace ∉ cfg.WatchNamespaces) →
      req.Namespace ∉ cfg.IgnoreNamespaces →
      req.Namespace ≠ cfg.TargetNamespace →
      w.GetPod req.Namespace req.Name = (.ok pod, w1) →
      MetaTimeIsZero pod.ObjectMeta.DeletionTimestamp = true →
      ((⟨ForensicCrashesTotal, [pod.ObjectMeta.Namespace, "CrashDetected"]⟩ : CounterInc) ∈
          (Reconcile lib env cfg req w).2.counters.drop w.counters.length ↔
        (∃ s ∈ pod.Status.ContainerStatuses ++ pod.Status.InitContainerStatuses,
          ∃ t, (s.State.Terminated = some t ∨ s.LastTerminationState.Terminated = some t) ∧
            (t.Reason = "Error" ∨ t.Reason = "OOMKilled" ∨ t.ExitCode ≠ 0))
        ∨ pod.Status.Phase = "Failed")) ∧
    (∀ (req : Request) (w w1 : World),
      w.GetPod req.Namespace req.Name = (.ok pod, w1) →
      (∀ s ∈ pod.Status.ContainerStatuses ++ pod.Status.InitContainerStatuses,
        ∀ t, (s.State.Terminated = some t ∨ s.LastTerminationState.Terminated = some t) →
          t.ExitCode = 0 ∧ t.Reason ≠ "Error" ∧ t.Reason ≠ "OOMKilled") →
      pod.Status.Phase ≠ "Failed" →
      (Reconcile lib env cfg req w).1 = none ∧
      (Reconcile lib env cfg req w).2.objects = w.objects ∧
      (Reconcile lib env cfg req w).2.calls = w.calls ∧
      (Reconcile lib env cfg req w).2.events = w.events ∧
      (Reconcile lib env cfg req w).2.counters = w.counters) := by
  have hmatch : ∀ s : ContainerStatus, StatusMatches s ↔
      ∃ t, (s.State.Terminated = some t ∨ s.LastTerminationState.Terminated = some t) ∧
          (t.Reason = "Error" ∨ t.Reason = "OOMKilled" ∨ t.ExitCode ≠ 0) := by
    intro s
    constructor
    · rintro (⟨c, t, ht, hc, -⟩ | ⟨c, t, ht, hc, -⟩)
      · exact ⟨t, Or.inl ht, hc⟩
      · exact ⟨t, Or.inr ht, hc⟩
    · rintro ⟨t, ht | ht, hc⟩
      · exact Or.inl ⟨t.ExitCode, t, ht, hc, rfl⟩
      · exact Or.inr ⟨t.ExitCode, t, ht, hc, rfl⟩
  have hiff : (crashCheck pod).isCrash = true ↔
      (∃ s ∈ pod.Status.ContainerStatuses ++ pod.Status.InitContainerStatuses, StatusMatches s)
      ∨ pod.Status.Phase = "Failed" := by
    unfold crashCheck
    simp only []
    cases hscan : scanStatuses (pod.Status.ContainerStatuses ++ pod.Status.InitContainerStatuses) with
    | some r =>
      obtain ⟨name, code⟩ := r
      obtain ⟨pre, s, post, heq, -, hy⟩ := (scanStatuses_eq_some_iff _ _ _).mp hscan
      simp only [true_iff]
      left
      exact ⟨s, by rw [heq]; simp, statusYields_matches hy⟩
    | none =>
      have hnone := (scanStatuses_eq_none_iff _).mp hscan
      by_cases hp : pod.Status.Phase = PodFailed
      · simp only [hp, if_true]
        have : pod.Status.Phase = "Failed" := hp
        cases hc : pod.Spec.Containers <;> simp [PodFailed]
      · simp only [hp, if_false]
        constructor
        · intro h; cases h
        · rintro (⟨s, hs, hm⟩ | h)
          · exact absurd hm (hnone s hs)
          · exact absurd h hp
  have hiff' : (crashCheck pod).isCrash = true ↔
      (∃ s ∈ pod.Status.ContainerStatuses ++ pod.Status.InitContainerStatuses,
        ∃ t, (s.State.Terminated = some t ∨ s.LastTerminationState.Terminated = some t) ∧
          (t.Reason = "Error" ∨ t.Reason = "OOMKilled" ∨ t.ExitCode ≠ 0))
      ∨ pod.Status.Phase = "Failed" := by
    rw [hiff]
    constructor
    · rintro (⟨s, hs, hm⟩ | h)
      · exact Or.inl ⟨s, hs, (hmatch s).mp hm⟩
      · exact Or.inr h
    · rintro (⟨s, hs, hm⟩ | h)
      · exact Or.inl ⟨s, hs, (hmatch s).mpr hm⟩
      · exact Or.inr h
  refine ⟨hiff', ?_, ?_⟩
  · intro req w w1 hw hi ht hget hdel
    rw [← hiff']
    obtain ⟨-, hw1, -⟩ := GetPod_ok_inv hget
    subst hw1
    have hR : Reconcile lib env cfg req w = reconcilePod lib env cfg pod w.popFault.2 := by
      unfold Reconcile
      rw [if_neg hw, if_neg hi, if_neg ht, hget]
    rw [hR]
    cases hc : (crashCheck pod).isCrash with
    | false =>
      have : reconcilePod lib env cfg pod w.popFault.2 = (none, w.popFault.2) := by
        unfold reconcilePod
        rw [if_neg (by simp [hdel])]
        simp only []
        rw [if_pos hc]
      rw [this]
      simp
    | true =>
      obtain ⟨rest, hrest⟩ := reconcilePod_counts lib env cfg pod w.popFault.2 hdel hc
      rw [← hrest, popFault_counters, List.append_assoc, List.drop_left]
      simp
  · intro req w w1 hget hbenign hphase
    have hnc : (crashCheck pod).isCrash = false := by
      cases hc : (crashCheck pod).isCrash with
      | false => rfl
      | true =>
        exfalso
        rcases hiff'.mp hc with ⟨s, hs, t, ht, hcr⟩ | h
        · obtain ⟨h0, hE, hO⟩ := hbenign s hs t ht
          rcases hcr with h | h | h
          · exact hE h
          · exact hO h
          · exact h h0
        · exact hphase h
    obtain ⟨-, hw1, -⟩ := GetPod_ok_inv hget
    subst hw1
    unfold Reconcile
    split
    · exact ⟨rfl, rfl, rfl, rfl, rfl⟩
    split
    · exact ⟨rfl, rfl, rfl, rfl, rfl⟩
    split
    · exact ⟨rfl, rfl, rfl, rfl, rfl⟩
    rw [hget]
    simp only []
    unfold reconcilePod
    split
    · exact ⟨rfl, by simp, by simp, by simp, by simp⟩
    simp only []
    rw [if_pos hnc]
    exact ⟨rfl, by simp, by simp, by simp, by simp⟩

/-- C3 (Crashed-container selection): for every workload with at least one main
container (the platform stores no pod without one), the pair
`(crashedContainerName, exitCode)` of step 3 is the one the first matching status
yields, scanning the main container statuses in order and then the initialization
ones, the current state of a status before its last state; when no status matches and
the phase is `Failed`, the pair is (name of the first main container, 1).  These are
the values `Reconcile` passes to the signature and to the materialization of the
replica. -/
theorem crashed_container_selection (pod : Pod) (hc : pod.Spec.Containers ≠ []) :
    (∀ name code,
      FirstMatch (pod.Status.ContainerStatuses ++ pod.Status.InitContainerStatuses) name code →
      crashCheck pod = ⟨true, name, code⟩) ∧
    ((∀ s ∈ pod.Status.ContainerStatuses ++ pod.Status.InitContainerStatuses, ¬ StatusMatches s) →
      pod.Status.Phase = "Failed" →
      ∃ c rest, pod.Spec.Containers = c :: rest ∧ crashCheck pod = ⟨true, c.Name, 1⟩) ∧
    (∀ (lib : Lib) (env : Env) (cfg : ForensicsConfig) (req : Request) (w w0 : World),
      EntersMaterialization lib cfg req w pod w0 →
      Reconcile lib env cfg req w =
        materialize lib env cfg pod (crashCheck pod).crashedContainerName (crashCheck pod).exitCode
          (getCrashSignature lib pod (crashCheck pod).crashedContainerName (crashCheck pod).exitCode)
          w0) := by
  refine ⟨?_, ?_, ?_⟩
  · intro name code h
    unfold crashCheck
    simp only []
    rw [(scanStatuses_eq_some_iff _ _ _).mpr h]
  · intro hno hphase
    cases hcs : pod.Spec.Containers with
    | nil => exact absurd hcs hc
    | cons c rest =>
      refine ⟨c, rest, rfl, ?_⟩
      unfold crashCheck
      simp only []
      rw [(scanStatuses_eq_none_iff _).mpr hno]
      simp only []
      rw [if_pos (by exact hphase), hcs]
  · intro lib env cfg req w w0 h
    exact Reconcile_of_enters env h

/-- C3, witness: the workload `job-7` in phase `Failed`, with the main containers
`runner` and `sidecar` and no container status, is crashed with the pair
`("runner", 1)`. -/
theorem crashed_container_selection_witness :
    failedPod.Spec.Containers ≠ [] ∧
    (∃ c rest, failedPod.Spec.Containers = c :: rest ∧ crashCheck failedPod = ⟨true, c.Name, 1⟩) ∧
    crashCheck failedPod = ⟨true, "runner", 1⟩ :=
  ⟨by decide,
    (crashed_container_selection failedPod (by decide)).2.1
      (fun s hs => absurd hs (List.not_mem_nil s)) rfl,
    by decide⟩

/-- C4 (signature definition).  For every workload, container name and exit code,
`getCrashSignature` is the first 63 characters of the hex encoding of the SHA-256 of
`"{namespace}-{workload_name}-{container_name}-{exit_code}"`, the exit code in decimal; for
namespace `prod`, workload name `api-abc`, container `app` and exit code 137 the hashed string
is `"prod-api-abc-app-137"`. -/
theorem signature_definition (lib : Lib) (pod : Pod) (containerName : String) (exitCode : Int) :
    getCrashSignature lib pod containerName exitCode =
      String.mk ((EncodeToString (lib.Sum256
        (pod.ObjectMeta.Namespace ++ "-" ++ workloadName pod ++ "-" ++ containerName ++ "-"
          ++ toString exitCode)).bytes).take 63) ∧
    (pod.ObjectMeta.Namespace = "prod" → workloadName pod = "api-abc" →
      signatureInput pod "app" 137 = "prod-api-abc-app-137" ∧
      getCrashSignature lib pod "app" 137 =
        String.mk ((EncodeToString (lib.Sum256 "prod-api-abc-app-137").bytes).take 63)) := by
  refine ⟨rfl, ?_⟩
  intro hns hw
  have : signatureInput pod "app" 137 = "prod-api-abc-app-137" := by
    simp only [signatureInput, hns, hw]
    decide
  exact ⟨this, by simp only [getCrashSignature, this]⟩

/-- C5 (signature shape).  For every input the crash signature has length exactly 63,
consists of the characters `0-9` and `a-f` only, matches the label-value syntax
`[A-Za-z0-9][-A-Za-z0-9_.]*[A-Za-z0-9]`, and the slice `[:63]` is within range: the hex string
it cuts has at least 63 characters. -/
theorem signature_shape (lib : Lib) (pod : Pod) (containerName : String) (exitCode : Int) :
    (getCrashSignature lib pod containerName exitCode).length = 63 ∧
    (∀ c ∈ (getCrashSignature lib pod containerName exitCode).data, isLowerHex c = true) ∧
    MatchesLabelValue (getCrashSignature lib pod containerName exitCode).data ∧
    63 ≤ (EncodeToString (lib.Sum256 (signatureInput pod containerName exitCode)).bytes).length := by
  have hlen : (getCrashSignature lib pod containerName exitCode).data.length = 63 := by
    rw [signature_data, List.length_take, signature_hex_length]; rfl
  have hhex : ∀ c ∈ (getCrashSignature lib pod containerName exitCode).data, isLowerHex c = true := by
    intro c hc
    rw [signature_data] at hc
    exact EncodeToString_hex _ c (List.mem_of_mem_take hc)
  refine ⟨hlen, hhex, ?_, ?_⟩
  · exact matchesLabelValue_of_alnum _ (by rw [hlen]; decide) (fun c hc => isLowerHex_isAlnum (hhex c hc))
  · rw [signature_hex_length]; decide

/-- C6 (Workload-name selection): for every workload whose owner references all have a
name (the platform stores no owner reference without one), the workload name fed into
the signature is the name of the first owner reference if the workload has any owner
reference, otherwise its generate-name if that is non-empty, otherwise its own
instance name; it is the second field of the string the signature hashes. -/
theorem workload_name_selection (pod : Pod) (containerName : String) (exitCode : Int)
    (hown : ∀ o ∈ pod.ObjectMeta.OwnerReferences, o.Name ≠ "") :
    workloadName pod =
      (match pod.ObjectMeta.OwnerReferences with
        | owner :: _ => owner.Name
        | [] =>
          if pod.ObjectMeta.GenerateName = "" then pod.ObjectMeta.Name
          else pod.ObjectMeta.GenerateName) ∧
    signatureInput pod containerName exitCode =
      pod.ObjectMeta.Namespace ++ "-" ++ workloadName pod ++ "-" ++ containerName ++ "-"
        ++ toString exitCode := by
  refine ⟨?_, rfl⟩
  unfold workloadName
  cases h : pod.ObjectMeta.OwnerReferences with
  | nil => rfl
  | cons owner rest =>
    have hne : owner.Name ≠ "" := hown owner (by rw [h]; exact List.mem_cons_self _ _)
    simp only []
    rw [if_neg hne]

/-- C6, witness: the workload `web-0`, with generate-name `web-` and the owners `web`
and `backup-controller`, has the workload name `web`. -/
theorem workload_name_selection_witness :
    (∀ o ∈ ownedPod.ObjectMeta.OwnerReferences, o.Name ≠ "") ∧
    workloadName ownedPod = "web" ∧
    signatureInput ownedPod "app" 137 = "prod-web-app-137" :=
  ⟨by decide,
    (workload_name_selection ownedPod "app" 137 (by decide)).1.trans rfl,
    by decide⟩

/-- C7 (gating).  `Reconcile` returns nil and leaves the world untouched when (a) the watch
list is non-empty and lacks the request's namespace, (b) the namespace is in the ignore list,
whatever the watch list holds, or (c) the namespace is the forensic target namespace; and (d)
when the fetched workload has a deletion timestamp it returns nil and changes neither the
store nor the calls, events and counters.  With an empty watch list, a namespace that is not
ignored and is not the target is eligible: `Reconcile` fetches the workload and goes on with
it. -/
theorem reconcile_gating (lib : Lib) (env : Env) (cfg : ForensicsConfig) (req : Request) (w : World) :
    (cfg.WatchNamespaces ≠ [] → req.Namespace ∉ cfg.WatchNamespaces →
      Reconcile lib env cfg req w = (none, w)) ∧
    (req.Namespace ∈ cfg.IgnoreNamespaces → Reconcile lib env cfg req w = (none, w)) ∧
    (req.Namespace = cfg.TargetNamespace → Reconcile lib env cfg req w = (none, w)) ∧
    (∀ pod w1, w.GetPod req.Namespace req.Name = (.ok pod, w1) →
      MetaTimeIsZero pod.ObjectMeta.DeletionTimestamp = false →
      (Reconcile lib env cfg req w).1 = none ∧
      (Reconcile lib env cfg req w).2.objects = w.objects ∧
      (Reconcile lib env cfg req w).2.calls = w.calls ∧
      (Reconcile lib env cfg req w).2.events = w.events ∧
      (Reconcile lib env cfg req w).2.counters = w.counters) ∧
    (cfg.WatchNamespaces = [] → req.Namespace ∉ cfg.IgnoreNamespaces →
      req.Namespace ≠ cfg.TargetNamespace →
      Reconcile lib env cfg req w =
        match w.GetPod req.Namespace req.Name with
        | (.error err, w1) => (IgnoreNotFound err, w1)
        | (.ok pod, w1) => reconcilePod lib env cfg pod w1) := by
  refine ⟨?_, ?_, ?_, ?_, ?_⟩
  · intro hne hnot
    unfold Reconcile
    rw [if_pos ⟨List.length_pos.mpr hne, hnot⟩]
  · intro hi
    unfold Reconcile
    split
    · rfl
    · rfl
  · intro ht
    unfold Reconcile
    split
    · rfl
    · split
      · rfl
      · rfl
  · intro pod w1 hget hdel
    obtain ⟨-, hw1, -⟩ := GetPod_ok_inv hget
    subst hw1
    unfold Reconcile
    split
    · exact ⟨rfl, rfl, rfl, rfl, rfl⟩
    split
    · exact ⟨rfl, rfl, rfl, rfl, rfl⟩
    split
    · exact ⟨rfl, rfl, rfl, rfl, rfl⟩
    rw [hget]
    simp only []
    unfold reconcilePod
    rw [if_pos hdel]
    exact ⟨rfl, by simp, by simp, by simp, by simp⟩
  · intro hw hi ht
    unfold Reconcile
    rw [if_neg (by simp [hw]), if_neg hi, if_neg ht]

/-- C8 (hard-failure policy and ordering).  For a crashed, non-deduplicated workload: if
ensure-namespace fails, or it succeeds and ensure-network-policy fails, or both succeed and
dependency cloning fails, or these succeed and the log-config create fails, `Reconcile` returns
that error and issues no replica create.  Hence, whenever `Reconcile` issues a replica create,
namespace ensure, policy ensure, dependency cloning and log-config creation have succeeded, each
in the world the previous one left, no replica create had been issued by then, and the replica
create is the last call of the run. -/
theorem hard_failure_policy (lib : Lib) (env : Env) (cfg : ForensicsConfig) (req : Request)
    (w : World) :
    (∀ pod w0, EntersMaterialization lib cfg req w pod w0 →
      (∀ e wa, ensureNamespace cfg (started pod w0) = (some e, wa) →
        (Reconcile lib env cfg req w).1 = some e ∧
        podCreates (Reconcile lib env cfg req w).2.calls = podCreates w.calls) ∧
      (∀ wa e wb, ensureNamespace cfg (started pod w0) = (none, wa) →
        ensureNetworkPolicy cfg wa = (some e, wb) →
        (Reconcile lib env cfg req w).1 = some e ∧
        podCreates (Reconcile lib env cfg req w).2.calls = podCreates w.calls) ∧
      (∀ wa wb e wc, ensureNamespace cfg (started pod w0) = (none, wa) →
        ensureNetworkPolicy cfg wa = (none, wb) →
        cloneDependencies cfg pod (uploadLogs lib env pod (crashedLogs env cfg pod) wb).2
          = (.error e, wc) →
        (Reconcile lib env cfg req w).1 = some e ∧
        podCreates (Reconcile lib env cfg req w).2.calls = podCreates w.calls) ∧
      (∀ wa wb resourceMap wc e wd, ensureNamespace cfg (started pod w0) = (none, wa) →
        ensureNetworkPolicy cfg wa = (none, wb) →
        cloneDependencies cfg pod (uploadLogs lib env pod (crashedLogs env cfg pod) wb).2
          = (.ok resourceMap, wc) →
        createLogConfigMap cfg pod (crashedLogs env cfg pod) wc = (.error e, wd) →
        (Reconcile lib env cfg req w).1 = some e ∧
        podCreates (Reconcile lib env cfg req w).2.calls = podCreates w.calls)) ∧
    (podCreates (Reconcile lib env cfg req w).2.calls ≠ podCreates w.calls →
      ∃ pod w0 wa wb resourceMap wc logCMName wd,
        EntersMaterialization lib cfg req w pod w0 ∧
        ensureNamespace cfg (started pod w0) = (none, wa) ∧
        ensureNetworkPolicy cfg wa = (none, wb) ∧
        cloneDependencies cfg pod (uploadLogs lib env pod (crashedLogs env cfg pod) wb).2
          = (.ok resourceMap, wc) ∧
        createLogConfigMap cfg pod (crashedLogs env cfg pod) wc = (.ok logCMName, wd) ∧
        podCreates wd.calls = podCreates w.calls ∧
        ∃ before newPod outcome,
          (Reconcile lib env cfg req w).2.calls = before ++ [Call.create (.pod newPod) outcome] ∧
          wd.calls <+: before ∧ podCreates before = podCreates w.calls) := by
  constructor
  · intro pod w0 h
    obtain ⟨hA, hB, hC, hD, -⟩ := hard_steps env h
    exact ⟨hA, hB, hC, hD⟩
  · intro hne
    rcases Reconcile_cases lib env cfg req w with hq | ⟨pod, w0, h⟩
    · exact absurd (by rw [hq.2.1]) hne
    · obtain ⟨-, -, -, -, hE⟩ := hard_steps env h
      obtain ⟨wa, wb, rm, wc, name, wd, h1, h2, h3, h4, h5, h6⟩ := hE hne
      exact ⟨pod, w0, wa, wb, rm, wc, name, wd, h, h1, h2, h3, h4, h5, h6⟩

/-- C8, witness: in the worked scenario with a failing log-config create, `Reconcile`
returns that error and issues no replica create. -/
theorem hard_failure_policy_witness :
    ((Reconcile demoLib softEnv demoCfg demoReq hardWorld).1
        = some ⟨ErrKind.other, "quota exceeded"⟩ ∧
      podCreates (Reconcile demoLib softEnv demoCfg demoReq hardWorld).2.calls
        = podCreates hardWorld.calls) ∧
    (podCreates (Reconcile demoLib softEnv demoCfg demoReq softWorld).2.calls
        ≠ podCreates softWorld.calls ∧
      ∃ (wd : World) (before : List Call) (newPod : Pod) (outcome : Option Err),
        podCreates wd.calls = podCreates softWorld.calls ∧
        (Reconcile demoLib softEnv demoCfg demoReq softWorld).2.calls
          = before ++ [Call.create (.pod newPod) outcome] ∧
        wd.calls <+: before) := by
  refine ⟨((hard_failure_policy demoLib softEnv demoCfg demoReq hardWorld).1 _ _ hard_enters).2.2.2
    _ _ _ _ _ _ rfl rfl rfl rfl, by decide, ?_⟩
  obtain ⟨-, -, -, -, -, -, -, wd, -, -, -, -, -, h5, before, newPod, outcome, h6, h7, -⟩ :=
    (hard_failure_policy demoLib softEnv demoCfg demoReq softWorld).2 (by decide)
  exact ⟨wd, before, newPod, outcome, h5, h6, h7⟩

/-- C9 (soft-failure policy).  For a crashed, non-deduplicated workload for which
namespace ensure, policy ensure, dependency cloning, log-config creation and the replica create
succeed, whatever log fetching, upload, snapshotting and checkpointing produce, `Reconcile`
returns nil and the store holds a new replica in the forensic namespace carrying the signature.
A failed upload leaves `forensic.io/log-s3-url` absent from the replica, a failed snapshot step
`forensic.io/snapshots`, a failed checkpoint `forensic.io/checkpoint`; and after a failed log
fetch the stored log-config holds `"Error fetching logs: <error>"` under `crash.log`. -/
theorem soft_failure_policy {lib : Lib} (env : Env) {cfg : ForensicsConfig} {req : Request}
    {w : World} {pod : Pod} {w0 wa wb wu wc wd we wf wg : World} {s3URL : String}
    {resourceMap : StrMap} {logCMName : String} {snapshotMap : StrMap}
    {checkpointLocation : String}
    (h : EntersMaterialization lib cfg req w pod w0)
    (hns : ensureNamespace cfg (started pod w0) = (none, wa))
    (hnp : ensureNetworkPolicy cfg wa = (none, wb))
    (hup : uploadLogs lib env pod (crashedLogs env cfg pod) wb = (s3URL, wu))
    (hcl : cloneDependencies cfg pod wu = (.ok resourceMap, wc))
    (hlog : createLogConfigMap cfg pod (crashedLogs env cfg pod) wc = (.ok logCMName, wd))
    (hsn : takeSnapshots lib cfg pod wd = (snapshotMap, we))
    (hck : takeCheckpoint env cfg pod (crashedName pod) we = (checkpointLocation, wf))
    (hpod : createForensicPod lib cfg pod resourceMap logCMName (signatureOf lib pod)
      (crashedName pod) (crashCheck pod).exitCode (logHashStr lib (crashedLogs env cfg pod))
      snapshotMap checkpointLocation s3URL wf = (none, wg)) :
    (Reconcile lib env cfg req w).1 = none ∧
    (∃ replica : Pod,
      Object.pod replica ∈ (Reconcile lib env cfg req w).2.objects ∧
      Object.pod replica ∉ w.objects ∧
      replica.ObjectMeta.Namespace = cfg.TargetNamespace ∧
      StrMap.get? replica.ObjectMeta.Labels LabelCrashSignature = some (signatureOf lib pod) ∧
      (∀ err, (env.Upload (uploadKey lib pod wb.tick.1) (crashedLogs env cfg pod)).2 = some err →
        StrMap.get? replica.ObjectMeta.Annotations LabelLogS3URL = none) ∧
      (∀ err w', snapshotPVCs lib cfg pod wd = (.error err, w') →
        StrMap.get? replica.ObjectMeta.Annotations "forensic.io/snapshots" = none) ∧
      (∀ err w', triggerCheckpoint env pod (crashedName pod) we = (.error err, w') →
        StrMap.get? replica.ObjectMeta.Annotations "forensic.io/checkpoint" = none)) ∧
    (∀ err, getPodLogs env cfg pod (crashedName pod) = .error err →
      ∃ logCM : ConfigMap,
        Object.cm logCM ∈ (Reconcile lib env cfg req w).2.objects ∧
        logCM.ObjectMeta.Name = logCMName ∧
        logCM.ObjectMeta.Namespace = cfg.TargetNamespace ∧
        StrMap.get? logCM.Data LogConfigMapKey = some ("Error fetching logs: " ++ err.msg)) := by
  have hup1 : (uploadLogs lib env pod (crashedLogs env cfg pod) wb).1 = s3URL := by rw [hup]
  have hup2 : (uploadLogs lib env pod (crashedLogs env cfg pod) wb).2 = wu := by rw [hup]
  have hsn1 : (takeSnapshots lib cfg pod wd).1 = snapshotMap := by rw [hsn]
  have hsn2 : (takeSnapshots lib cfg pod wd).2 = we := by rw [hsn]
  have hck1 : (takeCheckpoint env cfg pod (crashedName pod) we).1 = checkpointLocation := by
    rw [hck]
  have hck2 : (takeCheckpoint env cfg pod (crashedName pod) we).2 = wf := by rw [hck]
  have hR : Reconcile lib env cfg req w =
      (none,
        (wg.Eventf pod EventTypeNormal "ForensicPodCreated"
          ("Created forensic pod " ++ cfg.TargetNamespace ++ " (LogHash: "
            ++ logHashStr lib (crashedLogs env cfg pod) ++ ")")).Inc
          ForensicPodsCreatedTotal [pod.ObjectMeta.Namespace]) := by
    have hcl' : cloneDependencies cfg pod (uploadLogs lib env pod (crashedLogs env cfg pod) wb).2
        = (.ok resourceMap, wc) := by rw [hup2]; exact hcl
    have hpod' : createForensicPod lib cfg pod resourceMap logCMName (signatureOf lib pod)
        (crashedName pod) (crashCheck pod).exitCode (logHashStr lib (crashedLogs env cfg pod))
        (takeSnapshots lib cfg pod wd).1
        (takeCheckpoint env cfg pod (crashedName pod) (takeSnapshots lib cfg pod wd).2).1
        (uploadLogs lib env pod (crashedLogs env cfg pod) wb).1
        (takeCheckpoint env cfg pod (crashedName pod) (takeSnapshots lib cfg pod wd).2).2
        = (none, wg) := by rw [hsn1, hsn2, hck1, hck2, hup1]; exact hpod
    rw [Reconcile_eq env h, materialize_from hns hnp]
    exact materializeFrom_pod_ok hcl' hlog hpod'
  obtain ⟨hf0, -, -⟩ := enters_frame h
  have hfu : Frame w wu := by
    have := uploadLogs_frame lib env pod (crashedLogs env cfg pod) wb
    rw [hup2] at this
    exact (((hf0.trans (started_frame pod w0)).trans (ensureNamespace_frame' hns)).trans
      (ensureNetworkPolicy_frame' hnp)).trans this
  have hfd : Frame w wd :=
    (hfu.trans (cloneDependencies_frame' hcl)).trans (createLogConfigMap_frame' hlog)
  have hdf : Frame wd wf := by
    have h1 := takeSnapshots_frame lib cfg pod wd
    rw [hsn2] at h1
    have h2 := takeCheckpoint_frame env cfg pod (crashedName pod) we
    rw [hck2] at h2
    exact h1.trans h2
  obtain ⟨replica, hobj, hnew, hrns, hrl, hra, -⟩ := createForensicPod_stores hpod
  refine ⟨by rw [hR], ?_, ?_⟩
  · refine ⟨replica, ?_, ?_, hrns, ?_, ?_, ?_, ?_⟩
    · rw [hR]
      simp only [Inc_objects, Eventf_objects, hobj]
      exact List.mem_append_right _ (List.mem_singleton_self _)
    · intro hm
      exact not_mem_of_sameKey hnew (mem_of_grown (hfd.trans hdf).objects hm)
    · rw [hrl]; rfl
    · intro err herr
      have : s3URL = "" := by rw [← hup1]; exact uploadLogs_failed herr
      subst this
      rw [hra]
      exact annotations_no_s3 _ _ _ _ _ _
    · intro err w' herr
      have : snapshotMap = [] := by rw [← hsn1]; exact takeSnapshots_failed herr
      subst this
      rw [hra]
      exact annotations_no_snapshots _ _ _ _ _ _
    · intro err w' herr
      have : checkpointLocation = "" := by rw [← hck1]; exact takeCheckpoint_failed herr
      subst this
      rw [hra]
      exact annotations_no_checkpoint _ _ _ _ _ _
  · intro err herr
    obtain ⟨logCM, ho, hn, hns', hdata⟩ := createLogConfigMap_ok hlog
    refine ⟨logCM, ?_, hn, hns', ?_⟩
    · rw [hR]
      simp only [Inc_objects, Eventf_objects, hobj]
      apply List.mem_append_left
      apply mem_of_grown hdf.objects
      rw [ho]
      exact List.mem_append_right _ (List.mem_singleton_self _)
    · rw [hdata]
      have : crashedLogs env cfg pod = "Error fetching logs: " ++ err.msg := fetchLogs_failed herr
      rw [this]
      simp [StrMap.get?]

/-- C9, witness: in the worked scenario every soft step fails (log fetch, upload,
snapshot, checkpoint), `Reconcile` returns nil, and the stored replica has none of the three
annotations. -/
theorem soft_failure_policy_witness :
    (Reconcile demoLib softEnv demoCfg demoReq softWorld).1 = none ∧
    ∃ replica : Pod,
      Object.pod replica ∈ (Reconcile demoLib softEnv demoCfg demoReq softWorld).2.objects ∧
      StrMap.get? replica.ObjectMeta.Annotations LabelLogS3URL = none ∧
      StrMap.get? replica.ObjectMeta.Annotations "forensic.io/snapshots" = none ∧
      StrMap.get? replica.ObjectMeta.Annotations "forensic.io/checkpoint" = none := by
  have h := soft_failure_policy softEnv soft_enters rfl rfl rfl rfl rfl rfl rfl rfl
  obtain ⟨h1, ⟨replica, hm, -, -, -, hu, hs, hc⟩, -⟩ := h
  exact ⟨h1, replica, hm, hu _ rfl, hs _ _ rfl, hc _ _ rfl⟩

/-- C10, as amended (referential isolation).  The config/secret references of the built
replica (volumes, projected sources, `envFrom` and `env` of main and initialization containers)
are those of the workload, each rewritten through the clones map, plus the injected log-config
volume.  A reference whose key (`cm/name` or `secret/name`) has an entry in the map carries the
mapped name; one whose key has no entry keeps its name.  So every name the replica references
is a name taken from the clones map, or the log-config name, or the unchanged name of a
reference of the workload whose key has no entry in the map. -/
theorem referential_isolation (lib : Lib) (cfg : ForensicsConfig) (pod : Pod)
    (resourceMap : StrMap) (logCMName signature crashedContainerName : String) (exitCode : Int)
    (logHash : String) (snapshotMap : StrMap) (checkpointLocation s3URL : String) (now : Time) :
    podRefs (forensicPod lib cfg pod resourceMap logCMName signature crashedContainerName exitCode
        logHash snapshotMap checkpointLocation s3URL now) =
      ((pod.Spec.Volumes.map volumeRefs).flatten).map (DepRef.rewrite resourceMap)
      ++ [DepRef.rewrite resourceMap (.configMap logCMName)]
      ++ ((pod.Spec.Containers.map containerRefs).flatten).map (DepRef.rewrite resourceMap)
      ++ ((pod.Spec.InitContainers.map containerRefs).flatten).map (DepRef.rewrite resourceMap) ∧
    (∀ ref : DepRef,
      (∀ newName, StrMap.get? resourceMap ref.key = some newName →
        (ref.rewrite resourceMap).name = newName) ∧
      (StrMap.get? resourceMap ref.key = none → ref.rewrite resourceMap = ref)) ∧
    (∀ ref ∈ podRefs (forensicPod lib cfg pod resourceMap logCMName signature crashedContainerName
        exitCode logHash snapshotMap checkpointLocation s3URL now),
      (∃ key, StrMap.get? resourceMap key = some ref.name) ∨
      ref.name = logCMName ∨
      (ref ∈ podRefs pod ∧ StrMap.get? resourceMap ref.key = none)) := by
  have hrefs := podRefs_forensicPod lib cfg pod resourceMap logCMName signature crashedContainerName
    exitCode logHash snapshotMap checkpointLocation s3URL now
  refine ⟨hrefs, ?_, ?_⟩
  · intro ref
    rcases rewrite_cases resourceMap ref with h | ⟨h, h'⟩
    · refine ⟨fun n hn => ?_, fun hn => ?_⟩
      · rw [h] at hn; cases hn; rfl
      · rw [h] at hn; cases hn
    · refine ⟨fun n hn => ?_, fun _ => h'⟩
      rw [h] at hn; cases hn
  · intro ref href
    rw [hrefs] at href
    have key : ∀ r0 : DepRef, ref = r0.rewrite resourceMap →
        (∃ key, StrMap.get? resourceMap key = some ref.name) ∨
          (ref = r0 ∧ StrMap.get? resourceMap r0.key = none) := by
      intro r0 hr
      rcases rewrite_cases resourceMap r0 with h | ⟨h, h'⟩
      · exact Or.inl ⟨r0.key, by rw [hr]; exact h⟩
      · exact Or.inr ⟨by rw [hr, h'], h⟩
    simp only [List.mem_append, List.mem_map, List.mem_singleton] at href
    rcases href with ((⟨r0, hr0, rfl⟩ | rfl) | ⟨r0, hr0, rfl⟩) | ⟨r0, hr0, rfl⟩
    · rcases key r0 rfl with h | ⟨h1, h2⟩
      · exact Or.inl h
      · refine Or.inr (Or.inr ⟨?_, by rw [h1]; exact h2⟩)
        rw [h1]; unfold podRefs
        exact List.mem_append_left _ (List.mem_append_left _ hr0)
    · rcases key (.configMap logCMName) rfl with h | ⟨h1, _⟩
      · exact Or.inl h
      · exact Or.inr (Or.inl (by rw [h1]; rfl))
    · rcases key r0 rfl with h | ⟨h1, h2⟩
      · exact Or.inl h
      · refine Or.inr (Or.inr ⟨?_, by rw [h1]; exact h2⟩)
        rw [h1]; unfold podRefs
        exact List.mem_append_left _ (List.mem_append_right _ hr0)
    · rcases key r0 rfl with h | ⟨h1, h2⟩
      · exact Or.inl h
      · refine Or.inr (Or.inr ⟨?_, by rw [h1]; exact h2⟩)
        rw [h1]; unfold podRefs
        exact List.mem_append_right _ hr0

/-- C10, counterexample: with an empty clones map, the replica of a workload that
mounts the secret `db-creds` still references `db-creds`, which is neither the log-config name
nor a value of the map. -/
theorem referential_isolation_counterexample :
    podRefs (forensicPod demoLib
        { TargetNamespace := "debug-forensics", ForensicTTL := 0, MaxLogSizeBytes := 0,
          IgnoreNamespaces := [], WatchNamespaces := [], EnableSecretCloning := true,
          EnableCheckpointing := false, RateLimitWindow := 0 }
        secretPod [] "api-abc-logs-x7k2p" "sig" "app" 1 "hash" [] "" "" 0)
      = [DepRef.secret "db-creds", DepRef.configMap "api-abc-logs-x7k2p"] ∧
    (DepRef.secret "db-creds").name ≠ "api-abc-logs-x7k2p" ∧
    ∀ key, StrMap.get? [] key ≠ some (DepRef.secret "db-creds").name := by
  refine ⟨by decide, by decide, ?_⟩
  intro key h
  cases h

/-- C11 (Clone map).  A workload references a config object or secret named `n` when
a volume (config or secret volume, or a source of a projected volume) or an `envFrom`
or `env` `valueFrom` of a main or initialization container names it.  For every fault
script: `cloneDependencies` fails only with the error of a create that failed
otherwise than with already-exists, which is then its last request; when it returns
a map, every failed create failed with already-exists, and the map has an entry
under a key exactly when the key is `"cm/" + n` or `"secret/" + n` for a referenced
name `n` whose clone the invocation asked to create (its source was fetched), the
entry being `{source_namespace}-{n}`.  When no request is made to fail and the
workload is outside the forensic namespace, `cloneDependencies` returns a map whose
entries are exactly those of the referenced names whose source object is in the
source namespace (a missing source is skipped); the map is the same in every cluster
with the same sources, whatever the forensic namespace holds, and running the cloning
again on the cluster it leaves returns the same map.  The workloads `Reconcile`
materializes are outside the forensic namespace.  For the workload `richPod`, which
has a reference in each of those places and one to a missing secret, the map is
evaluated. -/
theorem clone_map (cfg : ForensicsConfig) (pod : Pod) (w : World) :
    (∀ e, (cloneDependencies cfg pod w).1 = .error e →
      IsAlreadyExists e = false ∧
      ∃ obj, (newCalls w (cloneDependencies cfg pod w).2).getLast?
        = some (Call.create obj (some e))) ∧
    (∀ rm, (cloneDependencies cfg pod w).1 = .ok rm →
      (∀ obj e, Call.create obj (some e) ∈ newCalls w (cloneDependencies cfg pod w).2 →
        IsAlreadyExists e = true) ∧
      ∀ key v, StrMap.get? rm key = some v ↔
        (∃ n, ReferencesConfig pod n ∧ key = "cm/" ++ n ∧
          v = pod.ObjectMeta.Namespace ++ "-" ++ n ∧
          ∃ c ∈ newCalls w (cloneDependencies cfg pod w).2,
            Call.creates Kind.ConfigMap cfg.TargetNamespace
              (pod.ObjectMeta.Namespace ++ "-" ++ n) c = true) ∨
        (∃ n, ReferencesSecret pod n ∧ key = "secret/" ++ n ∧
          v = pod.ObjectMeta.Namespace ++ "-" ++ n ∧
          ∃ c ∈ newCalls w (cloneDependencies cfg pod w).2,
            Call.creates Kind.Secret cfg.TargetNamespace
              (pod.ObjectMeta.Namespace ++ "-" ++ n) c = true)) ∧
    (w.faults = [] → pod.ObjectMeta.Namespace ≠ cfg.TargetNamespace →
      ∃ rm, (cloneDependencies cfg pod w).1 = .ok rm ∧
        (∀ key v, StrMap.get? rm key = some v ↔
          (∃ n, ReferencesConfig pod n ∧ key = "cm/" ++ n ∧
            sourceExists w pod.ObjectMeta.Namespace (DepRef.configMap n) = true ∧
            v = pod.ObjectMeta.Namespace ++ "-" ++ n) ∨
          (∃ n, ReferencesSecret pod n ∧ key = "secret/" ++ n ∧
            sourceExists w pod.ObjectMeta.Namespace (DepRef.secret n) = true ∧
            v = pod.ObjectMeta.Namespace ++ "-" ++ n)) ∧
        (∀ w' : World, w'.faults = [] →
          (∀ r, sourceExists w' pod.ObjectMeta.Namespace r
            = sourceExists w pod.ObjectMeta.Namespace r) →
          (cloneDependencies cfg pod w').1 = .ok rm) ∧
        (cloneDependencies cfg pod (cloneDependencies cfg pod w).2).1 = .ok rm) ∧
    (∀ (lib : Lib) (req : Request) (wr w0 : World),
      EntersMaterialization lib cfg req wr pod w0 →
      pod.ObjectMeta.Namespace ≠ cfg.TargetNamespace) ∧
    ((cloneDependencies demoCfg richPod richWorld).1
      = .ok [("cm/vol-config", "prod-vol-config"), ("secret/vol-secret", "prod-vol-secret"),
             ("cm/proj-config", "prod-proj-config"), ("secret/proj-secret", "prod-proj-secret"),
             ("cm/env-config", "prod-env-config"), ("secret/env-secret", "prod-env-secret"),
             ("cm/key-config", "prod-key-config"), ("secret/key-secret", "prod-key-secret"),
             ("secret/init-secret", "prod-init-secret"),
             ("cm/init-config", "prod-init-config")]) := by
  obtain ⟨h1, h2, h3, h4⟩ := clone_map_refs cfg pod w
  refine ⟨h1, ?_, ?_, h4, rfl⟩
  · intro rm hrm
    refine ⟨(h2 rm hrm).1, ?_⟩
    intro key v
    exact ((h2 rm hrm).2 key v).trans (exists_podRefs_iff pod key _)
  · intro hf hns
    obtain ⟨rm, hrm, hkeys, hsame, htwice⟩ := h3 hf hns
    refine ⟨rm, hrm, ?_, hsame, htwice⟩
    intro key v
    exact (hkeys key v).trans (exists_podRefs_iff pod key _)

/-- C11, witness: in a cluster where no request fails, the workload `richPod` of
namespace `prod` gets an entry for every name it references in a volume, a projected
source, an `envFrom` and an `env` `valueFrom` of its main and its initialization
container, and none for the missing `tls-cert`; the simpler workload of the cloning
scenario gets the entries of `app-config` and `db-creds`. -/
theorem clone_map_witness :
    (cloneDependencies demoCfg richPod richWorld).1
      = .ok [("cm/vol-config", "prod-vol-config"), ("secret/vol-secret", "prod-vol-secret"),
             ("cm/proj-config", "prod-proj-config"), ("secret/proj-secret", "prod-proj-secret"),
             ("cm/env-config", "prod-env-config"), ("secret/env-secret", "prod-env-secret"),
             ("cm/key-config", "prod-key-config"), ("secret/key-secret", "prod-key-secret"),
             ("secret/init-secret", "prod-init-secret"), ("cm/init-config", "prod-init-config")] ∧
    (cloneDependencies demoCfg clonePod cloneWorld).1
      = .ok [("cm/app-config", "prod-app-config"), ("secret/db-creds", "prod-db-creds")] ∧
    richWorld.faults = [] ∧ richPod.ObjectMeta.Namespace ≠ demoCfg.TargetNamespace ∧
    (∃ rm, (cloneDependencies demoCfg richPod richWorld).1 = .ok rm ∧
        (∀ key v, StrMap.get? rm key = some v ↔
          (∃ n, ReferencesConfig richPod n ∧ key = "cm/" ++ n ∧
            sourceExists richWorld richPod.ObjectMeta.Namespace (DepRef.configMap n) = true ∧
            v = richPod.ObjectMeta.Namespace ++ "-" ++ n) ∨
          (∃ n, ReferencesSecret richPod n ∧ key = "secret/" ++ n ∧
            sourceExists richWorld richPod.ObjectMeta.Namespace (DepRef.secret n) = true ∧
            v = richPod.ObjectMeta.Namespace ++ "-" ++ n)) ∧
        (∀ w' : World, w'.faults = [] →
          (∀ r, sourceExists w' richPod.ObjectMeta.Namespace r
            = sourceExists richWorld richPod.ObjectMeta.Namespace r) →
          (cloneDependencies demoCfg richPod w').1 = .ok rm) ∧
        (cloneDependencies demoCfg richPod (cloneDependencies demoCfg richPod richWorld).2).1
          = .ok rm) :=
  ⟨rfl, rfl, rfl, by decide, (clone_map demoCfg richPod richWorld).2.2.1 rfl (by decide)⟩

/-- C12 (Clone deduplication): within one invocation of `cloneDependencies`, for every
reference `r` (a kind and a name) at most one of the requests issued (the calls the
invocation appends to the log) is a create of its clone, however many volumes, projected sources, `envFrom` or `env` entries name
it; every request issued is the create of the clone of some reference of the
workload, and no two of them create an object of the same kind and name in the
forensic namespace. -/
theorem clone_deduplication (cfg : ForensicsConfig) (pod : Pod) (w : World) :
    ((cloneDependencies cfg pod w).2.calls
      = w.calls ++ newCalls w (cloneDependencies cfg pod w).2) ∧
    (∀ r : DepRef,
      ((newCalls w (cloneDependencies cfg pod w).2).filter (isCloneCreate cfg pod r)).length ≤ 1) ∧
    (∀ c ∈ newCalls w (cloneDependencies cfg pod w).2,
      ∃ r ∈ podRefs pod, isCloneCreate cfg pod r c = true) ∧
    (∀ (k : Kind) (name : String),
      ((newCalls w (cloneDependencies cfg pod w).2).filter
        (Call.creates k cfg.TargetNamespace name)).length ≤ 1) := by
  obtain ⟨hcalls, tr⟩ := cloneDependencies_trace cfg pod w
  have h2 : ∀ c ∈ newCalls w (cloneDependencies cfg pod w).2,
      ∃ r ∈ podRefs pod, isCloneCreate cfg pod r c = true := by
    intro c hc
    obtain ⟨r, hr, hcc, _⟩ := tr.issued c hc
    exact ⟨r, hr, hcc⟩
  refine ⟨hcalls, tr.once, h2, ?_⟩
  intro k name
  by_cases hex : ∃ c ∈ newCalls w (cloneDependencies cfg pod w).2,
      Call.creates k cfg.TargetNamespace name c = true
  · obtain ⟨c, hc, hk⟩ := hex
    obtain ⟨r, _, hcc⟩ := h2 c hc
    have hsame : Call.creates k cfg.TargetNamespace name = isCloneCreate cfg pod r := by
      cases c with
      | create obj e =>
        simp only [isCloneCreate, Call.creates, Bool.and_eq_true, decide_eq_true_eq] at hk hcc
        funext c'
        unfold isCloneCreate
        rw [← hk.1.1, hcc.1.1, ← hk.2, hcc.2]
      | delete _ _ => simp [Call.creates] at hk
      | upload _ _ _ => simp [Call.creates] at hk
      | checkpoint _ _ _ => simp [Call.creates] at hk
    rw [hsame]
    exact tr.once r
  · have hnil : (newCalls w (cloneDependencies cfg pod w).2).filter
        (Call.creates k cfg.TargetNamespace name) = [] := by
      rw [List.filter_eq_nil_iff]
      intro c hc hk
      exact hex ⟨c, hc, hk⟩
    rw [hnil]
    exact Nat.zero_le _

/-- C13 (Redaction content), as the code has it.  When `handleSecret` clones a secret
`src` in redaction mode, the object it asks to create has the type of `src`; its data
has exactly the keys of the data of `src`, each with the value `REDACTED`; its string
data has the keys of the string data of `src`, each with the value `REDACTED`, and the
added key `WARNING`, which holds the warning text unless it is one of those keys.  In
the object the server stores (string data merged into data) the key set is the key set
of `src` plus `WARNING`; for a source without string data, as a fetched secret is,
the key `WARNING` holds the warning text, also when the source has a key of that name,
and every other key of the source has the value `REDACTED`.  A source with the same
type, labels and key sets yields a clone with the same metadata and type that reads
the same at every key, submitted and stored. -/
theorem redaction_content (cfg : ForensicsConfig) (pod : Pod) (name : String) (rm : StrMap)
    (w : World) (src : Secret) (hmode : secretsDisabled cfg pod = true)
    (hkey : StrMap.get? rm ("secret/" ++ name) = none)
    (hget : (w.GetSecret pod.ObjectMeta.Namespace name).1 = .ok src) :
    ∃ outcome,
      (handleSecret cfg pod name rm w).2.2.calls
        = w.calls ++ [Call.create (.secret (secretClone cfg pod name src)) outcome] ∧
      (secretClone cfg pod name src).SecretType = src.SecretType ∧
      (∀ k, StrMap.get? (secretClone cfg pod name src).Data k
        = if (StrMap.get? src.Data k).isSome then some "REDACTED" else none) ∧
      (∀ k, StrMap.get? (secretClone cfg pod name src).StringData k
        = if (StrMap.get? src.StringData k).isSome then some "REDACTED"
          else if k = "WARNING" then
            some "Secret cloning is disabled for this pod. Values have been redacted."
          else none) ∧
      (outcome ≠ none → (handleSecret cfg pod name rm w).2.2.objects = w.objects) ∧
      (outcome = none →
        ∃ st, (handleSecret cfg pod name rm w).2.2.objects = w.objects ++ [Object.secret st] ∧
          st.ObjectMeta.Namespace = cfg.TargetNamespace ∧
          st.SecretType = src.SecretType ∧ st.StringData = [] ∧
          (∀ k, StrMap.get? st.Data k
            = if (StrMap.get? src.StringData k).isSome then some "REDACTED"
              else if k = "WARNING" then
                some "Secret cloning is disabled for this pod. Values have been redacted."
              else if (StrMap.get? src.Data k).isSome then some "REDACTED" else none) ∧
          (src.StringData = [] →
            StrMap.get? st.Data "WARNING"
              = some "Secret cloning is disabled for this pod. Values have been redacted." ∧
            (∀ k, k ≠ "WARNING" → (StrMap.get? src.Data k).isSome = true →
              StrMap.get? st.Data k = some "REDACTED") ∧
            (∀ k, (StrMap.get? st.Data k).isSome = true ↔
              (k = "WARNING" ∨ (StrMap.get? src.Data k).isSome = true)))) ∧
      ∀ src' : Secret, src'.SecretType = src.SecretType →
        src'.ObjectMeta.Labels = src.ObjectMeta.Labels →
        (∀ k, (StrMap.get? src'.Data k).isSome = (StrMap.get? src.Data k).isSome) →
        (∀ k, (StrMap.get? src'.StringData k).isSome = (StrMap.get? src.StringData k).isSome) →
        (secretClone cfg pod name src').ObjectMeta = (secretClone cfg pod name src).ObjectMeta ∧
        (secretClone cfg pod name src').SecretType = (secretClone cfg pod name src).SecretType ∧
        (∀ k, StrMap.get? (secretClone cfg pod name src').Data k
            = StrMap.get? (secretClone cfg pod name src).Data k ∧
          StrMap.get? (secretClone cfg pod name src').StringData k
            = StrMap.get? (secretClone cfg pod name src).StringData k) ∧
        ∀ nm t, ∃ st st',
          (Object.secret (secretClone cfg pod name src)).storedAs nm t = .secret st ∧
          (Object.secret (secretClone cfg pod name src')).storedAs nm t = .secret st' ∧
          st'.ObjectMeta = st.ObjectMeta ∧ st'.SecretType = st.SecretType ∧
          st'.StringData = st.StringData ∧
          ∀ k, StrMap.get? st'.Data k = StrMap.get? st.Data k := by
  obtain ⟨outcome, hcalls, hok, herr⟩ := handleSecret_hit cfg pod name rm w src hkey hget
  refine ⟨outcome, hcalls, rfl, secretClone_data cfg pod name src hmode,
    secretClone_stringData cfg pod name src hmode, herr, ?_, ?_⟩
  · intro ho
    obtain ⟨nm, t, hobj⟩ := hok ho
    obtain ⟨st, hst, hns, _, hty, hsd, hread⟩ := secretClone_stored cfg pod name src hmode nm t
    refine ⟨st, by rw [hobj, hst], hns, hty, hsd, hread, ?_⟩
    intro hnil
    refine ⟨?_, ?_, ?_⟩
    · rw [hread, hnil]
      simp [StrMap.get?, redactionWarning]
    · intro k hk hs
      rw [hread, hnil]
      simp [StrMap.get?, hk, hs]
    · intro k
      rw [hread, hnil]
      by_cases hk : k = "WARNING"
      · simp [StrMap.get?, hk]
      · by_cases hs : (StrMap.get? src.Data k).isSome = true
        · simp [StrMap.get?, hk, hs]
        · simp [StrMap.get?, hk, hs]
  · intro src' hty hlab hd hsd
    refine ⟨by simp [secretClone, hlab], by simp [secretClone, hty], ?_, ?_⟩
    · intro k
      rw [secretClone_data cfg pod name src' hmode, secretClone_data cfg pod name src hmode,
        secretClone_stringData cfg pod name src' hmode,
        secretClone_stringData cfg pod name src hmode, hd k, hsd k]
      exact ⟨rfl, rfl⟩
    · intro nm t
      obtain ⟨st, hst, _, hl, hty1, hsd1, hread⟩ :=
        secretClone_stored cfg pod name src hmode nm t
      obtain ⟨st', hst', _, hl', hty1', hsd1', hread'⟩ :=
        secretClone_stored cfg pod name src' hmode nm t
      refine ⟨st, st', hst, hst', ?_, by rw [hty1, hty1', hty], by rw [hsd1, hsd1'], ?_⟩
      · have h1 : st.ObjectMeta
            = { (secretClone cfg pod name src).ObjectMeta with Name := nm, CreationTimestamp := t } := by
          have := congrArg Object.metadata hst
          exact this.symm
        have h2 : st'.ObjectMeta
            = { (secretClone cfg pod name src').ObjectMeta with Name := nm, CreationTimestamp := t } := by
          have := congrArg Object.metadata hst'
          exact this.symm
        rw [h1, h2]
        simp [secretClone, hlab]
      · intro k
        rw [hread k, hread' k, hd k, hsd k]

/-- C13, witness: with cloning switched off, the secret `db-creds` of the cloning
scenario is fetched and cloned. -/
theorem redaction_content_witness :
    secretsDisabled redactCfg clonePod = true ∧
    StrMap.get? [] ("secret/" ++ "db-creds") = none ∧
    (cloneWorld.GetSecret clonePod.ObjectMeta.Namespace "db-creds").1 = .ok dbCreds ∧
    (∃ outcome,
      (handleSecret redactCfg clonePod "db-creds" [] cloneWorld).2.2.calls
        = cloneWorld.calls
            ++ [Call.create (.secret (secretClone redactCfg clonePod "db-creds" dbCreds)) outcome]) ∧
    (secretClone redactCfg clonePod "db-creds" dbCreds).Data
      = [("username", "REDACTED"), ("password", "REDACTED")] ∧
    (secretClone redactCfg clonePod "db-creds" dbCreds).StringData
      = [("WARNING", "Secret cloning is disabled for this pod. Values have been redacted.")] :=
  ⟨by decide, rfl, rfl,
    (redaction_content redactCfg clonePod "db-creds" [] cloneWorld dbCreds (by decide) rfl rfl).elim
      (fun o h => ⟨o, h.1⟩),
    by decide, by decide⟩

/-- C13, counterexample: a secret with a key `WARNING` of its own, cloned in redaction
mode.  The object submitted has `WARNING` as `REDACTED` in its data and as the warning
text in its string data, and the secret stored in the forensic namespace, where the
server has merged the two, reads the warning text under `WARNING`: not every key
coming from the source has the value `REDACTED`. -/
theorem redaction_content_counterexample :
    secretsDisabled redactCfg clonePod = true ∧
    (cloneDependencies redactCfg clonePod warnWorld).1 = .ok [("secret/db-creds", "prod-db-creds")] ∧
    (newCalls warnWorld (cloneDependencies redactCfg clonePod warnWorld).2
      = [Call.create (.secret (secretClone redactCfg clonePod "db-creds" warnSecret)) none]) ∧
    StrMap.get? warnSecret.Data "WARNING" = some "rotate me" ∧
    StrMap.get? (secretClone redactCfg clonePod "db-creds" warnSecret).Data "WARNING"
      = some "REDACTED" ∧
    StrMap.get? (secretClone redactCfg clonePod "db-creds" warnSecret).StringData "WARNING"
      = some "Secret cloning is disabled for this pod. Values have been redacted." ∧
    Object.secret warnClone ∈ (cloneDependencies redactCfg clonePod warnWorld).2.objects ∧
    warnClone.ObjectMeta.Namespace = "debug-forensics" ∧
    warnClone.ObjectMeta.Name = "prod-db-creds" ∧
    StrMap.get? warnClone.Data "WARNING"
      = some "Secret cloning is disabled for this pod. Values have been redacted." ∧
    StrMap.get? warnClone.Data "WARNING" ≠ some "REDACTED" ∧
    ¬ (∀ k, (StrMap.get? warnSecret.Data k).isSome = true →
        StrMap.get? warnClone.Data k = some "REDACTED") := by
  have stored : StrMap.get? warnClone.Data "WARNING" ≠ some "REDACTED" := by decide
  refine ⟨by decide, rfl, by decide, by decide, by decide, ?_⟩
  refine ⟨by decide, by decide, by decide, by decide, ?_⟩
  exact ⟨by decide, stored, fun h => stored (h "WARNING" (by decide))⟩

/-- C14 (Redaction decision): the redaction mode is off exactly when
`EnableSecretCloning` is true and the workload's annotation
`forensic.io/no-secret-clone` is not the string `"true"`; and whenever
`handleSecret` clones a secret `src` it fetched, the object it asks to create has
the data and string data of `src` verbatim when the mode is off, and in every other
case has them redacted: every data value is `REDACTED` and every string-data value
is `REDACTED` or the text under `WARNING`. -/
theorem redaction_decision (cfg : ForensicsConfig) (pod : Pod) :
    (secretsDisabled cfg pod = false ↔
      (cfg.EnableSecretCloning = true ∧
        StrMap.get pod.ObjectMeta.Annotations "forensic.io/no-secret-clone" ≠ "true")) ∧
    (StrMap.get pod.ObjectMeta.Annotations "forensic.io/no-secret-clone" = "true" →
      secretsDisabled cfg pod = true) ∧
    ∀ (name : String) (rm : StrMap) (w : World) (src : Secret),
      StrMap.get? rm ("secret/" ++ name) = none →
      (w.GetSecret pod.ObjectMeta.Namespace name).1 = .ok src →
      ∃ outcome,
        (handleSecret cfg pod name rm w).2.2.calls
          = w.calls ++ [Call.create (.secret (secretClone cfg pod name src)) outcome] ∧
        ((cfg.EnableSecretCloning = true ∧
            StrMap.get pod.ObjectMeta.Annotations "forensic.io/no-secret-clone" ≠ "true") →
          (secretClone cfg pod name src).Data = src.Data ∧
          (secretClone cfg pod name src).StringData = src.StringData) ∧
        (¬ (cfg.EnableSecretCloning = true ∧
            StrMap.get pod.ObjectMeta.Annotations "forensic.io/no-secret-clone" ≠ "true") →
          (secretClone cfg pod name src).Data = redactInto [] src.Data ∧
          (secretClone cfg pod name src).StringData
            = redactInto
                [("WARNING", "Secret cloning is disabled for this pod. Values have been redacted.")]
                src.StringData ∧
          (∀ kv ∈ (secretClone cfg pod name src).Data, kv.2 = "REDACTED") ∧
          (∀ kv ∈ (secretClone cfg pod name src).StringData,
            kv.2 = "REDACTED" ∨
            kv = ("WARNING", "Secret cloning is disabled for this pod. Values have been redacted."))) := by
  refine ⟨secretsDisabled_iff cfg pod, ?_, ?_⟩
  · intro h
    cases hd : secretsDisabled cfg pod with
    | true => rfl
    | false => exact absurd h ((secretsDisabled_iff cfg pod).1 hd).2
  · intro name rm w src hkey hget
    obtain ⟨outcome, hcalls, _, _⟩ := handleSecret_hit cfg pod name rm w src hkey hget
    refine ⟨outcome, hcalls, ?_, ?_⟩
    · intro hc
      have hd := (secretsDisabled_iff cfg pod).2 hc
      simp [secretClone, hd]
    · intro hc
      have hd : secretsDisabled cfg pod = true := by
        cases hd : secretsDisabled cfg pod with
        | true => rfl
        | false => exact absurd ((secretsDisabled_iff cfg pod).1 hd) hc
      refine ⟨by simp [secretClone, hd], by simp [secretClone, hd, redactionWarning], ?_, ?_⟩
      · intro kv hkv
        simp only [secretClone, hd, if_true] at hkv
        rcases mem_redactInto _ _ _ hkv with h | h
        · cases h
        · exact h
      · intro kv hkv
        simp only [secretClone, hd, if_true] at hkv
        rcases mem_redactInto _ _ _ hkv with h | h
        · simp only [List.mem_singleton] at h
          exact Or.inr h
        · exact Or.inl h

/-- C15 (Command neutralisation): every container of the built replica's main
container list runs the toolkit shell on a script that ends in `sleep infinity`,
has no arguments, and has no liveness, readiness or startup probe; the list has one
container per original main container. -/
theorem command_neutralisation (lib : Lib) (cfg : ForensicsConfig) (originalPod : Pod)
    (resourceMap : StrMap) (logCMName signature crashedContainerName : String) (exitCode : Int)
    (logHash : String) (snapshotMap : StrMap) (checkpointLocation s3URL : String) (now : Time) :
    ((forensicPod lib cfg originalPod resourceMap logCMName signature crashedContainerName
        exitCode logHash snapshotMap checkpointLocation s3URL now).Spec.Containers.length
      = originalPod.Spec.Containers.length) ∧
    ∀ c ∈ (forensicPod lib cfg originalPod resourceMap logCMName signature crashedContainerName
        exitCode logHash snapshotMap checkpointLocation s3URL now).Spec.Containers,
      c.Command =
        ["/usr/local/bin/toolkit/sh", "-c",
         "export PATH=$PATH:/usr/local/bin/toolkit; echo 'Forensic Mode Active. Run your app manually.'"
           ++ "; sleep infinity"] ∧
      c.Args = [] ∧ c.LivenessProbe = none ∧ c.ReadinessProbe = none ∧ c.StartupProbe = none := by
  refine ⟨by simp [forensicPod], ?_⟩
  intro c hc
  simp only [forensicPod, List.mem_map] at hc
  obtain ⟨c0, _, rfl⟩ := hc
  exact ⟨by simp only [updateContainer]; decide, rfl, rfl, rfl, rfl⟩

/-- C16 (Capability drop): the container the builder makes from the `i`-th original
main container has a security context with a capabilities block whose drop list
contains `NET_ADMIN`, `SYS_ADMIN` and `SYS_PTRACE`, also when the original had no
security context or no capabilities block; every capability the original dropped is
still in the list, and the other settings of an original security context and
capabilities block are kept. -/
theorem capability_drop (lib : Lib) (cfg : ForensicsConfig) (originalPod : Pod)
    (resourceMap : StrMap) (logCMName signature crashedContainerName : String) (exitCode : Int)
    (logHash : String) (snapshotMap : StrMap) (checkpointLocation s3URL : String) (now : Time) :
    ∀ (i : Nat) (c : Container), originalPod.Spec.Containers[i]? = some c →
      ∃ c' sc caps,
        (forensicPod lib cfg originalPod resourceMap logCMName signature crashedContainerName
          exitCode logHash snapshotMap checkpointLocation s3URL now).Spec.Containers[i]? = some c' ∧
        c'.SecurityContext = some sc ∧ sc.Capabilities = some caps ∧
        "NET_ADMIN" ∈ caps.Drop ∧ "SYS_ADMIN" ∈ caps.Drop ∧ "SYS_PTRACE" ∈ caps.Drop ∧
        (∀ sc0, c.SecurityContext = some sc0 →
          sc.Privileged = sc0.Privileged ∧ sc.RunAsUser = sc0.RunAsUser ∧
          ∀ caps0, sc0.Capabilities = some caps0 →
            caps.Add = caps0.Add ∧ ∀ d ∈ caps0.Drop, d ∈ caps.Drop) := by
  intro i c hi
  refine ⟨updateContainer resourceMap c, _, _, ?_, rfl, rfl, ?_, ?_, ?_, ?_⟩
  · simp [forensicPod, List.getElem?_map, hi]
  · simp
  · simp
  · simp
  · intro sc0 h0
    refine ⟨by simp [h0], by simp [h0], ?_⟩
    intro caps0 h1
    exact ⟨by simp [h0, h1], fun d hd => by simp [h0, h1, hd]⟩

/-- C16, witness: the container `app` of the cloning scenario already drops `ALL`;
its replica drops `ALL` and the three capabilities. -/
theorem capability_drop_witness :
    clonePod.Spec.Containers[0]? =
      some { Name := "app",
             EnvFrom := [{ ConfigMapRef := some { Name := "app-config" } },
                         { SecretRef := some { Name := "db-creds" } }],
             SecurityContext :=
               some { Capabilities := some { Add := ["NET_BIND_SERVICE"], Drop := ["ALL"] },
                      RunAsUser := some 1000 } } ∧
    ∃ c' sc caps,
      (forensicPod demoLib demoCfg clonePod [] "api-abc-logs-x7k2p" "sig" "app" 137 "00" [] "" ""
          4000).Spec.Containers[0]? = some c' ∧
      c'.SecurityContext = some sc ∧ sc.Capabilities = some caps ∧
      "NET_ADMIN" ∈ caps.Drop ∧ "SYS_ADMIN" ∈ caps.Drop ∧ "SYS_PTRACE" ∈ caps.Drop ∧
      "ALL" ∈ caps.Drop ∧ caps.Add = ["NET_BIND_SERVICE"] ∧ sc.RunAsUser = some 1000 := by
  refine ⟨rfl, ?_⟩
  obtain ⟨c', sc, caps, h1, h2, h3, h4, h5, h6, h7⟩ :=
    capability_drop demoLib demoCfg clonePod [] "api-abc-logs-x7k2p" "sig" "app" 137 "00" [] "" ""
      4000 0 _ rfl
  obtain ⟨-, h8, h9⟩ := h7 _ rfl
  obtain ⟨h10, h11⟩ := h9 _ rfl
  exact ⟨c', sc, caps, h1, h2, h3, h4, h5, h6, h11 "ALL" (by decide), h10, h8⟩

/-- C17 (Pod-level hardening): the built replica has an empty node name, restart
policy `Never`, service-account token automount explicitly false, and an empty
service-account name. -/
theorem pod_level_hardening (lib : Lib) (cfg : ForensicsConfig) (originalPod : Pod)
    (resourceMap : StrMap) (logCMName signature crashedContainerName : String) (exitCode : Int)
    (logHash : String) (snapshotMap : StrMap) (checkpointLocation s3URL : String) (now : Time) :
    (forensicPod lib cfg originalPod resourceMap logCMName signature crashedContainerName
        exitCode logHash snapshotMap checkpointLocation s3URL now).Spec.NodeName = "" ∧
    (forensicPod lib cfg originalPod resourceMap logCMName signature crashedContainerName
        exitCode logHash snapshotMap checkpointLocation s3URL now).Spec.RestartPolicy = "Never" ∧
    (forensicPod lib cfg originalPod resourceMap logCMName signature crashedContainerName
        exitCode logHash snapshotMap checkpointLocation s3URL now).Spec.AutomountServiceAccountToken
      = some false ∧
    (forensicPod lib cfg originalPod resourceMap logCMName signature crashedContainerName
        exitCode logHash snapshotMap checkpointLocation s3URL now).Spec.ServiceAccountName = "" :=
  ⟨rfl, rfl, rfl, rfl⟩

/-- C18 (Toolkit and log mounts), as the code has it: the container the builder
makes from the `i`-th original main container keeps the original mounts, in order,
and has two more after them: the log volume `forensic-logs`, read-only, at
`/forensics/original-logs`, and the toolkit volume `toolbox`, not read-only, at
`/usr/local/bin/toolkit`; the replica's volumes are the original ones followed by
these two. -/
theorem toolkit_and_log_mounts (lib : Lib) (cfg : ForensicsConfig) (originalPod : Pod)
    (resourceMap : StrMap) (logCMName signature crashedContainerName : String) (exitCode : Int)
    (logHash : String) (snapshotMap : StrMap) (checkpointLocation s3URL : String) (now : Time) :
    ((forensicPod lib cfg originalPod resourceMap logCMName signature crashedContainerName
        exitCode logHash snapshotMap checkpointLocation s3URL now).Spec.Volumes.map (fun v => v.Name)
      = originalPod.Spec.Volumes.map (fun v => v.Name) ++ ["forensic-logs", "toolbox"]) ∧
    ∀ (i : Nat) (c : Container), originalPod.Spec.Containers[i]? = some c →
      ∃ c',
        (forensicPod lib cfg originalPod resourceMap logCMName signature crashedContainerName
          exitCode logHash snapshotMap checkpointLocation s3URL now).Spec.Containers[i]? = some c' ∧
        c'.VolumeMounts =
          c.VolumeMounts ++
            [{ Name := "forensic-logs", MountPath := "/forensics/original-logs", ReadOnly := true },
             { Name := "toolbox", MountPath := "/usr/local/bin/toolkit", ReadOnly := false }] := by
  refine ⟨?_, ?_⟩
  · simp [forensicPod, updateVolume, logVolName, toolsVolName, Function.comp_def]
  · intro i c hi
    refine ⟨updateContainer resourceMap c, ?_, ?_⟩
    · simp [forensicPod, List.getElem?_map, hi]
    · simp [updateContainer, logVolName, toolsVolName]

/-- C18, counterexample: in the replica of the worked scenario the toolkit mount of
the container is not read-only, so not every main container mounts the toolkit
volume read-only at `/usr/local/bin/toolkit`. -/
theorem toolkit_and_log_mounts_counterexample :
    ¬ (∀ c ∈ (forensicPod demoLib demoCfg demoPod [] "api-abc-logs-x7k2p" "sig" "app" 137 "00" [] ""
                "" 4000).Spec.Containers,
        ∃ m ∈ c.VolumeMounts,
          m.Name = "toolbox" ∧ m.MountPath = "/usr/local/bin/toolkit" ∧ m.ReadOnly = true) := by
  decide

/-- C19 (Initialization containers): a workload with `n` original initialization
containers gets a replica with `n + 1` of them; the one at index 0 is
`install-toolkit`, and the one at index `i + 1` is the `i`-th original one with its
name, image, command, arguments, resources, mounts, probes and security context
unchanged.  Its `envFrom` and `env` entries are the original ones, in order, with
each config name `n` replaced by the entry of `"cm/" + n` in the clones map and each
secret name `n` by the entry of `"secret/" + n`, a name without an entry being kept;
the keys of the `valueFrom` selectors, and the names and values of the variables, are
unchanged.  In the example the clones map has entries for `app-config` and `db-creds`
and none for `feature-flags`. -/
theorem initialization_containers (lib : Lib) (cfg : ForensicsConfig) (originalPod : Pod)
    (resourceMap : StrMap) (logCMName signature crashedContainerName : String) (exitCode : Int)
    (logHash : String) (snapshotMap : StrMap) (checkpointLocation s3URL : String) (now : Time) :
    ((forensicPod lib cfg originalPod resourceMap logCMName signature crashedContainerName
        exitCode logHash snapshotMap checkpointLocation s3URL now).Spec.InitContainers.length
      = originalPod.Spec.InitContainers.length + 1) ∧
    (∃ c0,
      (forensicPod lib cfg originalPod resourceMap logCMName signature crashedContainerName
        exitCode logHash snapshotMap checkpointLocation s3URL now).Spec.InitContainers[0]? = some c0 ∧
      c0 = initContainer ∧ c0.Name = "install-toolkit") ∧
    (∀ (i : Nat) (c : Container), originalPod.Spec.InitContainers[i]? = some c →
      ∃ c',
        (forensicPod lib cfg originalPod resourceMap logCMName signature crashedContainerName
          exitCode logHash snapshotMap checkpointLocation s3URL now).Spec.InitContainers[i + 1]?
          = some c' ∧
        c'.Name = c.Name ∧ c'.Image = c.Image ∧ c'.Command = c.Command ∧ c'.Args = c.Args ∧
        c'.Resources = c.Resources ∧ c'.VolumeMounts = c.VolumeMounts ∧
        c'.LivenessProbe = c.LivenessProbe ∧ c'.ReadinessProbe = c.ReadinessProbe ∧
        c'.StartupProbe = c.StartupProbe ∧ c'.SecurityContext = c.SecurityContext ∧
        c'.EnvFrom = c.EnvFrom.map (updateEnvFrom resourceMap) ∧
        c'.Env = c.Env.map (updateEnv resourceMap) ∧
        containerRefs c' = (containerRefs c).map (DepRef.rewrite resourceMap) ∧
        c'.EnvFrom.length = c.EnvFrom.length ∧ c'.Env.length = c.Env.length ∧
        (∀ (j : Nat) (ef : EnvFromSource), c.EnvFrom[j]? = some ef →
          ∃ ef', c'.EnvFrom[j]? = some ef' ∧
            ef'.ConfigMapRef.map (fun r => r.Name)
              = ef.ConfigMapRef.map
                  (fun r => (StrMap.get? resourceMap ("cm/" ++ r.Name)).getD r.Name) ∧
            ef'.SecretRef.map (fun r => r.Name)
              = ef.SecretRef.map
                  (fun r => (StrMap.get? resourceMap ("secret/" ++ r.Name)).getD r.Name)) ∧
        (∀ (j : Nat) (e : EnvVar), c.Env[j]? = some e →
          ∃ e', c'.Env[j]? = some e' ∧ e'.Name = e.Name ∧ e'.Value = e.Value ∧
            (e.ValueFrom = none → e'.ValueFrom = none) ∧
            ∀ vf, e.ValueFrom = some vf →
              ∃ vf', e'.ValueFrom = some vf' ∧
                vf'.ConfigMapKeyRef.map (fun r => (r.Name, r.Key))
                  = vf.ConfigMapKeyRef.map
                      (fun r => ((StrMap.get? resourceMap ("cm/" ++ r.Name)).getD r.Name, r.Key)) ∧
                vf'.SecretKeyRef.map (fun r => (r.Name, r.Key))
                  = vf.SecretKeyRef.map
                      (fun r =>
                        ((StrMap.get? resourceMap ("secret/" ++ r.Name)).getD r.Name, r.Key)))) ∧
    ((forensicPod demoLib demoCfg initPod
        [("cm/app-config", "prod-app-config"), ("secret/db-creds", "prod-db-creds")]
        "api-abc-logs-x7k2p" "sig" "app" 137 "00" [] "" "" 4000).Spec.InitContainers
      = [initContainer,
         { Name := "migrate", Image := "migrator:1.4", Command := ["/migrate"], Args := ["up"],
           EnvFrom := [{ ConfigMapRef := some { Name := "prod-app-config" } },
                       { SecretRef := some { Name := "prod-db-creds" } }],
           Env := [{ Name := "TOKEN",
                     ValueFrom :=
                       some { SecretKeyRef := some { Name := "prod-db-creds", Key := "token" } } },
                   { Name := "FLAGS",
                     ValueFrom :=
                       some { ConfigMapKeyRef := some { Name := "feature-flags", Key := "all" } } },
                   { Name := "MODE",
                     ValueFrom :=
                       some { ConfigMapKeyRef :=
                                some { Name := "prod-app-config", Key := "mode" } } }] }]) := by
  refine ⟨by simp [forensicPod], ⟨initContainer, by simp [forensicPod], rfl, rfl⟩, ?_, by decide⟩
  intro i c hi
  refine ⟨updateInitContainer resourceMap c, ?_, rfl, rfl, rfl, rfl, rfl, rfl, rfl, rfl, rfl, rfl,
    rfl, rfl, containerRefs_updateInitContainer resourceMap c, ?_, ?_, ?_, ?_⟩
  · simp [forensicPod, List.getElem?_map, hi]
  · simp [updateInitContainer]
  · simp [updateInitContainer]
  · intro j ef hj
    refine ⟨updateEnvFrom resourceMap ef, by simp [updateInitContainer, List.getElem?_map, hj],
      ?_, ?_⟩
    · cases h : ef.ConfigMapRef <;> simp [updateEnvFrom, h, rewriteName_eq]
    · cases h : ef.SecretRef <;> simp [updateEnvFrom, h, rewriteName_eq]
  · intro j e hj
    refine ⟨updateEnv resourceMap e, by simp [updateInitContainer, List.getElem?_map, hj],
      rfl, rfl, ?_, ?_⟩
    · intro h
      simp [updateEnv, h]
    · intro vf h
      refine ⟨_, by simp [updateEnv, h]; rfl, ?_, ?_⟩
      · cases h1 : vf.ConfigMapKeyRef <;> simp [h1, rewriteName_eq]
      · cases h1 : vf.SecretKeyRef <;> simp [h1, rewriteName_eq]

/-- C20 (Log integrity): every reconciliation that returns nil after asking to create
a replica has stored, new in the cluster, a replica and a log-config object of the
forensic namespace such that the replica's `forensic.io/log-sha256` annotation is the
hex encoding (64 characters of `0-9a-f`) of SHA-256 of exactly the text stored under
`crash.log` in that log-config object.  That text is what step 7 produced: the
container's log, with the truncation banner when the stream reaches the size limit,
or the placeholder `Error fetching logs: <error>` when fetching failed. -/
theorem log_integrity (lib : Lib) (env : Env) (cfg : ForensicsConfig) (req : Request) (w : World)
    (hnil : (Reconcile lib env cfg req w).1 = none)
    (hnew : podCreates (Reconcile lib env cfg req w).2.calls ≠ podCreates w.calls) :
    ∃ (pod : Pod) (w0 : World) (replica : Pod) (logCM : ConfigMap) (logs : String),
      EntersMaterialization lib cfg req w pod w0 ∧
      Object.pod replica ∈ (Reconcile lib env cfg req w).2.objects ∧
      Object.pod replica ∉ w.objects ∧
      replica.ObjectMeta.Namespace = cfg.TargetNamespace ∧
      Object.cm logCM ∈ (Reconcile lib env cfg req w).2.objects ∧
      Object.cm logCM ∉ w.objects ∧
      logCM.ObjectMeta.Namespace = cfg.TargetNamespace ∧
      logCM.ObjectMeta.GenerateName = pod.ObjectMeta.Name ++ "-logs-" ∧
      logCM.Data = [("crash.log", logs)] ∧
      StrMap.get? replica.ObjectMeta.Annotations "forensic.io/log-sha256"
        = some (String.mk (EncodeToString (lib.Sum256 logs).bytes)) ∧
      (EncodeToString (lib.Sum256 logs).bytes).length = 64 ∧
      (∀ c ∈ EncodeToString (lib.Sum256 logs).bytes, isLowerHex c = true) ∧
      (∀ l, getPodLogs env cfg pod (crashedName pod) = .ok l → logs = l) ∧
      (∀ err, getPodLogs env cfg pod (crashedName pod) = .error err →
        logs = "Error fetching logs: " ++ err.msg) ∧
      (∀ stream, crashedName pod ≠ "" →
        env.GetLogs pod.ObjectMeta.Namespace pod.ObjectMeta.Name (crashedName pod) = .ok stream →
        cfg.MaxLogSizeBytes ≤ stream.data.length →
        logs = String.mk (stream.data.toList.take cfg.MaxLogSizeBytes)
          ++ "\n... [TRUNCATED " ++ toString (cfg.MaxLogSizeBytes / 1024) ++ " KB] ...") := by
  rcases Reconcile_cases lib env cfg req w with ⟨_, hc, _⟩ | ⟨pod, w0, h⟩
  · exact absurd (by rw [hc]) hnew
  · obtain ⟨wa, wb, rm, wc, logCMName, wd, hns, hnp, hcl, hlog, _⟩ :=
      (hard_steps env h).2.2.2.2 hnew
    obtain ⟨hf0, -, -⟩ := enters_frame h
    have hfu : Frame w (uploadLogs lib env pod (crashedLogs env cfg pod) wb).2 :=
      (((hf0.trans (started_frame pod w0)).trans (ensureNamespace_frame' hns)).trans
        (ensureNetworkPolicy_frame' hnp)).trans
        (uploadLogs_frame lib env pod (crashedLogs env cfg pod) wb)
    have hfc : Frame w wc := hfu.trans (cloneDependencies_frame' hcl)
    have hfd : Frame w wd := hfc.trans (createLogConfigMap_frame' hlog)
    have hdf : Frame wd
        (takeCheckpoint env cfg pod (crashedName pod) (takeSnapshots lib cfg pod wd).2).2 :=
      (takeSnapshots_frame lib cfg pod wd).trans
        (takeCheckpoint_frame env cfg pod (crashedName pod) (takeSnapshots lib cfg pod wd).2)
    cases hpod : createForensicPod lib cfg pod rm logCMName (signatureOf lib pod)
        (crashedName pod) (crashCheck pod).exitCode (logHashStr lib (crashedLogs env cfg pod))
        (takeSnapshots lib cfg pod wd).1
        (takeCheckpoint env cfg pod (crashedName pod) (takeSnapshots lib cfg pod wd).2).1
        (uploadLogs lib env pod (crashedLogs env cfg pod) wb).1
        (takeCheckpoint env cfg pod (crashedName pod) (takeSnapshots lib cfg pod wd).2).2 with
    | mk r wg =>
      cases r with
      | some e =>
        have hR : Reconcile lib env cfg req w
            = (some e, wg.Inc ForensicPodCreationErrorsTotal
                [pod.ObjectMeta.Namespace, "CreateForensicPod"]) := by
          rw [Reconcile_eq env h, materialize_from hns hnp]
          exact materializeFrom_pod_fail hcl hlog hpod
        rw [hR] at hnil
        cases hnil
      | none =>
        have hR : Reconcile lib env cfg req w
            = (none,
                (wg.Eventf pod EventTypeNormal "ForensicPodCreated"
                  ("Created forensic pod " ++ cfg.TargetNamespace ++ " (LogHash: "
                    ++ logHashStr lib (crashedLogs env cfg pod) ++ ")")).Inc
                  ForensicPodsCreatedTotal [pod.ObjectMeta.Namespace]) := by
          rw [Reconcile_eq env h, materialize_from hns hnp]
          exact materializeFrom_pod_ok hcl hlog hpod
        obtain ⟨replica, hobj, hfresh, hrns, -, hra, -⟩ := createForensicPod_stores hpod
        obtain ⟨logCM, ho, hfreshcm, -, hcmns, hgen, hdata⟩ := createLogConfigMap_stores hlog
        refine ⟨pod, w0, replica, logCM, crashedLogs env cfg pod, h, ?_, ?_, hrns, ?_, ?_, hcmns,
          hgen, hdata, ?_, signature_hex_length lib _, EncodeToString_hex _, ?_, ?_, ?_⟩
        · rw [hR]
          simp only [Inc_objects, Eventf_objects, hobj]
          exact List.mem_append_right _ (List.mem_singleton_self _)
        · intro hm
          exact not_mem_of_sameKey hfresh (mem_of_grown (hfd.trans hdf).objects hm)
        · rw [hR]
          simp only [Inc_objects, Eventf_objects, hobj]
          apply List.mem_append_left
          apply mem_of_grown hdf.objects
          rw [ho]
          exact List.mem_append_right _ (List.mem_singleton_self _)
        · intro hm
          exact not_mem_of_sameKey hfreshcm (mem_of_grown hfc.objects hm)
        · rw [hra]
          exact annotations_log_hash _ _ _ _ _ _ _
        · intro l hl
          unfold crashedLogs fetchLogs
          unfold crashedName at hl
          rw [hl]
        · intro err herr
          exact fetchLogs_failed herr
        · intro stream hname hget hlen
          exact crashedLogs_truncated env cfg pod stream hname hget hlen

/-- C20, witness: the first reconciliation of the worked scenario returns nil after
asking to create the replica. -/
theorem log_integrity_witness :
    (Reconcile demoLib softEnv demoCfg demoReq softWorld).1 = none ∧
    podCreates (Reconcile demoLib softEnv demoCfg demoReq softWorld).2.calls
      ≠ podCreates softWorld.calls ∧
    ∃ (replica : Pod) (logCM : ConfigMap) (logs : String),
      Object.pod replica ∈ (Reconcile demoLib softEnv demoCfg demoReq softWorld).2.objects ∧
      Object.cm logCM ∈ (Reconcile demoLib softEnv demoCfg demoReq softWorld).2.objects ∧
      logCM.Data = [("crash.log", logs)] ∧
      StrMap.get? replica.ObjectMeta.Annotations "forensic.io/log-sha256"
        = some (String.mk (EncodeToString (demoLib.Sum256 logs).bytes)) := by
  refine ⟨by decide, by decide, ?_⟩
  obtain ⟨-, -, replica, logCM, logs, -, h1, -, -, h2, -, -, -, h3, h4, -⟩ :=
    log_integrity demoLib softEnv demoCfg demoReq softWorld (by decide) (by decide)
  exact ⟨replica, logCM, logs, h1, h2, h3, h4⟩

/-- C21 (Log truncation).  With an empty container name `getPodLogs` fails whatever
the log endpoint would deliver.  For a stream of `L` bytes and the cap
`M = MaxLogSizeBytes`: if `M ≤ L` the result is the first `M` bytes followed by the
banner `"\n... [TRUNCATED {M/1024} KB] ..."`; if `L < M` and the stream ends
regularly the result is the text unchanged, with no banner; in both cases it is the
first `min L M` bytes, followed by the banner exactly when `M ≤ L`.  (A stream
shorter than `M` that ends in a read error makes `getPodLogs` fail with that error.)
For `M = 524288` and a stream of 1 MiB the result is 524288 bytes followed by
`"\n... [TRUNCATED 512 KB] ..."`. -/
theorem log_truncation (env : Env) (cfg : ForensicsConfig) (pod : Pod) :
    (getPodLogs env cfg pod "" = .error ⟨ErrKind.other, "no container name specified"⟩) ∧
    (∀ (containerName : String) (stream : LogStream), containerName ≠ "" →
      env.GetLogs pod.ObjectMeta.Namespace pod.ObjectMeta.Name containerName = .ok stream →
      (cfg.MaxLogSizeBytes ≤ stream.data.length →
        getPodLogs env cfg pod containerName
          = .ok (String.mk (stream.data.toList.take cfg.MaxLogSizeBytes)
              ++ "\n... [TRUNCATED " ++ toString (cfg.MaxLogSizeBytes / 1024) ++ " KB] ...")) ∧
      (stream.data.length < cfg.MaxLogSizeBytes → stream.readErr = none →
        getPodLogs env cfg pod containerName = .ok stream.data) ∧
      (stream.data.length < cfg.MaxLogSizeBytes → ∀ e, stream.readErr = some e →
        getPodLogs env cfg pod containerName = .error e) ∧
      ((cfg.MaxLogSizeBytes ≤ stream.data.length ∨ stream.readErr = none) →
        getPodLogs env cfg pod containerName
          = .ok (String.mk (stream.data.toList.take (min stream.data.length cfg.MaxLogSizeBytes))
              ++ (if cfg.MaxLogSizeBytes ≤ stream.data.length then
                    "\n... [TRUNCATED " ++ toString (cfg.MaxLogSizeBytes / 1024) ++ " KB] ..."
                  else ""))) ∧
      (cfg.MaxLogSizeBytes = 524288 → stream.data.length = 1048576 →
        ∃ text : String, text.length = 524288 ∧
          getPodLogs env cfg pod containerName = .ok (text ++ "\n... [TRUNCATED 512 KB] ..."))) := by
  refine ⟨by simp [getPodLogs], ?_⟩
  intro containerName stream hname hget
  have hA : cfg.MaxLogSizeBytes ≤ stream.data.length →
      getPodLogs env cfg pod containerName
        = .ok (String.mk (stream.data.toList.take cfg.MaxLogSizeBytes)
            ++ "\n... [TRUNCATED " ++ toString (cfg.MaxLogSizeBytes / 1024) ++ " KB] ...") := by
    intro hlen
    have hlt : ¬ stream.data.length < cfg.MaxLogSizeBytes := Nat.not_lt.2 hlen
    unfold getPodLogs
    simp only [hname, if_false, hget, hlt, Nat.min_eq_left hlen, if_true]
  have hB : stream.data.length < cfg.MaxLogSizeBytes → stream.readErr = none →
      getPodLogs env cfg pod containerName = .ok stream.data := by
    intro hlen herr
    have hne : min cfg.MaxLogSizeBytes stream.data.length ≠ cfg.MaxLogSizeBytes := by
      rw [Nat.min_eq_right (Nat.le_of_lt hlen)]; exact Nat.ne_of_lt hlen
    unfold getPodLogs
    simp only [hname, if_false, hget, hlen, if_true, herr,
      Nat.min_eq_right (Nat.le_of_lt hlen), mk_toList_take_length]
    rw [if_neg (Nat.ne_of_lt hlen)]
  refine ⟨hA, hB, ?_, ?_, ?_⟩
  · intro hlen e herr
    unfold getPodLogs
    simp only [hname, if_false, hget, hlen, if_true, herr]
  · intro h
    by_cases hlen : cfg.MaxLogSizeBytes ≤ stream.data.length
    · rw [hA hlen, if_pos hlen, Nat.min_eq_right hlen]
      simp [String.append_assoc]
    · have hlt : stream.data.length < cfg.MaxLogSizeBytes := Nat.lt_of_not_le hlen
      rcases h with h | h
      · exact absurd h hlen
      · rw [hB hlt h, if_neg hlen, Nat.min_eq_left (Nat.le_of_lt hlt), mk_toList_take_length]
        simp
  · intro hM hL
    have hlen : cfg.MaxLogSizeBytes ≤ stream.data.length := by rw [hM, hL]; decide
    refine ⟨String.mk (stream.data.toList.take cfg.MaxLogSizeBytes), ?_, ?_⟩
    · show (stream.data.toList.take cfg.MaxLogSizeBytes).length = 524288
      rw [List.length_take, hM]
      have : stream.data.toList.length = 1048576 := hL
      rw [this]; decide
    · rw [hA hlen, hM]
      have h512 : toString (524288 / 1024 : Nat) = "512" := by decide
      rw [h512]
      simp [String.append_assoc]

/-- C22 (Janitor decision): in one pass of the janitor, started in any world `w`, a
delete request goes out for a pod only if it is a pod of the forensic namespace that
meets the condition at the time of the pass (hold annotation not `"true"`, a ttl
label that parses as a duration `d`, and `creation_time + d` strictly before `now`),
and, when the list call succeeds, it goes out for every such pod; an iteration over
a replica that fails the condition (held, no ttl label, unparseable ttl, unexpired)
leaves the world as it is.  When no request fails and no two stored objects share a
key, the delete succeeds exactly for those pods, and the pods of the store after the
pass are exactly the earlier ones that are not such a pod.  In the scenario of two
replicas with ttl `1h0m0s` created at the same instant, one of them held, the pass
two hours later deletes only the unheld one. -/
theorem janitor_decision (ParseDuration : String → Except Err Duration) (cfg : ForensicsConfig)
    (w : World) :
    (∀ now q, expired ParseDuration now q = true ↔
      StrMap.get? q.ObjectMeta.Annotations AnnotationForensicHold ≠ some "true" ∧
      ∃ val d, StrMap.get? q.ObjectMeta.Labels LabelForensicTTL = some val ∧
        ParseDuration val = .ok d ∧ q.ObjectMeta.CreationTimestamp + d < now) ∧
    (∀ q e, Call.delete (Object.pod q) e ∈ newCalls w (cleanupExpiredPods ParseDuration cfg w) →
      Object.pod q ∈ w.objects ∧ q.ObjectMeta.Namespace = cfg.TargetNamespace ∧
        expired ParseDuration (passTime w) q = true) ∧
    (w.popFault.1 = none → ∀ q, Object.pod q ∈ w.objects →
      q.ObjectMeta.Namespace = cfg.TargetNamespace → expired ParseDuration (passTime w) q = true →
      ∃ e, Call.delete (Object.pod q) e ∈ newCalls w (cleanupExpiredPods ParseDuration cfg w)) ∧
    (∀ now v q, expired ParseDuration now q = false →
      cleanupPod ParseDuration cfg now v q = v) ∧
    (w.faults = [] → uniqueKeys w.objects = true →
      (∀ q, Call.delete (Object.pod q) none
            ∈ newCalls w (cleanupExpiredPods ParseDuration cfg w) ↔
          (Object.pod q ∈ w.objects ∧ q.ObjectMeta.Namespace = cfg.TargetNamespace ∧
            expired ParseDuration (passTime w) q = true)) ∧
      (∀ q, Object.pod q ∈ (cleanupExpiredPods ParseDuration cfg w).objects ↔
          (Object.pod q ∈ w.objects ∧
            ¬ (q.ObjectMeta.Namespace = cfg.TargetNamespace ∧
                expired ParseDuration (passTime w) q = true)))) ∧
    (StrMap.get? heldReplica.ObjectMeta.Labels LabelForensicTTL = some "1h0m0s" ∧
      StrMap.get? expiredReplica.ObjectMeta.Labels LabelForensicTTL = some "1h0m0s" ∧
      demoParseDuration "1h0m0s" = .ok 3600000000000 ∧
      heldReplica.ObjectMeta.CreationTimestamp = piDay ∧
      expiredReplica.ObjectMeta.CreationTimestamp = piDay ∧
      passTime janitorWorld = piDay + 2 * 3600000000000 ∧
      StrMap.get? heldReplica.ObjectMeta.Annotations AnnotationForensicHold = some "true" ∧
      StrMap.get? expiredReplica.ObjectMeta.Annotations AnnotationForensicHold = none ∧
      (listedPods demoCfg janitorWorld).map (fun p => p.ObjectMeta.Name)
        = ["api-abc-forensic-x7k2p", "api-abc-forensic-m4q9z", "worker-xyz-forensic-k3d8s"] ∧
      (listedPods demoCfg (cleanupExpiredPods demoParseDuration demoCfg janitorWorld)).map
          (fun p => p.ObjectMeta.Name)
        = ["api-abc-forensic-x7k2p", "worker-xyz-forensic-k3d8s"]) := by
  refine ⟨expired_iff ParseDuration, ?_, ?_, ?_, ?_, ?_⟩
  · intro q e hq
    cases hp : w.popFault.1 with
    | some e0 =>
      rw [cleanupExpiredPods_error _ _ _ _ hp, newCalls_self _ _ (popFault_calls w)] at hq
      cases hq
    | none =>
      obtain ⟨δ, t⟩ := cleanupExpiredPods_trace ParseDuration cfg w hp
      rw [newCalls_append _ _ _ t.calls] at hq
      obtain ⟨h1, h2⟩ := t.podDeletes q e hq
      exact ⟨(mem_listedPods.1 h1).1, (mem_listedPods.1 h1).2, h2⟩
  · intro hp q hq hn hx
    obtain ⟨δ, t⟩ := cleanupExpiredPods_trace ParseDuration cfg w hp
    rw [newCalls_append _ _ _ t.calls]
    exact t.requested q (mem_listedPods.2 ⟨hq, hn⟩) hx
  · intro now v q hx
    exact cleanupPod_skip _ _ _ _ _ hx
  · intro hf hu
    have hp : w.popFault.1 = none := by rw [popFault_nil hf]
    obtain ⟨δ, t⟩ := cleanupExpiredPods_trace ParseDuration cfg w hp
    rw [newCalls_append _ _ _ t.calls]
    refine ⟨?_, ?_⟩
    · intro q
      constructor
      · intro hq
        obtain ⟨h1, h2⟩ := t.podDeletes q none hq
        exact ⟨(mem_listedPods.1 h1).1, (mem_listedPods.1 h1).2, h2⟩
      · rintro ⟨hq, hn, hx⟩
        obtain ⟨r, hr, h3, h4⟩ := t.succeeded hf q (mem_listedPods.2 ⟨hq, hn⟩) hx hq
        have := uniqueKeys_eq hu hq (mem_listedPods.1 hr).1 h4
        rw [this]
        exact h3
    · intro q
      constructor
      · intro hq
        refine ⟨t.subset _ hq, ?_⟩
        rintro ⟨hn, hx⟩
        have := t.clearedPods hf q (mem_listedPods.2 ⟨t.subset _ hq, hn⟩) hx _ hq
        rw [sameKey_self] at this
        cases this
      · rintro ⟨hq, hnot⟩
        by_contra hn
        obtain ⟨r, hr, h3⟩ := t.removed _ hq hn
        obtain ⟨h4, h5⟩ := t.podDeletes r none hr
        rcases h3 with h3 | ⟨_, d, _, h6, h7⟩
        · have := uniqueKeys_eq hu hq (mem_listedPods.1 h4).1 h3
          simp only [Object.pod.injEq] at this
          rw [this] at hnot
          exact hnot ⟨(mem_listedPods.1 h4).2, h5⟩
        · exact absurd (sameKey_kind h7).symm (isDependency_kind h6)
  · refine ⟨by decide, by decide, rfl, rfl, rfl, ?_⟩
    refine ⟨by decide, by decide, by decide, ?_⟩
    exact ⟨by decide, by decide⟩

/-- C23 (Janitor cascade): in one pass of the janitor started in `w`, with `u` the
`forensic-source-pod-uid` label of a replica whose delete request succeeded.  When no
request fails and `u` is not empty, after the pass no config object and no secret of
the forensic namespace carries `forensic-source-pod-uid = u`, and no volume snapshot
of any namespace carries it.  When no two stored objects share a key, every object
the pass removed is a replica whose delete request succeeded or carries the non-empty
label value of such a replica (as a config object or secret of the forensic namespace
or a volume snapshot); every other object is still there.  An iteration in which
the delete of the replica fails leaves the store as it is and issues no other
request, and over the whole pass the objects that carry a label value `u` are all
still there when no replica with that label value was deleted with success.  In the scenario the pass removes the expired replica, the two log-config
objects, the clone, the secret and the snapshot that carry `u1`, and nothing else;
when the delete of the expired replica fails, the store is unchanged. -/
theorem janitor_cascade (ParseDuration : String → Except Err Duration) (cfg : ForensicsConfig)
    (w : World) :
    (w.faults = [] →
      ∀ q, Call.delete (Object.pod q) none
          ∈ newCalls w (cleanupExpiredPods ParseDuration cfg w) →
        sourceUID q ≠ "" →
        (∀ c, Object.cm c ∈ (cleanupExpiredPods ParseDuration cfg w).objects →
          c.ObjectMeta.Namespace = cfg.TargetNamespace →
          StrMap.get? c.ObjectMeta.Labels LabelSourcePodUID ≠ some (sourceUID q)) ∧
        (∀ s, Object.secret s ∈ (cleanupExpiredPods ParseDuration cfg w).objects →
          s.ObjectMeta.Namespace = cfg.TargetNamespace →
          StrMap.get? s.ObjectMeta.Labels LabelSourcePodUID ≠ some (sourceUID q)) ∧
        (∀ s, Object.snap s ∈ (cleanupExpiredPods ParseDuration cfg w).objects →
          StrMap.get? s.ObjectMeta.Labels LabelSourcePodUID ≠ some (sourceUID q))) ∧
    (uniqueKeys w.objects = true →
      ∀ o ∈ w.objects, o ∉ (cleanupExpiredPods ParseDuration cfg w).objects →
        ∃ q, Call.delete (Object.pod q) none
            ∈ newCalls w (cleanupExpiredPods ParseDuration cfg w) ∧
          (o = Object.pod q ∨
            (sourceUID q ≠ "" ∧ isDependency cfg (sourceUID q) o = true))) ∧
    (∀ o ∈ (cleanupExpiredPods ParseDuration cfg w).objects, o ∈ w.objects) ∧
    (uniqueKeys w.objects = true →
      ∀ u, (∀ q, Call.delete (Object.pod q) none
              ∈ newCalls w (cleanupExpiredPods ParseDuration cfg w) → sourceUID q ≠ u) →
        ∀ o ∈ w.objects, isDependency cfg u o = true →
          o ∈ (cleanupExpiredPods ParseDuration cfg w).objects) ∧
    (∀ now v q e, (v.Delete (Object.pod q)).1 = some e →
      (cleanupPod ParseDuration cfg now v q).objects = v.objects ∧
      ∀ c ∈ newCalls v (cleanupPod ParseDuration cfg now v q),
        c = Call.delete (Object.pod q) (some e)) ∧
    (storeKeys janitorWorld =
        [(Kind.Pod, "api-abc-forensic-x7k2p"), (Kind.Pod, "api-abc-forensic-m4q9z"),
         (Kind.Pod, "worker-xyz-forensic-k3d8s"), (Kind.ConfigMap, "api-abc-logs-x7k2p"),
         (Kind.ConfigMap, "api-abc-logs-m4q9z"), (Kind.ConfigMap, "worker-xyz-logs-k3d8s"),
         (Kind.ConfigMap, "prod-app-config"), (Kind.Secret, "prod-db-creds"),
         (Kind.ConfigMap, "kube-root-ca.crt"), (Kind.VolumeSnapshot, "forensic-api-abc-data-7hq2m"),
         (Kind.ConfigMap, "app-config")] ∧
      sourceUID expiredReplica = "u1" ∧
      deleteKeys (newCalls janitorWorld
          (cleanupExpiredPods demoParseDuration demoCfg janitorWorld)) =
        [(Kind.Pod, "api-abc-forensic-m4q9z", true), (Kind.ConfigMap, "api-abc-logs-x7k2p", true),
         (Kind.ConfigMap, "api-abc-logs-m4q9z", true), (Kind.ConfigMap, "prod-app-config", true),
         (Kind.Secret, "prod-db-creds", true),
         (Kind.VolumeSnapshot, "forensic-api-abc-data-7hq2m", true)] ∧
      storeKeys (cleanupExpiredPods demoParseDuration demoCfg janitorWorld) =
        [(Kind.Pod, "api-abc-forensic-x7k2p"), (Kind.Pod, "worker-xyz-forensic-k3d8s"),
         (Kind.ConfigMap, "worker-xyz-logs-k3d8s"), (Kind.ConfigMap, "kube-root-ca.crt"),
         (Kind.ConfigMap, "app-config")] ∧
      deleteKeys (newCalls janitorFailWorld
          (cleanupExpiredPods demoParseDuration demoCfg janitorFailWorld)) =
        [(Kind.Pod, "api-abc-forensic-m4q9z", false)] ∧
      (cleanupExpiredPods demoParseDuration demoCfg janitorFailWorld).objects
        = janitorFailWorld.objects) := by
  refine ⟨?_, ?_, ?_, ?_, ?_, ?_⟩
  · intro hf q hq hu
    have hp : w.popFault.1 = none := by rw [popFault_nil hf]
    obtain ⟨δ, t⟩ := cleanupExpiredPods_trace ParseDuration cfg w hp
    rw [newCalls_append _ _ _ t.calls] at hq
    have key := t.clearedDeps hf q hq hu
    refine ⟨?_, ?_, ?_⟩
    · intro c hc hn hl
      have := key _ hc
      simp [isDependency, hn, hl] at this
    · intro c hc hn hl
      have := key _ hc
      simp [isDependency, hn, hl] at this
    · intro c hc hl
      have := key _ hc
      simp [isDependency, hl] at this
  · intro hu o ho hn
    cases hp : w.popFault.1 with
    | some e0 =>
      rw [cleanupExpiredPods_error _ _ _ _ hp, popFault_objects] at hn
      exact absurd ho hn
    | none =>
      obtain ⟨δ, t⟩ := cleanupExpiredPods_trace ParseDuration cfg w hp
      rw [newCalls_append _ _ _ t.calls]
      obtain ⟨q, hq, h3⟩ := t.removed o ho hn
      refine ⟨q, hq, ?_⟩
      rcases h3 with h3 | ⟨h4, d, hd, h5, h6⟩
      · exact Or.inl (uniqueKeys_eq hu ho (mem_listedPods.1 (t.podDeletes q none hq).1).1 h3)
      · rw [uniqueKeys_eq hu ho hd h6]
        exact Or.inr ⟨h4, h5⟩
  · intro o ho
    cases hp : w.popFault.1 with
    | some e0 =>
      rw [cleanupExpiredPods_error _ _ _ _ hp, popFault_objects] at ho
      exact ho
    | none =>
      obtain ⟨δ, t⟩ := cleanupExpiredPods_trace ParseDuration cfg w hp
      exact t.subset o ho
  · intro hu u hall o ho hd
    by_contra hn
    cases hp : w.popFault.1 with
    | some e0 =>
      rw [cleanupExpiredPods_error _ _ _ _ hp, popFault_objects] at hn
      exact absurd ho hn
    | none =>
      obtain ⟨δ, t⟩ := cleanupExpiredPods_trace ParseDuration cfg w hp
      rw [newCalls_append _ _ _ t.calls] at hall
      obtain ⟨q, hq, h3⟩ := t.removed o ho hn
      rcases h3 with h3 | ⟨_, d, hm, h5, h6⟩
      · exact absurd (sameKey_kind h3) (isDependency_kind hd)
      · rw [← uniqueKeys_eq hu ho hm h6] at h5
        have h7 := isDependency_label h5
        rw [isDependency_label hd] at h7
        exact hall q hq (Option.some.inj h7).symm
  · intro now v q e he
    cases hx : expired ParseDuration now q with
    | false =>
      rw [cleanupPod_skip _ _ _ _ _ hx, newCalls_self _ _ rfl]
      exact ⟨rfl, by simp⟩
    | true =>
      rw [cleanupPod_expired _ _ _ _ _ hx, he]
      simp only []
      refine ⟨Delete_error v _ e he, ?_⟩
      have hc := Delete_calls v (Object.pod q)
      rw [he] at hc
      rw [newCalls_append _ _ _ hc]
      intro c hm
      exact List.mem_singleton.1 hm
  · refine ⟨by decide, rfl, by decide, ?_⟩
    exact ⟨by decide, by decide, by decide⟩

/-- C24 (Label-safe time).  For every instant whose year in UTC is between 0 and 9999,
formatting it with `ForensicTimeFormat` yields the zero-padded string
`YYYY-MM-DDTHH-MM-SSZ`: four digits of the year, two of the month, the day, the hour,
the minute and the second, separated by `-`, `T`, `-`, `-` and followed by `Z`.  It has
20 characters, each a decimal digit or one of `-`, `T`, `Z`, so it contains no colon
and matches the label-value pattern.  The replica's `forensic-time` label is the
result of that call. -/
theorem label_safe_time (t : Time) (hy : 0 ≤ t.civil.year) (hy' : t.civil.year ≤ 9999) :
    (goFormat ForensicTimeFormat t).data =
      digits4 t.civil.year.toNat ++ '-' :: (digits2 t.civil.month.toNat ++ '-' ::
        (digits2 t.civil.day.toNat ++ 'T' :: (digits2 t.civil.hour.toNat ++ '-' ::
          (digits2 t.civil.minute.toNat ++ '-' :: (digits2 t.civil.second.toNat ++ ['Z']))))) ∧
    (goFormat ForensicTimeFormat t).length = 20 ∧
    (∀ c ∈ (goFormat ForensicTimeFormat t).data,
      isDecimalDigit c = true ∨ c = '-' ∨ c = 'T' ∨ c = 'Z') ∧
    ':' ∉ (goFormat ForensicTimeFormat t).data ∧
    MatchesLabelValue (goFormat ForensicTimeFormat t).data ∧
    MatchesLabelRegex (goFormat ForensicTimeFormat t).data ∧
    (∀ (lib : Lib) (cfg : ForensicsConfig) (originalPod : Pod) (resourceMap : StrMap)
      (logCMName signature crashedContainerName : String) (exitCode : Int) (logHash : String)
      (snapshotMap : StrMap) (checkpointLocation s3URL : String),
      StrMap.get?
          (forensicPod lib cfg originalPod resourceMap logCMName signature crashedContainerName
            exitCode logHash snapshotMap checkpointLocation s3URL t).ObjectMeta.Labels
          "forensic-time"
        = some (lib.Format ForensicTimeFormat t)) := by
  obtain ⟨h1, h2, h3, h4, h5, h6, h7, h8, h9, h10⟩ := civil_bounds t
  have hdata := goFormat_forensic t hy hy'
  have hY := digits4_decimal t.civil.year.toNat (by omega)
  have hM := digits2_decimal t.civil.month.toNat (by omega)
  have hD := digits2_decimal t.civil.day.toNat (by omega)
  have hh := digits2_decimal t.civil.hour.toNat (by omega)
  have hm := digits2_decimal t.civil.minute.toNat (by omega)
  have hs := digits2_decimal t.civil.second.toNat (by omega)
  have hchars : ∀ c ∈ (goFormat ForensicTimeFormat t).data,
      isDecimalDigit c = true ∨ c = '-' ∨ c = 'T' ∨ c = 'Z' := by
    intro c hc
    rw [hdata] at hc
    simp only [List.mem_append, List.mem_cons, List.mem_singleton, List.not_mem_nil,
      or_false] at hc
    rcases hc with hc | hc | hc | hc | hc | hc | hc | hc | hc | hc | hc | hc
    · exact Or.inl (hY c hc)
    · exact Or.inr (Or.inl hc)
    · exact Or.inl (hM c hc)
    · exact Or.inr (Or.inl hc)
    · exact Or.inl (hD c hc)
    · exact Or.inr (Or.inr (Or.inl hc))
    · exact Or.inl (hh c hc)
    · exact Or.inr (Or.inl hc)
    · exact Or.inl (hm c hc)
    · exact Or.inr (Or.inl hc)
    · exact Or.inl (hs c hc)
    · exact Or.inr (Or.inr (Or.inr hc))
  have hlabel : MatchesLabelValue (goFormat ForensicTimeFormat t).data := by
    rw [hdata]
    refine ⟨Nat.digitChar (t.civil.year.toNat / 1000),
      [Nat.digitChar (t.civil.year.toNat / 100 % 10), Nat.digitChar (t.civil.year.toNat / 10 % 10),
        Nat.digitChar (t.civil.year.toNat % 10)] ++ '-' :: (digits2 t.civil.month.toNat ++ '-' ::
        (digits2 t.civil.day.toNat ++ 'T' :: (digits2 t.civil.hour.toNat ++ '-' ::
          (digits2 t.civil.minute.toNat ++ '-' :: digits2 t.civil.second.toNat)))),
      'Z', by simp [digits4], ?_, ?_, by decide⟩
    · exact isDecimalDigit_isAlnum (digitChar_decimal _ (by omega))
    · intro c hc
      have hc' : c ∈ (goFormat ForensicTimeFormat t).data := by
        rw [hdata]
        simp only [List.mem_append, List.mem_cons, List.mem_singleton, digits4] at hc ⊢
        tauto
      rcases hchars c hc' with h | rfl | rfl | rfl
      · simp [isLabelChar, isDecimalDigit_isAlnum h]
      · decide
      · decide
      · decide
  refine ⟨hdata, ?_, hchars, ?_, hlabel, Or.inr (Or.inr hlabel), ?_⟩
  · show (goFormat ForensicTimeFormat t).data.length = 20
    rw [hdata]
    simp [digits4, digits2]
  · intro hc
    rcases hchars _ hc with h | h | h | h
    · exact isDecimalDigit_ne_colon h rfl
    · exact absurd h (by decide)
    · exact absurd h (by decide)
    · exact absurd h (by decide)
  · intro lib cfg originalPod resourceMap logCMName signature crashedContainerName exitCode
      logHash snapshotMap checkpointLocation s3URL
    simp [forensicPod, StrMap.get?, LabelSourcePod, LabelSourcePodUID, LabelCrashSignature,
      LabelForensicTime]

/-- C24, witness: the instant 2025-03-14T09:26:53Z yields exactly
`2025-03-14T09-26-53Z`. -/
theorem label_safe_time_witness :
    piDay.civil = { year := 2025, month := 3, day := 14, hour := 9, minute := 26, second := 53 } ∧
    goFormat ForensicTimeFormat piDay = "2025-03-14T09-26-53Z" ∧
    (goFormat ForensicTimeFormat piDay).length = 20 ∧
    ':' ∉ (goFormat ForensicTimeFormat piDay).data ∧
    MatchesLabelRegex (goFormat ForensicTimeFormat piDay).data := by
  obtain ⟨-, h2, -, h4, -, h6, -⟩ := label_safe_time piDay (by decide) (by decide)
  exact ⟨by decide, by decide, h2, h4, h6⟩

/-- C25 (Hard-error observability), as the code has it.  When a hard step of
materialization fails (namespace ensure, network-policy ensure, dependency clone,
log-config create, replica create), `Reconcile` returns the step's error and
increments the creation-error counter once more, with the workload's namespace and the
step's name; it emits no event for the failure: the events at the return are those
of the moment the step began.  Every such run has emitted the warning event
`ForensicAnalysisStarted` on the workload before its first hard step. -/
theorem hard_error_observability {lib : Lib} (env : Env) {cfg : ForensicsConfig} {req : Request}
    {w : World} {pod : Pod} {w0 : World} (h : EntersMaterialization lib cfg req w pod w0) :
    ((started pod w0).events = w.events ++ [startedEvent pod]) ∧
    (∀ e wa, ensureNamespace cfg (started pod w0) = (some e, wa) →
      (Reconcile lib env cfg req w).1 = some e ∧
      (Reconcile lib env cfg req w).2.events = (started pod w0).events ∧
      (Reconcile lib env cfg req w).2.counters = (started pod w0).counters ++
        [⟨ForensicPodCreationErrorsTotal, [pod.ObjectMeta.Namespace, "EnsureNamespace"]⟩] ∧
      startedEvent pod ∈ (Reconcile lib env cfg req w).2.events) ∧
    (∀ wa e wb, ensureNamespace cfg (started pod w0) = (none, wa) →
      ensureNetworkPolicy cfg wa = (some e, wb) →
      (Reconcile lib env cfg req w).1 = some e ∧
      (Reconcile lib env cfg req w).2.events = wa.events ∧
      (Reconcile lib env cfg req w).2.counters = wa.counters ++
        [⟨ForensicPodCreationErrorsTotal, [pod.ObjectMeta.Namespace, "EnsureNetworkPolicy"]⟩] ∧
      startedEvent pod ∈ (Reconcile lib env cfg req w).2.events) ∧
    (∀ wa wb wu s3URL e wc, ensureNamespace cfg (started pod w0) = (none, wa) →
      ensureNetworkPolicy cfg wa = (none, wb) →
      uploadLogs lib env pod (crashedLogs env cfg pod) wb = (s3URL, wu) →
      cloneDependencies cfg pod wu = (.error e, wc) →
      (Reconcile lib env cfg req w).1 = some e ∧
      (Reconcile lib env cfg req w).2.events = wu.events ∧
      (Reconcile lib env cfg req w).2.counters = wu.counters ++
        [⟨ForensicPodCreationErrorsTotal, [pod.ObjectMeta.Namespace, "CloneDependencies"]⟩] ∧
      startedEvent pod ∈ (Reconcile lib env cfg req w).2.events) ∧
    (∀ wa wb wu s3URL resourceMap wc e wd, ensureNamespace cfg (started pod w0) = (none, wa) →
      ensureNetworkPolicy cfg wa = (none, wb) →
      uploadLogs lib env pod (crashedLogs env cfg pod) wb = (s3URL, wu) →
      cloneDependencies cfg pod wu = (.ok resourceMap, wc) →
      createLogConfigMap cfg pod (crashedLogs env cfg pod) wc = (.error e, wd) →
      (Reconcile lib env cfg req w).1 = some e ∧
      (Reconcile lib env cfg req w).2.events = wc.events ∧
      (Reconcile lib env cfg req w).2.counters = wc.counters ++
        [⟨ForensicPodCreationErrorsTotal, [pod.ObjectMeta.Namespace, "CreateLogCM"]⟩] ∧
      startedEvent pod ∈ (Reconcile lib env cfg req w).2.events) ∧
    (∀ wa wb wu s3URL resourceMap wc logCMName wd snapshotMap we checkpointLocation wf e wg,
      ensureNamespace cfg (started pod w0) = (none, wa) →
      ensureNetworkPolicy cfg wa = (none, wb) →
      uploadLogs lib env pod (crashedLogs env cfg pod) wb = (s3URL, wu) →
      cloneDependencies cfg pod wu = (.ok resourceMap, wc) →
      createLogConfigMap cfg pod (crashedLogs env cfg pod) wc = (.ok logCMName, wd) →
      takeSnapshots lib cfg pod wd = (snapshotMap, we) →
      takeCheckpoint env cfg pod (crashedName pod) we = (checkpointLocation, wf) →
      createForensicPod lib cfg pod resourceMap logCMName (signatureOf lib pod)
        (crashedName pod) (crashCheck pod).exitCode (logHashStr lib (crashedLogs env cfg pod))
        snapshotMap checkpointLocation s3URL wf = (some e, wg) →
      (Reconcile lib env cfg req w).1 = some e ∧
      (Reconcile lib env cfg req w).2.events = wf.events ∧
      (Reconcile lib env cfg req w).2.counters = wf.counters ++
        [⟨ForensicPodCreationErrorsTotal, [pod.ObjectMeta.Namespace, "CreateForensicPod"]⟩] ∧
      startedEvent pod ∈ (Reconcile lib env cfg req w).2.events) := by
  have hR := Reconcile_eq env h
  obtain ⟨hev, -⟩ := enters_quiet h
  have hst : (started pod w0).events = w.events ++ [startedEvent pod] := by
    rw [(started_quiet pod w0).1, hev]
  have hmem : startedEvent pod ∈ (started pod w0).events := by rw [hst]; simp
  refine ⟨hst, ?_, ?_, ?_, ?_, ?_⟩
  · intro e wa hns
    have hq := ensureNamespace_quiet cfg (started pod w0)
    rw [hns] at hq
    have hqe : wa.events = (started pod w0).events := hq.1
    have hqc : wa.counters = (started pod w0).counters := hq.2
    rw [hR, materialize_ns_fail hns]
    refine ⟨rfl, hqe, ?_, ?_⟩
    · show wa.counters ++ _ = _
      rw [hqc]
    · show startedEvent pod ∈ wa.events
      rw [hqe]; exact hmem
  · intro wa e wb hns hnp
    have hq := ensureNetworkPolicy_quiet cfg wa
    rw [hnp] at hq
    have hqe : wb.events = wa.events := hq.1
    have hqc : wb.counters = wa.counters := hq.2
    rw [hR, materialize_np_fail hns hnp]
    refine ⟨rfl, hqe, ?_, ?_⟩
    · show wb.counters ++ _ = _
      rw [hqc]
    · show startedEvent pod ∈ wb.events
      rw [hqe]; exact mem_of_grown (ensureNamespace_frame' hns).events hmem
  · intro wa wb wu s3URL e wc hns hnp hup hcl
    have hup2 : (uploadLogs lib env pod (crashedLogs env cfg pod) wb).2 = wu := by rw [hup]
    have hfu : Frame (started pod w0) wu := by
      have := uploadLogs_frame lib env pod (crashedLogs env cfg pod) wb
      rw [hup2] at this
      exact ((ensureNamespace_frame' hns).trans (ensureNetworkPolicy_frame' hnp)).trans this
    have hq := cloneDependencies_quiet cfg pod wu
    rw [hcl] at hq
    have hcl' : cloneDependencies cfg pod (uploadLogs lib env pod (crashedLogs env cfg pod) wb).2
        = (.error e, wc) := by rw [hup2]; exact hcl
    have hqe : wc.events = wu.events := hq.1
    have hqc : wc.counters = wu.counters := hq.2
    rw [hR, materialize_from hns hnp, materializeFrom_clone_fail hcl']
    refine ⟨rfl, hqe, ?_, ?_⟩
    · show wc.counters ++ _ = _
      rw [hqc]
    · show startedEvent pod ∈ wc.events
      rw [hqe]; exact mem_of_grown hfu.events hmem
  · intro wa wb wu s3URL resourceMap wc e wd hns hnp hup hcl hlog
    have hup2 : (uploadLogs lib env pod (crashedLogs env cfg pod) wb).2 = wu := by rw [hup]
    have hfu : Frame (started pod w0) wu := by
      have := uploadLogs_frame lib env pod (crashedLogs env cfg pod) wb
      rw [hup2] at this
      exact ((ensureNamespace_frame' hns).trans (ensureNetworkPolicy_frame' hnp)).trans this
    have hfc : Frame (started pod w0) wc := hfu.trans (cloneDependencies_frame' hcl)
    have hq := createLogConfigMap_quiet cfg pod (crashedLogs env cfg pod) wc
    rw [hlog] at hq
    have hcl' : cloneDependencies cfg pod (uploadLogs lib env pod (crashedLogs env cfg pod) wb).2
        = (.ok resourceMap, wc) := by rw [hup2]; exact hcl
    have hqe : wd.events = wc.events := hq.1
    have hqc : wd.counters = wc.counters := hq.2
    rw [hR, materialize_from hns hnp, materializeFrom_log_fail hcl' hlog]
    refine ⟨rfl, hqe, ?_, ?_⟩
    · show wd.counters ++ _ = _
      rw [hqc]
    · show startedEvent pod ∈ wd.events
      rw [hqe]; exact mem_of_grown hfc.events hmem
  · intro wa wb wu s3URL resourceMap wc logCMName wd snapshotMap we checkpointLocation wf e wg
      hns hnp hup hcl hlog hsn hck hpod
    have hup1 : (uploadLogs lib env pod (crashedLogs env cfg pod) wb).1 = s3URL := by rw [hup]
    have hup2 : (uploadLogs lib env pod (crashedLogs env cfg pod) wb).2 = wu := by rw [hup]
    have hsn1 : (takeSnapshots lib cfg pod wd).1 = snapshotMap := by rw [hsn]
    have hsn2 : (takeSnapshots lib cfg pod wd).2 = we := by rw [hsn]
    have hck1 : (takeCheckpoint env cfg pod (crashedName pod) we).1 = checkpointLocation := by
      rw [hck]
    have hck2 : (takeCheckpoint env cfg pod (crashedName pod) we).2 = wf := by rw [hck]
    have hfu : Frame (started pod w0) wu := by
      have := uploadLogs_frame lib env pod (crashedLogs env cfg pod) wb
      rw [hup2] at this
      exact ((ensureNamespace_frame' hns).trans (ensureNetworkPolicy_frame' hnp)).trans this
    have hfd : Frame (started pod w0) wd :=
      (hfu.trans (cloneDependencies_frame' hcl)).trans (createLogConfigMap_frame' hlog)
    have hff : Frame (started pod w0) wf := by
      have h1 := takeSnapshots_frame lib cfg pod wd
      rw [hsn2] at h1
      have h2 := takeCheckpoint_frame env cfg pod (crashedName pod) we
      rw [hck2] at h2
      exact (hfd.trans h1).trans h2
    obtain ⟨-, hge, hgc, -⟩ := createForensicPod_error hpod
    have hcl' : cloneDependencies cfg pod (uploadLogs lib env pod (crashedLogs env cfg pod) wb).2
        = (.ok resourceMap, wc) := by rw [hup2]; exact hcl
    have hpod' : createForensicPod lib cfg pod resourceMap logCMName (signatureOf lib pod)
        (crashedName pod) (crashCheck pod).exitCode (logHashStr lib (crashedLogs env cfg pod))
        (takeSnapshots lib cfg pod wd).1
        (takeCheckpoint env cfg pod (crashedName pod) (takeSnapshots lib cfg pod wd).2).1
        (uploadLogs lib env pod (crashedLogs env cfg pod) wb).1
        (takeCheckpoint env cfg pod (crashedName pod) (takeSnapshots lib cfg pod wd).2).2
        = (some e, wg) := by rw [hsn1, hsn2, hck1, hck2, hup1]; exact hpod
    rw [hR, materialize_from hns hnp, materializeFrom_pod_fail hcl' hlog hpod']
    refine ⟨rfl, hge, ?_, ?_⟩
    · show wg.counters ++ _ = _
      rw [hgc]
    · show startedEvent pod ∈ wg.events
      rw [hge]; exact mem_of_grown hff.events hmem

/-- C25, witness: in the worked scenario whose log-config create fails, `Reconcile`
returns that error and counts it under `CreateLogCM`. -/
theorem hard_error_observability_witness :
    (Reconcile demoLib softEnv demoCfg demoReq hardWorld).1
      = some ⟨ErrKind.other, "quota exceeded"⟩ ∧
    (⟨ForensicPodCreationErrorsTotal, ["prod", "CreateLogCM"]⟩ : CounterInc)
      ∈ (Reconcile demoLib softEnv demoCfg demoReq hardWorld).2.counters ∧
    startedEvent demoPod ∈ (Reconcile demoLib softEnv demoCfg demoReq hardWorld).2.events := by
  obtain ⟨h1, -, h3, h4⟩ :=
    (hard_error_observability softEnv hard_enters).2.2.2.2.1 _ _ _ _ _ _ _ _ rfl rfl rfl rfl rfl
  exact ⟨h1, by rw [h3]; exact List.mem_append_right _ (List.mem_singleton_self _), h4⟩

/-- C25, counterexample: in a cluster where creating the namespace fails, `Reconcile`
returns the error and counts it, and the only event of the run is
`ForensicAnalysisStarted`, emitted before the step was tried: no event is emitted for
the failure. -/
theorem hard_error_observability_counterexample :
    (Reconcile demoLib softEnv demoCfg demoReq nsFailWorld).1
      = some ⟨ErrKind.other, "namespaces is forbidden"⟩ ∧
    (ensureNamespace demoCfg (started demoPod (enter nsFailWorld))).1
      = some ⟨ErrKind.other, "namespaces is forbidden"⟩ ∧
    (Reconcile demoLib softEnv demoCfg demoReq nsFailWorld).2.events
      = (started demoPod (enter nsFailWorld)).events ∧
    (Reconcile demoLib softEnv demoCfg demoReq nsFailWorld).2.events
      = [⟨"prod", "api-abc", "Warning", "ForensicAnalysisStarted",
          "Crash detected in container app (ExitCode: 137). Creating forensic pod."⟩] ∧
    (Reconcile demoLib softEnv demoCfg demoReq nsFailWorld).2.counters
      = [⟨ForensicCrashesTotal, ["prod", "CrashDetected"]⟩,
         ⟨ForensicPodCreationErrorsTotal, ["prod", "EnsureNamespace"]⟩] := by
  decide

/-- C26 (Signature pre-image), as the code has it.  The string `getCrashSignature`
hashes joins namespace, workload name, container name and decimal exit code with `-`.
For two crashes whose namespaces contain equally many `-`, and so do their workload
names and their container names (in particular when none of them contains a `-`),
different tuples give different strings, so the signatures can agree only through a
collision of the truncated digest. -/
theorem signature_preimage (pod pod' : Pod) (containerName containerName' : String)
    (exitCode exitCode' : Int)
    (hn : dashes pod.ObjectMeta.Namespace = dashes pod'.ObjectMeta.Namespace)
    (hw : dashes (workloadName pod) = dashes (workloadName pod'))
    (hc : dashes containerName = dashes containerName')
    (hne : (pod.ObjectMeta.Namespace, workloadName pod, containerName, exitCode)
      ≠ (pod'.ObjectMeta.Namespace, workloadName pod', containerName', exitCode')) :
    signatureInput pod containerName exitCode ≠ signatureInput pod' containerName' exitCode' := by
  intro h
  have hd : (signatureInput pod containerName exitCode).data
      = (signatureInput pod' containerName' exitCode').data := by rw [h]
  rw [signatureInput_data, signatureInput_data] at hd
  obtain ⟨h1, hd⟩ := split_at_dash _ _ _ _ hn hd
  obtain ⟨h2, hd⟩ := split_at_dash _ _ _ _ hw hd
  obtain ⟨h3, hd⟩ := split_at_dash _ _ _ _ hc hd
  have h4 : exitCode = exitCode' := toString_int_injective _ _ (String.ext hd)
  exact hne (by rw [String.ext h1, String.ext h2, String.ext h3, h4])

/-- C26, witness: the crash of the worked scenario with exit codes 137 and 1. -/
theorem signature_preimage_witness :
    signatureInput demoPod "app" 137 = "prod-api-abc-app-137" ∧
    signatureInput demoPod "app" 1 = "prod-api-abc-app-1" ∧
    signatureInput demoPod "app" 137 ≠ signatureInput demoPod "app" 1 :=
  ⟨by decide, by decide,
    signature_preimage demoPod demoPod "app" "app" 137 1 rfl rfl rfl (by decide)⟩

/-- C26, counterexample: the workload `eu-api` of namespace `prod` and the workload
`api` of namespace `prod-eu` are different crash classes, and for the same container
and exit code `getCrashSignature` hashes the same string for both, so they have the
same signature for every digest function. -/
theorem signature_preimage_counterexample :
    (dashPodA.ObjectMeta.Namespace, workloadName dashPodA, "app", (137 : Int))
      ≠ (dashPodB.ObjectMeta.Namespace, workloadName dashPodB, "app", (137 : Int)) ∧
    signatureInput dashPodA "app" 137 = "prod-eu-api-app-137" ∧
    signatureInput dashPodB "app" 137 = "prod-eu-api-app-137" ∧
    ∀ lib : Lib, getCrashSignature lib dashPodA "app" 137 = getCrashSignature lib dashPodB "app" 137 := by
  have hA : signatureInput dashPodA "app" 137 = "prod-eu-api-app-137" := by decide
  have hB : signatureInput dashPodB "app" 137 = "prod-eu-api-app-137" := by decide
  refine ⟨by decide, hA, hB, ?_⟩
  intro lib
  simp only [getCrashSignature, hA, hB]

/-- C27 (Janitor referential integrity), as the code has it: after a pass of the
janitor over a store in which no two objects share a key, for every replica that
survives the pass, a config object or secret that the replica references and that
existed before the pass still exists afterwards, provided it does not carry the
`forensic-source-pod-uid` label value of a replica the pass deleted. -/
theorem janitor_referential_integrity (ParseDuration : String → Except Err Duration)
    (cfg : ForensicsConfig) (w : World) (replica : Pod) (o : Object)
    (hu : uniqueKeys w.objects = true)
    (_hs : Object.pod replica ∈ (cleanupExpiredPods ParseDuration cfg w).objects)
    (hr : references replica o = true)
    (ho : o ∈ w.objects)
    (hl : ∀ u ∈ deletedSourceUIDs (newCalls w (cleanupExpiredPods ParseDuration cfg w)),
      StrMap.get? o.metadata.Labels LabelSourcePodUID ≠ some u) :
    o ∈ (cleanupExpiredPods ParseDuration cfg w).objects := by
  by_contra hn
  cases hp : w.popFault.1 with
  | some e0 =>
    rw [cleanupExpiredPods_error _ _ _ _ hp, popFault_objects] at hn
    exact absurd ho hn
  | none =>
    obtain ⟨δ, t⟩ := cleanupExpiredPods_trace ParseDuration cfg w hp
    rw [newCalls_append _ _ _ t.calls] at hl
    obtain ⟨q, hq, h3⟩ := t.removed o ho hn
    rcases h3 with h3 | ⟨_, d, hd, h5, h6⟩
    · have hk := sameKey_kind h3
      cases o <;> simp [references, Object.kind] at hr hk
    · rw [← uniqueKeys_eq hu ho hd h6] at h5
      exact hl _ (mem_deletedSourceUIDs hq) (isDependency_label h5)

/-- C27, witness: in the scenario the held replica of the other workload survives the
pass, and its log-config object, which carries the label value `u2` of no deleted
replica, is still there. -/
theorem janitor_referential_integrity_witness :
    Object.cm otherLogs ∈ (cleanupExpiredPods demoParseDuration demoCfg janitorWorld).objects :=
  janitor_referential_integrity demoParseDuration demoCfg janitorWorld otherReplica
    (Object.cm otherLogs) (by decide) (by decide) (by decide) (by decide) (by decide)

/-- C27, counterexample: in the scenario the held replica survives the pass and the
expired replica of the same workload is deleted; the log-config object and the
cloned config object that the held replica references existed in the forensic
namespace before the pass and are gone after it, because they carry the same
`forensic-source-pod-uid` label as the expired replica. -/
theorem janitor_referential_integrity_counterexample :
    uniqueKeys janitorWorld.objects = true ∧
    janitorWorld.faults = [] ∧
    sourceUID heldReplica = sourceUID expiredReplica ∧
    expired demoParseDuration (passTime janitorWorld) heldReplica = false ∧
    Object.pod heldReplica ∈ (cleanupExpiredPods demoParseDuration demoCfg janitorWorld).objects ∧
    heldReplica.ObjectMeta.Namespace = demoCfg.TargetNamespace ∧
    references heldReplica (Object.cm heldLogs) = true ∧
    references heldReplica (Object.cm sharedClone) = true ∧
    heldLogs.ObjectMeta.Namespace = demoCfg.TargetNamespace ∧
    sharedClone.ObjectMeta.Namespace = demoCfg.TargetNamespace ∧
    Object.cm heldLogs ∈ janitorWorld.objects ∧
    Object.cm sharedClone ∈ janitorWorld.objects ∧
    Object.cm heldLogs ∉ (cleanupExpiredPods demoParseDuration demoCfg janitorWorld).objects ∧
    Object.cm sharedClone ∉ (cleanupExpiredPods demoParseDuration demoCfg janitorWorld).objects ∧
    ¬ (∀ replica o,
        Object.pod replica ∈ (cleanupExpiredPods demoParseDuration demoCfg janitorWorld).objects →
        references replica o = true → o ∈ janitorWorld.objects →
        o ∈ (cleanupExpiredPods demoParseDuration demoCfg janitorWorld).objects) := by
  have survives :
      Object.pod heldReplica
        ∈ (cleanupExpiredPods demoParseDuration demoCfg janitorWorld).objects := by decide
  have gone :
      Object.cm heldLogs
        ∉ (cleanupExpiredPods demoParseDuration demoCfg janitorWorld).objects := by decide
  refine ⟨by decide, rfl, rfl, by decide, survives, rfl, ?_⟩
  refine ⟨by decide, by decide, rfl, rfl, ?_⟩
  refine ⟨by decide, by decide, gone, by decide, ?_⟩
  intro h
  exact gone (h heldReplica (Object.cm heldLogs) survives (by decide) (by decide))

/-- C28, the failing input: the name of `longPod` is a valid DNS-subdomain name, and the
`forensic-source-pod` label of its replica, the first 63 characters of the name, ends in
`-`; it has at most 63 characters but matches neither the label-value syntax of the
claim nor the platform's pattern. -/
theorem source_pod_label_invalid :
    isDNSSubdomain longPod.ObjectMeta.Name = true ∧
    StrMap.get?
        (forensicPod demoLib demoCfg longPod [] "logs" "sig" "app" 137 "00" [] "" ""
          4000).ObjectMeta.Labels "forensic-source-pod"
      = some "checkout-payments-reconciliation-worker-blue-green-canary-eu1a-" ∧
    ("checkout-payments-reconciliation-worker-blue-green-canary-eu1a-" : String).length = 63 ∧
    ¬ MatchesLabelValue
        ("checkout-payments-reconciliation-worker-blue-green-canary-eu1a-" : String).data ∧
    ¬ MatchesLabelRegex
        ("checkout-payments-reconciliation-worker-blue-green-canary-eu1a-" : String).data := by
  refine ⟨by decide, by decide, by decide, ?_, ?_⟩
  · intro h
    obtain ⟨c, h1, h2⟩ := matchesLabelValue_last h
    have h3 : ("checkout-payments-reconciliation-worker-blue-green-canary-eu1a-" : String).data.getLast?
        = some '-' := by decide
    rw [h3] at h1
    cases h1
    exact absurd h2 (by decide)
  · intro h
    obtain ⟨c, h1, h2⟩ := matchesLabelRegex_last h (by decide)
    have h3 : ("checkout-payments-reconciliation-worker-blue-green-canary-eu1a-" : String).data.getLast?
        = some '-' := by decide
    rw [h3] at h1
    cases h1
    exact absurd h2 (by decide)

end Forensics
